import Mathlib

/-!
# Ant colony simulation: a shallow embedding of the simulation engine

The C sources `config.h`, `data_structures.h`, `world.c`, `pheromones.c`,
`ant_logic.c` and the tick of `main.c` are transcribed into pure Lean
functions.

Conventions of the embedding:

* C `int` is `Int`; no counter of the engine comes near the 32-bit range in
  the properties below, so no wrap-around is modelled.
* C `float` values are rationals. Where rounding decides a branch or an
  order (the evaporation product with its threshold test, and the efficiency
  key of the sort) every operation is rounded to IEEE 754 binary32 with
  `f32_round`, as the compiled code does. Energies are whole numbers, for
  which `float` arithmetic is exact; deposit sums and diffusion shares are
  kept as exact rationals.
* `uint8_t state` is a `Nat` below 256 handled with the bitwise operators.
* `Cell** grid` is a total function `row → column → Cell`; the code reads or
  writes `grid[y][x]` only after a bounds test or inside loops bounded by
  `height` and `width`, and the embedding does the same.
* the linked list `ants_head` of a colony is a `List Ant`, head first.
* `rand()` is an explicit stream of draws threaded through the functions
  that consume random numbers.
* `safe_malloc` / `safe_calloc` are assumed to succeed.
* Diagnostic printing is dropped.
-/

namespace AntColony

/-! ## config.h -/

def MAX_WORLD_SIZE : Int := 100
def INITIAL_ANTS_PER_COLONY : Nat := 20
def MAX_ANTS_PER_COLONY : Int := 50
def ANT_INITIAL_ENERGY : ℚ := 1000
def ANT_ENERGY_PER_STEP : ℚ := 1
def ANT_ENERGY_FROM_FOOD : ℚ := 500

def PHEROMONE_INITIAL : ℚ := 0
def PHEROMONE_MAX : ℚ := 1000
def PHEROMONE_MIN_THRESHOLD : ℚ := 1 / 10
def PHEROMONE_DEPOSIT_AMOUNT : ℚ := 100
def PHEROMONE_EVAPORATION_RATE : ℚ := 2 / 100
def PHEROMONE_DIFFUSION_RATE : ℚ := 1 / 100

def PHEROMONE_TYPE_FOOD : Int := 0
def PHEROMONE_TYPE_HOME : Int := 1

def FOLLOW_PHEROMONE_PROBABILITY : ℚ := 8 / 10

def ANT_STATE_SEARCHING : Nat := 0x01
def ANT_STATE_RETURNING : Nat := 0x02
def ANT_STATE_CARRYING : Nat := 0x08
def ANT_STATE_TIRED : Nat := 0x20
def ANT_STATE_DEAD : Nat := 0x40

def RENDER_DELAY_MS : Int := 150
def MAX_SIMULATION_STEPS : Int := 10000

/-- The largest value `rand()` returns on the C runtime the program is built
for (`windows.h`, `conio.h`). -/
def RAND_MAX : Nat := 32767

/-! ## float: IEEE 754 binary32 rounding -/

/-- The exponent of the binade of `x`, not below the smallest normal exponent -126 (values
under `2 ^ (-126)` are subnormal and share the spacing of the smallest binade). -/
def f32_exponent (x : ℚ) : Int := max (Int.log 2 |x|) (-126)

/-- The distance between neighbouring binary32 values in the binade of `x`: a binary32 value
has a 24-bit significand. -/
def f32_ulp (x : ℚ) : ℚ := 2 ^ (f32_exponent x - 23)

/-- The nearest integer, a tie going to the even one. -/
def round_half_even (x : ℚ) : Int :=
  if x - ⌊x⌋ < 1 / 2 then ⌊x⌋
  else if 1 / 2 < x - ⌊x⌋ then ⌊x⌋ + 1
  else if ⌊x⌋ % 2 = 0 then ⌊x⌋ else ⌊x⌋ + 1

/-- The binary32 value nearest to `x` (round to nearest, ties to even), which is the result
of a `float` operation whose exact result is `x` and the value of a literal such as `0.1f`.
Overflow to infinity is not represented: no value of the engine comes near `2 ^ 128`. -/
def f32_round (x : ℚ) : ℚ := round_half_even (x / f32_ulp x) * f32_ulp x

/-! ## data_structures.h -/

structure Position where
  x : Int
  y : Int
deriving DecidableEq, Repr

inductive TerrainType where
  | TERRAIN_EMPTY
  | TERRAIN_WALL
  | TERRAIN_FOOD
  | TERRAIN_NEST
  | TERRAIN_WATER
deriving DecidableEq, Repr

open TerrainType

/-- A grid cell. The fields `has_colony` and `has_food` of the C struct are
never read or written by the program and are left out. -/
structure Cell where
  terrain : TerrainType
  pheromone_food : ℚ
  pheromone_home : ℚ
  food_amount : Int
  colony_id : Int
deriving DecidableEq, Repr

structure PathNode where
  pos : Position
  pheromone_strength : ℚ
deriving DecidableEq, Repr

/-- An ant. The fields `food_collected`, `pheromone_strength` and
`exploration_rate` of the C struct are never initialised, read or written by
the engine and are left out; `next` is the tail of the list that holds the
ant. -/
structure Ant where
  id : Int
  pos : Position
  last_pos : Position
  state : Nat
  colony_id : Int
  energy : ℚ
  food_carrying : Int
  steps_taken : Int
  food_delivered : Int
  preferred_direction : Int
  path_history : List PathNode
deriving DecidableEq, Repr

structure Colony where
  id : Int
  nest_pos : Position
  food_collected : Int
  total_ants : Int
  active_ants : Int
  ants : List Ant
  efficiency_score : ℚ
  color : Int
deriving DecidableEq, Repr

/-- The world; `colony_count` is the length of `colonies`. -/
structure World where
  width : Int
  height : Int
  grid : Int → Int → Cell
  colonies : List Colony
  current_step : Int
  is_running : Int
  paused : Int
  render_delay_ms : Int

def World.colony_count (w : World) : Int := w.colonies.length

/-! ## world.c: queries and cell writes -/

def is_valid_position (w : World) (x y : Int) : Bool :=
  decide (x ≥ 0 ∧ x < w.width ∧ y ≥ 0 ∧ y < w.height)

def is_walkable (w : World) (x y : Int) : Bool :=
  if !is_valid_position w x y then false
  else
    let terrain := (w.grid y x).terrain
    decide (terrain = TERRAIN_EMPTY ∨ terrain = TERRAIN_FOOD ∨ terrain = TERRAIN_NEST)

def get_cell (w : World) (x y : Int) : Option Cell :=
  if !is_valid_position w x y then none else some (w.grid y x)

/-- The store `world->grid[y][x] = c`. -/
def set_cell (w : World) (x y : Int) (c : Cell) : World :=
  { w with grid := fun yy xx => if yy = y ∧ xx = x then c else w.grid yy xx }

/-- The coordinates `(x, y)` visited by
`for (y = 0; y < height; y++) for (x = 0; x < width; x++)`, in that order. -/
def scan_cells (w : World) : List (Int × Int) :=
  (List.range w.height.toNat).flatMap fun (y : Nat) =>
    (List.range w.width.toNat).map fun (x : Nat) => ((x : Int), (y : Int))

/-! ## pheromones.c -/

def deposit_pheromone (w : World) (ant : Ant) : World :=
  match get_cell w ant.pos.x ant.pos.y with
  | none => w
  | some cell =>
    if ant.state &&& ANT_STATE_SEARCHING ≠ 0 then
      let v := cell.pheromone_home + PHEROMONE_DEPOSIT_AMOUNT
      set_cell w ant.pos.x ant.pos.y
        { cell with pheromone_home := if v > PHEROMONE_MAX then PHEROMONE_MAX else v }
    else if ant.state &&& ANT_STATE_RETURNING ≠ 0 then
      let v := cell.pheromone_food + PHEROMONE_DEPOSIT_AMOUNT
      set_cell w ant.pos.x ant.pos.y
        { cell with pheromone_food := if v > PHEROMONE_MAX then PHEROMONE_MAX else v }
    else w

def deposit_pheromone_at_position (w : World) (x y : Int) (type : Int) (amount : ℚ) : World :=
  if !is_valid_position w x y then w
  else
    match get_cell w x y with
    | none => w
    | some cell =>
      if type = PHEROMONE_TYPE_FOOD then
        let v := cell.pheromone_food + amount
        set_cell w x y
          { cell with pheromone_food := if v > PHEROMONE_MAX then PHEROMONE_MAX else v }
      else if type = PHEROMONE_TYPE_HOME then
        let v := cell.pheromone_home + amount
        set_cell w x y
          { cell with pheromone_home := if v > PHEROMONE_MAX then PHEROMONE_MAX else v }
      else w

/-- One channel of the body of the evaporation loop: multiply, then snap to 0
below the threshold. The factor `1.0f - PHEROMONE_EVAPORATION_RATE`, the product stored into
the `float` field and the threshold `0.1f` are binary32 values. -/
def evaporate_value (v : ℚ) : ℚ :=
  let v1 := f32_round (v * f32_round (1 - f32_round PHEROMONE_EVAPORATION_RATE))
  if v1 < f32_round PHEROMONE_MIN_THRESHOLD then 0 else v1

/-- The body of the evaporation loop on one cell. -/
def evaporate_cell (cell : Cell) : Cell :=
  { cell with
    pheromone_food := evaporate_value cell.pheromone_food
    pheromone_home := evaporate_value cell.pheromone_home }

def evaporate_pheromones (w : World) : World :=
  (scan_cells w).foldl
    (fun acc p => set_cell acc p.1 p.2 (evaporate_cell (acc.grid p.2 p.1))) w

/-- The temporary arrays `temp_food` and `temp_home` of `diffuse_pheromones`. -/
structure TempGrid where
  food : Int → Int → ℚ
  home : Int → Int → ℚ

/-- The arrays as `safe_calloc` returns them. -/
def temp_alloc : TempGrid := ⟨fun _ _ => 0, fun _ _ => 0⟩

/-- The copy loop of `diffuse_pheromones`. -/
def temp_copy (w : World) : TempGrid :=
  (scan_cells w).foldl
    (fun t p =>
      { food := fun yy xx =>
          if yy = p.2 ∧ xx = p.1 then (w.grid p.2 p.1).pheromone_food else t.food yy xx
        home := fun yy xx =>
          if yy = p.2 ∧ xx = p.1 then (w.grid p.2 p.1).pheromone_home else t.home yy xx })
    temp_alloc

/-- The offsets `(dx, dy)` visited by
`for (dy = -1; dy <= 1; dy++) for (dx = -1; dx <= 1; dx++)` with the centre
skipped. -/
def neighbor_offsets : List (Int × Int) :=
  (([-1, 0, 1] : List Int).flatMap fun (dy : Int) =>
    ([-1, 0, 1] : List Int).map fun (dx : Int) => (dx, dy)).filter
      fun (d : Int × Int) => !(decide (d.1 = 0 ∧ d.2 = 0))

/-- The three accumulators of the neighbour loop of `diffuse_pheromones`. -/
structure DiffuseAcc where
  neighbor_food_contribution : ℚ
  neighbor_home_contribution : ℚ
  valid_neighbors : Int

/-- One iteration of the neighbour loop. -/
def diffuse_neighbor_step (w : World) (t : TempGrid) (x y : Int)
    (acc : DiffuseAcc) (d : Int × Int) : DiffuseAcc :=
  let nx := x + d.1
  let ny := y + d.2
  if is_valid_position w nx ny then
    { neighbor_food_contribution := acc.neighbor_food_contribution + t.food ny nx
      neighbor_home_contribution := acc.neighbor_home_contribution + t.home ny nx
      valid_neighbors := acc.valid_neighbors + 1 }
  else acc

/-- The body of the diffusion loop at `(x, y)`: the cell stored into
`grid[y][x]`, computed from the temporary arrays. -/
def diffuse_cell (w : World) (t : TempGrid) (x y : Int) (cell : Cell) : Cell :=
  let acc := neighbor_offsets.foldl (diffuse_neighbor_step w t x y) ⟨0, 0, 0⟩
  if acc.valid_neighbors > 0 then
    { cell with
      pheromone_food :=
        t.food y x * (1 - PHEROMONE_DIFFUSION_RATE) +
          (acc.neighbor_food_contribution * PHEROMONE_DIFFUSION_RATE) / (acc.valid_neighbors : ℚ)
      pheromone_home :=
        t.home y x * (1 - PHEROMONE_DIFFUSION_RATE) +
          (acc.neighbor_home_contribution * PHEROMONE_DIFFUSION_RATE) / (acc.valid_neighbors : ℚ) }
  else
    { cell with pheromone_food := t.food y x, pheromone_home := t.home y x }

/-- The diffusion loop run over the cells in the order `scan`, reading the
temporary arrays `t` and storing into the grid. -/
def diffuse_apply (t : TempGrid) (scan : List (Int × Int)) (w : World) : World :=
  scan.foldl (fun acc p => set_cell acc p.1 p.2 (diffuse_cell acc t p.1 p.2 (acc.grid p.2 p.1))) w

def diffuse_pheromones (w : World) : World :=
  diffuse_apply (temp_copy w) (scan_cells w) w

def get_pheromone_intensity (w : World) (x y : Int) (type : Int) : ℚ :=
  if !is_valid_position w x y then 0
  else
    let cell := w.grid y x
    if type = PHEROMONE_TYPE_FOOD then cell.pheromone_food
    else if type = PHEROMONE_TYPE_HOME then cell.pheromone_home
    else 0

/-! ## utils.c: random numbers -/

/-- The stream of values the successive calls of `rand()` return. -/
def Rng := Nat → Nat

def rand (r : Rng) : Nat × Rng :=
  (r 0 % (RAND_MAX + 1), fun n => r (n + 1))

def random_int (r : Rng) (min max : Int) : Int × Rng :=
  let lo := if min > max then max else min
  let hi := if min > max then min else max
  let v := rand r
  (lo + (v.1 : Int) % (hi - lo + 1), v.2)

def random_probability (r : Rng) : ℚ × Rng :=
  let v := rand r
  ((v.1 : ℚ) / (RAND_MAX : ℚ), v.2)

/-! ## ant_logic.c -/

def dx_table : List Int := [0, 1, 1, 1, 0, -1, -1, -1]
def dy_table : List Int := [-1, -1, 0, 1, 1, 1, 0, -1]

/-- The entry `dx[d]`, for `0 ≤ d < 8`. -/
def dx (d : Int) : Int := dx_table.getD d.toNat 0

/-- The entry `dy[d]`, for `0 ≤ d < 8`. -/
def dy (d : Int) : Int := dy_table.getD d.toNat 0

def create_ant (id colony_id : Int) (pos : Position) : Ant :=
  { id := id, pos := pos, last_pos := pos, state := ANT_STATE_SEARCHING,
    colony_id := colony_id, energy := ANT_INITIAL_ENERGY, food_carrying := 0,
    steps_taken := 0, food_delivered := 0, preferred_direction := -1,
    path_history := [] }

/-- The store `ant->state |= state` into the `uint8_t` field. -/
def set_ant_state (ant : Ant) (state : Nat) : Ant :=
  { ant with state := (ant.state ||| state) % 256 }

/-- The store `ant->state &= ~state` into the `uint8_t` field. -/
def clear_ant_state (ant : Ant) (state : Nat) : Ant :=
  { ant with state := (ant.state &&& (255 ^^^ (state % 256))) % 256 }

def has_ant_state (ant : Ant) (state : Nat) : Bool :=
  decide (ant.state &&& state ≠ 0)

def add_path_node (ant : Ant) (pos : Position) (pheromone : ℚ) : Ant :=
  { ant with path_history := ⟨pos, pheromone⟩ :: ant.path_history }

def move_ant (ant : Ant) (w : World) (direction : Int) : Ant :=
  if direction < 0 ∨ direction ≥ 8 then ant
  else
    let ant1 := { ant with last_pos := ant.pos }
    let new_x := ant1.pos.x + dx direction
    let new_y := ant1.pos.y + dy direction
    if is_valid_position w new_x new_y && is_walkable w new_x new_y then
      let ant2 := { ant1 with pos := ⟨new_x, new_y⟩, steps_taken := ant1.steps_taken + 1 }
      add_path_node ant2 ant2.pos 0
    else ant1

/-- The loop of `move_randomly` with `remaining = max_attempts - attempts`
iterations left. -/
def move_randomly_loop (ant : Ant) (w : World) : Nat → Rng → Ant × Rng
  | 0, r => (ant, r)
  | remaining + 1, r =>
    let d := random_int r 0 7
    let new_x := ant.pos.x + dx d.1
    let new_y := ant.pos.y + dy d.1
    if is_valid_position w new_x new_y && is_walkable w new_x new_y then
      (move_ant ant w d.1, d.2)
    else move_randomly_loop ant w remaining d.2

def move_randomly (ant : Ant) (w : World) (r : Rng) : Ant × Rng :=
  move_randomly_loop ant w 10 r

/-- One iteration of the scan of `follow_pheromone_gradient`; the state is
`(max_pheromone, best_direction)`. -/
def gradient_step (ant : Ant) (w : World) (pheromone_type : Int)
    (acc : ℚ × Int) (dir : Nat) : ℚ × Int :=
  let new_x := ant.pos.x + dx dir
  let new_y := ant.pos.y + dy dir
  if is_valid_position w new_x new_y && is_walkable w new_x new_y then
    let pheromone := get_pheromone_intensity w new_x new_y pheromone_type
    if pheromone > acc.1 then (pheromone, (dir : Int)) else acc
  else acc

def follow_pheromone_gradient (ant : Ant) (w : World) (pheromone_type : Int) (r : Rng) :
    Ant × Rng :=
  let best := (List.range 8).foldl (gradient_step ant w pheromone_type) (0, -1)
  if best.2 ≥ 0 ∧ best.1 > 0 then (move_ant ant w best.2, r)
  else move_randomly ant w r

/-- The scan `for (dir = 0; dir < 8; dir++)` of `update_ant` for the first
direction that leads from `pos` to `last_pos`; `-1` when there is none. -/
def reverse_direction (ant : Ant) : Int :=
  match (List.range 8).find? fun (dir : Nat) =>
      decide (ant.last_pos.x = ant.pos.x + dx dir ∧ ant.last_pos.y = ant.pos.y + dy dir) with
  | some dir => (dir : Int)
  | none => -1

/-- Stores the reverse direction into `preferred_direction` when one was found. -/
def store_reverse_direction (ant : Ant) : Ant :=
  let rd := reverse_direction ant
  if rd ≠ -1 then { ant with preferred_direction := rd } else ant

/-- The final test of `update_ant`. -/
def tired_check (ant : Ant) : Ant :=
  if ant.energy < ANT_INITIAL_ENERGY * (2 / 10) then set_ant_state ant ANT_STATE_TIRED else ant

/-- The update `f` applied to `world->colonies[idx]`. The C code indexes the
array unchecked; here an index outside the array leaves it as it is. -/
def modify_colony (w : World) (idx : Int) (f : Colony → Colony) : World :=
  if idx < 0 then w
  else { w with colonies := w.colonies.modify f idx.toNat }

/-- The test `current_cell && current_cell->terrain == TERRAIN_FOOD &&
current_cell->food_amount > 0 && ant->food_carrying == 0` of `update_ant`. -/
def food_here (current_cell : Option Cell) (ant : Ant) : Bool :=
  match current_cell with
  | none => false
  | some cell =>
    decide (cell.terrain = TERRAIN_FOOD ∧ cell.food_amount > 0 ∧ ant.food_carrying = 0)

/-- The test `current_cell && current_cell->terrain == TERRAIN_NEST &&
current_cell->colony_id == ant->colony_id && ant->food_carrying > 0` of `update_ant`. -/
def at_own_nest (current_cell : Option Cell) (ant : Ant) : Bool :=
  match current_cell with
  | none => false
  | some cell =>
    decide (cell.terrain = TERRAIN_NEST ∧ cell.colony_id = ant.colony_id ∧ ant.food_carrying > 0)

/-- The pick-up block of `update_ant` (entered only when `food_here` holds, so
`current_cell` points to `grid[pos.y][pos.x]`). -/
def pick_up_food (w : World) (ant : Ant) (r : Rng) : World × Ant × Rng :=
  let cell := w.grid ant.pos.y ant.pos.x
  let ant := { ant with food_carrying := 1 }
  let cell := { cell with food_amount := cell.food_amount - 1 }
  let ant := clear_ant_state ant ANT_STATE_SEARCHING
  let ant := set_ant_state ant (ANT_STATE_RETURNING ||| ANT_STATE_CARRYING)
  let ant := { ant with energy := ant.energy + ANT_ENERGY_FROM_FOOD }
  let ant := store_reverse_direction ant
  let cell := if cell.food_amount ≤ 0 then { cell with terrain := TERRAIN_EMPTY } else cell
  let w := set_cell w ant.pos.x ant.pos.y cell
  (deposit_pheromone w ant, ant, r)

/-- The searching block of `update_ant` when there is no food to pick up,
followed by the final tiredness test. -/
def search_step (w : World) (ant : Ant) (r : Rng) : World × Ant × Rng :=
  let p := random_probability r
  let m :=
    if p.1 < FOLLOW_PHEROMONE_PROBABILITY then
      follow_pheromone_gradient ant w PHEROMONE_TYPE_FOOD p.2
    else move_randomly ant w p.2
  (deposit_pheromone w m.1, tired_check m.1, m.2)

/-- The delivery block of `update_ant`. -/
def deliver_food (w : World) (ant : Ant) (r : Rng) : World × Ant × Rng :=
  let w := modify_colony w ant.colony_id fun colony =>
    { colony with food_collected := colony.food_collected + 1 }
  let ant := { ant with food_delivered := ant.food_delivered + 1 }
  let ant := { ant with food_carrying := 0 }
  let ant := clear_ant_state ant (ANT_STATE_RETURNING ||| ANT_STATE_CARRYING)
  let ant := set_ant_state ant ANT_STATE_SEARCHING
  let ant := store_reverse_direction ant
  (w, ant, r)

/-- The returning block of `update_ant` away from the nest, followed by the
final tiredness test. -/
def return_step (w : World) (ant : Ant) (r : Rng) : World × Ant × Rng :=
  let m := follow_pheromone_gradient ant w PHEROMONE_TYPE_HOME r
  (deposit_pheromone w m.1, tired_check m.1, m.2)

def update_ant (w : World) (ant0 : Ant) (r : Rng) : World × Ant × Rng :=
  let ant := { ant0 with energy := ant0.energy - ANT_ENERGY_PER_STEP }
  if ant.energy ≤ 0 then (w, set_ant_state ant ANT_STATE_DEAD, r)
  else
    let current_cell := get_cell w ant.pos.x ant.pos.y
    if ant.state &&& ANT_STATE_SEARCHING ≠ 0 then
      if food_here current_cell ant then pick_up_food w ant r
      else search_step w ant r
    else if ant.state &&& ANT_STATE_RETURNING ≠ 0 then
      if at_own_nest current_cell ant then deliver_food w ant r
      else return_step w ant r
    else (w, tired_check ant, r)

/-- The function `decide_direction` of ant_logic.c; no function of the
program calls it. -/
def decide_direction (ant : Ant) (w : World) (r : Rng) : Ant × Rng :=
  if ant.preferred_direction ≥ 0 ∧ ant.preferred_direction < 8 then
    ({ move_ant ant w ant.preferred_direction with preferred_direction := -1 }, r)
  else if ant.state &&& ANT_STATE_SEARCHING ≠ 0 then
    let p := random_probability r
    if p.1 < FOLLOW_PHEROMONE_PROBABILITY then
      follow_pheromone_gradient ant w PHEROMONE_TYPE_FOOD p.2
    else move_randomly ant w p.2
  else if ant.state &&& ANT_STATE_RETURNING ≠ 0 then
    follow_pheromone_gradient ant w PHEROMONE_TYPE_HOME r
  else move_randomly ant w r

/-- The loop of `cleanup_dead_ants` from the list position `ants` on, with the
current values of `total_ants` and `active_ants`; returns the list that
remains linked and the final counters. -/
def cleanup_dead_ants_loop : List Ant → Int → Int → List Ant × Int × Int
  | [], total, active => ([], total, active)
  | ant :: rest, total, active =>
    if ant.state &&& ANT_STATE_DEAD ≠ 0 then
      cleanup_dead_ants_loop rest (total - 1) (active - 1)
    else
      let k := cleanup_dead_ants_loop rest total active
      (ant :: k.1, k.2.1, k.2.2)

def cleanup_dead_ants (colony : Colony) : Colony :=
  let k := cleanup_dead_ants_loop colony.ants colony.total_ants colony.active_ants
  { colony with ants := k.1, total_ants := k.2.1, active_ants := k.2.2 }

/-- The inner `while (current != NULL)` loop of `update_all_ants` over the
ants of one list; returns the world, the ants of the list after their updates
(same order, none unlinked yet) and the random stream. -/
def update_ants_loop : World → Rng → List Ant → World × List Ant × Rng
  | w, r, [] => (w, [], r)
  | w, r, current :: next =>
    if current.state &&& ANT_STATE_DEAD ≠ 0 then
      let k := update_ants_loop w r next
      (k.1, current :: k.2.1, k.2.2)
    else
      let u := update_ant w current r
      let k := update_ants_loop u.1 u.2.2 next
      (k.1, u.2.1 :: k.2.1, k.2.2)

/-- The body of the colony loop of `update_all_ants` for colony `i`. -/
def update_colony_ants (s : World × Rng) (i : Nat) : World × Rng :=
  match s.1.colonies.get? i with
  | none => s
  | some colony =>
    let k := update_ants_loop s.1 s.2 colony.ants
    let colonies := k.1.colonies.modify (fun c => cleanup_dead_ants { c with ants := k.2.1 }) i
    ({ k.1 with colonies := colonies }, k.2.2)

def update_all_ants (w : World) (r : Rng) : World × Rng :=
  (List.range w.colonies.length).foldl update_colony_ants (w, r)

/-! ## world.c: colony statistics -/

def update_colony_statistics (w : World) : World :=
  { w with colonies := w.colonies.map fun colony =>
      let active_count : Int :=
        (colony.ants.filter fun (a : Ant) => decide (a.state &&& ANT_STATE_DEAD = 0)).length
      let colony := { colony with active_ants := active_count }
      if colony.total_ants > 0 then
        { colony with efficiency_score := (colony.food_collected : ℚ) / (colony.total_ants : ℚ) }
      else colony }

/-! ## main.c: one tick of `run_simulation` -/

/-- The body of the `if (!world->paused)` branch of `run_simulation` up to the
increment of the step counter. -/
def simulation_tick (w : World) (r : Rng) : World × Rng :=
  let u := update_all_ants w r
  let w := evaporate_pheromones u.1
  let w := diffuse_pheromones w
  let w := update_colony_statistics w
  ({ w with current_step := w.current_step + 1 }, u.2)

/-- The loop of `run_simulation` that adds up the food left on the grid. -/
def total_food (w : World) : Int :=
  (scan_cells w).foldl
    (fun total p =>
      if (w.grid p.2 p.1).terrain = TERRAIN_FOOD then total + (w.grid p.2 p.1).food_amount
      else total) 0

/-! ## world.c: construction and placement -/

/-- A cell of a row as `safe_calloc` returns it: every field zero. -/
def calloc_cell : Cell := ⟨TERRAIN_EMPTY, 0, 0, 0, 0⟩

/-- The cell the initialisation loop of `create_world` stores. -/
def initial_cell (c : Cell) : Cell :=
  { c with
    terrain := TERRAIN_EMPTY
    pheromone_food := PHEROMONE_INITIAL
    pheromone_home := PHEROMONE_INITIAL
    food_amount := 0
    colony_id := -1 }

/-- Colony `i` as `create_world` initialises it; `nest_pos` is what
`safe_calloc` left, `(0, 0)`. -/
def initial_colony (i : Nat) : Colony :=
  { id := (i : Int), nest_pos := ⟨0, 0⟩, food_collected := 0, total_ants := 0, active_ants := 0,
    ants := [], efficiency_score := 0, color := (i : Int) + 1 }

def create_world (width height colony_count : Int) : Option World :=
  if width ≤ 0 ∨ height ≤ 0 ∨ colony_count ≤ 0 then none
  else if width > MAX_WORLD_SIZE ∨ height > MAX_WORLD_SIZE then none
  else
    let world : World :=
      { width := width, height := height, grid := fun _ _ => calloc_cell,
        colonies := (List.range colony_count.toNat).map initial_colony,
        current_step := 0, is_running := 0, paused := 0, render_delay_ms := RENDER_DELAY_MS }
    some ((scan_cells world).foldl
      (fun acc p => set_cell acc p.1 p.2 (initial_cell (acc.grid p.2 p.1))) world)

def clear_cell (w : World) (x y : Int) : World :=
  if !is_valid_position w x y then w
  else
    set_cell w x y
      { w.grid y x with
        terrain := TERRAIN_EMPTY
        pheromone_food := PHEROMONE_INITIAL
        pheromone_home := PHEROMONE_INITIAL
        food_amount := 0
        colony_id := -1 }

def place_colony (w : World) (colony_id x y : Int) : World :=
  if colony_id < 0 ∨ colony_id ≥ w.colony_count then w
  else if !is_valid_position w x y then w
  else
    let w1 := if (w.grid y x).terrain ≠ TERRAIN_EMPTY then clear_cell w x y else w
    let w2 := set_cell w1 x y { w1.grid y x with terrain := TERRAIN_NEST, colony_id := colony_id }
    modify_colony w2 colony_id fun colony => { colony with nest_pos := ⟨x, y⟩ }

def place_food (w : World) (x y amount : Int) : World :=
  if amount ≤ 0 then w
  else if !is_valid_position w x y then w
  else
    let w1 := if (w.grid y x).terrain ≠ TERRAIN_EMPTY then clear_cell w x y else w
    set_cell w1 x y { w1.grid y x with terrain := TERRAIN_FOOD, food_amount := amount }

def place_obstacle (w : World) (x y : Int) : World :=
  if !is_valid_position w x y then w
  else
    let w1 := if (w.grid y x).terrain ≠ TERRAIN_EMPTY then clear_cell w x y else w
    set_cell w1 x y { w1.grid y x with terrain := TERRAIN_WALL }

/-! ## ant_logic.c: spawning -/

def add_ant_to_colony (colony : Colony) (ant : Ant) : Colony :=
  { colony with
    ants := ant :: colony.ants
    total_ants := colony.total_ants + 1
    active_ants := colony.active_ants + 1 }

def spawn_ant (w : World) (colony_id : Int) : World :=
  if colony_id < 0 ∨ colony_id ≥ w.colony_count then w
  else
    modify_colony w colony_id fun colony =>
      if colony.total_ants ≥ MAX_ANTS_PER_COLONY then colony
      else add_ant_to_colony colony (create_ant (colony.total_ants + 1) colony_id colony.nest_pos)

/-! ## pheromones.c: neighbourhood query and reset -/

/-- One iteration of the neighbour loop of `get_max_pheromone_neighbor` at the offset
`d = (dx, dy)`; the state is `max_pheromone`. -/
def max_neighbor_step (w : World) (x y : Int) (type : Int) (max_pheromone : ℚ)
    (d : Int × Int) : ℚ :=
  let nx := x + d.1
  let ny := y + d.2
  if is_valid_position w nx ny then
    let pheromone := get_pheromone_intensity w nx ny type
    if pheromone > max_pheromone then pheromone else max_pheromone
  else max_pheromone

def get_max_pheromone_neighbor (w : World) (x y : Int) (type : Int) : ℚ :=
  if !is_valid_position w x y then 0
  else neighbor_offsets.foldl (max_neighbor_step w x y type) 0

def reset_pheromones (w : World) : World :=
  (scan_cells w).foldl
    (fun acc p =>
      set_cell acc p.1 p.2
        { acc.grid p.2 p.1 with
          pheromone_food := PHEROMONE_INITIAL, pheromone_home := PHEROMONE_INITIAL })
    w

/-! ## world.c and main.c: initial ants and reset -/

def spawn_initial_ants (w : World) : World :=
  (List.range w.colonies.length).foldl
    (fun acc (i : Nat) =>
      (List.range INITIAL_ANTS_PER_COLONY).foldl (fun acc2 _ => spawn_ant acc2 (i : Int)) acc)
    w

def reset_simulation (w : World) : World :=
  let w := { w with current_step := 0 }
  let w := reset_pheromones w
  let w :=
    { w with
      colonies := w.colonies.map fun (c : Colony) => { c with food_collected := 0, efficiency_score := 0 } }
  let w :=
    { w with
      colonies := w.colonies.map fun (c : Colony) => { c with ants := [], total_ants := 0, active_ants := 0 } }
  spawn_initial_ants w

/-! ## file_io.c: save and load -/

def SAVE_FILE_VERSION : String := "1.0"
def SAVE_FILE_HEADER : String := "ACO_SIM"

/-- One item of the save file: what a single call of `fwrite` writes and the matching call
of `fread` reads back. A read of an item of another kind, or past the end of the file, is a
failed `fread`. -/
inductive Record where
  | chars (s : String)
  | int (v : Int)
  | float (v : ℚ)
  | byte (v : Nat)
  | position (p : Position)
  | terrain (t : TerrainType)
deriving DecidableEq, Repr

/-- The items `save_simulation` writes for one colony. -/
def save_colony (colony : Colony) : List Record :=
  [.position colony.nest_pos, .int colony.food_collected, .int colony.total_ants,
    .int colony.active_ants, .float colony.efficiency_score]

/-- The items `save_simulation` writes for one cell. -/
def save_cell (cell : Cell) : List Record :=
  [.terrain cell.terrain, .float cell.pheromone_food, .float cell.pheromone_home,
    .int cell.food_amount, .int cell.colony_id]

/-- The items `save_simulation` writes for one ant. -/
def save_ant (current : Ant) : List Record :=
  [.int current.id, .position current.pos, .position current.last_pos, .byte current.state,
    .int current.colony_id, .float current.energy, .int current.food_carrying,
    .int current.steps_taken, .int current.food_delivered]

/-- The contents of the file `save_simulation` writes when every `fwrite` succeeds. -/
def save_simulation (w : World) : List Record :=
  [.chars SAVE_FILE_HEADER, .chars SAVE_FILE_VERSION, .int w.width, .int w.height,
      .int w.colony_count] ++
    w.colonies.flatMap save_colony ++
    (scan_cells w).flatMap (fun p => save_cell (w.grid p.2 p.1)) ++
    w.colonies.flatMap fun colony => colony.ants.flatMap save_ant ++ [.int (-1)]

/-- The body of the colony loop of `load_simulation` for colony `i`. -/
def load_colony (world : World) (i : Nat) : List Record → Option (World × List Record)
  | .position nest_pos :: .int food_collected :: .int total_ants :: .int active_ants ::
      .float efficiency_score :: file =>
    let world := modify_colony world (i : Int) fun colony =>
      { colony with
        nest_pos := nest_pos
        food_collected := food_collected
        total_ants := total_ants
        active_ants := active_ants
        efficiency_score := efficiency_score }
    let world :=
      if is_valid_position world nest_pos.x nest_pos.y then
        set_cell world nest_pos.x nest_pos.y
          { world.grid nest_pos.y nest_pos.x with terrain := TERRAIN_NEST, colony_id := (i : Int) }
      else world
    some (world, file)
  | _ => none

/-- The body of the grid loop of `load_simulation` for the cell `p = (x, y)`. -/
def load_cell (world : World) (p : Int × Int) : List Record → Option (World × List Record)
  | .terrain terrain :: .float pheromone_food :: .float pheromone_home :: .int food_amount ::
      .int colony_id :: file =>
    some
      (set_cell world p.1 p.2
        { world.grid p.2 p.1 with
          terrain := terrain
          pheromone_food := pheromone_food
          pheromone_home := pheromone_home
          food_amount := food_amount
          colony_id := colony_id },
        file)
  | _ => none

/-- The `while (1)` loop of `load_simulation` that reads the ants of one colony up to the end
marker `-1`. -/
def load_ants : Colony → List Record → Option (Colony × List Record)
  | colony, .int ant_id :: .position pos :: .position last_pos :: .byte state ::
      .int colony_id :: .float energy :: .int food_carrying :: .int steps_taken ::
      .int food_delivered :: file =>
    if ant_id = -1 then
      some (colony, .position pos :: .position last_pos :: .byte state ::
        .int colony_id :: .float energy :: .int food_carrying :: .int steps_taken ::
        .int food_delivered :: file)
    else
      load_ants
        (add_ant_to_colony colony
          { create_ant ant_id colony_id pos with
            last_pos := last_pos
            state := state
            energy := energy
            food_carrying := food_carrying
            steps_taken := steps_taken
            food_delivered := food_delivered })
        file
  | colony, .int ant_id :: file => if ant_id = -1 then some (colony, file) else none
  | _, _ => none

/-- The body of the ant loop of `load_simulation` for colony `i`. -/
def load_colony_ants (world : World) (i : Nat) (file : List Record) :
    Option (World × List Record) :=
  match world.colonies[i]? with
  | none => some (world, file)
  | some colony =>
    match load_ants colony file with
    | none => none
    | some k => some ({ world with colonies := world.colonies.set i k.1 }, k.2)

/-- The world `load_simulation` builds from the contents of a file; `none` when it returns
`NULL`. -/
def load_simulation : List Record → Option World
  | .chars header :: .chars _ :: .int width :: .int height :: .int colony_count :: file =>
    if header ≠ SAVE_FILE_HEADER then none
    else
      match create_world width height colony_count with
      | none => none
      | some world =>
        ((List.range colony_count.toNat).foldlM
            (fun (s : World × List Record) (i : Nat) => load_colony s.1 i s.2)
            (world, file)).bind fun s =>
          ((scan_cells s.1).foldlM
              (fun (s : World × List Record) (p : Int × Int) => load_cell s.1 p s.2) s).bind
            fun s =>
              ((List.range colony_count.toNat).foldlM
                  (fun (s : World × List Record) (i : Nat) => load_colony_ants s.1 i s.2)
                  s).map fun s => s.1
  | _ => none

/-! ## algorithms.c: path stepper -/

def manhattan_distance (a b : Position) : Int :=
  ((a.x - b.x).natAbs : Int) + ((a.y - b.y).natAbs : Int)

/-- The state of the loop of `find_path_astar`: the stores `(*path)[index] = value` made so
far, in order, `path_length` and `current`. -/
structure PathState where
  writes : List (Int × Position)
  path_length : Int
  current : Position

/-- The move part of one iteration of the loop of `find_path_astar`: the new `current`, or
`none` when the loop is left by `break`. -/
def path_step (w : World) (goal current : Position) : Option Position :=
  let dx : Int := if goal.x > current.x then 1 else if goal.x < current.x then -1 else 0
  let dy : Int := if goal.y > current.y then 1 else if goal.y < current.y then -1 else 0
  if is_valid_position w (current.x + dx) (current.y + dy) &&
      is_walkable w (current.x + dx) (current.y + dy) then
    some ⟨current.x + dx, current.y + dy⟩
  else
    let alt_dx : Int := if dx = 0 then 1 else 0
    let alt_dy : Int := if dy = 0 then 1 else 0
    if is_valid_position w (current.x + alt_dx) (current.y + alt_dy) &&
        is_walkable w (current.x + alt_dx) (current.y + alt_dy) then
      some ⟨current.x + alt_dx, current.y + alt_dy⟩
    else if is_valid_position w (current.x - alt_dx) (current.y - alt_dy) &&
        is_walkable w (current.x - alt_dx) (current.y - alt_dy) then
      some ⟨current.x - alt_dx, current.y - alt_dy⟩
    else none

/-- The `while` loop of `find_path_astar`, run for at most `fuel` iterations; `none` when
the loop would go on after them. -/
def path_loop (w : World) (goal : Position) (max_path_length : Int) :
    Nat → PathState → Option PathState
  | 0, s =>
    if s.path_length < max_path_length ∧ (s.current.x ≠ goal.x ∨ s.current.y ≠ goal.y) then none
    else some s
  | fuel + 1, s =>
    if s.path_length < max_path_length ∧ (s.current.x ≠ goal.x ∨ s.current.y ≠ goal.y) then
      let s1 : PathState :=
        { s with
          writes := s.writes ++ [(s.path_length, s.current)]
          path_length := s.path_length + 1 }
      match path_step w goal s.current with
      | some c => path_loop w goal max_path_length fuel { s1 with current := c }
      | none => some s1
    else some s

/-- The function `find_path_astar` (allocation succeeding): the stores into the buffer of
`max_path_length` positions and the returned `path_length`. The loop is run with
`max_path_length` iterations of fuel. -/
def find_path_astar (w : World) (start goal : Position) : Option (List (Int × Position) × Int) :=
  let max_path_length := manhattan_distance start goal + 10
  match path_loop w goal max_path_length max_path_length.toNat ⟨[], 0, start⟩ with
  | none => none
  | some s =>
    if s.current.x = goal.x ∧ s.current.y = goal.y then
      some (s.writes ++ [(s.path_length, s.current)], s.path_length + 1)
    else some (s.writes, s.path_length)

/-! ## algorithms.c: sorting by efficiency -/

/-- The in-bounds cells among the 8 neighbours of `(x, y)`. -/
def in_bounds_neighbours (w : World) (x y : Int) : Finset (Int × Int) :=
  ((Finset.Icc (x - 1) (x + 1) ×ˢ Finset.Icc (y - 1) (y + 1)).erase (x, y)).filter
    fun q => is_valid_position w q.1 q.2 = true

/-- The value the specification gives a channel at `(x, y)` after diffusion of
the field `old`. -/
def diffusion_value (w : World) (old : Int → Int → ℚ) (x y : Int) : ℚ :=
  if (in_bounds_neighbours w x y).card = 0 then old y x
  else
    old y x * (1 - PHEROMONE_DIFFUSION_RATE) +
      (∑ q in in_bounds_neighbours w x y, old q.2 q.1) * PHEROMONE_DIFFUSION_RATE /
        ((in_bounds_neighbours w x y).card : ℚ)

/-- The neighbour cells visited by the neighbour loop at `(x, y)` that pass the bounds test. -/
def visited_neighbours (w : World) (x y : Int) : List (Int × Int) :=
  (neighbor_offsets.map fun d => (x + d.1, y + d.2)).filter
    fun q => is_valid_position w q.1 q.2


def locality_world : World where
  width := 3
  height := 3
  grid := fun y x =>
    if y = 1 ∧ x = 1 then ⟨TERRAIN_EMPTY, 800, 0, 0, -1⟩ else ⟨TERRAIN_EMPTY, 0, 0, 0, -1⟩
  colonies := []
  current_step := 0
  is_running := 0
  paused := 0
  render_delay_ms := RENDER_DELAY_MS

/-- Both channels of every in-bounds cell lie in `[0, PHEROMONE_MAX]`. -/
def pheromones_bounded (w : World) : Prop :=
  ∀ x y : Int, is_valid_position w x y = true →
    (0 ≤ (w.grid y x).pheromone_food ∧ (w.grid y x).pheromone_food ≤ PHEROMONE_MAX) ∧
    (0 ≤ (w.grid y x).pheromone_home ∧ (w.grid y x).pheromone_home ≤ PHEROMONE_MAX)

/-- A world of 2 x 1 cells without colonies: the food channel holds 1000 at `(0, 0)` and 0 at
`(1, 0)`. -/
def spread_world : World where
  width := 2
  height := 1
  grid := fun _ x =>
    if x = 0 then ⟨TERRAIN_EMPTY, 1000, 0, 0, -1⟩ else ⟨TERRAIN_EMPTY, 0, 0, 0, -1⟩
  colonies := []
  current_step := 0
  is_running := 1
  paused := 0
  render_delay_ms := RENDER_DELAY_MS

/-- A world of 5 x 5 empty cells without colonies whose centre `(2, 2)` holds 800 on the food
channel. -/
def interior_world : World where
  width := 5
  height := 5
  grid := fun y x =>
    if y = 2 ∧ x = 2 then ⟨TERRAIN_EMPTY, 800, 0, 0, -1⟩ else ⟨TERRAIN_EMPTY, 0, 0, 0, -1⟩
  colonies := []
  current_step := 0
  is_running := 0
  paused := 0
  render_delay_ms := RENDER_DELAY_MS

/-- A world of 3 x 3 cells with one colony without ants; the centre `(1, 1)` holds 5 units of
food, every other cell is empty. -/
def retreat_world : World where
  width := 3
  height := 3
  grid := fun y x =>
    if y = 1 ∧ x = 1 then ⟨TERRAIN_FOOD, 0, 0, 5, -1⟩ else ⟨TERRAIN_EMPTY, 0, 0, 0, -1⟩
  colonies := [⟨0, ⟨0, 0⟩, 0, 0, 0, [], 0, 1⟩]
  current_step := 0
  is_running := 1
  paused := 0
  render_delay_ms := RENDER_DELAY_MS

/-- A searching ant on the centre of `retreat_world` whose preferred direction is 2 (east). -/
def retreat_ant : Ant :=
  { create_ant 1 0 ⟨1, 1⟩ with preferred_direction := 2 }

/-- The ant `b` agrees with the ant `a` on every field that a move leaves alone. -/
def same_but_position (a b : Ant) : Prop :=
  b.id = a.id ∧ b.state = a.state ∧ b.colony_id = a.colony_id ∧ b.energy = a.energy ∧
    b.food_carrying = a.food_carrying ∧ b.food_delivered = a.food_delivered ∧
    b.preferred_direction = a.preferred_direction

/-- The food a cell contributes to the sum of `run_simulation`. -/
def cell_food (c : Cell) : Int :=
  if c.terrain = TERRAIN_FOOD then c.food_amount else 0

/-- The world `v` differs from `w` at most in pheromone values. -/
def only_pheromones_changed (w v : World) : Prop :=
  v.width = w.width ∧ v.height = w.height ∧ v.colonies = w.colonies ∧
    ∀ x y : Int, (v.grid y x).terrain = (w.grid y x).terrain ∧
      (v.grid y x).food_amount = (w.grid y x).food_amount ∧
      (v.grid y x).colony_id = (w.grid y x).colony_id

/-- The food carried by the ants of a list. -/
def carried (ants : List Ant) : Int := (ants.map fun a => a.food_carrying).sum

/-- The food carried by all ants in all colony lists. -/
def food_carried (w : World) : Int := (w.colonies.map fun c => carried c.ants).sum

/-- The food delivered to all colonies. -/
def food_collected_total (w : World) : Int := (w.colonies.map fun c => c.food_collected).sum

/-- The quantity of the conservation property: food on Food cells, plus food carried by ants,
plus food delivered to colonies. -/
def food_total (w : World) : Int := total_food w + food_carried w + food_collected_total w

/-- Every in-bounds Nest cell is owned by an existing colony. -/
def nests_valid (w : World) : Prop :=
  ∀ x y : Int, is_valid_position w x y = true → (w.grid y x).terrain = TERRAIN_NEST →
    0 ≤ (w.grid y x).colony_id ∧ (w.grid y x).colony_id < (w.colonies.length : Int)

/-- What the update of one ant may change in the world `w`, giving `v`: the dimensions, the
ant lists and the owner of every cell stay, and a terrain changes at most from Food to Empty. -/
def tick_frame (w v : World) : Prop :=
  v.width = w.width ∧ v.height = w.height ∧
    v.colonies.map Colony.ants = w.colonies.map Colony.ants ∧
    ∀ x y : Int, (v.grid y x).colony_id = (w.grid y x).colony_id ∧
      ((v.grid y x).terrain = (w.grid y x).terrain ∨
        ((w.grid y x).terrain = TERRAIN_FOOD ∧ (v.grid y x).terrain = TERRAIN_EMPTY))

/-- The ant carries 0 or 1 unit of food, and when it carries food it is not dead and has more
energy than one step costs (so it does not die in its next update). -/
def carrier_survives (a : Ant) : Prop :=
  (a.food_carrying = 0 ∨ a.food_carrying = 1) ∧
    (a.food_carrying ≠ 0 → a.state &&& ANT_STATE_DEAD = 0 ∧ ANT_ENERGY_PER_STEP < a.energy)

/-- The ant carries 0 or 1 unit of food, and none when it is dead. -/
def dead_carries_nothing (a : Ant) : Prop :=
  (a.food_carrying = 0 ∨ a.food_carrying = 1) ∧
    (a.state &&& ANT_STATE_DEAD ≠ 0 → a.food_carrying = 0)

/-- A dead ant: the Dead flag is set next to Searching. -/
def dead_ant : Ant :=
  { create_ant 7 0 ⟨1, 1⟩ with state := ANT_STATE_SEARCHING ||| ANT_STATE_DEAD, energy := 0 }

/-- The world after `n` ticks of `run_simulation` (not paused, no end condition met). -/
def run_ticks : Nat → World → Rng → World × Rng
  | 0, w, r => (w, r)
  | n + 1, w, r => simulation_tick (run_ticks n w r).1 (run_ticks n w r).2

/-- The conditions under which a tick loses no food: every Nest cell is owned by an existing
colony, and every ant carries 0 or 1 unit of food and, when it carries food, is alive with
energy above the cost of one step. -/
def tick_keeps_food (w : World) : Prop :=
  nests_valid w ∧ ∀ c ∈ w.colonies, ∀ a ∈ c.ants, carrier_survives a

/-- An ant that carries one unit of food home with energy 1 left. -/
def starving_ant : Ant :=
  { create_ant 1 0 ⟨1, 1⟩ with
    state := ANT_STATE_RETURNING ||| ANT_STATE_CARRYING, energy := 1, food_carrying := 1 }

/-- A world of 3 x 3 empty cells with one colony whose only ant is `starving_ant`. -/
def starving_world : World where
  width := 3
  height := 3
  grid := fun _ _ => ⟨TERRAIN_EMPTY, 0, 0, 0, -1⟩
  colonies := [⟨0, ⟨0, 0⟩, 0, 1, 1, [starving_ant], 0, 1⟩]
  current_step := 0
  is_running := 1
  paused := 0
  render_delay_ms := RENDER_DELAY_MS

/-- A world of 3 x 3 cells: a nest of colony 0 at `(0, 0)`, 5 units of food at `(1, 1)`, and
one colony whose only ant is the searching ant `retreat_ant` standing on the food. -/
def foraging_world : World where
  width := 3
  height := 3
  grid := fun y x =>
    if y = 1 ∧ x = 1 then ⟨TERRAIN_FOOD, 0, 0, 5, -1⟩
    else if y = 0 ∧ x = 0 then ⟨TERRAIN_NEST, 0, 0, 0, 0⟩
    else ⟨TERRAIN_EMPTY, 0, 0, 0, -1⟩
  colonies := [⟨0, ⟨0, 0⟩, 0, 1, 1, [retreat_ant], 0, 1⟩]
  current_step := 0
  is_running := 1
  paused := 0
  render_delay_ms := RENDER_DELAY_MS

/-- A world of 3 x 1 cells without colonies: an empty cell, a wall and a water cell. -/
def terrain_world : World where
  width := 3
  height := 1
  grid := fun _ x =>
    if x = 0 then ⟨TERRAIN_EMPTY, 0, 0, 0, -1⟩
    else if x = 1 then ⟨TERRAIN_WALL, 0, 0, 0, -1⟩
    else ⟨TERRAIN_WATER, 0, 0, 0, -1⟩
  colonies := []
  current_step := 0
  is_running := 0
  paused := 0
  render_delay_ms := RENDER_DELAY_MS

/-- The invariant of one cell: an owner is set (`colony_id` is not -1) exactly on a Nest, a
positive food amount occurs only on Food, and the food amount is not negative. -/
def cell_ok (c : Cell) : Prop :=
  (c.colony_id ≠ -1 ↔ c.terrain = TERRAIN_NEST) ∧ (c.food_amount > 0 → c.terrain = TERRAIN_FOOD) ∧
    0 ≤ c.food_amount

/-- The cell invariant holds for every cell of the grid. -/
def cell_invariant (w : World) : Prop :=
  ∀ x y : Int, is_valid_position w x y = true → cell_ok (w.grid y x)

/-- The cell that `clear_cell` stores. -/
def cleared_cell : Cell := ⟨TERRAIN_EMPTY, 0, 0, 0, -1⟩

/-- The cell found at `(x, y)` by a placement after its clearing step: the old cell when it
was Empty, the cleared cell otherwise. -/
def cell_after_clearing (w : World) (x y : Int) : Cell :=
  if (w.grid y x).terrain ≠ TERRAIN_EMPTY then cleared_cell else w.grid y x

/-- A world of 3 x 3 cells with two colonies without ants, satisfying the cell invariant: a
nest of colony 0 at `(0, 0)` holding pheromone, 5 units of food at `(1, 1)`, and an empty cell
holding pheromone at `(2, 2)`. -/
def placement_world : World where
  width := 3
  height := 3
  grid := fun y x =>
    if y = 1 ∧ x = 1 then ⟨TERRAIN_FOOD, 7, 9, 5, -1⟩
    else if y = 0 ∧ x = 0 then ⟨TERRAIN_NEST, 3, 4, 0, 0⟩
    else ⟨TERRAIN_EMPTY, 1, 2, 0, -1⟩
  colonies := [⟨0, ⟨0, 0⟩, 0, 0, 0, [], 0, 1⟩, ⟨1, ⟨0, 0⟩, 0, 0, 0, [], 0, 2⟩]
  current_step := 0
  is_running := 0
  paused := 0
  render_delay_ms := RENDER_DELAY_MS

/-- The scenario world at the moment of delivery: 10 x 10 empty cells with the nest of colony 0
at `(5, 5)`; the single food unit has been picked up. -/
def scenario_world : World where
  width := 10
  height := 10
  grid := fun y x =>
    if y = 5 ∧ x = 5 then ⟨TERRAIN_NEST, 0, 0, 0, 0⟩ else ⟨TERRAIN_EMPTY, 0, 0, 0, -1⟩
  colonies := [⟨0, ⟨5, 5⟩, 0, 1, 1, [], 0, 1⟩]
  current_step := 0
  is_running := 1
  paused := 0
  render_delay_ms := RENDER_DELAY_MS

/-- The ant of the scenario back on its nest, coming from `(5, 6)` with one unit of food. -/
def homecoming_ant : Ant :=
  { create_ant 1 0 ⟨5, 5⟩ with
    last_pos := ⟨5, 6⟩, state := ANT_STATE_RETURNING ||| ANT_STATE_CARRYING, energy := 900,
    food_carrying := 1, steps_taken := 6 }

/-- The state invariant of an ant: Carrying implies `food_carrying = 1` and Returning;
`food_carrying` is 0 or 1; exactly one of the Searching and Returning flags is set. -/
def ant_state_ok (a : Ant) : Prop :=
  (a.state &&& ANT_STATE_CARRYING ≠ 0 →
    a.food_carrying = 1 ∧ a.state &&& ANT_STATE_RETURNING ≠ 0) ∧
  (a.food_carrying = 0 ∨ a.food_carrying = 1) ∧
  ((a.state &&& ANT_STATE_SEARCHING ≠ 0 ∧ a.state &&& ANT_STATE_RETURNING = 0) ∨
    (a.state &&& ANT_STATE_SEARCHING = 0 ∧ a.state &&& ANT_STATE_RETURNING ≠ 0))

/-- The ant after the updates `steps`, each in its own world and with its own random stream. -/
def updated_ant (a : Ant) (steps : List (World × Rng)) : Ant :=
  steps.foldl (fun b s => (update_ant s.1 b s.2).2.1) a

/-- The world `create_world 3 3 1` returns. -/
def fresh_world : World where
  width := 3
  height := 3
  grid := fun y x =>
    if decide (x ≥ 0 ∧ x < 3 ∧ y ≥ 0 ∧ y < 3) = true then initial_cell calloc_cell
    else calloc_cell
  colonies := (List.range (1 : Int).toNat).map initial_colony
  current_step := 0
  is_running := 0
  paused := 0
  render_delay_ms := RENDER_DELAY_MS

/-- The ant has the Searching flag set, Returning and Carrying clear, and carries no food. -/
def searching_empty_handed (a : Ant) : Prop :=
  a.state &&& ANT_STATE_SEARCHING ≠ 0 ∧ a.state &&& ANT_STATE_RETURNING = 0 ∧
    a.state &&& ANT_STATE_CARRYING = 0 ∧ a.food_carrying = 0

/-- The grid contains no cell with terrain Food. -/
def no_food_cells (w : World) : Prop :=
  ∀ x y : Int, is_valid_position w x y = true → (w.grid y x).terrain ≠ TERRAIN_FOOD

/-- The state of the scenario without food: no Food cell, and every ant of every colony list is
searching empty-handed. -/
def no_food_state (w : World) : Prop :=
  no_food_cells w ∧ ∀ c ∈ w.colonies, ∀ a ∈ c.ants, searching_empty_handed a

/-- A world of 3 x 3 empty cells with two colonies, each with one freshly created ant. -/
def barren_world : World where
  width := 3
  height := 3
  grid := fun _ _ => ⟨TERRAIN_EMPTY, 0, 0, 0, -1⟩
  colonies :=
    [⟨0, ⟨0, 0⟩, 0, 1, 1, [create_ant 1 0 ⟨0, 0⟩], 0, 1⟩,
      ⟨1, ⟨2, 2⟩, 0, 1, 1, [create_ant 1 1 ⟨2, 2⟩], 0, 2⟩]
  current_step := 0
  is_running := 1
  paused := 0
  render_delay_ms := RENDER_DELAY_MS

/-- Both pheromone channels of every in-bounds cell are non-negative. -/
def pheromones_nonneg (w : World) : Prop :=
  ∀ x y : Int, is_valid_position w x y = true →
    0 ≤ (w.grid y x).pheromone_food ∧ 0 ≤ (w.grid y x).pheromone_home

/-- The worlds `w` and `v` have the same dimensions and the same in-bounds cells. -/
def same_in_bounds (w v : World) : Prop :=
  v.width = w.width ∧ v.height = w.height ∧
    ∀ x y : Int, is_valid_position w x y = true → v.grid y x = w.grid y x

/-- The world `terrain_world` with other cells stored outside the grid. -/
def terrain_world_padded : World :=
  { terrain_world with
    grid := fun y x =>
      if is_valid_position terrain_world x y then terrain_world.grid y x
      else ⟨TERRAIN_FOOD, 7, 9, 3, 0⟩ }

/-- A world of 3 x 3 empty cells whose one colony has collected 1 unit of food and has lost
all its ants: `total_ants = 0`, while `efficiency_score` still holds the 1 computed when it
had one ant. -/
def abandoned_world : World where
  width := 3
  height := 3
  grid := fun _ _ => ⟨TERRAIN_EMPTY, 0, 0, 0, -1⟩
  colonies := [⟨0, ⟨0, 0⟩, 1, 0, 0, [], 1, 1⟩]
  current_step := 7
  is_running := 1
  paused := 0
  render_delay_ms := RENDER_DELAY_MS

/-- The number of ants of a list that do not carry the Dead flag. -/
def living_count (ants : List Ant) : Int :=
  (ants.filter fun (a : Ant) => decide (a.state &&& ANT_STATE_DEAD = 0)).length

/-- The energy invariant of an ant: the energy is a whole number, an ant without the Dead
flag has energy at least 1, and an ant with the Dead flag has energy 0. -/
def energy_ok (a : Ant) : Prop :=
  (∃ n : Int, a.energy = (n : ℚ)) ∧ (a.state &&& ANT_STATE_DEAD = 0 → 1 ≤ a.energy) ∧
    (a.state &&& ANT_STATE_DEAD ≠ 0 → a.energy = 0)

/-- The ant after the updates `steps` applied the way `update_all_ants` applies them: an
update is skipped when the ant carries the Dead flag. -/
def updated_living_ant (a : Ant) (steps : List (World × Rng)) : Ant :=
  steps.foldl
    (fun b s => if b.state &&& ANT_STATE_DEAD ≠ 0 then b else (update_ant s.1 b s.2).2.1) a

/-- The neighbour of the ant in direction `d` is in bounds and walkable. -/
def gradient_candidate (ant : Ant) (w : World) (d : Nat) : Prop :=
  (is_valid_position w (ant.pos.x + dx d) (ant.pos.y + dy d) &&
    is_walkable w (ant.pos.x + dx d) (ant.pos.y + dy d)) = true

/-- The channel value on the neighbour of the ant in direction `d`. -/
def gradient_value (ant : Ant) (w : World) (pheromone_type : Int) (d : Nat) : ℚ :=
  get_pheromone_intensity w (ant.pos.x + dx d) (ant.pos.y + dy d) pheromone_type

/-- The state of the scan of `follow_pheromone_gradient` after the directions below `n`:
either nothing positive was seen, or `best_direction` is the first direction below `n` with
the largest value among the candidates below `n`, and that value is positive. -/
def gradient_scanned (ant : Ant) (w : World) (pheromone_type : Int) (n : Nat)
    (acc : ℚ × Int) : Prop :=
  (acc.2 = -1 ∧ acc.1 = 0 ∧
    ∀ e : Nat, e < n → gradient_candidate ant w e → gradient_value ant w pheromone_type e ≤ 0) ∨
  ∃ d : Nat, acc.2 = (d : Int) ∧ d < n ∧ gradient_candidate ant w d ∧
    gradient_value ant w pheromone_type d = acc.1 ∧ 0 < acc.1 ∧
    (∀ e : Nat, e < n → gradient_candidate ant w e →
      gradient_value ant w pheromone_type e ≤ acc.1) ∧
    ∀ e : Nat, e < d → gradient_candidate ant w e →
      gradient_value ant w pheromone_type e < acc.1

/-- A world of 3 x 3 empty cells without colonies; the food channel holds 5 on `(1, 0)` and on
`(2, 1)` and 3 on `(0, 1)`. -/
def trail_world : World where
  width := 3
  height := 3
  grid := fun y x =>
    if (y = 0 ∧ x = 1) ∨ (y = 1 ∧ x = 2) then ⟨TERRAIN_EMPTY, 5, 0, 0, -1⟩
    else if y = 1 ∧ x = 0 then ⟨TERRAIN_EMPTY, 3, 0, 0, -1⟩
    else ⟨TERRAIN_EMPTY, 0, 0, 0, -1⟩
  colonies := []
  current_step := 0
  is_running := 1
  paused := 0
  render_delay_ms := RENDER_DELAY_MS

/-- The list of `n` ants spawned one after the other into an empty colony `colony_id` with
nest `nest_pos`: the ant spawned last, with id `n`, is first. -/
def fresh_ants (n : Nat) (colony_id : Int) (nest_pos : Position) : List Ant :=
  ((List.range n).map fun (k : Nat) => create_ant ((k : Int) + 1) colony_id nest_pos).reverse

/-- What `spawn_ant` does to the colony it is called for. -/
def spawn_in_colony (colony_id : Int) (colony : Colony) : Colony :=
  if colony.total_ants ≥ MAX_ANTS_PER_COLONY then colony
  else add_ant_to_colony colony (create_ant (colony.total_ants + 1) colony_id colony.nest_pos)

/-- Colony `i` after `reset_simulation`. -/
def reset_colony (i : Nat) (c : Colony) : Colony :=
  { c with
    food_collected := 0
    efficiency_score := 0
    ants := fresh_ants INITIAL_ANTS_PER_COLONY (i : Int) c.nest_pos
    total_ants := (INITIAL_ANTS_PER_COLONY : Int)
    active_ants := (INITIAL_ANTS_PER_COLONY : Int) }

/-- The reference procedure for the ants of one list: `update_ant` is applied once, in list
order, to every ant that does not carry the Dead flag when it is reached; the updated ants
are collected in the same order. -/
def reference_update_ants (w : World) (r : Rng) (ants : List Ant) : World × List Ant × Rng :=
  ants.foldl
    (fun (s : World × List Ant × Rng) (a : Ant) =>
      if a.state &&& ANT_STATE_DEAD ≠ 0 then (s.1, s.2.1 ++ [a], s.2.2)
      else
        ((update_ant s.1 a s.2.2).1, s.2.1 ++ [(update_ant s.1 a s.2.2).2.1],
          (update_ant s.1 a s.2.2).2.2))
    (w, [], r)

/-- The number of ants of a list that carry the Dead flag. -/
def dead_count (ants : List Ant) : Int :=
  (ants.filter fun (a : Ant) => decide (a.state &&& ANT_STATE_DEAD ≠ 0)).length

/-- The reference reaping of a colony whose updated ants are `ants`: exactly the ants carrying
the Dead flag are removed, the survivors keep their relative order, and `total_ants`
decreases by the number removed. -/
def reference_reap (colony : Colony) (ants : List Ant) : Colony :=
  { colony with
    ants := ants.filter fun (a : Ant) => decide (a.state &&& ANT_STATE_DEAD = 0)
    total_ants := colony.total_ants - dead_count ants }

/-- The reference reaping that also decreases `active_ants` by the number removed. -/
def reference_reap_counting (colony : Colony) (ants : List Ant) : Colony :=
  { reference_reap colony ants with active_ants := colony.active_ants - dead_count ants }

/-- The reference procedure for `update_all_ants` with the reaping step `reap`: for each
colony in index order, update its ants with `reference_update_ants`, then reap. -/
def reference_update_all_ants (reap : Colony → List Ant → Colony) (w : World) (r : Rng) :
    World × Rng :=
  (List.range w.colonies.length).foldl
    (fun (s : World × Rng) (i : Nat) =>
      match s.1.colonies[i]? with
      | none => s
      | some colony =>
        ({ (reference_update_ants s.1 s.2 colony.ants).1 with
            colonies := (reference_update_ants s.1 s.2 colony.ants).1.colonies.modify
              (fun c => reap c (reference_update_ants s.1 s.2 colony.ants).2.1) i },
          (reference_update_ants s.1 s.2 colony.ants).2.2))
    (w, r)

/-- A world of 2 x 2 cells with a nest of colony 0 at `(0, 0)` and one colony holding the two
ants that two calls of `spawn_ant` put there: `total_ants = active_ants = 2`. -/
def saved_world : World where
  width := 2
  height := 2
  grid := fun y x =>
    if y = 0 ∧ x = 0 then ⟨TERRAIN_NEST, 0, 0, 0, 0⟩ else ⟨TERRAIN_EMPTY, 0, 0, 0, -1⟩
  colonies := [⟨0, ⟨0, 0⟩, 0, 2, 2, [create_ant 2 0 ⟨0, 0⟩, create_ant 1 0 ⟨0, 0⟩], 0, 1⟩]
  current_step := 0
  is_running := 0
  paused := 0
  render_delay_ms := RENDER_DELAY_MS

/-- An ant as `load_simulation` rebuilds it from its saved fields: `create_ant` followed by
the stores of the fields read; `preferred_direction` and the path history are not saved. -/
def reloaded_ant (a : Ant) : Ant :=
  { create_ant a.id a.colony_id a.pos with
    last_pos := a.last_pos
    state := a.state
    energy := a.energy
    food_carrying := a.food_carrying
    steps_taken := a.steps_taken
    food_delivered := a.food_delivered }

/-- Colony `c0` after the colony loop of `load_simulation` has read the saved values of `c`. -/
def colony_with_saved (c c0 : Colony) : Colony :=
  { c0 with
    nest_pos := c.nest_pos
    food_collected := c.food_collected
    total_ants := c.total_ants
    active_ants := c.active_ants
    efficiency_score := c.efficiency_score }

/-- Colony `c0` after the ant loop of `load_simulation` has read the saved ants of `c`. -/
def colony_with_ants (c c0 : Colony) : Colony :=
  c.ants.foldl (fun k a => add_ant_to_colony k (reloaded_ant a)) c0

/-- Colony `i` as `load_simulation` rebuilds it from the saved colony `c`. -/
def reloaded_colony (i : Nat) (c : Colony) : Colony :=
  { id := (i : Int)
    nest_pos := c.nest_pos
    food_collected := c.food_collected
    total_ants := c.total_ants + (c.ants.length : Int)
    active_ants := c.active_ants + (c.ants.length : Int)
    ants := (c.ants.map reloaded_ant).reverse
    efficiency_score := c.efficiency_score
    color := (i : Int) + 1 }

/-- The colony stored at an index after a loading loop: `upd c c0` when the saved list holds
`c` and the world holds `c0` there, and what the world holds otherwise. -/
def merge_colony (upd : Colony → Colony → Colony) :
    Option Colony → Option Colony → Option Colony
  | some c, some c0 => some (upd c c0)
  | _, o => o

/-- The random stream after `k` calls of `rand`. -/
def draws_consumed (r : Rng) (k : Nat) : Rng := fun n => r (n + k)

/-- The direction the `k`-th call `random_int(0, 7)` on the stream `r` returns (counting
from 0). -/
def drawn_direction (r : Rng) (k : Nat) : Int := (random_int (draws_consumed r k) 0 7).1

/-- The neighbour of the ant in direction `d` is in bounds and walkable. -/
def target_walkable (ant : Ant) (w : World) (d : Int) : Prop :=
  (is_valid_position w (ant.pos.x + dx d) (ant.pos.y + dy d) &&
    is_walkable w (ant.pos.x + dx d) (ant.pos.y + dy d)) = true

/-- A random stream whose draws give the directions 0, 0, 6, 6, 6, ... -/
def westward_draws : Rng := fun n => if n < 2 then 0 else 6

/-- The part of a colony that the bookkeeping is about: its list of ants and its two
counters. -/
def roster (c : Colony) : List Ant × Int × Int := (c.ants, c.total_ants, c.active_ants)

/-- For every colony, `total_ants` equals the number of ants in its list. -/
def counts_match (w : World) : Prop :=
  ∀ c ∈ w.colonies, c.total_ants = (c.ants.length : Int)

/-- Every ant of every colony list stands on an in-bounds walkable cell. -/
def ants_on_walkable (w : World) : Prop :=
  ∀ c ∈ w.colonies, ∀ a ∈ c.ants,
    (is_valid_position w a.pos.x a.pos.y && is_walkable w a.pos.x a.pos.y) = true

/-- The id and the energy of an ant. -/
def ant_key (a : Ant) : Int × ℚ := (a.id, a.energy)

/-- What one `update_all_ants` does to the ids and energies of a list of living ants that
find no food: every energy drops by 1 and the ants whose energy is used up are removed. -/
def aged (l : List (Int × ℚ)) : List (Int × ℚ) :=
  (l.map fun p => (p.1, p.2 - 1)).filter fun p => decide (0 < p.2)

/-- The world after `n` calls of `update_all_ants`, each with the random stream `0, 0, ...`. -/
def tick_ants (n : Nat) (w : World) : World :=
  (fun v => (update_all_ants v (fun _ => 0)).1)^[n] w

/-- The world `w` has the single colony `c`, no Food cell, only living ants that search
empty-handed, and `total_ants` equal to the number of its ants. -/
def lone_colony (w : World) (c : Colony) : Prop :=
  w.colonies = [c] ∧ no_food_cells w ∧
    (∀ a ∈ c.ants, searching_empty_handed a ∧ a.state &&& ANT_STATE_DEAD = 0) ∧
    c.total_ants = (c.ants.length : Int)

/-- The larger of the horizontal and the vertical distance between two positions. -/
def chebyshev_distance (a b : Position) : Int :=
  max ((a.x - b.x).natAbs : Int) ((a.y - b.y).natAbs : Int)

/-- At `p` the goal lies in a diagonal direction and the diagonal neighbour towards it is not
an in-bounds walkable cell: the stepper does not leave `p` any more. -/
def path_stuck (w : World) (goal p : Position) : Prop :=
  p.x ≠ goal.x ∧ p.y ≠ goal.y ∧
    (is_valid_position w (p.x + (if goal.x > p.x then 1 else -1))
        (p.y + (if goal.y > p.y then 1 else -1)) &&
      is_walkable w (p.x + (if goal.x > p.x then 1 else -1))
        (p.y + (if goal.y > p.y then 1 else -1))) = false

/-- The invariant of the loop of `find_path_astar` with capacity `cap`: every store made has
an index in `0..cap-1`, `path_length` is in `0..cap`, and either every iteration so far made
the direct step towards the goal, or the stepper is stuck. -/
def path_invariant (w : World) (start goal : Position) (cap : Int) (s : PathState) : Prop :=
  (∀ q ∈ s.writes, 0 ≤ q.1 ∧ q.1 < cap) ∧ 0 ≤ s.path_length ∧ s.path_length ≤ cap ∧
    (chebyshev_distance s.current goal + s.path_length = chebyshev_distance start goal ∨
      path_stuck w goal s.current)

/-- What holds when the loop of `find_path_astar` is left. -/
def path_exit (goal : Position) (cap : Int) (s : PathState) : Prop :=
  (∀ q ∈ s.writes, 0 ≤ q.1 ∧ q.1 < cap) ∧ 0 ≤ s.path_length ∧ s.path_length ≤ cap ∧
    (s.current.x = goal.x ∧ s.current.y = goal.y → s.path_length < cap)

/-- The step `(goal > current) ? 1 : (goal < current) ? -1 : 0` towards the goal along one
axis. -/
def toward (g p : Int) : Int := if g > p then 1 else if g < p then -1 else 0

/-- A world of a single empty cell without colonies whose two channels hold
`13695686 / 2 ^ 27`, the binary32 value just below `5/49`. -/
def snap_world : World where
  width := 1
  height := 1
  grid := fun _ _ => ⟨TERRAIN_EMPTY, 13695686 / 2 ^ 27, 13695686 / 2 ^ 27, 0, -1⟩
  colonies := []
  current_step := 0
  is_running := 1
  paused := 0
  render_delay_ms := RENDER_DELAY_MS

/-- The stored value of a channel on the neighbour of the ant in direction `d`: the field
`pheromone_food` of that cell for the food channel, the field `pheromone_home` otherwise. -/
def neighbour_stored (ant : Ant) (w : World) (pheromone_type : Int) (d : Nat) : ℚ :=
  if pheromone_type = PHEROMONE_TYPE_FOOD then
    (w.grid (ant.pos.y + dy d) (ant.pos.x + dx d)).pheromone_food
  else (w.grid (ant.pos.y + dy d) (ant.pos.x + dx d)).pheromone_home

/-! ## Auxiliary lemmas -/

theorem mem_scan_cells (w : World) (x y : Int) :
    (x, y) ∈ scan_cells w ↔ is_valid_position w x y = true := by
  simp only [scan_cells, is_valid_position, List.mem_flatMap, List.mem_map, List.mem_range,
    Prod.mk.injEq, decide_eq_true_eq]
  constructor
  · rintro ⟨b, hb, a, ha, h1, h2⟩
    omega
  · rintro ⟨h1, h2, h3, h4⟩
    refine ⟨y.toNat, ?_, x.toNat, ?_, ?_, ?_⟩ <;> omega

theorem scan_cells_nodup (w : World) : (scan_cells w).Nodup := by
  unfold scan_cells
  rw [List.nodup_flatMap]
  constructor
  · intro y _
    have hinj : Function.Injective (fun x : Nat => ((x : Int), (y : Int))) := by
      intro a b h
      simpa using h
    exact List.Nodup.map hinj (List.nodup_range _)
  · refine List.Pairwise.imp_of_mem ?_ (List.nodup_range _)
    intro a b _ _ hab
    simp only [Function.onFun, List.Disjoint, List.mem_map, List.mem_range]
    rintro p ⟨_, _, rfl⟩ ⟨_, _, h⟩
    simp only [Prod.mk.injEq, Nat.cast_inj] at h
    exact hab h.2.symm

theorem foldl_set_cell (g : World → Int × Int → Cell → Cell)
    (hg : ∀ w x y c, g (set_cell w x y c) = g w) :
    ∀ (l : List (Int × Int)), l.Nodup → ∀ w : World,
      l.foldl (fun acc p => set_cell acc p.1 p.2 (g acc p (acc.grid p.2 p.1))) w =
        { w with grid := fun y x => if (x, y) ∈ l then g w (x, y) (w.grid y x) else w.grid y x }
  | [], _, w => by simp
  | p :: l, hl, w => by
    rw [List.nodup_cons] at hl
    rw [List.foldl_cons, foldl_set_cell g hg l hl.2, hg]
    simp only [set_cell]
    congr 1
    funext y x
    by_cases hp : (x, y) = p
    · subst hp
      simp [hl.1]
    · have h2 : ¬ (y = p.2 ∧ x = p.1) := by
        rintro ⟨rfl, rfl⟩
        exact hp rfl
      simp [hp, h2]
theorem evaporate_pheromones_eq (w : World) :
    evaporate_pheromones w =
      { w with grid := fun y x =>
          if is_valid_position w x y = true then evaporate_cell (w.grid y x) else w.grid y x } := by
  unfold evaporate_pheromones
  rw [foldl_set_cell (fun _ _ c => evaporate_cell c) (fun _ _ _ _ => rfl) _ (scan_cells_nodup w)]
  simp only [mem_scan_cells]

theorem diffuse_apply_eq (t : TempGrid) (l : List (Int × Int)) (hl : l.Nodup) (w : World) :
    diffuse_apply t l w =
      { w with grid := fun y x =>
          if (x, y) ∈ l then diffuse_cell w t x y (w.grid y x) else w.grid y x } := by
  unfold diffuse_apply
  exact foldl_set_cell (fun acc p c => diffuse_cell acc t p.1 p.2 c) (fun _ _ _ _ => rfl) l hl w

theorem temp_copy_fold (w : World) :
    ∀ (l : List (Int × Int)) (t : TempGrid),
      l.foldl
        (fun t p =>
          ({ food := fun yy xx =>
              if yy = p.2 ∧ xx = p.1 then (w.grid p.2 p.1).pheromone_food else t.food yy xx
             home := fun yy xx =>
              if yy = p.2 ∧ xx = p.1 then (w.grid p.2 p.1).pheromone_home else t.home yy xx } :
            TempGrid)) t =
        { food := fun y x => if (x, y) ∈ l then (w.grid y x).pheromone_food else t.food y x
          home := fun y x => if (x, y) ∈ l then (w.grid y x).pheromone_home else t.home y x }
  | [], t => by simp
  | p :: l, t => by
    rw [List.foldl_cons, temp_copy_fold w l]
    congr 1 <;>
    · funext y x
      by_cases hp : (x, y) = p
      · subst hp
        simp
      · have h2 : ¬ (y = p.2 ∧ x = p.1) := by
          rintro ⟨rfl, rfl⟩
          exact hp rfl
        simp [hp, h2]

theorem temp_copy_eq (w : World) :
    temp_copy w =
      { food := fun y x => if is_valid_position w x y = true then (w.grid y x).pheromone_food else 0
        home := fun y x => if is_valid_position w x y = true then (w.grid y x).pheromone_home else 0 } := by
  unfold temp_copy
  rw [temp_copy_fold]
  simp only [mem_scan_cells, temp_alloc]

theorem neighbor_fold (w : World) (t : TempGrid) (x y : Int) :
    ∀ (l : List (Int × Int)) (acc : DiffuseAcc),
      l.foldl (diffuse_neighbor_step w t x y) acc =
        let v := (l.map fun d => (x + d.1, y + d.2)).filter fun q => is_valid_position w q.1 q.2
        { neighbor_food_contribution :=
            acc.neighbor_food_contribution + (v.map fun q => t.food q.2 q.1).sum
          neighbor_home_contribution :=
            acc.neighbor_home_contribution + (v.map fun q => t.home q.2 q.1).sum
          valid_neighbors := acc.valid_neighbors + (v.length : Int) }
  | [], acc => by simp
  | d :: l, acc => by
    rw [List.foldl_cons, neighbor_fold w t x y l]
    by_cases hv : is_valid_position w (x + d.1) (y + d.2) = true
    · simp [diffuse_neighbor_step, hv, List.filter_cons, add_assoc]
      omega
    · simp [diffuse_neighbor_step, hv, List.filter_cons]

theorem neighbor_offsets_eq :
    neighbor_offsets = [(-1, -1), (0, -1), (1, -1), (-1, 0), (1, 0), (-1, 1), (0, 1), (1, 1)] := by
  decide

theorem visited_neighbours_nodup (w : World) (x y : Int) : (visited_neighbours w x y).Nodup := by
  unfold visited_neighbours
  refine List.Nodup.filter _ ?_
  have hinj : Function.Injective (fun d : Int × Int => (x + d.1, y + d.2)) := by
    rintro ⟨a, b⟩ ⟨c, d⟩ h
    simp only [Prod.mk.injEq, add_right_inj] at h
    simp [h.1, h.2]
  refine List.Nodup.map hinj ?_
  rw [neighbor_offsets_eq]
  decide

theorem visited_neighbours_toFinset (w : World) (x y : Int) :
    (visited_neighbours w x y).toFinset = in_bounds_neighbours w x y := by
  ext ⟨a, b⟩
  simp only [visited_neighbours, in_bounds_neighbours, neighbor_offsets_eq, List.toFinset_filter,
    Finset.mem_filter, List.mem_toFinset, List.mem_map, List.mem_cons, Prod.mk.injEq,
    List.mem_singleton, Finset.mem_erase, Finset.mem_product, Finset.mem_Icc, ne_eq,
    Prod.exists, List.not_mem_nil, or_false]
  constructor
  · rintro ⟨⟨p, q, h, rfl, rfl⟩, hv⟩
    refine ⟨⟨?_, ?_, ?_⟩, hv⟩
    · rintro ⟨h1, h2⟩
      omega
    · omega
    · omega
  · rintro ⟨⟨hne, ⟨h1, h2⟩, h3, h4⟩, hv⟩
    refine ⟨⟨a - x, b - y, ?_, by ring, by ring⟩, hv⟩
    have hne2 : ¬ (a - x = 0 ∧ b - y = 0) := by
      rintro ⟨e1, e2⟩
      exact hne ⟨by omega, by omega⟩
    omega


theorem diffuse_acc_eq (w : World) (t : TempGrid) (x y : Int) :
    neighbor_offsets.foldl (diffuse_neighbor_step w t x y) ⟨0, 0, 0⟩ =
      { neighbor_food_contribution := ∑ q in in_bounds_neighbours w x y, t.food q.2 q.1
        neighbor_home_contribution := ∑ q in in_bounds_neighbours w x y, t.home q.2 q.1
        valid_neighbors := ((in_bounds_neighbours w x y).card : Int) } := by
  rw [neighbor_fold]
  have hn := visited_neighbours_nodup w x y
  have hf := visited_neighbours_toFinset w x y
  simp only [zero_add]
  rw [← hf, List.sum_toFinset _ hn, List.sum_toFinset _ hn, List.toFinset_card_of_nodup hn]
  rfl

theorem diffuse_cell_food (w : World) (t : TempGrid) (x y : Int) (c : Cell) :
    (diffuse_cell w t x y c).pheromone_food =
      if (in_bounds_neighbours w x y).card = 0 then t.food y x
      else
        t.food y x * (1 - PHEROMONE_DIFFUSION_RATE) +
          (∑ q in in_bounds_neighbours w x y, t.food q.2 q.1) * PHEROMONE_DIFFUSION_RATE /
            ((in_bounds_neighbours w x y).card : ℚ) := by
  unfold diffuse_cell
  rw [diffuse_acc_eq]
  by_cases h : (in_bounds_neighbours w x y).card = 0
  · simp [h]
  · have h2 : ((in_bounds_neighbours w x y).card : Int) > 0 := by
      have := Nat.pos_of_ne_zero h
      exact_mod_cast this
    simp [h, h2]

theorem diffuse_cell_home (w : World) (t : TempGrid) (x y : Int) (c : Cell) :
    (diffuse_cell w t x y c).pheromone_home =
      if (in_bounds_neighbours w x y).card = 0 then t.home y x
      else
        t.home y x * (1 - PHEROMONE_DIFFUSION_RATE) +
          (∑ q in in_bounds_neighbours w x y, t.home q.2 q.1) * PHEROMONE_DIFFUSION_RATE /
            ((in_bounds_neighbours w x y).card : ℚ) := by
  unfold diffuse_cell
  rw [diffuse_acc_eq]
  by_cases h : (in_bounds_neighbours w x y).card = 0
  · simp [h]
  · have h2 : ((in_bounds_neighbours w x y).card : Int) > 0 := by
      have := Nat.pos_of_ne_zero h
      exact_mod_cast this
    simp [h, h2]

theorem diffuse_cell_frame (w : World) (t : TempGrid) (x y : Int) (c : Cell) :
    (diffuse_cell w t x y c).terrain = c.terrain ∧
      (diffuse_cell w t x y c).food_amount = c.food_amount ∧
      (diffuse_cell w t x y c).colony_id = c.colony_id := by
  simp only [diffuse_cell]
  by_cases h : (neighbor_offsets.foldl (diffuse_neighbor_step w t x y) ⟨0, 0, 0⟩).valid_neighbors > 0
  · simp [h]
  · simp [h]

theorem mem_in_bounds_neighbours_valid (w : World) (x y : Int) (q : Int × Int)
    (hq : q ∈ in_bounds_neighbours w x y) : is_valid_position w q.1 q.2 = true := by
  simp only [in_bounds_neighbours, Finset.mem_filter] at hq
  exact hq.2

theorem diffuse_pheromones_eq (w : World) :
    diffuse_pheromones w =
      { w with grid := fun y x =>
          if is_valid_position w x y = true then diffuse_cell w (temp_copy w) x y (w.grid y x)
          else w.grid y x } := by
  unfold diffuse_pheromones
  rw [diffuse_apply_eq _ _ (scan_cells_nodup w)]
  simp only [mem_scan_cells]

theorem diffuse_pheromones_food (w : World) (x y : Int) (h : is_valid_position w x y = true) :
    ((diffuse_pheromones w).grid y x).pheromone_food =
      diffusion_value w (fun yy xx => (w.grid yy xx).pheromone_food) x y := by
  rw [diffuse_pheromones_eq]
  simp only [h, if_true, diffuse_cell_food, diffusion_value, temp_copy_eq]
  have hs : (∑ q in in_bounds_neighbours w x y,
        if is_valid_position w q.1 q.2 = true then (w.grid q.2 q.1).pheromone_food else 0) =
      ∑ q in in_bounds_neighbours w x y, (w.grid q.2 q.1).pheromone_food :=
    Finset.sum_congr rfl fun q hq => by
      simp [mem_in_bounds_neighbours_valid w x y q hq]
  rw [hs]

theorem diffuse_pheromones_home (w : World) (x y : Int) (h : is_valid_position w x y = true) :
    ((diffuse_pheromones w).grid y x).pheromone_home =
      diffusion_value w (fun yy xx => (w.grid yy xx).pheromone_home) x y := by
  rw [diffuse_pheromones_eq]
  simp only [h, if_true, diffuse_cell_home, diffusion_value, temp_copy_eq]
  have hs : (∑ q in in_bounds_neighbours w x y,
        if is_valid_position w q.1 q.2 = true then (w.grid q.2 q.1).pheromone_home else 0) =
      ∑ q in in_bounds_neighbours w x y, (w.grid q.2 q.1).pheromone_home :=
    Finset.sum_congr rfl fun q hq => by
      simp [mem_in_bounds_neighbours_valid w x y q hq]
  rw [hs]


theorem in_bounds_neighbours_card_interior (w : World) (x y : Int)
    (hx : 1 ≤ x ∧ x + 1 < w.width) (hy : 1 ≤ y ∧ y + 1 < w.height) :
    (in_bounds_neighbours w x y).card = 8 := by
  unfold in_bounds_neighbours
  rw [Finset.filter_true_of_mem]
  · rw [Finset.card_erase_of_mem (by simp), Finset.card_product, Int.card_Icc, Int.card_Icc]
    have h1 : x + 1 + 1 - (x - 1) = 3 := by ring
    have h2 : y + 1 + 1 - (y - 1) = 3 := by ring
    rw [h1, h2]
    rfl
  · rintro ⟨a, b⟩ hq
    simp only [Finset.mem_erase, Finset.mem_product, Finset.mem_Icc] at hq
    simp only [is_valid_position, decide_eq_true_eq]
    omega

theorem mem_in_bounds_neighbours (w : World) (x y : Int) (q : Int × Int) :
    q ∈ in_bounds_neighbours w x y ↔
      q ≠ (x, y) ∧ (x - 1 ≤ q.1 ∧ q.1 ≤ x + 1) ∧ (y - 1 ≤ q.2 ∧ q.2 ≤ y + 1) ∧
        is_valid_position w q.1 q.2 = true := by
  simp only [in_bounds_neighbours, Finset.mem_filter, Finset.mem_erase, Finset.mem_product,
    Finset.mem_Icc, ne_eq]
  tauto

theorem mem_in_bounds_neighbours_symm (w : World) (x y : Int) (q : Int × Int)
    (hv : is_valid_position w x y = true) (hq : q ∈ in_bounds_neighbours w x y) :
    (x, y) ∈ in_bounds_neighbours w q.1 q.2 := by
  rw [mem_in_bounds_neighbours] at hq ⊢
  obtain ⟨hne, h1, h2, _⟩ := hq
  refine ⟨fun h => hne h.symm, ?_, ?_, hv⟩
  · constructor <;> simp only <;> omega
  · constructor <;> simp only <;> omega

theorem diffusion_value_single (w : World) (old : Int → Int → ℚ) (x y : Int) (V : ℚ)
    (hx : 1 ≤ x ∧ x + 1 < w.width) (hy : 1 ≤ y ∧ y + 1 < w.height)
    (hc : old y x = V)
    (h0 : ∀ q : Int × Int, is_valid_position w q.1 q.2 = true → q ≠ (x, y) → old q.2 q.1 = 0) :
    diffusion_value w old x y = V * (1 - PHEROMONE_DIFFUSION_RATE) ∧
      ∀ q ∈ in_bounds_neighbours w x y,
        diffusion_value w old q.1 q.2 =
          V * PHEROMONE_DIFFUSION_RATE / ((in_bounds_neighbours w q.1 q.2).card : ℚ) := by
  have hv : is_valid_position w x y = true := by
    simp only [is_valid_position, decide_eq_true_eq]
    omega
  constructor
  · unfold diffusion_value
    have hs : ∑ q in in_bounds_neighbours w x y, old q.2 q.1 = 0 :=
      Finset.sum_eq_zero fun q hq => by
        rw [mem_in_bounds_neighbours] at hq
        exact h0 q hq.2.2.2 hq.1
    rw [hs, hc, in_bounds_neighbours_card_interior w x y hx hy]
    simp
  · intro q hq
    have hmem := mem_in_bounds_neighbours_symm w x y q hv hq
    have hne : q ≠ (x, y) := ((mem_in_bounds_neighbours w x y q).mp hq).1
    have hqv : is_valid_position w q.1 q.2 = true := mem_in_bounds_neighbours_valid w x y q hq
    have hcard : (in_bounds_neighbours w q.1 q.2).card ≠ 0 :=
      Finset.card_ne_zero_of_mem hmem
    have hs : ∑ r in in_bounds_neighbours w q.1 q.2, old r.2 r.1 = V := by
      rw [Finset.sum_eq_single_of_mem (x, y) hmem]
      · exact hc
      · intro r hr hrne
        exact h0 r (mem_in_bounds_neighbours_valid w q.1 q.2 r hr) hrne
    unfold diffusion_value
    rw [if_neg hcard, hs, h0 q hqv hne]
    simp

/-! ### binary32 rounding -/

theorem round_half_even_abs_sub_le (x : ℚ) : |(round_half_even x : ℚ) - x| ≤ 1 / 2 := by
  have h1 := Int.floor_le x
  have h2 := Int.lt_floor_add_one x
  unfold round_half_even
  split_ifs with a b c
  · rw [abs_le]; constructor <;> linarith
  · rw [abs_le]; push_cast; constructor <;> linarith
  · rw [abs_le]; constructor <;> linarith
  · rw [abs_le]; push_cast; constructor <;> linarith

theorem round_half_even_eq (x : ℚ) (m : Int) (h : |x - m| < 1 / 2) : round_half_even x = m := by
  have h0 := round_half_even_abs_sub_le x
  rw [abs_lt] at h
  rw [abs_le] at h0
  have h3 : ((round_half_even x : Int) : ℚ) - (m : ℚ) < 1 := by linarith
  have h4 : (m : ℚ) - ((round_half_even x : Int) : ℚ) < 1 := by linarith
  have h5 : round_half_even x - m < 1 := by exact_mod_cast h3
  have h6 : m - round_half_even x < 1 := by exact_mod_cast h4
  omega

theorem round_half_even_nonneg (x : ℚ) (h : 0 ≤ x) : 0 ≤ round_half_even x := by
  have h0 := round_half_even_abs_sub_le x
  rw [abs_le] at h0
  have h3 : (-1 : ℚ) < ((round_half_even x : Int) : ℚ) := by linarith
  have h5 : (-1 : Int) < round_half_even x := by exact_mod_cast h3
  omega

theorem round_half_even_nonpos (x : ℚ) (h : x ≤ 0) : round_half_even x ≤ 0 := by
  have h0 := round_half_even_abs_sub_le x
  rw [abs_le] at h0
  have h3 : ((round_half_even x : Int) : ℚ) < 1 := by linarith
  have h5 : round_half_even x < 1 := by exact_mod_cast h3
  omega

theorem f32_ulp_pos (x : ℚ) : 0 < f32_ulp x := by
  unfold f32_ulp
  positivity

theorem f32_exponent_eq (x : ℚ) (e : Int) (he : -126 ≤ e) (h1 : (2 : ℚ) ^ e ≤ |x|)
    (h2 : |x| < (2 : ℚ) ^ (e + 1)) : f32_exponent x = e := by
  have hpos : 0 < |x| := lt_of_lt_of_le (by positivity) h1
  have ha : e ≤ Int.log 2 |x| := (Int.zpow_le_iff_le_log (by norm_num) hpos).mp (by exact_mod_cast h1)
  have hb : Int.log 2 |x| < e + 1 := (Int.lt_zpow_iff_log_lt (by norm_num) hpos).mp (by exact_mod_cast h2)
  unfold f32_exponent
  omega

theorem f32_exponent_small (x : ℚ) (h1 : x ≠ 0) (h2 : |x| < (2 : ℚ) ^ (-126 : Int)) :
    f32_exponent x = -126 := by
  unfold f32_exponent
  have hpos : 0 < |x| := abs_pos.mpr h1
  have hb : Int.log 2 |x| < -126 :=
    (Int.lt_zpow_iff_log_lt (by norm_num) hpos).mp (by exact_mod_cast h2)
  omega

theorem f32_round_zero : f32_round 0 = 0 := by
  simp [f32_round, round_half_even]

theorem f32_round_eq (x : ℚ) (e m : Int) (he : f32_exponent x = e)
    (hm : |x / 2 ^ (e - 23) - m| < 1 / 2) : f32_round x = m * 2 ^ (e - 23) := by
  unfold f32_round f32_ulp
  rw [he, round_half_even_eq _ m hm]

theorem f32_round_abs_sub_le (x : ℚ) : |f32_round x - x| ≤ f32_ulp x / 2 := by
  have hp := f32_ulp_pos x
  have h0 := round_half_even_abs_sub_le (x / f32_ulp x)
  unfold f32_round
  have : (round_half_even (x / f32_ulp x) : ℚ) * f32_ulp x - x =
      ((round_half_even (x / f32_ulp x) : ℚ) - x / f32_ulp x) * f32_ulp x := by
    field_simp
  rw [this, abs_mul, abs_of_pos hp]
  calc _ ≤ 1 / 2 * f32_ulp x := mul_le_mul_of_nonneg_right h0 hp.le
    _ = f32_ulp x / 2 := by ring

theorem f32_round_nonneg (x : ℚ) (h : 0 ≤ x) : 0 ≤ f32_round x := by
  unfold f32_round
  have hp := f32_ulp_pos x
  have := round_half_even_nonneg (x / f32_ulp x) (div_nonneg h hp.le)
  have h2 : (0 : ℚ) ≤ (round_half_even (x / f32_ulp x) : ℚ) := by exact_mod_cast this
  positivity

theorem f32_round_nonpos (x : ℚ) (h : x ≤ 0) : f32_round x ≤ 0 := by
  unfold f32_round
  have hp := f32_ulp_pos x
  have := round_half_even_nonpos (x / f32_ulp x) (div_nonpos_of_nonpos_of_nonneg h hp.le)
  have h2 : (round_half_even (x / f32_ulp x) : ℚ) ≤ 0 := by exact_mod_cast this
  exact mul_nonpos_of_nonpos_of_nonneg h2 hp.le

theorem f32_ulp_le (x : ℚ) (hx : x ≠ 0) :
    f32_ulp x ≤ max ((2 : ℚ) ^ (-149 : Int)) (|x| * 2 ^ (-23 : Int)) := by
  unfold f32_ulp f32_exponent
  rcases le_total (Int.log 2 |x|) (-126) with h | h
  · rw [max_eq_right h]
    exact le_max_of_le_left (by norm_num)
  · rw [max_eq_left h]
    apply le_max_of_le_right
    have hpos : 0 < |x| := abs_pos.mpr hx
    have := @Int.zpow_log_le_self ℚ _ _ 2 |x| (by norm_num) hpos
    rw [zpow_sub₀ (by norm_num)]
    rw [div_eq_mul_inv, ← zpow_neg]
    exact mul_le_mul_of_nonneg_right (by exact_mod_cast this) (by positivity)

theorem f32_half_ulp_le (x : ℚ) (h : 0 ≤ x) (hx : x ≠ 0) :
    f32_ulp x / 2 ≤ max ((2 : ℚ) ^ (-150 : Int)) (x * 2 ^ (-24 : Int)) := by
  have h2 := f32_ulp_le x hx
  rw [abs_of_nonneg h] at h2
  have e1 : (2 : ℚ) ^ (-150 : Int) = 2 ^ (-149 : Int) / 2 := by norm_num
  have e2 : x * (2 : ℚ) ^ (-24 : Int) = x * 2 ^ (-23 : Int) / 2 := by norm_num; ring
  rw [e1, e2, max_div_div_right (by norm_num : (0 : ℚ) ≤ 2)]
  exact div_le_div_of_nonneg_right h2 (by norm_num)

theorem f32_round_le (x : ℚ) (h : 0 ≤ x) :
    f32_round x ≤ x + max ((2 : ℚ) ^ (-150 : Int)) (x * 2 ^ (-24 : Int)) := by
  by_cases hx : x = 0
  · subst hx
    rw [f32_round_zero]
    have : (0 : ℚ) ≤ max ((2 : ℚ) ^ (-150 : Int)) (0 * 2 ^ (-24 : Int)) :=
      le_max_of_le_left (by positivity)
    linarith
  have h1 := f32_round_abs_sub_le x
  have h3 := f32_half_ulp_le x h hx
  rw [abs_le] at h1
  generalize max ((2 : ℚ) ^ (-150 : Int)) (x * 2 ^ (-24 : Int)) = M at h3 ⊢
  linarith

theorem f32_round_ge (x : ℚ) (h : 0 ≤ x) :
    x - max ((2 : ℚ) ^ (-150 : Int)) (x * 2 ^ (-24 : Int)) ≤ f32_round x := by
  by_cases hx : x = 0
  · subst hx
    rw [f32_round_zero]
    have : (0 : ℚ) ≤ max ((2 : ℚ) ^ (-150 : Int)) (0 * 2 ^ (-24 : Int)) :=
      le_max_of_le_left (by positivity)
    linarith
  have h1 := f32_round_abs_sub_le x
  have h3 := f32_half_ulp_le x h hx
  rw [abs_le] at h1
  generalize max ((2 : ℚ) ^ (-150 : Int)) (x * 2 ^ (-24 : Int)) = M at h3 ⊢
  linarith

/-! ### evaporation -/

theorem f32_evaporation_factor :
    f32_round (1 - f32_round PHEROMONE_EVAPORATION_RATE) = 16441672 / 2 ^ 24 := by
  have h1 : f32_round PHEROMONE_EVAPORATION_RATE = 10737418 / 2 ^ 29 := by
    rw [f32_round_eq _ (-6) 10737418
      (f32_exponent_eq _ _ (by norm_num) (by norm_num [PHEROMONE_EVAPORATION_RATE, abs_of_pos])
        (by norm_num [PHEROMONE_EVAPORATION_RATE, abs_of_pos]))
      (by norm_num [PHEROMONE_EVAPORATION_RATE, abs_lt])]
    norm_num
  rw [h1, f32_round_eq _ (-1) 16441672
    (f32_exponent_eq _ _ (by norm_num) (by norm_num [abs_of_pos]) (by norm_num [abs_of_pos]))
    (by norm_num [abs_lt])]
  norm_num

theorem f32_min_threshold : f32_round PHEROMONE_MIN_THRESHOLD = 13421773 / 2 ^ 27 := by
  rw [f32_round_eq _ (-4) 13421773
    (f32_exponent_eq _ _ (by norm_num) (by norm_num [PHEROMONE_MIN_THRESHOLD, abs_of_pos])
      (by norm_num [PHEROMONE_MIN_THRESHOLD, abs_of_pos]))
    (by norm_num [PHEROMONE_MIN_THRESHOLD, abs_lt])]
  norm_num

theorem evaporate_value_eq (v : ℚ) :
    evaporate_value v =
      if f32_round (v * (16441672 / 2 ^ 24)) < 13421773 / 2 ^ 27 then 0
      else f32_round (v * (16441672 / 2 ^ 24)) := by
  unfold evaporate_value
  rw [f32_evaporation_factor, f32_min_threshold]

theorem evaporate_value_nonneg (v : ℚ) (hv : 0 ≤ v) : 0 ≤ evaporate_value v := by
  rw [evaporate_value_eq]
  split
  · exact le_refl _
  · exact f32_round_nonneg _ (by positivity)

/-- The rounded product is at most `K * v` with `K = 16441672/2^24 * (1 + 1/2^24) < 1` once
it has reached the threshold. -/
theorem f32_product_le (v : ℚ) (hv : 0 ≤ v)
    (h : ¬ f32_round (v * (16441672 / 2 ^ 24)) < 13421773 / 2 ^ 27) :
    f32_round (v * (16441672 / 2 ^ 24)) ≤ v * (16441672 / 2 ^ 24) * (1 + 1 / 2 ^ 24) := by
  have hx : (0 : ℚ) ≤ v * (16441672 / 2 ^ 24) := by positivity
  have h1 := f32_round_le _ hx
  rcases le_total ((2 : ℚ) ^ (-150 : Int)) (v * (16441672 / 2 ^ 24) * 2 ^ (-24 : Int)) with h2 | h2
  · rw [max_eq_right h2] at h1
    have e : (2 : ℚ) ^ (-24 : Int) = 1 / 2 ^ 24 := by norm_num
    rw [e] at h1
    linarith
  · rw [max_eq_left h2] at h1
    exfalso
    apply h
    have e : (2 : ℚ) ^ (-24 : Int) = 1 / 2 ^ 24 := by norm_num
    have e2 : (2 : ℚ) ^ (-150 : Int) = 1 / 2 ^ 150 := by norm_num
    rw [e, e2] at h2
    rw [e2] at h1
    generalize v * (16441672 / 2 ^ 24) = X at h1 h2 ⊢
    generalize f32_round X = Y at h1 ⊢
    have h3 : X ≤ 1 / 2 ^ 126 := by
      have : X * (1 / 2 ^ 24) * 2 ^ 24 ≤ 1 / 2 ^ 150 * 2 ^ 24 :=
        mul_le_mul_of_nonneg_right h2 (by positivity)
      norm_num at this ⊢
      linarith
    have h4 : (1 : ℚ) / 2 ^ 126 + 1 / 2 ^ 150 < 13421773 / 2 ^ 27 := by norm_num
    linarith

theorem evaporate_value_le_mul (v : ℚ) (hv : 0 ≤ v) :
    evaporate_value v ≤ 16441672 / 2 ^ 24 * (1 + 1 / 2 ^ 24) * v := by
  rw [evaporate_value_eq]
  split
  · positivity
  · rename_i h
    have := f32_product_le v hv h
    linarith

theorem evaporate_value_le (v : ℚ) (hv : 0 ≤ v) : evaporate_value v ≤ v := by
  have h := evaporate_value_le_mul v hv
  have hk : (16441672 : ℚ) / 2 ^ 24 * (1 + 1 / 2 ^ 24) ≤ 1 := by norm_num
  calc evaporate_value v ≤ 16441672 / 2 ^ 24 * (1 + 1 / 2 ^ 24) * v := h
    _ ≤ 1 * v := mul_le_mul_of_nonneg_right hk hv
    _ = v := one_mul v

theorem evaporate_value_zero_or_ge (v : ℚ) :
    evaporate_value v = 0 ∨ PHEROMONE_MIN_THRESHOLD ≤ evaporate_value v := by
  rw [evaporate_value_eq]
  split
  · exact Or.inl rfl
  · rename_i h
    right
    have : (PHEROMONE_MIN_THRESHOLD : ℚ) ≤ 13421773 / 2 ^ 27 := by
      norm_num [PHEROMONE_MIN_THRESHOLD]
    exact le_trans this (not_lt.mp h)

theorem evaporate_value_zero : evaporate_value 0 = 0 := by
  rw [evaporate_value_eq]
  simp [f32_round_zero]

/-- A value under the threshold is snapped to 0 by one pass. -/
theorem evaporate_value_under (v : ℚ) (h : v < PHEROMONE_MIN_THRESHOLD) :
    evaporate_value v = 0 := by
  rw [evaporate_value_eq, if_pos]
  unfold PHEROMONE_MIN_THRESHOLD at h
  rcases le_total v 0 with hv | hv
  · have : f32_round (v * (16441672 / 2 ^ 24)) ≤ 0 :=
      f32_round_nonpos _ (mul_nonpos_of_nonpos_of_nonneg hv (by positivity))
    have h2 : (0 : ℚ) < 13421773 / 2 ^ 27 := by norm_num
    linarith
  · by_contra hc
    have h1 := f32_product_le v hv hc
    have h2 := not_lt.mp hc
    have h3 : v * (16441672 / 2 ^ 24) * (1 + 1 / 2 ^ 24) <
        (1 / 10 : ℚ) * (16441672 / 2 ^ 24) * (1 + 1 / 2 ^ 24) :=
      mul_lt_mul_of_pos_right (mul_lt_mul_of_pos_right h (by norm_num)) (by norm_num)
    have h4 : (1 / 10 : ℚ) * (16441672 / 2 ^ 24) * (1 + 1 / 2 ^ 24) < 13421773 / 2 ^ 27 := by
      norm_num
    linarith

/-- The rounded product stays within `v / 2 ^ 23 + 1 / 2 ^ 150` of `98/100 * v`. -/
theorem f32_product_close (v : ℚ) (hv : 0 ≤ v) :
    |f32_round (v * (16441672 / 2 ^ 24)) - 98 / 100 * v| ≤ v / 2 ^ 23 + 1 / 2 ^ 150 := by
  have hx : (0 : ℚ) ≤ v * (16441672 / 2 ^ 24) := by positivity
  have h1 := f32_round_le _ hx
  have h2 := f32_round_ge _ hx
  have e : (2 : ℚ) ^ (-24 : Int) = 1 / 2 ^ 24 := by norm_num
  have e2 : (2 : ℚ) ^ (-150 : Int) = 1 / 2 ^ 150 := by norm_num
  rw [e, e2] at h1 h2
  have hm : max ((1 : ℚ) / 2 ^ 150) (v * (16441672 / 2 ^ 24) * (1 / 2 ^ 24)) ≤
      1 / 2 ^ 150 + v * (16441672 / 2 ^ 24) * (1 / 2 ^ 24) :=
    max_le (by linarith [mul_nonneg hx (by positivity : (0 : ℚ) ≤ 1 / 2 ^ 24)])
      (by linarith [(by positivity : (0 : ℚ) ≤ 1 / 2 ^ 150)])
  generalize max ((1 : ℚ) / 2 ^ 150) (v * (16441672 / 2 ^ 24) * (1 / 2 ^ 24)) = M at h1 h2 hm
  generalize f32_round (v * (16441672 / 2 ^ 24)) = Y at h1 h2 ⊢
  rw [abs_le]
  constructor <;> norm_num at * <;> linarith

theorem evaporate_iterate_nonneg (v : ℚ) (hv : 0 ≤ v) (n : Nat) : 0 ≤ evaporate_value^[n] v := by
  induction n with
  | zero => simpa using hv
  | succ n ih =>
    rw [Function.iterate_succ_apply']
    exact evaporate_value_nonneg _ ih

theorem evaporate_iterate_le_pow (v : ℚ) (hv : 0 ≤ v) (n : Nat) :
    evaporate_value^[n] v ≤ (16441672 / 2 ^ 24 * (1 + 1 / 2 ^ 24)) ^ n * v := by
  induction n with
  | zero => simp
  | succ n ih =>
    rw [Function.iterate_succ_apply']
    calc evaporate_value (evaporate_value^[n] v)
        ≤ 16441672 / 2 ^ 24 * (1 + 1 / 2 ^ 24) * evaporate_value^[n] v :=
          evaporate_value_le_mul _ (evaporate_iterate_nonneg v hv n)
      _ ≤ 16441672 / 2 ^ 24 * (1 + 1 / 2 ^ 24) *
            ((16441672 / 2 ^ 24 * (1 + 1 / 2 ^ 24)) ^ n * v) := by
          apply mul_le_mul_of_nonneg_left ih
          norm_num
      _ = (16441672 / 2 ^ 24 * (1 + 1 / 2 ^ 24)) ^ (n + 1) * v := by ring

theorem evaporate_iterate_zero (n : Nat) : evaporate_value^[n] 0 = 0 := by
  induction n with
  | zero => rfl
  | succ n ih => rw [Function.iterate_succ_apply', ih, evaporate_value_zero]

theorem evaporate_iterate_reaches_zero (v : ℚ) (hv : 0 ≤ v) :
    ∃ n : Nat, evaporate_value^[n] v = 0 := by
  rcases eq_or_lt_of_le hv with h0 | hpos
  · exact ⟨0, by simp [← h0]⟩
  · have hε : (0 : ℚ) < 1 / 10 / v := by positivity
    obtain ⟨n, hn⟩ := exists_pow_lt_of_lt_one hε
      (by norm_num : (16441672 / 2 ^ 24 * (1 + 1 / 2 ^ 24) : ℚ) < 1)
    refine ⟨n + 1, ?_⟩
    have h1 : evaporate_value^[n] v < 1 / 10 := by
      have h2 := evaporate_iterate_le_pow v hv n
      have h3 : (16441672 / 2 ^ 24 * (1 + 1 / 2 ^ 24) : ℚ) ^ n * v < 1 / 10 := by
        have := (lt_div_iff₀ hpos).mp hn
        exact this
      linarith
    rw [Function.iterate_succ_apply']
    exact evaporate_value_under _ h1

theorem evaporate_iterate_antitone (v : ℚ) (hv : 0 ≤ v) (n : Nat) :
    evaporate_value^[n + 1] v ≤ evaporate_value^[n] v := by
  rw [Function.iterate_succ_apply']
  exact evaporate_value_le _ (evaporate_iterate_nonneg v hv n)

theorem evaporate_iterate_stays_zero (v : ℚ) (n m : Nat) (h : evaporate_value^[n] v = 0)
    (hnm : n ≤ m) : evaporate_value^[m] v = 0 := by
  obtain ⟨k, rfl⟩ := Nat.exists_eq_add_of_le hnm
  rw [Nat.add_comm, Function.iterate_add_apply, h, evaporate_iterate_zero]

theorem evaporate_iterate_world (w : World) (n : Nat) :
    evaporate_pheromones^[n] w =
      { w with grid := fun y x =>
          if is_valid_position w x y = true then evaporate_cell^[n] (w.grid y x)
          else w.grid y x } := by
  induction n with
  | zero => simp
  | succ n ih =>
    rw [Function.iterate_succ_apply', ih, evaporate_pheromones_eq]
    congr 1
    funext y x
    by_cases hv : is_valid_position w x y = true
    · have hv2 : is_valid_position
          { w with grid := fun y x =>
              if is_valid_position w x y = true then evaporate_cell^[n] (w.grid y x)
              else w.grid y x } x y = true := hv
      simp only [hv2, hv, if_true]
      rw [Function.iterate_succ_apply']
    · have hv2 : ¬ is_valid_position
          { w with grid := fun y x =>
              if is_valid_position w x y = true then evaporate_cell^[n] (w.grid y x)
              else w.grid y x } x y = true := hv
      simp [hv2, hv]

theorem evaporate_cell_iterate (c : Cell) (n : Nat) :
    evaporate_cell^[n] c =
      { c with
        pheromone_food := evaporate_value^[n] c.pheromone_food
        pheromone_home := evaporate_value^[n] c.pheromone_home } := by
  induction n with
  | zero => rfl
  | succ n ih =>
    rw [Function.iterate_succ_apply', ih]
    simp only [evaporate_cell, Function.iterate_succ_apply']

theorem get_cell_valid (w : World) (x y : Int) (hv : is_valid_position w x y = true) :
    get_cell w x y = some (w.grid y x) := by
  simp [get_cell, hv]

theorem get_cell_invalid (w : World) (x y : Int) (hv : ¬ is_valid_position w x y = true) :
    get_cell w x y = none := by
  simp [get_cell, hv]

theorem clamp_eq_min (v : ℚ) : (if v > PHEROMONE_MAX then PHEROMONE_MAX else v) = min v PHEROMONE_MAX := by
  by_cases h : v > PHEROMONE_MAX
  · rw [if_pos h, min_eq_right (le_of_lt h)]
  · rw [if_neg h, min_eq_left (not_lt.mp h)]

theorem diffusion_value_le (w : World) (old : Int → Int → ℚ) (x y : Int) (M : ℚ)
    (hs : old y x ≤ M) (hn : ∀ q ∈ in_bounds_neighbours w x y, old q.2 q.1 ≤ M) :
    diffusion_value w old x y ≤ M := by
  unfold diffusion_value
  split
  · exact hs
  · rename_i hcard
    have hpos : (0 : ℚ) < ((in_bounds_neighbours w x y).card : ℚ) := by
      exact_mod_cast Nat.pos_of_ne_zero hcard
    have hsum : ∑ q in in_bounds_neighbours w x y, old q.2 q.1 ≤
        ((in_bounds_neighbours w x y).card : ℚ) * M := by
      have := Finset.sum_le_card_nsmul (in_bounds_neighbours w x y) (fun q => old q.2 q.1) M hn
      simpa [nsmul_eq_mul] using this
    have hd : (∑ q in in_bounds_neighbours w x y, old q.2 q.1) * PHEROMONE_DIFFUSION_RATE /
        ((in_bounds_neighbours w x y).card : ℚ) ≤ M * PHEROMONE_DIFFUSION_RATE := by
      rw [div_le_iff₀ hpos]
      have hr : (0 : ℚ) ≤ PHEROMONE_DIFFUSION_RATE := by norm_num [PHEROMONE_DIFFUSION_RATE]
      nlinarith
    have h1 : old y x * (1 - PHEROMONE_DIFFUSION_RATE) ≤ M * (1 - PHEROMONE_DIFFUSION_RATE) := by
      apply mul_le_mul_of_nonneg_right hs
      norm_num [PHEROMONE_DIFFUSION_RATE]
    linarith

theorem diffusion_value_ge (w : World) (old : Int → Int → ℚ) (x y : Int) (m : ℚ)
    (hs : m ≤ old y x) (hn : ∀ q ∈ in_bounds_neighbours w x y, m ≤ old q.2 q.1) :
    m ≤ diffusion_value w old x y := by
  unfold diffusion_value
  split
  · exact hs
  · rename_i hcard
    have hpos : (0 : ℚ) < ((in_bounds_neighbours w x y).card : ℚ) := by
      exact_mod_cast Nat.pos_of_ne_zero hcard
    have hsum : ((in_bounds_neighbours w x y).card : ℚ) * m ≤
        ∑ q in in_bounds_neighbours w x y, old q.2 q.1 := by
      have := Finset.card_nsmul_le_sum (in_bounds_neighbours w x y) (fun q => old q.2 q.1) m hn
      simpa [nsmul_eq_mul] using this
    have hd : m * PHEROMONE_DIFFUSION_RATE ≤
        (∑ q in in_bounds_neighbours w x y, old q.2 q.1) * PHEROMONE_DIFFUSION_RATE /
          ((in_bounds_neighbours w x y).card : ℚ) := by
      rw [le_div_iff₀ hpos]
      have hr : (0 : ℚ) ≤ PHEROMONE_DIFFUSION_RATE := by norm_num [PHEROMONE_DIFFUSION_RATE]
      nlinarith
    have h1 : m * (1 - PHEROMONE_DIFFUSION_RATE) ≤ old y x * (1 - PHEROMONE_DIFFUSION_RATE) := by
      apply mul_le_mul_of_nonneg_right hs
      norm_num [PHEROMONE_DIFFUSION_RATE]
    linarith

theorem evaporate_pheromones_valid (w : World) (x y : Int) :
    is_valid_position (evaporate_pheromones w) x y = is_valid_position w x y := by
  rw [evaporate_pheromones_eq]
  rfl

theorem diffuse_pheromones_valid (w : World) (x y : Int) :
    is_valid_position (diffuse_pheromones w) x y = is_valid_position w x y := by
  rw [diffuse_pheromones_eq]
  rfl

theorem evaporate_pheromones_grid (w : World) (x y : Int) (hv : is_valid_position w x y = true) :
    (evaporate_pheromones w).grid y x = evaporate_cell (w.grid y x) := by
  rw [evaporate_pheromones_eq]
  simp [hv]

theorem evaporate_pheromones_bounded (w : World) (h : pheromones_bounded w) :
    pheromones_bounded (evaporate_pheromones w) := by
  intro x y hv
  rw [evaporate_pheromones_valid] at hv
  rw [evaporate_pheromones_grid w x y hv]
  obtain ⟨⟨h1, h2⟩, h3, h4⟩ := h x y hv
  exact ⟨⟨evaporate_value_nonneg _ h1, le_trans (evaporate_value_le _ h1) h2⟩,
    evaporate_value_nonneg _ h3, le_trans (evaporate_value_le _ h3) h4⟩

theorem diffuse_pheromones_bounded (w : World) (h : pheromones_bounded w) :
    pheromones_bounded (diffuse_pheromones w) := by
  intro x y hv
  rw [diffuse_pheromones_valid] at hv
  rw [diffuse_pheromones_food w x y hv, diffuse_pheromones_home w x y hv]
  have hq : ∀ q ∈ in_bounds_neighbours w x y, is_valid_position w q.1 q.2 = true :=
    fun q hq => mem_in_bounds_neighbours_valid w x y q hq
  exact ⟨⟨diffusion_value_ge w _ x y 0 (h x y hv).1.1 fun q hm => (h q.1 q.2 (hq q hm)).1.1,
      diffusion_value_le w _ x y _ (h x y hv).1.2 fun q hm => (h q.1 q.2 (hq q hm)).1.2⟩,
    diffusion_value_ge w _ x y 0 (h x y hv).2.1 fun q hm => (h q.1 q.2 (hq q hm)).2.1,
    diffusion_value_le w _ x y _ (h x y hv).2.2 fun q hm => (h q.1 q.2 (hq q hm)).2.2⟩

theorem set_cell_bounded (w : World) (x y : Int) (c : Cell) (h : pheromones_bounded w)
    (hc : (0 ≤ c.pheromone_food ∧ c.pheromone_food ≤ PHEROMONE_MAX) ∧
      (0 ≤ c.pheromone_home ∧ c.pheromone_home ≤ PHEROMONE_MAX)) :
    pheromones_bounded (set_cell w x y c) := by
  intro a b hv
  have hv2 : is_valid_position w a b = true := hv
  simp only [set_cell]
  by_cases hp : b = y ∧ a = x
  · simpa [hp] using hc
  · simpa [hp] using h a b hv2

theorem clamp_bounds (v a : ℚ) (hv : 0 ≤ v) (ha : 0 ≤ a) :
    0 ≤ (if v + a > PHEROMONE_MAX then PHEROMONE_MAX else v + a) ∧
      (if v + a > PHEROMONE_MAX then PHEROMONE_MAX else v + a) ≤ PHEROMONE_MAX := by
  split
  · exact ⟨by norm_num [PHEROMONE_MAX], le_refl _⟩
  · rename_i h
    exact ⟨by linarith, not_lt.mp h⟩

theorem deposit_pheromone_bounded (w : World) (ant : Ant) (h : pheromones_bounded w) :
    pheromones_bounded (deposit_pheromone w ant) := by
  unfold deposit_pheromone
  by_cases hv : is_valid_position w ant.pos.x ant.pos.y = true
  · rw [get_cell_valid w _ _ hv]
    obtain ⟨⟨h1, h2⟩, h3, h4⟩ := h _ _ hv
    have hd : (0 : ℚ) ≤ PHEROMONE_DEPOSIT_AMOUNT := by norm_num [PHEROMONE_DEPOSIT_AMOUNT]
    simp only
    split
    · exact set_cell_bounded w _ _ _ h ⟨⟨h1, h2⟩, clamp_bounds _ _ h3 hd⟩
    · split
      · exact set_cell_bounded w _ _ _ h ⟨clamp_bounds _ _ h1 hd, h3, h4⟩
      · exact h
  · rw [get_cell_invalid w _ _ hv]
    exact h

theorem deposit_pheromone_at_position_bounded (w : World) (x y type : Int) (amount : ℚ)
    (ha : 0 ≤ amount) (h : pheromones_bounded w) :
    pheromones_bounded (deposit_pheromone_at_position w x y type amount) := by
  unfold deposit_pheromone_at_position
  by_cases hv : is_valid_position w x y = true
  · rw [get_cell_valid w _ _ hv]
    obtain ⟨⟨h1, h2⟩, h3, h4⟩ := h _ _ hv
    simp only [hv, Bool.not_true, Bool.false_eq_true, if_false]
    split
    · exact set_cell_bounded w _ _ _ h ⟨clamp_bounds _ _ h1 ha, h3, h4⟩
    · split
      · exact set_cell_bounded w _ _ _ h ⟨⟨h1, h2⟩, clamp_bounds _ _ h3 ha⟩
      · exact h
  · simp [hv, h]

theorem deposit_pheromone_at_position_food (w : World) (x y : Int) (amount : ℚ)
    (hv : is_valid_position w x y = true) :
    deposit_pheromone_at_position w x y PHEROMONE_TYPE_FOOD amount =
      { w with grid := fun yy xx =>
          if yy = y ∧ xx = x then
            { w.grid y x with
              pheromone_food := min ((w.grid y x).pheromone_food + amount) PHEROMONE_MAX }
          else w.grid yy xx } := by
  simp only [deposit_pheromone_at_position, hv, get_cell_valid w x y hv, set_cell, clamp_eq_min]
  simp

theorem deposit_pheromone_at_position_home (w : World) (x y : Int) (amount : ℚ)
    (hv : is_valid_position w x y = true) :
    deposit_pheromone_at_position w x y PHEROMONE_TYPE_HOME amount =
      { w with grid := fun yy xx =>
          if yy = y ∧ xx = x then
            { w.grid y x with
              pheromone_home := min ((w.grid y x).pheromone_home + amount) PHEROMONE_MAX }
          else w.grid yy xx } := by
  have hne : ¬ PHEROMONE_TYPE_HOME = PHEROMONE_TYPE_FOOD := by decide
  simp only [deposit_pheromone_at_position, hv, get_cell_valid w x y hv, set_cell, clamp_eq_min,
    hne]
  simp

theorem spread_world_bounded : pheromones_bounded spread_world := by
  intro x y _
  by_cases hx : x = 0 <;> simp [spread_world, hx, PHEROMONE_MAX]

theorem interior_world_single (q : Int × Int)
    (_ : is_valid_position interior_world q.1 q.2 = true) (hne : q ≠ (2, 2)) :
    (interior_world.grid q.2 q.1).pheromone_food = 0 := by
  have h2 : ¬ (q.2 = 2 ∧ q.1 = 2) := by
    rintro ⟨h1, h2⟩
    exact hne (Prod.ext h2 h1)
  simp [interior_world, h2]

theorem deposit_pheromone_searching (w : World) (ant : Ant)
    (hv : is_valid_position w ant.pos.x ant.pos.y = true)
    (hs : ant.state &&& ANT_STATE_SEARCHING ≠ 0) :
    deposit_pheromone w ant =
      set_cell w ant.pos.x ant.pos.y
        { w.grid ant.pos.y ant.pos.x with
          pheromone_home :=
            min ((w.grid ant.pos.y ant.pos.x).pheromone_home + PHEROMONE_DEPOSIT_AMOUNT)
              PHEROMONE_MAX } := by
  simp only [deposit_pheromone, get_cell_valid w _ _ hv, if_pos hs, clamp_eq_min]

theorem deposit_pheromone_returning (w : World) (ant : Ant)
    (hv : is_valid_position w ant.pos.x ant.pos.y = true)
    (hs : ant.state &&& ANT_STATE_SEARCHING = 0)
    (hr : ant.state &&& ANT_STATE_RETURNING ≠ 0) :
    deposit_pheromone w ant =
      set_cell w ant.pos.x ant.pos.y
        { w.grid ant.pos.y ant.pos.x with
          pheromone_food :=
            min ((w.grid ant.pos.y ant.pos.x).pheromone_food + PHEROMONE_DEPOSIT_AMOUNT)
              PHEROMONE_MAX } := by
  have hs2 : ¬ (ant.state &&& ANT_STATE_SEARCHING ≠ 0) := not_not.mpr hs
  simp only [deposit_pheromone, get_cell_valid w _ _ hv, if_neg hs2, if_pos hr, clamp_eq_min]

theorem mod_256_and (s f : Nat) (hf : f < 256) : s % 256 &&& f = s &&& f := by
  have h : s % 256 = s &&& 255 := (Nat.and_pow_two_sub_one_eq_mod s 8).symm
  rw [h, Nat.and_assoc]
  congr 1
  interval_cases f <;> rfl

theorem set_ant_state_flag (a : Ant) (f g : Nat) (hg : g < 256) :
    (set_ant_state a f).state &&& g = (a.state &&& g) ||| (f &&& g) := by
  simp only [set_ant_state]
  rw [mod_256_and _ _ hg, Nat.and_distrib_right]

theorem clear_ant_state_flag (a : Ant) (f g : Nat) (hg : g < 256)
    (hfg : (255 ^^^ (f % 256)) &&& g = g) :
    (clear_ant_state a f).state &&& g = a.state &&& g := by
  simp only [clear_ant_state]
  rw [mod_256_and _ _ hg, Nat.and_assoc, hfg]

theorem set_ant_state_dead (a : Ant) : (set_ant_state a ANT_STATE_DEAD).state &&& ANT_STATE_DEAD ≠ 0 := by
  rw [set_ant_state_flag a _ _ (by decide)]
  intro h
  have h2 := congrArg (fun n : Nat => n.testBit 6) h
  have h3 : ANT_STATE_DEAD.testBit 6 = true := by decide
  simp [Nat.testBit_lor, h3] at h2

theorem same_but_position_refl (a : Ant) : same_but_position a a :=
  ⟨rfl, rfl, rfl, rfl, rfl, rfl, rfl⟩

theorem same_but_position_trans {a b c : Ant} (h1 : same_but_position a b)
    (h2 : same_but_position b c) : same_but_position a c := by
  obtain ⟨a1, a2, a3, a4, a5, a6, a7⟩ := h1
  obtain ⟨b1, b2, b3, b4, b5, b6, b7⟩ := h2
  exact ⟨b1.trans a1, b2.trans a2, b3.trans a3, b4.trans a4, b5.trans a5, b6.trans a6,
    b7.trans a7⟩

theorem move_ant_same (a : Ant) (w : World) (d : Int) : same_but_position a (move_ant a w d) := by
  unfold move_ant
  split
  · exact same_but_position_refl a
  · simp only []
    split <;> exact ⟨rfl, rfl, rfl, rfl, rfl, rfl, rfl⟩

theorem move_randomly_loop_same (a : Ant) (w : World) :
    ∀ (n : Nat) (r : Rng), same_but_position a (move_randomly_loop a w n r).1
  | 0, r => same_but_position_refl a
  | n + 1, r => by
    unfold move_randomly_loop
    simp only []
    split
    · exact move_ant_same a w _
    · exact move_randomly_loop_same a w n _

theorem move_randomly_same (a : Ant) (w : World) (r : Rng) :
    same_but_position a (move_randomly a w r).1 :=
  move_randomly_loop_same a w 10 r

theorem follow_pheromone_gradient_same (a : Ant) (w : World) (t : Int) (r : Rng) :
    same_but_position a (follow_pheromone_gradient a w t r).1 := by
  unfold follow_pheromone_gradient
  simp only []
  split
  · exact move_ant_same a w _
  · exact move_randomly_same a w r

theorem tired_check_fields (a : Ant) :
    (tired_check a).food_carrying = a.food_carrying ∧ (tired_check a).energy = a.energy ∧
      (tired_check a).pos = a.pos ∧
      (tired_check a).state &&& ANT_STATE_DEAD = a.state &&& ANT_STATE_DEAD := by
  unfold tired_check
  split
  · refine ⟨rfl, rfl, rfl, ?_⟩
    rw [set_ant_state_flag a _ _ (by decide)]
    have : ANT_STATE_TIRED &&& ANT_STATE_DEAD = 0 := by decide
    rw [this, Nat.or_zero]
  · exact ⟨rfl, rfl, rfl, rfl⟩

theorem store_reverse_direction_fields (a : Ant) :
    (store_reverse_direction a).food_carrying = a.food_carrying ∧
      (store_reverse_direction a).state = a.state ∧
      (store_reverse_direction a).pos = a.pos ∧
      (store_reverse_direction a).energy = a.energy := by
  unfold store_reverse_direction
  simp only []
  split <;> exact ⟨rfl, rfl, rfl, rfl⟩

theorem foldl_add_eq_sum (g : Int × Int → Int) :
    ∀ (l : List (Int × Int)) (t : Int), l.foldl (fun total p => total + g p) t = t + (l.map g).sum
  | [], t => by simp
  | p :: l, t => by
    rw [List.foldl_cons, foldl_add_eq_sum g l]
    simp [add_assoc]

theorem total_food_eq_sum (w : World) :
    total_food w = ((scan_cells w).map fun p => cell_food (w.grid p.2 p.1)).sum := by
  unfold total_food
  have h : (fun (total : Int) (p : Int × Int) =>
        if (w.grid p.2 p.1).terrain = TERRAIN_FOOD then total + (w.grid p.2 p.1).food_amount
        else total) =
      fun total p => total + cell_food (w.grid p.2 p.1) := by
    funext total p
    unfold cell_food
    split <;> simp
  rw [h, foldl_add_eq_sum]
  simp

theorem sum_map_update (g : Int × Int → Int) (p : Int × Int) (v : Int) :
    ∀ (l : List (Int × Int)), l.Nodup → p ∈ l →
      (l.map fun q => if q = p then v else g q).sum = (l.map g).sum - g p + v
  | [], _, hp => by simp at hp
  | q :: l, hl, hp => by
    rw [List.nodup_cons] at hl
    simp only [List.map_cons, List.sum_cons]
    by_cases hq : q = p
    · subst hq
      have hrest : (l.map fun r => if r = q then v else g r) = l.map g := by
        apply List.map_congr_left
        intro r hr
        have : r ≠ q := fun h => hl.1 (h ▸ hr)
        simp [this]
      rw [hrest]
      simp
      ring
    · have hp2 : p ∈ l := by
        rcases List.mem_cons.mp hp with h | h
        · exact absurd h.symm hq
        · exact h
      rw [sum_map_update g p v l hl.2 hp2]
      simp [hq]
      ring

theorem total_food_set_cell (w : World) (x y : Int) (c : Cell)
    (hv : is_valid_position w x y = true) :
    total_food (set_cell w x y c) = total_food w - cell_food (w.grid y x) + cell_food c := by
  rw [total_food_eq_sum, total_food_eq_sum]
  have hs : scan_cells (set_cell w x y c) = scan_cells w := rfl
  rw [hs]
  have hm : (x, y) ∈ scan_cells w := (mem_scan_cells w x y).mpr hv
  rw [← sum_map_update (fun p => cell_food (w.grid p.2 p.1)) (x, y) (cell_food c) _
    (scan_cells_nodup w) hm]
  congr 1
  apply List.map_congr_left
  rintro ⟨a, b⟩ _
  simp only [set_cell, Prod.mk.injEq]
  by_cases h : b = y ∧ a = x
  · simp [h]
  · have h2 : ¬ (a = x ∧ b = y) := fun h3 => h ⟨h3.2, h3.1⟩
    simp [h, h2]

theorem total_food_congr (w v : World) (hw : v.width = w.width) (hh : v.height = w.height)
    (hg : ∀ x y : Int, (v.grid y x).terrain = (w.grid y x).terrain ∧
      (v.grid y x).food_amount = (w.grid y x).food_amount) :
    total_food v = total_food w := by
  rw [total_food_eq_sum, total_food_eq_sum]
  have hs : scan_cells v = scan_cells w := by
    unfold scan_cells
    rw [hw, hh]
  rw [hs]
  apply congrArg
  apply List.map_congr_left
  rintro ⟨a, b⟩ _
  simp only [cell_food, (hg a b).1, (hg a b).2]

theorem only_pheromones_changed_refl (w : World) : only_pheromones_changed w w :=
  ⟨rfl, rfl, rfl, fun _ _ => ⟨rfl, rfl, rfl⟩⟩

theorem only_pheromones_changed_trans {u v w : World} (h1 : only_pheromones_changed u v)
    (h2 : only_pheromones_changed v w) : only_pheromones_changed u w := by
  obtain ⟨a1, a2, a3, a4⟩ := h1
  obtain ⟨b1, b2, b3, b4⟩ := h2
  refine ⟨b1.trans a1, b2.trans a2, b3.trans a3, fun x y => ?_⟩
  exact ⟨(b4 x y).1.trans (a4 x y).1, (b4 x y).2.1.trans (a4 x y).2.1,
    (b4 x y).2.2.trans (a4 x y).2.2⟩

theorem only_pheromones_changed_total_food {w v : World} (h : only_pheromones_changed w v) :
    total_food v = total_food w :=
  total_food_congr w v h.1 h.2.1 fun x y => ⟨(h.2.2.2 x y).1, (h.2.2.2 x y).2.1⟩

theorem set_cell_only_pheromones (w : World) (x y : Int) (c : Cell)
    (hc : c.terrain = (w.grid y x).terrain ∧ c.food_amount = (w.grid y x).food_amount ∧
      c.colony_id = (w.grid y x).colony_id) :
    only_pheromones_changed w (set_cell w x y c) := by
  refine ⟨rfl, rfl, rfl, fun a b => ?_⟩
  simp only [set_cell]
  by_cases h : b = y ∧ a = x
  · obtain ⟨rfl, rfl⟩ := h
    simpa using hc
  · simp [h]

theorem deposit_pheromone_only_pheromones (w : World) (ant : Ant) :
    only_pheromones_changed w (deposit_pheromone w ant) := by
  unfold deposit_pheromone
  split
  · exact only_pheromones_changed_refl w
  · rename_i cell hcell
    have hc : cell = w.grid ant.pos.y ant.pos.x := by
      unfold get_cell at hcell
      split at hcell
      · exact absurd hcell (by simp)
      · exact (Option.some.inj hcell).symm
    subst hc
    simp only []
    split
    · exact set_cell_only_pheromones w _ _ _ ⟨rfl, rfl, rfl⟩
    · split
      · exact set_cell_only_pheromones w _ _ _ ⟨rfl, rfl, rfl⟩
      · exact only_pheromones_changed_refl w

theorem evaporate_only_pheromones (w : World) :
    only_pheromones_changed w (evaporate_pheromones w) := by
  rw [evaporate_pheromones_eq]
  refine ⟨rfl, rfl, rfl, fun x y => ?_⟩
  by_cases hv : is_valid_position w x y = true <;> simp [hv, evaporate_cell]

theorem diffuse_only_pheromones (w : World) :
    only_pheromones_changed w (diffuse_pheromones w) := by
  rw [diffuse_pheromones_eq]
  refine ⟨rfl, rfl, rfl, fun x y => ?_⟩
  by_cases hv : is_valid_position w x y = true
  · simp only [hv, if_true]
    exact diffuse_cell_frame w _ x y _
  · simp [hv]

theorem update_ant_cases (w : World) (a : Ant) (r : Rng) :
    (a.energy - ANT_ENERGY_PER_STEP ≤ 0 ∧
      update_ant w a r =
        (w, set_ant_state { a with energy := a.energy - ANT_ENERGY_PER_STEP } ANT_STATE_DEAD, r)) ∨
    (0 < a.energy - ANT_ENERGY_PER_STEP ∧ a.state &&& ANT_STATE_SEARCHING ≠ 0 ∧
      food_here (get_cell w a.pos.x a.pos.y) a = true ∧
      update_ant w a r = pick_up_food w { a with energy := a.energy - ANT_ENERGY_PER_STEP } r) ∨
    (0 < a.energy - ANT_ENERGY_PER_STEP ∧ a.state &&& ANT_STATE_SEARCHING ≠ 0 ∧
      food_here (get_cell w a.pos.x a.pos.y) a = false ∧
      update_ant w a r = search_step w { a with energy := a.energy - ANT_ENERGY_PER_STEP } r) ∨
    (0 < a.energy - ANT_ENERGY_PER_STEP ∧ a.state &&& ANT_STATE_SEARCHING = 0 ∧
      a.state &&& ANT_STATE_RETURNING ≠ 0 ∧
      at_own_nest (get_cell w a.pos.x a.pos.y) a = true ∧
      update_ant w a r = deliver_food w { a with energy := a.energy - ANT_ENERGY_PER_STEP } r) ∨
    (0 < a.energy - ANT_ENERGY_PER_STEP ∧ a.state &&& ANT_STATE_SEARCHING = 0 ∧
      a.state &&& ANT_STATE_RETURNING ≠ 0 ∧
      at_own_nest (get_cell w a.pos.x a.pos.y) a = false ∧
      update_ant w a r = return_step w { a with energy := a.energy - ANT_ENERGY_PER_STEP } r) ∨
    (0 < a.energy - ANT_ENERGY_PER_STEP ∧ a.state &&& ANT_STATE_SEARCHING = 0 ∧
      a.state &&& ANT_STATE_RETURNING = 0 ∧
      update_ant w a r =
        (w, tired_check { a with energy := a.energy - ANT_ENERGY_PER_STEP }, r)) := by
  unfold update_ant
  simp only []
  by_cases he : a.energy - ANT_ENERGY_PER_STEP ≤ 0
  · left
    exact ⟨he, by rw [if_pos he]⟩
  · right
    have hpos : 0 < a.energy - ANT_ENERGY_PER_STEP := not_le.mp he
    rw [if_neg he]
    by_cases hs : a.state &&& ANT_STATE_SEARCHING ≠ 0
    · rw [if_pos hs]
      by_cases hf : food_here (get_cell w a.pos.x a.pos.y) a = true
      · left
        have hf2 : food_here (get_cell w a.pos.x a.pos.y)
            { a with energy := a.energy - ANT_ENERGY_PER_STEP } = true := hf
        exact ⟨hpos, hs, hf, by rw [if_pos hf2]⟩
      · right; left
        have hf2 : ¬ food_here (get_cell w a.pos.x a.pos.y)
            { a with energy := a.energy - ANT_ENERGY_PER_STEP } = true := hf
        exact ⟨hpos, hs, by simpa using hf, by rw [if_neg hf2]⟩
    · rw [if_neg hs]
      have hs0 : a.state &&& ANT_STATE_SEARCHING = 0 := not_not.mp hs
      right; right
      by_cases hr : a.state &&& ANT_STATE_RETURNING ≠ 0
      · rw [if_pos hr]
        by_cases hn : at_own_nest (get_cell w a.pos.x a.pos.y) a = true
        · left
          have hn2 : at_own_nest (get_cell w a.pos.x a.pos.y)
              { a with energy := a.energy - ANT_ENERGY_PER_STEP } = true := hn
          exact ⟨hpos, hs0, hr, hn, by rw [if_pos hn2]⟩
        · right; left
          have hn2 : ¬ at_own_nest (get_cell w a.pos.x a.pos.y)
              { a with energy := a.energy - ANT_ENERGY_PER_STEP } = true := hn
          exact ⟨hpos, hs0, hr, by simpa using hn, by rw [if_neg hn2]⟩
      · right; right
        rw [if_neg hr]
        exact ⟨hpos, hs0, not_not.mp hr, rfl⟩

theorem food_here_spec (w : World) (a : Ant) (h : food_here (get_cell w a.pos.x a.pos.y) a = true) :
    is_valid_position w a.pos.x a.pos.y = true ∧
      (w.grid a.pos.y a.pos.x).terrain = TERRAIN_FOOD ∧
      (w.grid a.pos.y a.pos.x).food_amount > 0 ∧ a.food_carrying = 0 := by
  by_cases hv : is_valid_position w a.pos.x a.pos.y = true
  · rw [get_cell_valid w _ _ hv] at h
    simp only [food_here, decide_eq_true_eq] at h
    exact ⟨hv, h⟩
  · rw [get_cell_invalid w _ _ hv] at h
    simp [food_here] at h

theorem at_own_nest_spec (w : World) (a : Ant)
    (h : at_own_nest (get_cell w a.pos.x a.pos.y) a = true) :
    is_valid_position w a.pos.x a.pos.y = true ∧
      (w.grid a.pos.y a.pos.x).terrain = TERRAIN_NEST ∧
      (w.grid a.pos.y a.pos.x).colony_id = a.colony_id ∧ a.food_carrying > 0 := by
  by_cases hv : is_valid_position w a.pos.x a.pos.y = true
  · rw [get_cell_valid w _ _ hv] at h
    simp only [at_own_nest, decide_eq_true_eq] at h
    exact ⟨hv, h⟩
  · rw [get_cell_invalid w _ _ hv] at h
    simp [at_own_nest] at h

theorem tick_frame_refl (w : World) : tick_frame w w :=
  ⟨rfl, rfl, rfl, fun _ _ => ⟨rfl, Or.inl rfl⟩⟩

theorem tick_frame_trans {u v w : World} (h1 : tick_frame u v) (h2 : tick_frame v w) :
    tick_frame u w := by
  obtain ⟨a1, a2, a3, a4⟩ := h1
  obtain ⟨b1, b2, b3, b4⟩ := h2
  refine ⟨b1.trans a1, b2.trans a2, b3.trans a3, fun x y => ⟨(b4 x y).1.trans (a4 x y).1, ?_⟩⟩
  rcases (a4 x y).2 with e1 | ⟨e1, e1b⟩ <;> rcases (b4 x y).2 with e2 | ⟨e2, e2b⟩
  · exact Or.inl (e2.trans e1)
  · exact Or.inr ⟨e1 ▸ e2, e2b⟩
  · exact Or.inr ⟨e1, e2.trans e1b⟩
  · rw [e1b] at e2
    exact absurd e2 (by decide)

theorem only_pheromones_changed_tick_frame {w v : World} (h : only_pheromones_changed w v) :
    tick_frame w v :=
  ⟨h.1, h.2.1, by rw [h.2.2.1], fun x y => ⟨(h.2.2.2 x y).2.2, Or.inl (h.2.2.2 x y).1⟩⟩

theorem tick_frame_valid {w v : World} (h : tick_frame w v) (x y : Int) :
    is_valid_position v x y = is_valid_position w x y := by
  simp only [is_valid_position, h.1, h.2.1]

theorem tick_frame_length {w v : World} (h : tick_frame w v) :
    v.colonies.length = w.colonies.length := by
  have := congrArg List.length h.2.2.1
  simpa using this

theorem tick_frame_nests_valid {w v : World} (h : tick_frame w v) (hn : nests_valid w) :
    nests_valid v := by
  intro x y hv ht
  rw [tick_frame_valid h] at hv
  have hterr : (w.grid y x).terrain = TERRAIN_NEST := by
    rcases (h.2.2.2 x y).2 with e | ⟨_, e⟩
    · exact e ▸ ht
    · rw [e] at ht
      exact absurd ht (by decide)
  have := hn x y hv hterr
  rw [(h.2.2.2 x y).1, tick_frame_length h]
  exact this

theorem map_modify_of_eq {α β : Type} (g : α → β) (f : α → α) (hfg : ∀ c, g (f c) = g c) :
    ∀ (l : List α) (i : Nat), (l.modify f i).map g = l.map g
  | [], i => by simp
  | c :: l, 0 => by simp [hfg]
  | c :: l, i + 1 => by simp [map_modify_of_eq g f hfg l i]

theorem sum_map_modify {α : Type} (g : α → Int) (f : α → α) :
    ∀ (l : List α) (i : Nat) (c : α), l[i]? = some c →
      ((l.modify f i).map g).sum = (l.map g).sum - g c + g (f c)
  | [], i, c, h => by simp at h
  | d :: l, 0, c, h => by
    simp only [List.getElem?_cons_zero, Option.some.injEq] at h
    subst h
    simp
    ring
  | d :: l, i + 1, c, h => by
    simp only [List.getElem?_cons_succ] at h
    simp only [List.modify_succ_cons, List.map_cons, List.sum_cons, sum_map_modify g f l i c h]
    ring

theorem modify_colony_frame (w : World) (idx : Int) (f : Colony → Colony)
    (hf : ∀ c, (f c).ants = c.ants) :
    (modify_colony w idx f).width = w.width ∧ (modify_colony w idx f).height = w.height ∧
      (modify_colony w idx f).grid = w.grid ∧
      (modify_colony w idx f).colonies.map Colony.ants = w.colonies.map Colony.ants := by
  unfold modify_colony
  split
  · exact ⟨rfl, rfl, rfl, rfl⟩
  · exact ⟨rfl, rfl, rfl, map_modify_of_eq Colony.ants f hf _ _⟩

theorem pick_up_food_spec (w : World) (a : Ant) (r : Rng)
    (hv : is_valid_position w a.pos.x a.pos.y = true)
    (ht : (w.grid a.pos.y a.pos.x).terrain = TERRAIN_FOOD)
    (hamt : (w.grid a.pos.y a.pos.x).food_amount > 0) :
    tick_frame w (pick_up_food w a r).1 ∧
      total_food (pick_up_food w a r).1 = total_food w - 1 ∧
      (pick_up_food w a r).1.colonies = w.colonies ∧
      (pick_up_food w a r).2.1.food_carrying = 1 ∧
      (pick_up_food w a r).2.1.state &&& ANT_STATE_DEAD = a.state &&& ANT_STATE_DEAD ∧
      (pick_up_food w a r).2.1.pos = a.pos := by
  have hpos : (pick_up_food w a r).2.1.pos = a.pos := by
    simp only [pick_up_food]
    exact (store_reverse_direction_fields _).2.2.1
  have hfc : (pick_up_food w a r).2.1.food_carrying = 1 := by
    simp only [pick_up_food]
    exact (store_reverse_direction_fields _).1
  have hst : (pick_up_food w a r).2.1.state &&& ANT_STATE_DEAD = a.state &&& ANT_STATE_DEAD := by
    simp only [pick_up_food]
    rw [(store_reverse_direction_fields _).2.1]
    show (set_ant_state (clear_ant_state { a with food_carrying := 1 } ANT_STATE_SEARCHING)
      (ANT_STATE_RETURNING ||| ANT_STATE_CARRYING)).state &&& ANT_STATE_DEAD = _
    rw [set_ant_state_flag _ _ _ (by decide), clear_ant_state_flag _ _ _ (by decide) (by decide)]
    have : (ANT_STATE_RETURNING ||| ANT_STATE_CARRYING) &&& ANT_STATE_DEAD = 0 := by decide
    rw [this, Nat.or_zero]
  obtain ⟨w1, hw1⟩ : ∃ w1, w1 = set_cell w a.pos.x a.pos.y
      (if (w.grid a.pos.y a.pos.x).food_amount - 1 ≤ 0 then
        { w.grid a.pos.y a.pos.x with
          food_amount := (w.grid a.pos.y a.pos.x).food_amount - 1, terrain := TERRAIN_EMPTY }
      else { w.grid a.pos.y a.pos.x with
          food_amount := (w.grid a.pos.y a.pos.x).food_amount - 1 }) := ⟨_, rfl⟩
  have hworld : (pick_up_food w a r).1 = deposit_pheromone w1 (pick_up_food w a r).2.1 := by
    rw [hw1]
    simp only [pick_up_food]
    rw [(store_reverse_direction_fields _).2.2.1]
    rfl
  have hdep := deposit_pheromone_only_pheromones w1 (pick_up_food w a r).2.1
  have hf1 : tick_frame w w1 := by
    rw [hw1]
    refine ⟨rfl, rfl, rfl, fun x y => ?_⟩
    simp only [set_cell]
    by_cases hp : y = a.pos.y ∧ x = a.pos.x
    · obtain ⟨rfl, rfl⟩ := hp
      by_cases hle : (w.grid a.pos.y a.pos.x).food_amount - 1 ≤ 0
      · simp [hle, ht]
      · simp [hle]
    · simp [hp]
  have htf1 : total_food w1 = total_food w - 1 := by
    rw [hw1, total_food_set_cell w _ _ _ hv]
    simp only [cell_food, ht, if_true]
    split
    · simp only [reduceCtorEq, if_false]
      omega
    · simp only [ht, if_true]
      omega
  rw [hworld]
  refine ⟨tick_frame_trans hf1 (only_pheromones_changed_tick_frame hdep), ?_, ?_, hfc, hst, hpos⟩
  · rw [only_pheromones_changed_total_food hdep, htf1]
  · rw [hdep.2.2.1, hw1]
    rfl

theorem search_step_spec (w : World) (a : Ant) (r : Rng) :
    only_pheromones_changed w (search_step w a r).1 ∧
      (search_step w a r).2.1.food_carrying = a.food_carrying ∧
      (search_step w a r).2.1.state &&& ANT_STATE_DEAD = a.state &&& ANT_STATE_DEAD := by
  simp only [search_step]
  refine ⟨deposit_pheromone_only_pheromones w _, ?_, ?_⟩
  · rw [(tired_check_fields _).1]
    split
    · exact (follow_pheromone_gradient_same a w _ _).2.2.2.2.1
    · exact (move_randomly_same a w _).2.2.2.2.1
  · rw [(tired_check_fields _).2.2.2]
    split
    · rw [(follow_pheromone_gradient_same a w _ _).2.1]
    · rw [(move_randomly_same a w _).2.1]

theorem return_step_spec (w : World) (a : Ant) (r : Rng) :
    only_pheromones_changed w (return_step w a r).1 ∧
      (return_step w a r).2.1.food_carrying = a.food_carrying ∧
      (return_step w a r).2.1.state &&& ANT_STATE_DEAD = a.state &&& ANT_STATE_DEAD := by
  simp only [return_step]
  refine ⟨deposit_pheromone_only_pheromones w _, ?_, ?_⟩
  · rw [(tired_check_fields _).1]
    exact (follow_pheromone_gradient_same a w _ _).2.2.2.2.1
  · rw [(tired_check_fields _).2.2.2, (follow_pheromone_gradient_same a w _ _).2.1]

theorem deliver_food_spec (w : World) (a : Ant) (r : Rng) :
    tick_frame w (deliver_food w a r).1 ∧
      total_food (deliver_food w a r).1 = total_food w ∧
      (deliver_food w a r).2.1.food_carrying = 0 ∧
      (deliver_food w a r).2.1.state &&& ANT_STATE_DEAD = a.state &&& ANT_STATE_DEAD ∧
      (0 ≤ a.colony_id ∧ a.colony_id < (w.colonies.length : Int) →
        food_collected_total (deliver_food w a r).1 = food_collected_total w + 1) := by
  have hfr := modify_colony_frame w a.colony_id
    (fun colony => { colony with food_collected := colony.food_collected + 1 }) (fun _ => rfl)
  have hworld : (deliver_food w a r).1 = modify_colony w a.colony_id
      (fun colony => { colony with food_collected := colony.food_collected + 1 }) := rfl
  rw [hworld]
  refine ⟨⟨hfr.1, hfr.2.1, hfr.2.2.2, fun x y => by rw [hfr.2.2.1]; exact ⟨rfl, Or.inl rfl⟩⟩,
    total_food_congr _ _ hfr.1 hfr.2.1 (fun x y => by rw [hfr.2.2.1]; exact ⟨rfl, rfl⟩), ?_, ?_, ?_⟩
  · simp only [deliver_food]
    exact (store_reverse_direction_fields _).1
  · simp only [deliver_food]
    rw [(store_reverse_direction_fields _).2.1]
    rw [set_ant_state_flag _ _ _ (by decide), clear_ant_state_flag _ _ _ (by decide) (by decide)]
    have : ANT_STATE_SEARCHING &&& ANT_STATE_DEAD = 0 := by decide
    rw [this, Nat.or_zero]
  · rintro ⟨h0, h1⟩
    have hlt : a.colony_id.toNat < w.colonies.length := by omega
    have hget : w.colonies[a.colony_id.toNat]? = some (w.colonies[a.colony_id.toNat]) :=
      List.getElem?_eq_getElem hlt
    simp only [food_collected_total, modify_colony, not_lt.mpr h0, if_false]
    rw [sum_map_modify _ _ _ _ _ hget]
    ring

theorem only_pheromones_changed_collected {w v : World} (h : only_pheromones_changed w v) :
    food_collected_total v = food_collected_total w := by
  simp only [food_collected_total, h.2.2.1]

theorem update_ant_frame (w : World) (a : Ant) (r : Rng) : tick_frame w (update_ant w a r).1 := by
  rcases update_ant_cases w a r with ⟨_, e⟩ | ⟨_, _, hf, e⟩ | ⟨_, _, _, e⟩ | ⟨_, _, _, _, e⟩ |
    ⟨_, _, _, _, e⟩ | ⟨_, _, _, e⟩
  · rw [e]; exact tick_frame_refl w
  · rw [e]
    obtain ⟨hv, ht, hamt, _⟩ := food_here_spec w a hf
    exact (pick_up_food_spec w { a with energy := a.energy - ANT_ENERGY_PER_STEP } r hv ht hamt).1
  · rw [e]; exact only_pheromones_changed_tick_frame (search_step_spec w _ r).1
  · rw [e]; exact (deliver_food_spec w _ r).1
  · rw [e]; exact only_pheromones_changed_tick_frame (return_step_spec w _ r).1
  · rw [e]; exact tick_frame_refl w

theorem update_ant_account (w : World) (a : Ant) (r : Rng) (hn : nests_valid w)
    (hf : a.food_carrying = 0 ∨ a.food_carrying = 1) :
    total_food (update_ant w a r).1 + food_collected_total (update_ant w a r).1 +
        (update_ant w a r).2.1.food_carrying =
      total_food w + food_collected_total w + a.food_carrying := by
  rcases update_ant_cases w a r with ⟨_, e⟩ | ⟨_, _, hfh, e⟩ | ⟨_, _, _, e⟩ | ⟨_, _, _, hnest, e⟩ |
    ⟨_, _, _, _, e⟩ | ⟨_, _, _, e⟩
  · rw [e]; rfl
  · rw [e]
    obtain ⟨hv, ht, hamt, hc⟩ := food_here_spec w a hfh
    obtain ⟨_, h2, h3, h4, _, _⟩ :=
      pick_up_food_spec w { a with energy := a.energy - ANT_ENERGY_PER_STEP } r hv ht hamt
    have hcol : food_collected_total
        (pick_up_food w { a with energy := a.energy - ANT_ENERGY_PER_STEP } r).1 =
        food_collected_total w := by
      simp only [food_collected_total, h3]
    rw [h2, h4, hcol, hc]
    ring
  · rw [e]
    obtain ⟨h1, h2, _⟩ := search_step_spec w { a with energy := a.energy - ANT_ENERGY_PER_STEP } r
    rw [only_pheromones_changed_total_food h1, only_pheromones_changed_collected h1, h2]
  · rw [e]
    obtain ⟨hv, ht, hid, hc⟩ := at_own_nest_spec w a hnest
    obtain ⟨_, h2, h3, _, h5⟩ :=
      deliver_food_spec w { a with energy := a.energy - ANT_ENERGY_PER_STEP } r
    have hidx := hn _ _ hv ht
    rw [hid] at hidx
    have hone : a.food_carrying = 1 := by
      rcases hf with h | h
      · omega
      · exact h
    rw [h2, h3, h5 hidx, hone]
    ring
  · rw [e]
    obtain ⟨h1, h2, _⟩ := return_step_spec w { a with energy := a.energy - ANT_ENERGY_PER_STEP } r
    rw [only_pheromones_changed_total_food h1, only_pheromones_changed_collected h1, h2]
  · rw [e]
    simp only [(tired_check_fields _).1]

theorem update_ant_post (w : World) (a : Ant) (r : Rng) (hnd : a.state &&& ANT_STATE_DEAD = 0)
    (hp : carrier_survives a) : dead_carries_nothing (update_ant w a r).2.1 := by
  obtain ⟨hf, hE⟩ := hp
  rcases update_ant_cases w a r with ⟨he, e⟩ | ⟨_, _, hfh, e⟩ | ⟨_, _, _, e⟩ | ⟨_, _, _, hnest, e⟩ |
    ⟨_, _, _, _, e⟩ | ⟨_, _, _, e⟩
  · rw [e]
    have h0 : a.food_carrying = 0 := by
      by_contra hne
      have := (hE hne).2
      linarith
    exact ⟨Or.inl h0, fun _ => h0⟩
  · rw [e]
    obtain ⟨hv, ht, hamt, hc⟩ := food_here_spec w a hfh
    obtain ⟨_, _, _, h4, h5, _⟩ :=
      pick_up_food_spec w { a with energy := a.energy - ANT_ENERGY_PER_STEP } r hv ht hamt
    refine ⟨Or.inr h4, fun hd => ?_⟩
    rw [h5] at hd
    exact absurd hnd hd
  · rw [e]
    obtain ⟨_, h2, h3⟩ := search_step_spec w { a with energy := a.energy - ANT_ENERGY_PER_STEP } r
    refine ⟨by rw [h2]; exact hf, fun hd => ?_⟩
    rw [h3] at hd
    exact absurd hnd hd
  · rw [e]
    obtain ⟨_, _, h3, _, _⟩ :=
      deliver_food_spec w { a with energy := a.energy - ANT_ENERGY_PER_STEP } r
    exact ⟨Or.inl h3, fun _ => h3⟩
  · rw [e]
    obtain ⟨_, h2, h3⟩ := return_step_spec w { a with energy := a.energy - ANT_ENERGY_PER_STEP } r
    refine ⟨by rw [h2]; exact hf, fun hd => ?_⟩
    rw [h3] at hd
    exact absurd hnd hd
  · rw [e]
    refine ⟨by rw [(tired_check_fields _).1]; exact hf, fun hd => ?_⟩
    rw [(tired_check_fields _).2.2.2] at hd
    exact absurd hnd hd

theorem update_ants_loop_frame :
    ∀ (ants : List Ant) (w : World) (r : Rng),
      tick_frame w (update_ants_loop w r ants).1 ∧
        (update_ants_loop w r ants).2.1.length = ants.length
  | [], w, r => ⟨tick_frame_refl w, rfl⟩
  | a :: rest, w, r => by
    unfold update_ants_loop
    split
    · have ih := update_ants_loop_frame rest w r
      exact ⟨ih.1, by simp [ih.2]⟩
    · have ih := update_ants_loop_frame rest (update_ant w a r).1 (update_ant w a r).2.2
      exact ⟨tick_frame_trans (update_ant_frame w a r) ih.1, by simp [ih.2]⟩

theorem update_ants_loop_account :
    ∀ (ants : List Ant) (w : World) (r : Rng), nests_valid w →
      (∀ a ∈ ants, carrier_survives a) →
      total_food (update_ants_loop w r ants).1 + food_collected_total (update_ants_loop w r ants).1 +
          carried (update_ants_loop w r ants).2.1 =
        total_food w + food_collected_total w + carried ants ∧
      ∀ a ∈ (update_ants_loop w r ants).2.1, dead_carries_nothing a
  | [], w, r, _, _ => ⟨rfl, by intro a ha; simp [update_ants_loop] at ha⟩
  | a :: rest, w, r, hn, hp => by
    have hpa := hp a (List.mem_cons_self a rest)
    have hprest : ∀ b ∈ rest, carrier_survives b := fun b hb => hp b (List.mem_cons_of_mem a hb)
    unfold update_ants_loop
    split
    · rename_i hd
      have ih := update_ants_loop_account rest w r hn hprest
      refine ⟨?_, ?_⟩
      · have := ih.1
        simp only [carried, List.map_cons, List.sum_cons] at this ⊢
        linarith
      · intro b hb
        rcases List.mem_cons.mp hb with rfl | hb
        · refine ⟨hpa.1, fun _ => ?_⟩
          by_contra hne
          exact hd (hpa.2 hne).1
        · exact ih.2 b hb
    · rename_i hd
      have hnd : a.state &&& ANT_STATE_DEAD = 0 := not_not.mp hd
      have hn2 := tick_frame_nests_valid (update_ant_frame w a r) hn
      have ih := update_ants_loop_account rest (update_ant w a r).1 (update_ant w a r).2.2 hn2 hprest
      have hacc := update_ant_account w a r hn hpa.1
      refine ⟨?_, ?_⟩
      · have := ih.1
        simp only [carried, List.map_cons, List.sum_cons] at this ⊢
        linarith
      · intro b hb
        rcases List.mem_cons.mp hb with rfl | hb
        · exact update_ant_post w a r hnd hpa
        · exact ih.2 b hb

theorem cleanup_dead_ants_loop_fst :
    ∀ (ants : List Ant) (total active : Int),
      (cleanup_dead_ants_loop ants total active).1 =
        ants.filter fun a => decide (a.state &&& ANT_STATE_DEAD = 0)
  | [], _, _ => rfl
  | a :: rest, total, active => by
    unfold cleanup_dead_ants_loop
    by_cases hd : a.state &&& ANT_STATE_DEAD ≠ 0
    · rw [if_pos hd, cleanup_dead_ants_loop_fst rest]
      have : ¬ (a.state &&& ANT_STATE_DEAD = 0) := hd
      simp [List.filter_cons, this]
    · rw [if_neg hd]
      have : a.state &&& ANT_STATE_DEAD = 0 := not_not.mp hd
      simp [List.filter_cons, this, cleanup_dead_ants_loop_fst rest]

theorem cleanup_dead_ants_ants (c : Colony) :
    (cleanup_dead_ants c).ants = c.ants.filter fun a => decide (a.state &&& ANT_STATE_DEAD = 0) := by
  simp only [cleanup_dead_ants, cleanup_dead_ants_loop_fst]

theorem cleanup_dead_ants_food_collected (c : Colony) :
    (cleanup_dead_ants c).food_collected = c.food_collected := rfl

theorem carried_filter_alive :
    ∀ (ants : List Ant), (∀ a ∈ ants, dead_carries_nothing a) →
      carried (ants.filter fun a => decide (a.state &&& ANT_STATE_DEAD = 0)) = carried ants
  | [], _ => rfl
  | a :: rest, h => by
    have ih := carried_filter_alive rest fun b hb => h b (List.mem_cons_of_mem a hb)
    have ha := h a (List.mem_cons_self a rest)
    by_cases hd : a.state &&& ANT_STATE_DEAD = 0
    · simp only [List.filter_cons, hd, decide_True, if_true]
      simp only [carried, List.map_cons, List.sum_cons] at ih ⊢
      rw [ih]
    · simp only [List.filter_cons, hd, decide_False, Bool.false_eq_true, if_false]
      simp only [carried, List.map_cons, List.sum_cons] at ih ⊢
      rw [ih, ha.2 hd]
      ring

theorem update_colony_ants_eq (s : World × Rng) (i : Nat) (c : Colony)
    (hc : s.1.colonies[i]? = some c) :
    update_colony_ants s i =
      ({ (update_ants_loop s.1 s.2 c.ants).1 with
          colonies := (update_ants_loop s.1 s.2 c.ants).1.colonies.modify
            (fun d => cleanup_dead_ants { d with ants := (update_ants_loop s.1 s.2 c.ants).2.1 }) i },
        (update_ants_loop s.1 s.2 c.ants).2.2) := by
  unfold update_colony_ants
  rw [List.get?_eq_getElem?, hc]

theorem update_all_ants_induction (w : World) (r : Rng) (P : Nat → World × Rng → Prop)
    (h0 : P 0 (w, r))
    (hstep : ∀ (i : Nat) (s : World × Rng), i < w.colonies.length → P i s →
      P (i + 1) (update_colony_ants s i)) :
    P w.colonies.length (update_all_ants w r) := by
  unfold update_all_ants
  have key : ∀ n : Nat, n ≤ w.colonies.length →
      P n ((List.range n).foldl update_colony_ants (w, r)) := by
    intro n
    induction n with
    | zero => intro _; exact h0
    | succ n ih =>
      intro hn
      rw [List.range_succ, List.foldl_append]
      exact hstep n _ (by omega) (ih (by omega))
  exact key _ (le_refl _)

theorem ants_getElem_of_map_eq {l1 l2 : List Colony}
    (h : l1.map Colony.ants = l2.map Colony.ants) (i : Nat) :
    (l1[i]?).map Colony.ants = (l2[i]?).map Colony.ants := by
  have := congrArg (fun l => l[i]?) h
  simpa [List.getElem?_map] using this

theorem update_colony_ants_ants (s : World × Rng) (i : Nat) (c : Colony)
    (hc : s.1.colonies[i]? = some c) :
    (update_colony_ants s i).1.colonies.length = s.1.colonies.length ∧
      ((update_colony_ants s i).1.colonies[i]?).map Colony.ants =
        some ((update_ants_loop s.1 s.2 c.ants).2.1.filter
          fun a => decide (a.state &&& ANT_STATE_DEAD = 0)) ∧
      ∀ j : Nat, j ≠ i →
        ((update_colony_ants s i).1.colonies[j]?).map Colony.ants =
          (s.1.colonies[j]?).map Colony.ants := by
  rw [update_colony_ants_eq s i c hc]
  have hfr := (update_ants_loop_frame c.ants s.1 s.2).1
  have hlen := tick_frame_length hfr
  refine ⟨by simp [hlen], ?_, ?_⟩
  · simp only [List.getElem?_modify_eq, Option.map_map]
    have hi : i < s.1.colonies.length := by
      rcases Nat.lt_or_ge i s.1.colonies.length with h | h
      · exact h
      · rw [List.getElem?_eq_none h] at hc
        exact absurd hc (by simp)
    have hi2 : i < (update_ants_loop s.1 s.2 c.ants).1.colonies.length := by omega
    rw [List.getElem?_eq_getElem hi2]
    simp [cleanup_dead_ants_ants]
  · intro j hj
    simp only [List.getElem?_modify_ne _ _ (Ne.symm hj)]
    exact ants_getElem_of_map_eq hfr.2.2.1 j

theorem update_ants_loop_dead_cons (a : Ant) (post : List Ant) (v : World) (q : Rng)
    (hd : a.state &&& ANT_STATE_DEAD ≠ 0) :
    update_ants_loop v q (a :: post) =
      ((update_ants_loop v q post).1, a :: (update_ants_loop v q post).2.1,
        (update_ants_loop v q post).2.2) := by
  simp only [update_ants_loop, if_pos hd]

theorem update_ants_loop_alive_cons (a : Ant) (post : List Ant) (v : World) (q : Rng)
    (hd : ¬ a.state &&& ANT_STATE_DEAD ≠ 0) :
    update_ants_loop v q (a :: post) =
      ((update_ants_loop (update_ant v a q).1 (update_ant v a q).2.2 post).1,
        (update_ant v a q).2.1 ::
          (update_ants_loop (update_ant v a q).1 (update_ant v a q).2.2 post).2.1,
        (update_ants_loop (update_ant v a q).1 (update_ant v a q).2.2 post).2.2) := by
  simp only [update_ants_loop, if_neg hd]

theorem update_ants_loop_append :
    ∀ (l1 l2 : List Ant) (v : World) (q : Rng),
      update_ants_loop v q (l1 ++ l2) =
        ((update_ants_loop (update_ants_loop v q l1).1 (update_ants_loop v q l1).2.2 l2).1,
          (update_ants_loop v q l1).2.1 ++
            (update_ants_loop (update_ants_loop v q l1).1 (update_ants_loop v q l1).2.2 l2).2.1,
          (update_ants_loop (update_ants_loop v q l1).1 (update_ants_loop v q l1).2.2 l2).2.2)
  | [], l2, v, q => by simp [update_ants_loop]
  | a :: l1, l2, v, q => by
    by_cases hd : a.state &&& ANT_STATE_DEAD ≠ 0
    · rw [List.cons_append, update_ants_loop_dead_cons a (l1 ++ l2) v q hd,
        update_ants_loop_append l1 l2 v q, update_ants_loop_dead_cons a l1 v q hd]
      rfl
    · rw [List.cons_append, update_ants_loop_alive_cons a (l1 ++ l2) v q hd,
        update_ants_loop_append l1 l2 _ _, update_ants_loop_alive_cons a l1 v q hd]
      rfl

theorem update_colony_ants_other (s : World × Rng) (i j : Nat) (hj : j ≠ i) :
    ((update_colony_ants s i).1.colonies[j]?).map Colony.ants =
      (s.1.colonies[j]?).map Colony.ants := by
  cases hc : s.1.colonies[i]? with
  | none =>
    have : update_colony_ants s i = s := by
      unfold update_colony_ants
      rw [List.get?_eq_getElem?, hc]
    rw [this]
  | some c => exact (update_colony_ants_ants s i c hc).2.2 j hj

theorem update_colony_ants_length (s : World × Rng) (i : Nat) :
    (update_colony_ants s i).1.colonies.length = s.1.colonies.length := by
  cases hc : s.1.colonies[i]? with
  | none =>
    have : update_colony_ants s i = s := by
      unfold update_colony_ants
      rw [List.get?_eq_getElem?, hc]
    rw [this]
  | some c => exact (update_colony_ants_ants s i c hc).1

theorem update_colonies_before (w : World) (r : Rng) (i : Nat) :
    ∀ n : Nat, n ≤ i →
      (((List.range n).foldl update_colony_ants (w, r)).1.colonies[i]?).map Colony.ants =
        (w.colonies[i]?).map Colony.ants := by
  intro n
  induction n with
  | zero => intro _; rfl
  | succ n ih =>
    intro hn
    rw [List.range_succ, List.foldl_append, List.foldl_cons, List.foldl_nil,
      update_colony_ants_other _ n i (by omega)]
    exact ih (by omega)

theorem update_all_ants_no_dead (w : World) (r : Rng) :
    ∀ c ∈ (update_all_ants w r).1.colonies, ∀ a ∈ c.ants, a.state &&& ANT_STATE_DEAD = 0 := by
  have key := update_all_ants_induction w r
    (fun n s => s.1.colonies.length = w.colonies.length ∧
      ∀ j : Nat, j < n → ∀ c, s.1.colonies[j]? = some c →
        ∀ a ∈ c.ants, a.state &&& ANT_STATE_DEAD = 0)
    ⟨rfl, fun j hj => absurd hj (Nat.not_lt_zero j)⟩
    (by
      intro i s hi ⟨hlen, hinv⟩
      refine ⟨by rw [update_colony_ants_length, hlen], ?_⟩
      intro j hj c hc a ha
      have hi2 : i < s.1.colonies.length := by omega
      have hci : s.1.colonies[i]? = some (s.1.colonies[i]) := List.getElem?_eq_getElem hi2
      by_cases hji : j = i
      · subst hji
        have h2 := (update_colony_ants_ants s j _ hci).2.1
        rw [hc] at h2
        simp only [Option.map_some', Option.some.injEq] at h2
        rw [h2] at ha
        have := (List.mem_filter.mp ha).2
        simpa using this
      · have h3 := update_colony_ants_other s i j hji
        rw [hc] at h3
        simp only [Option.map_some'] at h3
        cases hold : s.1.colonies[j]? with
        | none => rw [hold] at h3; simp at h3
        | some c0 =>
          rw [hold] at h3
          simp only [Option.map_some', Option.some.injEq] at h3
          have := hinv j (by omega) c0 hold a
          rw [← h3] at this
          exact this ha)
  intro c hc a ha
  obtain ⟨j, hj, hget⟩ := List.getElem_of_mem hc
  have hlt : j < w.colonies.length := by
    rw [← key.1]
    exact hj
  exact key.2 j hlt c (by rw [List.getElem?_eq_getElem hj, hget]) a ha

theorem food_carried_eq_of_ants {l1 l2 : List Colony}
    (h : l1.map Colony.ants = l2.map Colony.ants) :
    (l1.map fun c => carried c.ants).sum = (l2.map fun c => carried c.ants).sum := by
  have e : ∀ l : List Colony, (l.map fun c => carried c.ants) = (l.map Colony.ants).map carried := by
    intro l
    rw [List.map_map]
    rfl
  rw [e l1, e l2, h]

theorem replace_colonies_food_total (v : World) (ants : List Ant) (i : Nat) (c ck : Colony)
    (hk : v.colonies[i]? = some ck) (hci : ck.ants = c.ants)
    (hpost : ∀ a ∈ ants, dead_carries_nothing a) (g : Colony → Colony)
    (hg : g = fun d => cleanup_dead_ants { d with ants := ants }) :
    food_total { v with colonies := v.colonies.modify g i } =
      total_food v + food_collected_total v + (food_carried v - carried c.ants + carried ants) := by
  have h1 : total_food { v with colonies := v.colonies.modify g i } = total_food v :=
    total_food_congr _ _ rfl rfl fun _ _ => ⟨rfl, rfl⟩
  have h2 : food_collected_total { v with colonies := v.colonies.modify g i } =
      food_collected_total v := by
    simp only [food_collected_total]
    rw [map_modify_of_eq (fun c : Colony => c.food_collected) g (fun _ => by rw [hg]; rfl)]
  have h3 : food_carried { v with colonies := v.colonies.modify g i } =
      food_carried v - carried c.ants + carried ants := by
    simp only [food_carried]
    rw [sum_map_modify (fun c : Colony => carried c.ants) _ _ _ ck hk, hci, hg]
    simp only [cleanup_dead_ants_ants]
    rw [carried_filter_alive _ hpost]
  simp only [food_total]
  rw [h1, h2, h3]
  ring

theorem update_colony_ants_food_total (s : World × Rng) (i : Nat) (c : Colony)
    (hc : s.1.colonies[i]? = some c) (hn : nests_valid s.1)
    (hp : ∀ a ∈ c.ants, carrier_survives a) :
    food_total (update_colony_ants s i).1 = food_total s.1 ∧
      nests_valid (update_colony_ants s i).1 := by
  rw [update_colony_ants_eq s i c hc]
  have hfr := (update_ants_loop_frame c.ants s.1 s.2).1
  obtain ⟨hacc, hpost⟩ := update_ants_loop_account c.ants s.1 s.2 hn hp
  have hnk := tick_frame_nests_valid hfr hn
  generalize update_ants_loop s.1 s.2 c.ants = k at hfr hacc hpost hnk
  have hci := ants_getElem_of_map_eq hfr.2.2.1 i
  rw [hc] at hci
  simp only [Option.map_some'] at hci
  cases hk : k.1.colonies[i]? with
  | none => rw [hk] at hci; simp at hci
  | some ck =>
    rw [hk] at hci
    simp only [Option.map_some', Option.some.injEq] at hci
    constructor
    · have h4 : food_carried k.1 = food_carried s.1 := food_carried_eq_of_ants hfr.2.2.1
      simp only []
      rw [replace_colonies_food_total k.1 k.2.1 i c ck hk hci hpost _ rfl, h4]
      simp only [food_total]
      linarith
    · intro x y hv ht
      have := hnk x y hv ht
      simpa using this

theorem update_all_ants_food_total (w : World) (r : Rng) (hn : nests_valid w)
    (hp : ∀ c ∈ w.colonies, ∀ a ∈ c.ants, carrier_survives a) :
    food_total (update_all_ants w r).1 = food_total w := by
  have key := update_all_ants_induction w r
    (fun n s => s = ((List.range n).foldl update_colony_ants (w, r)) ∧
      nests_valid s.1 ∧ food_total s.1 = food_total w)
    ⟨rfl, hn, rfl⟩
    (by
      intro i s hi ⟨hs, hnv, hft⟩
      have hbefore := update_colonies_before w r i i (le_refl i)
      rw [← hs, List.getElem?_eq_getElem hi] at hbefore
      simp only [Option.map_some'] at hbefore
      cases hsi : s.1.colonies[i]? with
      | none => rw [hsi] at hbefore; simp at hbefore
      | some c =>
        rw [hsi] at hbefore
        simp only [Option.map_some', Option.some.injEq] at hbefore
        have hpc : ∀ a ∈ c.ants, carrier_survives a := by
          intro a ha
          rw [hbefore] at ha
          exact hp _ (List.getElem_mem hi) a ha
        obtain ⟨h1, h2⟩ := update_colony_ants_food_total s i c hsi hnv hpc
        refine ⟨?_, h2, h1.trans hft⟩
        rw [List.range_succ, List.foldl_append, ← hs]
        rfl)
  exact key.2.2

theorem update_colony_statistics_food_total (w : World) :
    food_total (update_colony_statistics w) = food_total w := by
  have h1 : total_food (update_colony_statistics w) = total_food w :=
    total_food_congr _ _ rfl rfl fun _ _ => ⟨rfl, rfl⟩
  have h2 : food_carried (update_colony_statistics w) = food_carried w := by
    simp only [food_carried, update_colony_statistics, List.map_map]
    congr 1
    apply List.map_congr_left
    intro c _
    simp only [Function.comp]
    split <;> rfl
  have h3 : food_collected_total (update_colony_statistics w) = food_collected_total w := by
    simp only [food_collected_total, update_colony_statistics, List.map_map]
    congr 1
    apply List.map_congr_left
    intro c _
    simp only [Function.comp]
    split <;> rfl
  simp only [food_total, h1, h2, h3]

theorem only_pheromones_changed_food_total {w v : World} (h : only_pheromones_changed w v) :
    food_total v = food_total w := by
  simp only [food_total, only_pheromones_changed_total_food h,
    only_pheromones_changed_collected h, food_carried, h.2.2.1]

theorem simulation_tick_food_total (w : World) (r : Rng) :
    food_total (simulation_tick w r).1 = food_total (update_all_ants w r).1 := by
  have h1 := only_pheromones_changed_food_total (evaporate_only_pheromones (update_all_ants w r).1)
  have h2 := only_pheromones_changed_food_total
    (diffuse_only_pheromones (evaporate_pheromones (update_all_ants w r).1))
  have h3 := update_colony_statistics_food_total
    (diffuse_pheromones (evaporate_pheromones (update_all_ants w r).1))
  rw [← h1, ← h2, ← h3]
  simp only [simulation_tick, food_total, food_carried, food_collected_total]
  congr 1

theorem foraging_world_keeps_food : tick_keeps_food foraging_world := by
  constructor
  · intro x y _ ht
    simp only [foraging_world] at ht ⊢
    by_cases h1 : y = 1 ∧ x = 1
    · simp [h1] at ht
    · by_cases h2 : y = 0 ∧ x = 0
      · simp [h1, h2]
      · simp [h1, h2] at ht
  · intro c hc a ha
    simp only [foraging_world, List.mem_singleton] at hc
    subst hc
    simp only [List.mem_singleton] at ha
    subst ha
    exact ⟨Or.inl rfl, fun h => absurd rfl h⟩

theorem starving_ant_dies (r : Rng) :
    update_ant starving_world starving_ant r =
      (starving_world,
        set_ant_state { starving_ant with energy := starving_ant.energy - ANT_ENERGY_PER_STEP }
          ANT_STATE_DEAD, r) := by
  unfold update_ant
  rw [if_pos]
  norm_num [starving_ant, create_ant, ANT_ENERGY_PER_STEP]

theorem starving_world_after_update (r : Rng) :
    (update_all_ants starving_world r).1 =
      { starving_world with colonies := [⟨0, ⟨0, 0⟩, 0, 0, 0, [], 0, 1⟩] } := by
  have h0 : update_all_ants starving_world r = update_colony_ants (starving_world, r) 0 := rfl
  have hc : (starving_world, r).1.colonies[0]? = some ⟨0, ⟨0, 0⟩, 0, 1, 1, [starving_ant], 0, 1⟩ :=
    rfl
  rw [h0, update_colony_ants_eq _ 0 _ hc]
  simp only []
  rw [update_ants_loop_alive_cons starving_ant [] starving_world r (by decide),
    starving_ant_dies r]
  have hd : (set_ant_state
      { starving_ant with energy := starving_ant.energy - ANT_ENERGY_PER_STEP }
      ANT_STATE_DEAD).state &&& ANT_STATE_DEAD ≠ 0 := set_ant_state_dead _
  simp only [update_ants_loop, starving_world, List.modify, List.modifyHead, cleanup_dead_ants, cleanup_dead_ants_loop,
    if_pos hd]
  norm_num

theorem modify_eq_self_of_fixed {α : Type} (f : α → α) :
    ∀ (l : List α) (i : Nat), (∀ c, l[i]? = some c → f c = c) → l.modify f i = l
  | [], i, _ => by simp
  | c :: l, 0, h => by
    simp only [List.modify_zero_cons]
    rw [h c (by simp)]
  | c :: l, i + 1, h => by
    simp only [List.modify_succ_cons]
    rw [modify_eq_self_of_fixed f l i fun d hd => h d (by simpa using hd)]

theorem update_colony_ants_no_ants (s : World × Rng) (i : Nat)
    (hno : ∀ c ∈ s.1.colonies, c.ants = []) : update_colony_ants s i = s := by
  cases hc : s.1.colonies[i]? with
  | none =>
    unfold update_colony_ants
    rw [List.get?_eq_getElem?, hc]
  | some c =>
    have hmem : c ∈ s.1.colonies := List.getElem?_mem hc
    rw [update_colony_ants_eq s i c hc, hno c hmem]
    simp only [update_ants_loop]
    rw [modify_eq_self_of_fixed]
    intro d hd
    have hd2 := hno d (List.getElem?_mem hd)
    cases d
    simp only at hd2
    subst hd2
    rfl

theorem update_all_ants_no_ants (w : World) (r : Rng) (hno : ∀ c ∈ w.colonies, c.ants = []) :
    update_all_ants w r = (w, r) :=
  (update_all_ants_induction w r (fun _ s => s = (w, r)) rfl
    (fun i s _ hs => by rw [hs]; exact update_colony_ants_no_ants (w, r) i hno))

theorem in_bounds_neighbours_evaporate (w : World) (x y : Int) :
    in_bounds_neighbours (evaporate_pheromones w) x y = in_bounds_neighbours w x y := by
  simp only [in_bounds_neighbours, evaporate_pheromones_valid]

theorem diffusion_value_congr (w v : World) (old1 old2 : Int → Int → ℚ) (x y : Int)
    (hN : in_bounds_neighbours v x y = in_bounds_neighbours w x y)
    (hs : old1 y x = old2 y x)
    (hn : ∀ q ∈ in_bounds_neighbours w x y, old1 q.2 q.1 = old2 q.2 q.1) :
    diffusion_value v old1 x y = diffusion_value w old2 x y := by
  unfold diffusion_value
  rw [hN, hs, Finset.sum_congr rfl hn]

theorem field_update_food (w : World) (x y : Int) (hv : is_valid_position w x y = true) :
    ((diffuse_pheromones (evaporate_pheromones w)).grid y x).pheromone_food =
      diffusion_value w (fun yy xx => evaporate_value (w.grid yy xx).pheromone_food) x y := by
  rw [diffuse_pheromones_food _ x y (by rw [evaporate_pheromones_valid]; exact hv)]
  apply diffusion_value_congr _ _ _ _ x y (in_bounds_neighbours_evaporate w x y)
  · simp only [evaporate_pheromones_grid w x y hv, evaporate_cell]
  · intro q hq
    simp only [evaporate_pheromones_grid w q.1 q.2 (mem_in_bounds_neighbours_valid w x y q hq),
      evaporate_cell]

theorem field_update_home (w : World) (x y : Int) (hv : is_valid_position w x y = true) :
    ((diffuse_pheromones (evaporate_pheromones w)).grid y x).pheromone_home =
      diffusion_value w (fun yy xx => evaporate_value (w.grid yy xx).pheromone_home) x y := by
  rw [diffuse_pheromones_home _ x y (by rw [evaporate_pheromones_valid]; exact hv)]
  apply diffusion_value_congr _ _ _ _ x y (in_bounds_neighbours_evaporate w x y)
  · simp only [evaporate_pheromones_grid w x y hv, evaporate_cell]
  · intro q hq
    simp only [evaporate_pheromones_grid w q.1 q.2 (mem_in_bounds_neighbours_valid w x y q hq),
      evaporate_cell]

theorem simulation_tick_grid_no_ants (w : World) (r : Rng) (hno : ∀ c ∈ w.colonies, c.ants = []) :
    (simulation_tick w r).1.grid = (diffuse_pheromones (evaporate_pheromones w)).grid := by
  simp only [simulation_tick, update_all_ants_no_ants w r hno]
  rfl

theorem diffusion_value_evaporated_bounds (w : World) (old : Int → Int → ℚ) (x y : Int) (M : ℚ)
    (hs : 0 ≤ old y x ∧ old y x ≤ M)
    (hn : ∀ q ∈ in_bounds_neighbours w x y, 0 ≤ old q.2 q.1 ∧ old q.2 q.1 ≤ M) :
    0 ≤ diffusion_value w (fun yy xx => evaporate_value (old yy xx)) x y ∧
      diffusion_value w (fun yy xx => evaporate_value (old yy xx)) x y ≤ M :=
  ⟨diffusion_value_ge w _ x y 0 (evaporate_value_nonneg _ hs.1)
      fun q hq => evaporate_value_nonneg _ (hn q hq).1,
    diffusion_value_le w _ x y M (le_trans (evaporate_value_le _ hs.1) hs.2)
      fun q hq => le_trans (evaporate_value_le _ (hn q hq).1) (hn q hq).2⟩

theorem diffusion_value_evaporated_zero (w : World) (old : Int → Int → ℚ) (x y : Int)
    (hs : evaporate_value (old y x) = 0)
    (hn : ∀ q ∈ in_bounds_neighbours w x y, evaporate_value (old q.2 q.1) = 0) :
    diffusion_value w (fun yy xx => evaporate_value (old yy xx)) x y = 0 := by
  unfold diffusion_value
  have h0 : ∑ q in in_bounds_neighbours w x y, evaporate_value (old q.2 q.1) = 0 :=
    Finset.sum_eq_zero fun q hq => hn q hq
  beta_reduce
  rw [h0, hs]
  split <;> simp

theorem evaporate_value_snap (v : ℚ)
    (h : f32_round (v * f32_round (1 - f32_round PHEROMONE_EVAPORATION_RATE)) <
      f32_round PHEROMONE_MIN_THRESHOLD) :
    evaporate_value v = 0 := by
  simp only [evaporate_value, if_pos h]

theorem f32_product_thousand : f32_round (1000 * (16441672 / 2 ^ 24)) = 980 := by
  rw [f32_round_eq _ 9 16056320
    (f32_exponent_eq _ _ (by norm_num) (by norm_num [abs_of_pos]) (by norm_num [abs_of_pos]))
    (by norm_num [abs_lt])]
  norm_num

theorem evaporate_value_thousand : evaporate_value 1000 = 980 := by
  rw [evaporate_value_eq, f32_product_thousand, if_neg (by norm_num)]

theorem f32_product_snap_edge :
    f32_round (13695686 / 2 ^ 27 * (16441672 / 2 ^ 24)) = 13421773 / 2 ^ 27 := by
  rw [f32_round_eq _ (-4) 13421773
    (f32_exponent_eq _ _ (by norm_num) (by norm_num [abs_of_pos]) (by norm_num [abs_of_pos]))
    (by norm_num [abs_lt])]
  norm_num

theorem evaporate_value_snap_edge :
    evaporate_value (13695686 / 2 ^ 27) = 13421773 / 2 ^ 27 := by
  rw [evaporate_value_eq, f32_product_snap_edge, if_neg (lt_irrefl _)]

/-- Away from the threshold the rounding does not matter: when `98/100 * v` is at most
`1/10 - 1/10^8` the value is snapped to 0. -/
theorem evaporate_value_clear_below (v : ℚ) (h : 98 / 100 * v ≤ 1 / 10 - 1 / 10 ^ 8) :
    evaporate_value v = 0 := by
  rw [evaporate_value_eq, if_pos]
  rcases le_total v 0 with hv | hv
  · have : f32_round (v * (16441672 / 2 ^ 24)) ≤ 0 :=
      f32_round_nonpos _ (mul_nonpos_of_nonpos_of_nonneg hv (by positivity))
    have h2 : (0 : ℚ) < 13421773 / 2 ^ 27 := by norm_num
    linarith
  · by_contra hc
    have h1 := f32_product_le v hv hc
    have h2 := not_lt.mp hc
    norm_num at h h1 h2
    linarith

/-- Away from the threshold the rounding does not matter: when `98/100 * v` is at least
`1/10 + 1/10^8` the rounded product is kept. -/
theorem evaporate_value_clear_above (v : ℚ) (h : 1 / 10 + 1 / 10 ^ 8 ≤ 98 / 100 * v) :
    evaporate_value v = f32_round (v * (16441672 / 2 ^ 24)) ∧
      PHEROMONE_MIN_THRESHOLD ≤ evaporate_value v := by
  have hv : 0 ≤ v := by
    by_contra hc
    have := not_le.mp hc
    norm_num at h
    linarith
  have hx : (0 : ℚ) ≤ v * (16441672 / 2 ^ 24) := by positivity
  have h2 := f32_round_ge _ hx
  have hm : max ((2 : ℚ) ^ (-150 : Int)) (v * (16441672 / 2 ^ 24) * 2 ^ (-24 : Int)) =
      v * (16441672 / 2 ^ 24) * 2 ^ (-24 : Int) := by
    apply max_eq_right
    norm_num at h ⊢
    linarith
  rw [hm] at h2
  have hge : ¬ f32_round (v * (16441672 / 2 ^ 24)) < 13421773 / 2 ^ 27 := by
    rw [not_lt]
    norm_num at h h2 ⊢
    linarith
  have he : evaporate_value v = f32_round (v * (16441672 / 2 ^ 24)) := by
    rw [evaporate_value_eq, if_neg hge]
  refine ⟨he, ?_⟩
  rw [he]
  have : (PHEROMONE_MIN_THRESHOLD : ℚ) ≤ 13421773 / 2 ^ 27 := by
    norm_num [PHEROMONE_MIN_THRESHOLD]
  exact le_trans this (not_lt.mp hge)

theorem spread_world_no_ants : ∀ c ∈ spread_world.colonies, c.ants = [] := by
  intro c hc
  simp [spread_world] at hc

theorem is_walkable_eq (w : World) (x y : Int) :
    is_walkable w x y = true ↔
      is_valid_position w x y = true ∧
        ((w.grid y x).terrain = TERRAIN_EMPTY ∨ (w.grid y x).terrain = TERRAIN_FOOD ∨
          (w.grid y x).terrain = TERRAIN_NEST) := by
  unfold is_walkable
  by_cases hv : is_valid_position w x y = true
  · simp [hv]
  · simp [hv]

theorem update_ant_dead_flag (w : World) (a : Ant) (r : Rng)
    (he : 0 < a.energy - ANT_ENERGY_PER_STEP) :
    (update_ant w a r).2.1.state &&& ANT_STATE_DEAD = a.state &&& ANT_STATE_DEAD := by
  rcases update_ant_cases w a r with ⟨h, _⟩ | ⟨_, _, hfh, e⟩ | ⟨_, _, _, e⟩ | ⟨_, _, _, _, e⟩ |
    ⟨_, _, _, _, e⟩ | ⟨_, _, _, e⟩
  · exact absurd he (not_lt.mpr h)
  · rw [e]
    obtain ⟨hv, ht, hamt, _⟩ := food_here_spec w a hfh
    exact (pick_up_food_spec w { a with energy := a.energy - ANT_ENERGY_PER_STEP } r hv ht hamt).2.2.2.2.1
  · rw [e]
    exact (search_step_spec w { a with energy := a.energy - ANT_ENERGY_PER_STEP } r).2.2
  · rw [e]
    exact (deliver_food_spec w { a with energy := a.energy - ANT_ENERGY_PER_STEP } r).2.2.2.1
  · rw [e]
    exact (return_step_spec w { a with energy := a.energy - ANT_ENERGY_PER_STEP } r).2.2
  · rw [e]
    exact (tired_check_fields _).2.2.2

theorem set_cell_set_cell (w : World) (x y : Int) (c1 c2 : Cell) :
    set_cell (set_cell w x y c1) x y c2 = set_cell w x y c2 := by
  simp only [set_cell]
  congr 1
  funext yy xx
  by_cases h : yy = y ∧ xx = x <;> simp [h]

theorem set_cell_grid_self (w : World) (x y : Int) (c : Cell) : (set_cell w x y c).grid y x = c := by
  simp [set_cell]

theorem set_cell_grid_other (w : World) (x y : Int) (c : Cell) (a b : Int) (h : (a, b) ≠ (x, y)) :
    (set_cell w x y c).grid b a = w.grid b a := by
  have h2 : ¬ (b = y ∧ a = x) := by
    rintro ⟨rfl, rfl⟩
    exact h rfl
  simp [set_cell, h2]

theorem clear_cell_eq (w : World) (x y : Int) (hv : is_valid_position w x y = true) :
    clear_cell w x y = set_cell w x y cleared_cell := by
  simp [clear_cell, hv, cleared_cell, PHEROMONE_INITIAL]

theorem clear_cell_invalid (w : World) (x y : Int) (hv : ¬ is_valid_position w x y = true) :
    clear_cell w x y = w := by
  simp [clear_cell, hv]

theorem place_food_eq (w : World) (x y amount : Int) (hv : is_valid_position w x y = true)
    (ha : 0 < amount) :
    place_food w x y amount =
      set_cell w x y
        { cell_after_clearing w x y with terrain := TERRAIN_FOOD, food_amount := amount } := by
  have ha2 : ¬ amount ≤ 0 := not_le.mpr ha
  simp only [place_food, if_neg ha2, hv, Bool.not_true, Bool.false_eq_true, if_false,
    cell_after_clearing]
  by_cases ht : (w.grid y x).terrain ≠ TERRAIN_EMPTY
  · simp only [if_pos ht, clear_cell_eq w x y hv, set_cell_set_cell, set_cell_grid_self]
  · simp only [if_neg ht]

theorem place_obstacle_eq (w : World) (x y : Int) (hv : is_valid_position w x y = true) :
    place_obstacle w x y =
      set_cell w x y { cell_after_clearing w x y with terrain := TERRAIN_WALL } := by
  simp only [place_obstacle, hv, Bool.not_true, Bool.false_eq_true, if_false, cell_after_clearing]
  by_cases ht : (w.grid y x).terrain ≠ TERRAIN_EMPTY
  · simp only [if_pos ht, clear_cell_eq w x y hv, set_cell_set_cell, set_cell_grid_self]
  · simp only [if_neg ht]

theorem place_colony_eq (w : World) (colony_id x y : Int) (hv : is_valid_position w x y = true)
    (hc : 0 ≤ colony_id ∧ colony_id < w.colony_count) :
    place_colony w colony_id x y =
      modify_colony
        (set_cell w x y
          { cell_after_clearing w x y with terrain := TERRAIN_NEST, colony_id := colony_id })
        colony_id fun colony => { colony with nest_pos := ⟨x, y⟩ } := by
  have hc2 : ¬ (colony_id < 0 ∨ colony_id ≥ w.colony_count) := by omega
  simp only [place_colony, if_neg hc2, hv, Bool.not_true, Bool.false_eq_true, if_false,
    cell_after_clearing]
  by_cases ht : (w.grid y x).terrain ≠ TERRAIN_EMPTY
  · simp only [if_pos ht, clear_cell_eq w x y hv, set_cell_set_cell, set_cell_grid_self]
  · simp only [if_neg ht]

theorem modify_colony_grid (w : World) (idx : Int) (f : Colony → Colony) :
    (modify_colony w idx f).grid = w.grid ∧ (modify_colony w idx f).width = w.width ∧
      (modify_colony w idx f).height = w.height := by
  unfold modify_colony
  split <;> exact ⟨rfl, rfl, rfl⟩

theorem set_cell_cell_invariant (w : World) (x y : Int) (c : Cell) (h : cell_invariant w)
    (hc : cell_ok c) : cell_invariant (set_cell w x y c) := by
  intro a b hv
  have hv2 : is_valid_position w a b = true := hv
  simp only [set_cell]
  by_cases hp : b = y ∧ a = x
  · simpa [hp] using hc
  · simpa [hp] using h a b hv2

theorem cell_invariant_of_grid (w v : World) (hg : v.grid = w.grid) (hw : v.width = w.width)
    (hh : v.height = w.height) (h : cell_invariant w) : cell_invariant v := by
  intro a b hv
  have hv2 : is_valid_position w a b = true := by
    simpa only [is_valid_position, hw, hh] using hv
  rw [hg]
  exact h a b hv2

theorem cleared_cell_ok : cell_ok cleared_cell := by
  refine ⟨?_, ?_, ?_⟩ <;> simp [cleared_cell]

theorem cell_after_clearing_empty (w : World) (x y : Int) (h : cell_ok (w.grid y x)) :
    (cell_after_clearing w x y).terrain = TERRAIN_EMPTY ∧
      (cell_after_clearing w x y).food_amount = 0 ∧
      (cell_after_clearing w x y).colony_id = -1 := by
  unfold cell_after_clearing
  by_cases ht : (w.grid y x).terrain ≠ TERRAIN_EMPTY
  · rw [if_pos ht]
    exact ⟨rfl, rfl, rfl⟩
  · rw [if_neg ht]
    have hte : (w.grid y x).terrain = TERRAIN_EMPTY := not_not.mp ht
    obtain ⟨h1, h2, h3⟩ := h
    refine ⟨hte, ?_, ?_⟩
    · by_contra hne
      have hpos : (w.grid y x).food_amount > 0 := by omega
      have := h2 hpos
      rw [hte] at this
      exact absurd this (by decide)
    · by_contra hne
      have := h1.mp hne
      rw [hte] at this
      exact absurd this (by decide)

theorem placement_world_invariant : cell_invariant placement_world := by
  intro x y _
  simp only [placement_world]
  by_cases h1 : y = 1 ∧ x = 1
  · simp [h1, cell_ok]
  · by_cases h2 : y = 0 ∧ x = 0
    · simp [h1, h2, cell_ok]
    · simp [h1, h2, cell_ok]

theorem place_colony_invalid (w : World) (colony_id x y : Int)
    (h : ¬ is_valid_position w x y = true ∨ colony_id < 0 ∨ colony_id ≥ w.colony_count) :
    place_colony w colony_id x y = w := by
  unfold place_colony
  by_cases hc : colony_id < 0 ∨ colony_id ≥ w.colony_count
  · rw [if_pos hc]
  · rw [if_neg hc]
    have hv : ¬ is_valid_position w x y = true := by
      rcases h with h | h
      · exact h
      · exact absurd h hc
    simp [hv]

theorem place_food_invalid (w : World) (x y amount : Int)
    (h : ¬ is_valid_position w x y = true ∨ amount ≤ 0) : place_food w x y amount = w := by
  unfold place_food
  by_cases ha : amount ≤ 0
  · rw [if_pos ha]
  · rw [if_neg ha]
    have hv : ¬ is_valid_position w x y = true := by
      rcases h with h | h
      · exact h
      · exact absurd h ha
    simp [hv]

theorem place_obstacle_invalid (w : World) (x y : Int) (h : ¬ is_valid_position w x y = true) :
    place_obstacle w x y = w := by
  simp [place_obstacle, h]

theorem cell_after_clearing_pheromones (w : World) (x y : Int) :
    ((w.grid y x).terrain ≠ TERRAIN_EMPTY →
      (cell_after_clearing w x y).pheromone_food = 0 ∧
        (cell_after_clearing w x y).pheromone_home = 0) ∧
    ((w.grid y x).terrain = TERRAIN_EMPTY →
      (cell_after_clearing w x y).pheromone_food = (w.grid y x).pheromone_food ∧
        (cell_after_clearing w x y).pheromone_home = (w.grid y x).pheromone_home) := by
  unfold cell_after_clearing
  constructor
  · intro h
    rw [if_pos h]
    exact ⟨rfl, rfl⟩
  · intro h
    rw [if_neg (not_not.mpr h)]
    exact ⟨rfl, rfl⟩

theorem modify_colony_getElem (w : World) (idx : Int) (f : Colony → Colony)
    (h : 0 ≤ idx ∧ idx < w.colony_count) :
    ∃ c, w.colonies[idx.toNat]? = some c ∧
      (modify_colony w idx f).colonies[idx.toNat]? = some (f c) := by
  have hlt : idx.toNat < w.colonies.length := by
    have := h.2
    simp only [World.colony_count] at this
    omega
  refine ⟨w.colonies[idx.toNat], List.getElem?_eq_getElem hlt, ?_⟩
  simp only [modify_colony, not_lt.mpr h.1, if_false, List.getElem?_modify_eq,
    List.getElem?_eq_getElem hlt]
  rfl

theorem create_world_eq (width height colony_count : Int)
    (h1 : ¬ (width ≤ 0 ∨ height ≤ 0 ∨ colony_count ≤ 0))
    (h2 : ¬ (width > MAX_WORLD_SIZE ∨ height > MAX_WORLD_SIZE)) :
    create_world width height colony_count =
      some
        { width := width, height := height,
          grid := fun y x =>
            if decide (x ≥ 0 ∧ x < width ∧ y ≥ 0 ∧ y < height) = true then initial_cell calloc_cell
            else calloc_cell,
          colonies := (List.range colony_count.toNat).map initial_colony,
          current_step := 0, is_running := 0, paused := 0, render_delay_ms := RENDER_DELAY_MS } := by
  simp only [create_world, if_neg h1, if_neg h2]
  rw [foldl_set_cell (fun _ _ c => initial_cell c) (fun _ _ _ _ => rfl) _ (scan_cells_nodup _)]
  simp only [mem_scan_cells, is_valid_position]

theorem clear_ant_state_and (a : Ant) (f g : Nat) (hg : g < 256) :
    (clear_ant_state a f).state &&& g = a.state &&& ((255 ^^^ (f % 256)) &&& g) := by
  simp only [clear_ant_state]
  rw [mod_256_and _ _ hg, Nat.and_assoc]

theorem tired_check_flag (a : Ant) (g : Nat) (hg : g < 256) (h : ANT_STATE_TIRED &&& g = 0) :
    (tired_check a).state &&& g = a.state &&& g := by
  unfold tired_check
  split
  · rw [set_ant_state_flag a _ _ hg, h, Nat.or_zero]
  · rfl

theorem tired_check_same (a : Ant) :
    (tired_check a).id = a.id ∧ (tired_check a).pos = a.pos ∧
      (tired_check a).last_pos = a.last_pos ∧ (tired_check a).colony_id = a.colony_id ∧
      (tired_check a).energy = a.energy ∧ (tired_check a).food_carrying = a.food_carrying ∧
      (tired_check a).steps_taken = a.steps_taken ∧
      (tired_check a).food_delivered = a.food_delivered ∧
      (tired_check a).preferred_direction = a.preferred_direction := by
  unfold tired_check
  split <;> exact ⟨rfl, rfl, rfl, rfl, rfl, rfl, rfl, rfl, rfl⟩

theorem search_step_flag (w : World) (a : Ant) (r : Rng) (g : Nat) (hg : g < 256)
    (h : ANT_STATE_TIRED &&& g = 0) :
    (search_step w a r).2.1.state &&& g = a.state &&& g := by
  simp only [search_step]
  rw [tired_check_flag _ g hg h]
  split
  · rw [(follow_pheromone_gradient_same a w _ _).2.1]
  · rw [(move_randomly_same a w _).2.1]

theorem return_step_flag (w : World) (a : Ant) (r : Rng) (g : Nat) (hg : g < 256)
    (h : ANT_STATE_TIRED &&& g = 0) :
    (return_step w a r).2.1.state &&& g = a.state &&& g := by
  simp only [return_step]
  rw [tired_check_flag _ g hg h, (follow_pheromone_gradient_same a w _ _).2.1]

theorem range_eight : List.range 8 = [0, 1, 2, 3, 4, 5, 6, 7] := by decide

theorem reverse_direction_eq (a : Ant) (d : Int) (hd : 0 ≤ d ∧ d < 8)
    (hx : a.last_pos.x = a.pos.x + dx d) (hy : a.last_pos.y = a.pos.y + dy d) :
    reverse_direction a = d := by
  obtain ⟨h0, h8⟩ := hd
  unfold reverse_direction
  rw [range_eight, hx, hy]
  interval_cases d <;>
    simp [List.find?, dx, dy, dx_table, dy_table]

theorem reverse_direction_none (a : Ant)
    (h : ∀ d : Int, 0 ≤ d ∧ d < 8 →
      ¬ (a.last_pos.x = a.pos.x + dx d ∧ a.last_pos.y = a.pos.y + dy d)) :
    reverse_direction a = -1 := by
  unfold reverse_direction
  have hnone : (List.range 8).find? (fun (dir : Nat) =>
      decide (a.last_pos.x = a.pos.x + dx dir ∧ a.last_pos.y = a.pos.y + dy dir)) = none := by
    rw [List.find?_eq_none]
    intro dir hdir
    have hlt : dir < 8 := List.mem_range.mp hdir
    have := h (dir : Int) ⟨by omega, by omega⟩
    simpa using this
  rw [hnone]

theorem store_reverse_direction_eq (a : Ant) :
    store_reverse_direction a =
      { a with preferred_direction :=
          if reverse_direction a ≠ -1 then reverse_direction a else a.preferred_direction } := by
  unfold store_reverse_direction
  simp only []
  split <;> rfl

theorem pick_up_food_ant (w : World) (a : Ant) (r : Rng) :
    (pick_up_food w a r).2.1 =
      { a with
        food_carrying := 1
        state := ((a.state &&& (255 ^^^ (ANT_STATE_SEARCHING % 256))) % 256 |||
          (ANT_STATE_RETURNING ||| ANT_STATE_CARRYING)) % 256
        energy := a.energy + ANT_ENERGY_FROM_FOOD
        preferred_direction :=
          if reverse_direction a ≠ -1 then reverse_direction a else a.preferred_direction } := by
  simp only [pick_up_food]
  rw [store_reverse_direction_eq]
  rfl

theorem pick_up_state_flags (s : Nat) :
    ((s &&& (255 ^^^ (ANT_STATE_SEARCHING % 256))) % 256 |||
        (ANT_STATE_RETURNING ||| ANT_STATE_CARRYING)) % 256 &&& ANT_STATE_SEARCHING = 0 ∧
      ((s &&& (255 ^^^ (ANT_STATE_SEARCHING % 256))) % 256 |||
        (ANT_STATE_RETURNING ||| ANT_STATE_CARRYING)) % 256 &&& ANT_STATE_RETURNING ≠ 0 ∧
      ((s &&& (255 ^^^ (ANT_STATE_SEARCHING % 256))) % 256 |||
        (ANT_STATE_RETURNING ||| ANT_STATE_CARRYING)) % 256 &&& ANT_STATE_CARRYING ≠ 0 := by
  refine ⟨?_, ?_, ?_⟩
  · rw [mod_256_and _ _ (by decide), Nat.and_distrib_right, mod_256_and _ _ (by decide),
      Nat.and_assoc]
    have h1 : (255 ^^^ (ANT_STATE_SEARCHING % 256)) &&& ANT_STATE_SEARCHING = 0 := by decide
    have h2 : (ANT_STATE_RETURNING ||| ANT_STATE_CARRYING) &&& ANT_STATE_SEARCHING = 0 := by
      decide
    rw [h1, h2]
    simp
  · rw [mod_256_and _ _ (by decide), Nat.and_distrib_right]
    intro h
    have h2 := congrArg (fun n : Nat => n.testBit 1) h
    have h3 : ((ANT_STATE_RETURNING ||| ANT_STATE_CARRYING) &&& ANT_STATE_RETURNING).testBit 1 =
        true := by decide
    simp [Nat.testBit_lor, h3] at h2
  · rw [mod_256_and _ _ (by decide), Nat.and_distrib_right]
    intro h
    have h2 := congrArg (fun n : Nat => n.testBit 3) h
    have h3 : ((ANT_STATE_RETURNING ||| ANT_STATE_CARRYING) &&& ANT_STATE_CARRYING).testBit 3 =
        true := by decide
    simp [Nat.testBit_lor, h3] at h2

theorem deposit_pheromone_returning_at (w : World) (ant : Ant) (x y : Int)
    (hp : ant.pos = ⟨x, y⟩) (hv : is_valid_position w x y = true)
    (hs : ant.state &&& ANT_STATE_SEARCHING = 0)
    (hr : ant.state &&& ANT_STATE_RETURNING ≠ 0) :
    deposit_pheromone w ant =
      set_cell w x y
        { w.grid y x with
          pheromone_food :=
            min ((w.grid y x).pheromone_food + PHEROMONE_DEPOSIT_AMOUNT) PHEROMONE_MAX } := by
  have hx : ant.pos.x = x := by rw [hp]
  have hy : ant.pos.y = y := by rw [hp]
  have hv2 : is_valid_position w ant.pos.x ant.pos.y = true := by rw [hx, hy]; exact hv
  rw [deposit_pheromone_returning w ant hv2 hs hr, hx, hy]

theorem pick_up_food_world (w : World) (a : Ant) (r : Rng)
    (hv : is_valid_position w a.pos.x a.pos.y = true) :
    (pick_up_food w a r).1 =
      set_cell w a.pos.x a.pos.y
        { terrain :=
            if (w.grid a.pos.y a.pos.x).food_amount - 1 ≤ 0 then TERRAIN_EMPTY
            else (w.grid a.pos.y a.pos.x).terrain
          pheromone_food :=
            min ((w.grid a.pos.y a.pos.x).pheromone_food + PHEROMONE_DEPOSIT_AMOUNT) PHEROMONE_MAX
          pheromone_home := (w.grid a.pos.y a.pos.x).pheromone_home
          food_amount := (w.grid a.pos.y a.pos.x).food_amount - 1
          colony_id := (w.grid a.pos.y a.pos.x).colony_id } := by
  have hant := pick_up_food_ant w a r
  have hflags := pick_up_state_flags a.state
  have hworld : (pick_up_food w a r).1 =
      deposit_pheromone
        (set_cell w a.pos.x a.pos.y
          (if (w.grid a.pos.y a.pos.x).food_amount - 1 ≤ 0 then
            { w.grid a.pos.y a.pos.x with
              food_amount := (w.grid a.pos.y a.pos.x).food_amount - 1, terrain := TERRAIN_EMPTY }
          else { w.grid a.pos.y a.pos.x with
              food_amount := (w.grid a.pos.y a.pos.x).food_amount - 1 }))
        (pick_up_food w a r).2.1 := by
    simp only [pick_up_food]
    rw [(store_reverse_direction_fields _).2.2.1]
    rfl
  rw [hworld, hant]
  refine Eq.trans (deposit_pheromone_returning_at _ _ a.pos.x a.pos.y ?_ ?_ ?_ ?_) ?_
  · rfl
  · exact hv
  · exact hflags.1
  · exact hflags.2.1
  · simp only [set_cell_set_cell, set_cell_grid_self]
    congr 1
    split <;> rfl

theorem update_ant_eq_pick_up (w : World) (a : Ant) (r : Rng)
    (he : 0 < a.energy - ANT_ENERGY_PER_STEP) (hs : a.state &&& ANT_STATE_SEARCHING ≠ 0)
    (hv : is_valid_position w a.pos.x a.pos.y = true)
    (ht : (w.grid a.pos.y a.pos.x).terrain = TERRAIN_FOOD)
    (hamt : (w.grid a.pos.y a.pos.x).food_amount > 0) (hfc : a.food_carrying = 0) :
    update_ant w a r = pick_up_food w { a with energy := a.energy - ANT_ENERGY_PER_STEP } r := by
  have hfh : food_here (get_cell w a.pos.x a.pos.y) a = true := by
    rw [get_cell_valid w _ _ hv]
    simp only [food_here, decide_eq_true_eq]
    exact ⟨ht, hamt, hfc⟩
  rcases update_ant_cases w a r with ⟨h, _⟩ | ⟨_, _, _, e⟩ | ⟨_, _, h, _⟩ | ⟨_, h, _⟩ |
    ⟨_, h, _⟩ | ⟨_, h, _⟩
  · exact absurd he (not_lt.mpr h)
  · exact e
  · rw [hfh] at h
    exact absurd h (by decide)
  · exact absurd h hs
  · exact absurd h hs
  · exact absurd h hs

theorem update_ant_eq_deliver (w : World) (a : Ant) (r : Rng)
    (he : 0 < a.energy - ANT_ENERGY_PER_STEP) (hs : a.state &&& ANT_STATE_SEARCHING = 0)
    (hr : a.state &&& ANT_STATE_RETURNING ≠ 0)
    (hv : is_valid_position w a.pos.x a.pos.y = true)
    (ht : (w.grid a.pos.y a.pos.x).terrain = TERRAIN_NEST)
    (hid : (w.grid a.pos.y a.pos.x).colony_id = a.colony_id) (hfc : a.food_carrying > 0) :
    update_ant w a r = deliver_food w { a with energy := a.energy - ANT_ENERGY_PER_STEP } r := by
  have hn : at_own_nest (get_cell w a.pos.x a.pos.y) a = true := by
    rw [get_cell_valid w _ _ hv]
    simp only [at_own_nest, decide_eq_true_eq]
    exact ⟨ht, hid, hfc⟩
  rcases update_ant_cases w a r with ⟨h, _⟩ | ⟨_, h, _⟩ | ⟨_, h, _⟩ | ⟨_, _, _, _, e⟩ |
    ⟨_, _, _, h, _⟩ | ⟨_, _, h, _⟩
  · exact absurd he (not_lt.mpr h)
  · exact absurd hs h
  · exact absurd hs h
  · exact e
  · rw [hn] at h
    exact absurd h (by decide)
  · exact absurd h hr

theorem deliver_food_ant (w : World) (a : Ant) (r : Rng) :
    (deliver_food w a r).2.1 =
      { a with
        food_delivered := a.food_delivered + 1
        food_carrying := 0
        state := ((a.state &&& (255 ^^^ ((ANT_STATE_RETURNING ||| ANT_STATE_CARRYING) % 256))) % 256
          ||| ANT_STATE_SEARCHING) % 256
        preferred_direction :=
          if reverse_direction a ≠ -1 then reverse_direction a else a.preferred_direction } := by
  simp only [deliver_food]
  rw [store_reverse_direction_eq]
  rfl

theorem deliver_state_flags (s : Nat) :
    ((s &&& (255 ^^^ ((ANT_STATE_RETURNING ||| ANT_STATE_CARRYING) % 256))) % 256 |||
        ANT_STATE_SEARCHING) % 256 &&& ANT_STATE_SEARCHING ≠ 0 ∧
      ((s &&& (255 ^^^ ((ANT_STATE_RETURNING ||| ANT_STATE_CARRYING) % 256))) % 256 |||
        ANT_STATE_SEARCHING) % 256 &&& ANT_STATE_RETURNING = 0 ∧
      ((s &&& (255 ^^^ ((ANT_STATE_RETURNING ||| ANT_STATE_CARRYING) % 256))) % 256 |||
        ANT_STATE_SEARCHING) % 256 &&& ANT_STATE_CARRYING = 0 := by
  refine ⟨?_, ?_, ?_⟩
  · rw [mod_256_and _ _ (by decide), Nat.and_distrib_right]
    intro h
    have h2 := congrArg (fun n : Nat => n.testBit 0) h
    have h3 : ANT_STATE_SEARCHING % 2 = 1 := by decide
    simp [Nat.testBit_lor] at h2
    omega
  · rw [mod_256_and _ _ (by decide), Nat.and_distrib_right, mod_256_and _ _ (by decide),
      Nat.and_assoc]
    have h1 : (255 ^^^ ((ANT_STATE_RETURNING ||| ANT_STATE_CARRYING) % 256)) &&&
        ANT_STATE_RETURNING = 0 := by decide
    have h2 : ANT_STATE_SEARCHING &&& ANT_STATE_RETURNING = 0 := by decide
    rw [h1, h2]
    simp
  · rw [mod_256_and _ _ (by decide), Nat.and_distrib_right, mod_256_and _ _ (by decide),
      Nat.and_assoc]
    have h1 : (255 ^^^ ((ANT_STATE_RETURNING ||| ANT_STATE_CARRYING) % 256)) &&&
        ANT_STATE_CARRYING = 0 := by decide
    have h2 : ANT_STATE_SEARCHING &&& ANT_STATE_CARRYING = 0 := by decide
    rw [h1, h2]
    simp

theorem deliver_food_world (w : World) (a : Ant) (r : Rng) :
    (deliver_food w a r).1 =
      modify_colony w a.colony_id
        (fun colony => { colony with food_collected := colony.food_collected + 1 }) ∧
      (deliver_food w a r).2.2 = r :=
  ⟨rfl, rfl⟩

theorem modify_colony_other (w : World) (idx : Int) (f : Colony → Colony) (j : Nat)
    (hj : j ≠ idx.toNat) : (modify_colony w idx f).colonies[j]? = w.colonies[j]? := by
  unfold modify_colony
  split
  · rfl
  · simp only [List.getElem?_modify_ne _ _ (Ne.symm hj)]

theorem dead_state_flag (s g : Nat) (hg : g < 256) (h : ANT_STATE_DEAD &&& g = 0) :
    (s ||| ANT_STATE_DEAD) % 256 &&& g = s &&& g := by
  rw [mod_256_and _ _ hg, Nat.and_distrib_right, h, Nat.or_zero]

theorem update_ant_became_searching (w : World) (a : Ant) (r : Rng)
    (hs : a.state &&& ANT_STATE_SEARCHING = 0) (hr : a.state &&& ANT_STATE_RETURNING ≠ 0)
    (hafter : (update_ant w a r).2.1.state &&& ANT_STATE_SEARCHING ≠ 0) :
    update_ant w a r = deliver_food w { a with energy := a.energy - ANT_ENERGY_PER_STEP } r := by
  rcases update_ant_cases w a r with ⟨_, e⟩ | ⟨_, h, _⟩ | ⟨_, h, _⟩ | ⟨_, _, _, _, e⟩ |
    ⟨_, _, _, _, e⟩ | ⟨_, _, h, _⟩
  · rw [e] at hafter
    have : (set_ant_state { a with energy := a.energy - ANT_ENERGY_PER_STEP }
        ANT_STATE_DEAD).state &&& ANT_STATE_SEARCHING = 0 := by
      rw [set_ant_state_flag _ _ _ (by decide)]
      have h2 : ANT_STATE_DEAD &&& ANT_STATE_SEARCHING = 0 := by decide
      rw [h2, Nat.or_zero]
      exact hs
    exact absurd this hafter
  · exact absurd hs h
  · exact absurd hs h
  · exact e
  · rw [e] at hafter
    have := return_step_flag w { a with energy := a.energy - ANT_ENERGY_PER_STEP } r
      ANT_STATE_SEARCHING (by decide) (by decide)
    rw [this] at hafter
    exact absurd hs hafter
  · exact absurd h hr

theorem update_ant_eq_search (w : World) (a : Ant) (r : Rng)
    (he : 0 < a.energy - ANT_ENERGY_PER_STEP) (hs : a.state &&& ANT_STATE_SEARCHING ≠ 0)
    (hf : food_here (get_cell w a.pos.x a.pos.y) a = false) :
    update_ant w a r = search_step w { a with energy := a.energy - ANT_ENERGY_PER_STEP } r := by
  rcases update_ant_cases w a r with ⟨h, _⟩ | ⟨_, _, h, _⟩ | ⟨_, _, _, e⟩ | ⟨_, h, _⟩ |
    ⟨_, h, _⟩ | ⟨_, h, _⟩
  · exact absurd he (not_lt.mpr h)
  · rw [hf] at h
    exact absurd h (by decide)
  · exact e
  · exact absurd h hs
  · exact absurd h hs
  · exact absurd h hs

theorem ant_state_ok_of_flags (a b : Ant)
    (h1 : b.state &&& ANT_STATE_SEARCHING = a.state &&& ANT_STATE_SEARCHING)
    (h2 : b.state &&& ANT_STATE_RETURNING = a.state &&& ANT_STATE_RETURNING)
    (h3 : b.state &&& ANT_STATE_CARRYING = a.state &&& ANT_STATE_CARRYING)
    (hfc : b.food_carrying = a.food_carrying) (h : ant_state_ok a) : ant_state_ok b := by
  unfold ant_state_ok at h ⊢
  rw [h1, h2, h3, hfc]
  exact h

theorem update_ant_state_ok (w : World) (a : Ant) (r : Rng) (h : ant_state_ok a) :
    ant_state_ok (update_ant w a r).2.1 := by
  rcases update_ant_cases w a r with ⟨_, e⟩ | ⟨_, _, _, e⟩ | ⟨_, _, _, e⟩ | ⟨_, _, _, _, e⟩ |
    ⟨_, _, _, _, e⟩ | ⟨_, _, _, e⟩
  · rw [e]
    refine ant_state_ok_of_flags a _ ?_ ?_ ?_ rfl h <;>
      · rw [set_ant_state_flag _ _ _ (by decide)]
        simp only []
        have : ∀ n : Nat, n ||| 0 = n := Nat.or_zero
        first
          | (have h0 : ANT_STATE_DEAD &&& ANT_STATE_SEARCHING = 0 := by decide
             rw [h0, Nat.or_zero])
          | (have h0 : ANT_STATE_DEAD &&& ANT_STATE_RETURNING = 0 := by decide
             rw [h0, Nat.or_zero])
          | (have h0 : ANT_STATE_DEAD &&& ANT_STATE_CARRYING = 0 := by decide
             rw [h0, Nat.or_zero])
  · rw [e, pick_up_food_ant]
    obtain ⟨f1, f2, f3⟩ := pick_up_state_flags a.state
    exact ⟨fun _ => ⟨rfl, f2⟩, Or.inr rfl, Or.inr ⟨f1, f2⟩⟩
  · rw [e]
    exact ant_state_ok_of_flags a _
      (search_step_flag w _ r _ (by decide) (by decide))
      (search_step_flag w _ r _ (by decide) (by decide))
      (search_step_flag w _ r _ (by decide) (by decide))
      (search_step_spec w _ r).2.1 h
  · rw [e, deliver_food_ant]
    obtain ⟨f1, f2, f3⟩ := deliver_state_flags a.state
    exact ⟨fun hc => absurd f3 hc, Or.inl rfl, Or.inl ⟨f1, f2⟩⟩
  · rw [e]
    exact ant_state_ok_of_flags a _
      (return_step_flag w _ r _ (by decide) (by decide))
      (return_step_flag w _ r _ (by decide) (by decide))
      (return_step_flag w _ r _ (by decide) (by decide))
      (return_step_spec w _ r).2.1 h
  · rw [e]
    exact ant_state_ok_of_flags a _
      (tired_check_flag _ _ (by decide) (by decide))
      (tired_check_flag _ _ (by decide) (by decide))
      (tired_check_flag _ _ (by decide) (by decide))
      (tired_check_same _).2.2.2.2.2.1 h

theorem create_ant_state_ok (id colony_id : Int) (pos : Position) :
    ant_state_ok (create_ant id colony_id pos) := by
  have hs : (create_ant id colony_id pos).state = ANT_STATE_SEARCHING := rfl
  unfold ant_state_ok
  rw [hs]
  exact ⟨fun h => absurd (by decide) h, Or.inl rfl, Or.inl ⟨by decide, by decide⟩⟩

theorem updated_ant_state_ok :
    ∀ (steps : List (World × Rng)) (a : Ant), ant_state_ok a → ant_state_ok (updated_ant a steps)
  | [], _, h => h
  | s :: steps, a, h => by
    unfold updated_ant
    rw [List.foldl_cons]
    exact updated_ant_state_ok steps _ (update_ant_state_ok s.1 a s.2 h)

theorem spawn_ant_ants (w : World) (colony_id : Int) (c : Colony)
    (hid : 0 ≤ colony_id) (hc : w.colonies[colony_id.toNat]? = some c)
    (hcap : c.total_ants < MAX_ANTS_PER_COLONY) :
    (spawn_ant w colony_id).colonies[colony_id.toNat]? =
      some (add_ant_to_colony c (create_ant (c.total_ants + 1) colony_id c.nest_pos)) := by
  have hlt : colony_id.toNat < w.colonies.length := by
    rcases Nat.lt_or_ge colony_id.toNat w.colonies.length with h | h
    · exact h
    · rw [List.getElem?_eq_none h] at hc
      exact absurd hc (by simp)
  have hcount : ¬ (colony_id < 0 ∨ colony_id ≥ w.colony_count) := by
    simp only [World.colony_count]
    omega
  have hcap2 : ¬ c.total_ants ≥ MAX_ANTS_PER_COLONY := not_le.mpr hcap
  unfold spawn_ant
  rw [if_neg hcount]
  unfold modify_colony
  rw [if_neg (not_lt.mpr hid)]
  simp only [List.getElem?_modify_eq, hc]
  show some _ = some _
  simp only [if_neg hcap2]

theorem create_fresh_world : create_world 3 3 1 = some fresh_world :=
  create_world_eq 3 3 1 (by decide) (by decide)

theorem only_pheromones_changed_cell_invariant {w v : World} (h : only_pheromones_changed w v)
    (hinv : cell_invariant w) : cell_invariant v := by
  intro x y hv
  have hv2 : is_valid_position w x y = true := by
    simpa only [is_valid_position, h.1, h.2.1] using hv
  have := hinv x y hv2
  unfold cell_ok at this ⊢
  rw [(h.2.2.2 x y).1, (h.2.2.2 x y).2.1, (h.2.2.2 x y).2.2]
  exact this

theorem update_ant_cell_invariant (w : World) (a : Ant) (r : Rng) (hinv : cell_invariant w) :
    cell_invariant (update_ant w a r).1 := by
  rcases update_ant_cases w a r with ⟨_, e⟩ | ⟨_, _, hfh, e⟩ | ⟨_, _, _, e⟩ | ⟨_, _, _, _, e⟩ |
    ⟨_, _, _, _, e⟩ | ⟨_, _, _, e⟩
  · rw [e]; exact hinv
  · rw [e]
    obtain ⟨hv, ht, hamt, _⟩ := food_here_spec w a hfh
    rw [pick_up_food_world w { a with energy := a.energy - ANT_ENERGY_PER_STEP } r hv]
    apply set_cell_cell_invariant _ _ _ _ hinv
    obtain ⟨h1, _, _⟩ := hinv _ _ hv
    have hid : (w.grid a.pos.y a.pos.x).colony_id = -1 := by
      by_contra hne
      have := h1.mp hne
      rw [ht] at this
      exact absurd this (by decide)
    refine ⟨?_, ?_, ?_⟩
    · simp only [hid, ht]
      constructor
      · intro h
        exact absurd rfl h
      · intro h
        split at h <;> exact absurd h (by decide)
    · intro hpos
      simp only at hpos ⊢
      rw [if_neg (by omega), ht]
    · simp only
      omega
  · rw [e]
    exact only_pheromones_changed_cell_invariant (search_step_spec w _ r).1 hinv
  · rw [e, (deliver_food_world _ _ _).1]
    have hg := modify_colony_grid w a.colony_id
      (fun colony => { colony with food_collected := colony.food_collected + 1 })
    exact cell_invariant_of_grid w _ hg.1 hg.2.1 hg.2.2 hinv
  · rw [e]
    exact only_pheromones_changed_cell_invariant (return_step_spec w _ r).1 hinv
  · rw [e]; exact hinv

theorem create_world_cell_invariant (width height colony_count : Int) (w : World)
    (h : create_world width height colony_count = some w) : cell_invariant w := by
  by_cases h1 : width ≤ 0 ∨ height ≤ 0 ∨ colony_count ≤ 0
  · simp [create_world, h1] at h
  · by_cases h2 : width > MAX_WORLD_SIZE ∨ height > MAX_WORLD_SIZE
    · simp [create_world, h1, h2] at h
    · rw [create_world_eq width height colony_count h1 h2] at h
      have hw := (Option.some.inj h).symm
      subst hw
      intro x y hv
      have hv2 : decide (x ≥ 0 ∧ x < width ∧ y ≥ 0 ∧ y < height) = true := hv
      simp only [hv2, if_true]
      refine ⟨?_, ?_, ?_⟩ <;> simp [initial_cell, calloc_cell]

theorem clear_cell_cell_invariant (w : World) (x y : Int) (hinv : cell_invariant w) :
    cell_invariant (clear_cell w x y) := by
  by_cases hv : is_valid_position w x y = true
  · rw [clear_cell_eq w x y hv]
    exact set_cell_cell_invariant w x y _ hinv cleared_cell_ok
  · rw [clear_cell_invalid w x y hv]
    exact hinv

theorem place_food_cell_invariant (w : World) (x y amount : Int) (hinv : cell_invariant w) :
    cell_invariant (place_food w x y amount) := by
  by_cases hb : ¬ is_valid_position w x y = true ∨ amount ≤ 0
  · rw [place_food_invalid w x y amount hb]
    exact hinv
  · have hv : is_valid_position w x y = true := by
      by_contra h
      exact hb (Or.inl h)
    have ha : 0 < amount := by
      by_contra h
      exact hb (Or.inr (not_lt.mp h))
    rw [place_food_eq w x y amount hv ha]
    obtain ⟨_, _, he3⟩ := cell_after_clearing_empty w x y (hinv x y hv)
    apply set_cell_cell_invariant _ _ _ _ hinv
    refine ⟨?_, fun _ => rfl, le_of_lt ha⟩
    simp only [he3]
    constructor
    · intro h
      exact absurd rfl h
    · intro h
      exact absurd h (by decide)

theorem place_obstacle_cell_invariant (w : World) (x y : Int) (hinv : cell_invariant w) :
    cell_invariant (place_obstacle w x y) := by
  by_cases hv : is_valid_position w x y = true
  · rw [place_obstacle_eq w x y hv]
    obtain ⟨_, he2, he3⟩ := cell_after_clearing_empty w x y (hinv x y hv)
    apply set_cell_cell_invariant _ _ _ _ hinv
    refine ⟨?_, ?_, ?_⟩
    · simp only [he3]
      constructor
      · intro h
        exact absurd rfl h
      · intro h
        exact absurd h (by decide)
    · intro h
      simp only [he2] at h
      exact absurd h (by decide)
    · simp only [he2]
      exact le_refl 0
  · rw [place_obstacle_invalid w x y hv]
    exact hinv

theorem place_colony_cell_invariant (w : World) (colony_id x y : Int) (hinv : cell_invariant w) :
    cell_invariant (place_colony w colony_id x y) := by
  by_cases hb : ¬ is_valid_position w x y = true ∨ colony_id < 0 ∨ colony_id ≥ w.colony_count
  · rw [place_colony_invalid w colony_id x y hb]
    exact hinv
  · have hv : is_valid_position w x y = true := by
      by_contra h
      exact hb (Or.inl h)
    have hc : 0 ≤ colony_id ∧ colony_id < w.colony_count := by
      constructor
      · by_contra h
        exact hb (Or.inr (Or.inl (not_le.mp h)))
      · by_contra h
        exact hb (Or.inr (Or.inr (not_lt.mp h)))
    rw [place_colony_eq w colony_id x y hv hc]
    obtain ⟨_, he2, _⟩ := cell_after_clearing_empty w x y (hinv x y hv)
    have hg := modify_colony_grid
      (set_cell w x y
        { cell_after_clearing w x y with terrain := TERRAIN_NEST, colony_id := colony_id })
      colony_id fun colony => { colony with nest_pos := ⟨x, y⟩ }
    apply cell_invariant_of_grid _ _ hg.1 hg.2.1 hg.2.2
    apply set_cell_cell_invariant _ _ _ _ hinv
    refine ⟨?_, ?_, ?_⟩
    · simp only
      constructor
      · intro _
        trivial
      · intro _
        omega
    · intro h
      simp only [he2] at h
      exact absurd h (by decide)
    · simp only [he2]
      exact le_refl 0

theorem searching_empty_handed_of_flags (a b : Ant)
    (h1 : b.state &&& ANT_STATE_SEARCHING = a.state &&& ANT_STATE_SEARCHING)
    (h2 : b.state &&& ANT_STATE_RETURNING = a.state &&& ANT_STATE_RETURNING)
    (h3 : b.state &&& ANT_STATE_CARRYING = a.state &&& ANT_STATE_CARRYING)
    (hfc : b.food_carrying = a.food_carrying) (h : searching_empty_handed a) :
    searching_empty_handed b := by
  unfold searching_empty_handed at h ⊢
  rw [h1, h2, h3, hfc]
  exact h

theorem only_pheromones_changed_no_food {w v : World} (h : only_pheromones_changed w v)
    (hnf : no_food_cells w) : no_food_cells v := by
  intro x y hv
  have hv2 : is_valid_position w x y = true := by
    simpa only [is_valid_position, h.1, h.2.1] using hv
  rw [(h.2.2.2 x y).1]
  exact hnf x y hv2

theorem update_ant_no_food (w : World) (a : Ant) (r : Rng) (hnf : no_food_cells w)
    (hp : searching_empty_handed a) :
    only_pheromones_changed w (update_ant w a r).1 ∧
      searching_empty_handed (update_ant w a r).2.1 := by
  rcases update_ant_cases w a r with ⟨_, e⟩ | ⟨_, _, hfh, _⟩ | ⟨_, _, _, e⟩ | ⟨_, h, _⟩ |
    ⟨_, h, _⟩ | ⟨_, h, _⟩
  · rw [e]
    refine ⟨only_pheromones_changed_refl w, ?_⟩
    exact searching_empty_handed_of_flags a _
      (dead_state_flag _ _ (by decide) (by decide))
      (dead_state_flag _ _ (by decide) (by decide))
      (dead_state_flag _ _ (by decide) (by decide)) rfl hp
  · obtain ⟨hv, ht, _, _⟩ := food_here_spec w a hfh
    exact absurd ht (hnf _ _ hv)
  · rw [e]
    refine ⟨(search_step_spec w _ r).1, ?_⟩
    exact searching_empty_handed_of_flags a _
      (search_step_flag w _ r _ (by decide) (by decide))
      (search_step_flag w _ r _ (by decide) (by decide))
      (search_step_flag w _ r _ (by decide) (by decide))
      (search_step_spec w _ r).2.1 hp
  · exact absurd h hp.1
  · exact absurd h hp.1
  · exact absurd h hp.1

theorem update_ants_loop_no_food :
    ∀ (ants : List Ant) (w : World) (r : Rng), no_food_cells w →
      (∀ a ∈ ants, searching_empty_handed a) →
      only_pheromones_changed w (update_ants_loop w r ants).1 ∧
        ∀ a ∈ (update_ants_loop w r ants).2.1, searching_empty_handed a
  | [], w, r, _, _ => ⟨only_pheromones_changed_refl w, by intro a ha; simp [update_ants_loop] at ha⟩
  | a :: rest, w, r, hnf, hp => by
    have hpa := hp a (List.mem_cons_self a rest)
    have hprest : ∀ b ∈ rest, searching_empty_handed b :=
      fun b hb => hp b (List.mem_cons_of_mem a hb)
    by_cases hd : a.state &&& ANT_STATE_DEAD ≠ 0
    · rw [update_ants_loop_dead_cons a rest w r hd]
      have ih := update_ants_loop_no_food rest w r hnf hprest
      refine ⟨ih.1, ?_⟩
      intro b hb
      rcases List.mem_cons.mp hb with rfl | hb
      · exact hpa
      · exact ih.2 b hb
    · rw [update_ants_loop_alive_cons a rest w r hd]
      obtain ⟨h1, h2⟩ := update_ant_no_food w a r hnf hpa
      have ih := update_ants_loop_no_food rest (update_ant w a r).1 (update_ant w a r).2.2
        (only_pheromones_changed_no_food h1 hnf) hprest
      refine ⟨only_pheromones_changed_trans h1 ih.1, ?_⟩
      intro b hb
      rcases List.mem_cons.mp hb with rfl | hb
      · exact h2
      · exact ih.2 b hb

theorem update_colony_ants_no_food (s : World × Rng) (i : Nat) (h : no_food_state s.1) :
    no_food_state (update_colony_ants s i).1 ∧
      (update_colony_ants s i).1.colonies.map Colony.food_collected =
        s.1.colonies.map Colony.food_collected := by
  cases hc : s.1.colonies[i]? with
  | none =>
    have : update_colony_ants s i = s := by
      unfold update_colony_ants
      rw [List.get?_eq_getElem?, hc]
    rw [this]
    exact ⟨h, rfl⟩
  | some c =>
    have hants := update_colony_ants_ants s i c hc
    obtain ⟨hop, hpost⟩ := update_ants_loop_no_food c.ants s.1 s.2 h.1
      (h.2 c (List.getElem?_mem hc))
    have hgrid : (update_colony_ants s i).1.grid = (update_ants_loop s.1 s.2 c.ants).1.grid ∧
        (update_colony_ants s i).1.width = (update_ants_loop s.1 s.2 c.ants).1.width ∧
        (update_colony_ants s i).1.height = (update_ants_loop s.1 s.2 c.ants).1.height := by
      rw [update_colony_ants_eq s i c hc]
      exact ⟨rfl, rfl, rfl⟩
    have hfood : (update_colony_ants s i).1.colonies.map Colony.food_collected =
        s.1.colonies.map Colony.food_collected := by
      rw [update_colony_ants_eq s i c hc]
      simp only []
      refine Eq.trans (map_modify_of_eq Colony.food_collected _ ?_ _ _) ?_
      · intro d
        rfl
      · rw [hop.2.2.1]
    refine ⟨⟨?_, ?_⟩, hfood⟩
    · intro x y hv
      have hnf2 := only_pheromones_changed_no_food hop h.1
      rw [hgrid.1]
      apply hnf2 x y
      simpa only [is_valid_position, hgrid.2.1, hgrid.2.2] using hv
    · intro c2 hc2 a ha
      obtain ⟨j, hj, hget⟩ := List.getElem_of_mem hc2
      have hj2 : (update_colony_ants s i).1.colonies[j]? = some c2 := by
        rw [List.getElem?_eq_getElem hj, hget]
      by_cases hji : j = i
      · subst hji
        have h2 := hants.2.1
        rw [hj2] at h2
        simp only [Option.map_some', Option.some.injEq] at h2
        rw [h2] at ha
        exact hpost a (List.mem_filter.mp ha).1
      · have h3 := hants.2.2 j hji
        rw [hj2] at h3
        simp only [Option.map_some'] at h3
        cases hold : s.1.colonies[j]? with
        | none => rw [hold] at h3; simp at h3
        | some c0 =>
          rw [hold] at h3
          simp only [Option.map_some', Option.some.injEq] at h3
          have := h.2 c0 (List.getElem?_mem hold) a
          rw [← h3] at this
          exact this ha

theorem update_all_ants_no_food (w : World) (r : Rng) (h : no_food_state w) :
    no_food_state (update_all_ants w r).1 ∧
      (update_all_ants w r).1.colonies.map Colony.food_collected =
        w.colonies.map Colony.food_collected :=
  update_all_ants_induction w r
    (fun _ s => no_food_state s.1 ∧
      s.1.colonies.map Colony.food_collected = w.colonies.map Colony.food_collected)
    ⟨h, rfl⟩
    (fun i s _ hs =>
      ⟨(update_colony_ants_no_food s i hs.1).1,
        (update_colony_ants_no_food s i hs.1).2.trans hs.2⟩)

theorem update_colony_statistics_colonies (w : World) :
    (update_colony_statistics w).colonies.map Colony.ants = w.colonies.map Colony.ants ∧
      (update_colony_statistics w).colonies.map Colony.food_collected =
        w.colonies.map Colony.food_collected := by
  constructor
  · simp only [update_colony_statistics, List.map_map]
    apply List.map_congr_left
    intro c _
    simp only [Function.comp]
    split <;> rfl
  · simp only [update_colony_statistics, List.map_map]
    apply List.map_congr_left
    intro c _
    simp only [Function.comp]
    split <;> rfl

theorem simulation_tick_after_update (w : World) (r : Rng) :
    (simulation_tick w r).1.width = (update_all_ants w r).1.width ∧
      (simulation_tick w r).1.height = (update_all_ants w r).1.height ∧
      (∀ x y : Int, ((simulation_tick w r).1.grid y x).terrain =
          ((update_all_ants w r).1.grid y x).terrain ∧
        ((simulation_tick w r).1.grid y x).food_amount =
          ((update_all_ants w r).1.grid y x).food_amount ∧
        ((simulation_tick w r).1.grid y x).colony_id =
          ((update_all_ants w r).1.grid y x).colony_id) ∧
      (simulation_tick w r).1.colonies.map Colony.ants =
        (update_all_ants w r).1.colonies.map Colony.ants ∧
      (simulation_tick w r).1.colonies.map Colony.food_collected =
        (update_all_ants w r).1.colonies.map Colony.food_collected := by
  simp only [simulation_tick]
  generalize (update_all_ants w r).1 = u
  have h := only_pheromones_changed_trans (evaporate_only_pheromones u)
    (diffuse_only_pheromones (evaporate_pheromones u))
  have hc := update_colony_statistics_colonies (diffuse_pheromones (evaporate_pheromones u))
  rw [h.2.2.1] at hc
  exact ⟨h.1, h.2.1, h.2.2.2, hc.1, hc.2⟩

theorem simulation_tick_no_food (w : World) (r : Rng) (h : no_food_state w) :
    no_food_state (simulation_tick w r).1 ∧
      (simulation_tick w r).1.colonies.map Colony.food_collected =
        w.colonies.map Colony.food_collected := by
  obtain ⟨hu, hf⟩ := update_all_ants_no_food w r h
  obtain ⟨t1, t2, t3, t4, t5⟩ := simulation_tick_after_update w r
  refine ⟨⟨?_, ?_⟩, t5.trans hf⟩
  · intro x y hv
    rw [(t3 x y).1]
    apply hu.1 x y
    simpa only [is_valid_position, t1, t2] using hv
  · intro c hc a ha
    have hmem : c.ants ∈ (simulation_tick w r).1.colonies.map Colony.ants :=
      List.mem_map_of_mem Colony.ants hc
    rw [t4] at hmem
    obtain ⟨c0, hc0, hc0a⟩ := List.mem_map.mp hmem
    exact hu.2 c0 hc0 a (hc0a ▸ ha)

theorem run_ticks_no_food (w : World) (r : Rng) (h : no_food_state w) :
    ∀ n : Nat, no_food_state (run_ticks n w r).1 ∧
      (run_ticks n w r).1.colonies.map Colony.food_collected =
        w.colonies.map Colony.food_collected
  | 0 => ⟨h, rfl⟩
  | n + 1 => by
    obtain ⟨ih1, ih2⟩ := run_ticks_no_food w r h n
    obtain ⟨h1, h2⟩ := simulation_tick_no_food (run_ticks n w r).1 (run_ticks n w r).2 ih1
    exact ⟨h1, h2.trans ih2⟩

theorem barren_world_no_food : no_food_state barren_world := by
  constructor
  · intro x y _
    simp [barren_world]
  · intro c hc a ha
    simp only [barren_world, List.mem_cons, List.mem_singleton, List.not_mem_nil, or_false] at hc
    rcases hc with rfl | rfl
    · simp only [List.mem_singleton] at ha
      subst ha
      exact ⟨by decide, by decide, by decide, rfl⟩
    · simp only [List.mem_singleton] at ha
      subst ha
      exact ⟨by decide, by decide, by decide, rfl⟩

theorem max_neighbor_fold (w : World) (x y : Int) (type : Int) :
    ∀ (l : List (Int × Int)) (m : ℚ),
      m ≤ l.foldl (max_neighbor_step w x y type) m ∧
      (∀ d ∈ l, is_valid_position w (x + d.1) (y + d.2) = true →
        get_pheromone_intensity w (x + d.1) (y + d.2) type ≤
          l.foldl (max_neighbor_step w x y type) m) ∧
      (l.foldl (max_neighbor_step w x y type) m = m ∨
        ∃ d ∈ l, is_valid_position w (x + d.1) (y + d.2) = true ∧
          get_pheromone_intensity w (x + d.1) (y + d.2) type =
            l.foldl (max_neighbor_step w x y type) m)
  | [], m => ⟨le_refl m, by simp, Or.inl rfl⟩
  | d :: l, m => by
    obtain ⟨h1, h2, h3⟩ := max_neighbor_fold w x y type l (max_neighbor_step w x y type m d)
    have hstep : m ≤ max_neighbor_step w x y type m d := by
      unfold max_neighbor_step
      simp only []
      split
      · split
        · exact le_of_lt (by assumption)
        · exact le_refl m
      · exact le_refl m
    have hval : is_valid_position w (x + d.1) (y + d.2) = true →
        get_pheromone_intensity w (x + d.1) (y + d.2) type ≤
          max_neighbor_step w x y type m d := by
      intro hv
      unfold max_neighbor_step
      simp only [hv, if_true]
      split
      · exact le_refl _
      · exact not_lt.mp (by assumption)
    have hatt : max_neighbor_step w x y type m d = m ∨
        (is_valid_position w (x + d.1) (y + d.2) = true ∧
          get_pheromone_intensity w (x + d.1) (y + d.2) type =
            max_neighbor_step w x y type m d) := by
      unfold max_neighbor_step
      simp only []
      split
      · rename_i hv
        split
        · exact Or.inr ⟨hv, rfl⟩
        · exact Or.inl rfl
      · exact Or.inl rfl
    simp only [List.foldl_cons]
    refine ⟨le_trans hstep h1, ?_, ?_⟩
    · intro e he hv
      rcases List.mem_cons.mp he with rfl | he
      · exact le_trans (hval hv) h1
      · exact h2 e he hv
    · rcases h3 with h3 | ⟨e, he, hv, hval2⟩
      · rcases hatt with h4 | ⟨hv, h4⟩
        · exact Or.inl (h3.trans h4)
        · exact Or.inr ⟨d, List.mem_cons_self d l, hv, h4.trans h3.symm⟩
      · exact Or.inr ⟨e, List.mem_cons_of_mem d he, hv, hval2⟩

theorem in_bounds_neighbours_offset (w : World) (x y : Int) (q : Int × Int)
    (hq : q ∈ in_bounds_neighbours w x y) :
    ∃ d ∈ neighbor_offsets, q = (x + d.1, y + d.2) ∧
      is_valid_position w (x + d.1) (y + d.2) = true := by
  rw [← visited_neighbours_toFinset, List.mem_toFinset] at hq
  simp only [visited_neighbours, List.mem_filter, List.mem_map] at hq
  obtain ⟨⟨d, hd, rfl⟩, hv⟩ := hq
  exact ⟨d, hd, rfl, hv⟩

theorem offset_in_bounds_neighbours (w : World) (x y : Int) (d : Int × Int)
    (hd : d ∈ neighbor_offsets) (hv : is_valid_position w (x + d.1) (y + d.2) = true) :
    (x + d.1, y + d.2) ∈ in_bounds_neighbours w x y := by
  rw [← visited_neighbours_toFinset, List.mem_toFinset]
  simp only [visited_neighbours, List.mem_filter, List.mem_map]
  exact ⟨⟨d, hd, rfl⟩, hv⟩

theorem get_pheromone_intensity_nonneg (w : World) (hnn : pheromones_nonneg w) (x y : Int)
    (type : Int) : 0 ≤ get_pheromone_intensity w x y type := by
  unfold get_pheromone_intensity
  split
  · exact le_refl 0
  · rename_i hv
    have hv2 : is_valid_position w x y = true := by simpa using hv
    simp only []
    split
    · exact (hnn x y hv2).1
    · split
      · exact (hnn x y hv2).2
      · exact le_refl 0

theorem get_max_pheromone_neighbor_valid (w : World) (x y : Int) (type : Int)
    (hv : is_valid_position w x y = true) :
    get_max_pheromone_neighbor w x y type =
      neighbor_offsets.foldl (max_neighbor_step w x y type) 0 := by
  simp [get_max_pheromone_neighbor, hv]

theorem same_in_bounds_valid {w v : World} (h : same_in_bounds w v) (x y : Int) :
    is_valid_position v x y = is_valid_position w x y := by
  simp only [is_valid_position, h.1, h.2.1]

theorem same_in_bounds_intensity {w v : World} (h : same_in_bounds w v) (x y : Int)
    (type : Int) : get_pheromone_intensity v x y type = get_pheromone_intensity w x y type := by
  unfold get_pheromone_intensity
  rw [same_in_bounds_valid h]
  cases hv : is_valid_position w x y with
  | false => rfl
  | true => simp only [h.2.2 x y hv]

theorem same_in_bounds_max_step {w v : World} (h : same_in_bounds w v) (x y : Int)
    (type : Int) : max_neighbor_step v x y type = max_neighbor_step w x y type := by
  funext m d
  simp only [max_neighbor_step, same_in_bounds_valid h, same_in_bounds_intensity h]

theorem finset_max_of_bounds {α : Type} (s : Finset α) (f : α → ℚ) (m : ℚ)
    (hnn : ∀ q ∈ s, 0 ≤ f q) (hub : ∀ q ∈ s, f q ≤ m) (hatt : m = 0 ∨ ∃ q ∈ s, f q = m) :
    (∀ hne : s.Nonempty, m = s.sup' hne f) ∧ (s = ∅ → m = 0) := by
  constructor
  · intro hne
    apply le_antisymm
    · rcases hatt with h0 | ⟨q, hq, hval⟩
      · obtain ⟨q, hq⟩ := hne
        rw [h0]
        exact le_trans (hnn q hq) (Finset.le_sup' f hq)
      · rw [← hval]
        exact Finset.le_sup' f hq
    · exact Finset.sup'_le hne f hub
  · intro hempty
    rcases hatt with h0 | ⟨q, hq, _⟩
    · exact h0
    · rw [hempty] at hq
      exact absurd hq (Finset.not_mem_empty _)

theorem terrain_world_padded_same : same_in_bounds terrain_world terrain_world_padded := by
  refine ⟨rfl, rfl, ?_⟩
  intro x y hv
  simp only [terrain_world_padded, hv, if_true]

theorem create_world_none_iff (width height colony_count : Int) :
    create_world width height colony_count = none ↔
      width ≤ 0 ∨ height ≤ 0 ∨ colony_count ≤ 0 ∨ width > MAX_WORLD_SIZE ∨
        height > MAX_WORLD_SIZE := by
  by_cases h1 : width ≤ 0 ∨ height ≤ 0 ∨ colony_count ≤ 0
  · have : create_world width height colony_count = none := by
      simp only [create_world, if_pos h1]
    simp only [this, true_iff]
    tauto
  · by_cases h2 : width > MAX_WORLD_SIZE ∨ height > MAX_WORLD_SIZE
    · have : create_world width height colony_count = none := by
        simp only [create_world, if_neg h1, if_pos h2]
      simp only [this, true_iff]
      tauto
    · rw [create_world_eq width height colony_count h1 h2]
      simp only [reduceCtorEq, false_iff]
      tauto

theorem modify_eq_set {α : Type} (f : α → α) (l : List α) (i : Nat) (c : α)
    (h : l[i]? = some c) : l.modify f i = l.set i (f c) := by
  apply List.ext_getElem?
  intro j
  by_cases hj : i = j
  · subst hj
    have hlt : i < l.length := by
      rcases Nat.lt_or_ge i l.length with h1 | h1
      · exact h1
      · rw [List.getElem?_eq_none h1] at h
        exact absurd h (by simp)
    rw [List.getElem?_modify_eq, h, List.getElem?_set_self hlt]
    rfl
  · rw [List.getElem?_modify_ne _ _ hj, List.getElem?_set_ne hj]

theorem getElem?_lt_length {α : Type} {l : List α} {i : Nat} {c : α} (h : l[i]? = some c) :
    i < l.length := by
  rcases Nat.lt_or_ge i l.length with h1 | h1
  · exact h1
  · rw [List.getElem?_eq_none h1] at h
    exact absurd h (by simp)

theorem spawn_ant_eq (w : World) (colony_id : Int) (c : Colony) (hid : 0 ≤ colony_id)
    (hc : w.colonies[colony_id.toNat]? = some c) :
    spawn_ant w colony_id =
      { w with
        colonies := w.colonies.set colony_id.toNat
          (if c.total_ants ≥ MAX_ANTS_PER_COLONY then c
            else add_ant_to_colony c (create_ant (c.total_ants + 1) colony_id c.nest_pos)) } := by
  have hlt := getElem?_lt_length hc
  have hcount : ¬ (colony_id < 0 ∨ colony_id ≥ w.colony_count) := by
    simp only [World.colony_count]
    omega
  unfold spawn_ant
  rw [if_neg hcount]
  unfold modify_colony
  rw [if_neg (not_lt.mpr hid), modify_eq_set _ _ _ c hc]

theorem spawn_ant_bad_id (w : World) (colony_id : Int)
    (h : colony_id < 0 ∨ colony_id ≥ w.colony_count) : spawn_ant w colony_id = w := by
  unfold spawn_ant
  rw [if_pos h]

theorem set_getElem_self {α : Type} (l : List α) (i : Nat) (c : α) (h : l[i]? = some c) :
    l.set i c = l := by
  apply List.ext_getElem?
  intro j
  by_cases hj : i = j
  · subst hj
    rw [List.getElem?_set_self (getElem?_lt_length h), h]
  · rw [List.getElem?_set_ne hj]

theorem update_colony_statistics_getElem (w : World) (i : Nat) (c : Colony)
    (hc : w.colonies[i]? = some c) :
    (update_colony_statistics w).colonies[i]? =
      some
        { c with
          active_ants := living_count c.ants
          efficiency_score :=
            if c.total_ants > 0 then (c.food_collected : ℚ) / (c.total_ants : ℚ)
            else c.efficiency_score } := by
  simp only [update_colony_statistics, List.getElem?_map, hc, Option.map_some',
    Option.some.injEq]
  split <;> rfl

theorem update_ant_energy (w : World) (a : Ant) (r : Rng) :
    (a.energy - ANT_ENERGY_PER_STEP ≤ 0 ∧
      (update_ant w a r).2.1.energy = a.energy - ANT_ENERGY_PER_STEP ∧
      (update_ant w a r).2.1.state &&& ANT_STATE_DEAD ≠ 0) ∨
    (0 < a.energy - ANT_ENERGY_PER_STEP ∧
      ((update_ant w a r).2.1.energy = a.energy - ANT_ENERGY_PER_STEP ∨
        (update_ant w a r).2.1.energy =
          a.energy - ANT_ENERGY_PER_STEP + ANT_ENERGY_FROM_FOOD) ∧
      (update_ant w a r).2.1.state &&& ANT_STATE_DEAD = a.state &&& ANT_STATE_DEAD) := by
  rcases update_ant_cases w a r with ⟨he, e⟩ | ⟨he, _, _, e⟩ | ⟨he, _, _, e⟩ |
    ⟨he, _, _, _, e⟩ | ⟨he, _, _, _, e⟩ | ⟨he, _, _, e⟩
  · left
    rw [e]
    exact ⟨he, rfl, set_ant_state_dead _⟩
  · right
    refine ⟨he, Or.inr ?_, update_ant_dead_flag w a r he⟩
    rw [e, pick_up_food_ant]
  · right
    refine ⟨he, Or.inl ?_, update_ant_dead_flag w a r he⟩
    rw [e]
    simp only [search_step]
    rw [(tired_check_fields _).2.1]
    split
    · exact (follow_pheromone_gradient_same _ w _ _).2.2.2.1
    · exact (move_randomly_same _ w _).2.2.2.1
  · right
    refine ⟨he, Or.inl ?_, update_ant_dead_flag w a r he⟩
    rw [e, deliver_food_ant]
  · right
    refine ⟨he, Or.inl ?_, update_ant_dead_flag w a r he⟩
    rw [e]
    simp only [return_step]
    rw [(tired_check_fields _).2.1]
    exact (follow_pheromone_gradient_same _ w _ _).2.2.2.1
  · right
    refine ⟨he, Or.inl ?_, update_ant_dead_flag w a r he⟩
    rw [e]
    exact (tired_check_fields _).2.1

theorem update_ant_energy_ok (w : World) (a : Ant) (r : Rng)
    (halive : a.state &&& ANT_STATE_DEAD = 0) (h : energy_ok a) :
    energy_ok (update_ant w a r).2.1 := by
  obtain ⟨⟨n, hn⟩, h1, _⟩ := h
  have hge := h1 halive
  have hn1 : (1 : Int) ≤ n := by
    rw [hn] at hge
    exact_mod_cast hge
  rcases update_ant_energy w a r with ⟨he, e, hd⟩ | ⟨he, e, hd⟩
  · have hn2 : n = 1 := by
      rw [hn] at he
      simp only [ANT_ENERGY_PER_STEP] at he
      have : (n : ℚ) ≤ 1 := by linarith
      have : n ≤ 1 := by exact_mod_cast this
      omega
    have e0 : (update_ant w a r).2.1.energy = 0 := by
      rw [e, hn, hn2]
      norm_num [ANT_ENERGY_PER_STEP]
    refine ⟨⟨0, by rw [e0]; norm_num⟩, fun h0 => absurd h0 hd, fun _ => e0⟩
  · have hn2 : (2 : Int) ≤ n := by
      rw [hn] at he
      simp only [ANT_ENERGY_PER_STEP] at he
      have : (1 : ℚ) < (n : ℚ) := by linarith
      have : (1 : Int) < n := by exact_mod_cast this
      omega
    have hq : (2 : ℚ) ≤ (n : ℚ) := by exact_mod_cast hn2
    rw [halive] at hd
    rcases e with e | e
    · refine ⟨⟨n - 1, ?_⟩, fun _ => ?_, fun h0 => absurd hd h0⟩
      · rw [e, hn]
        norm_num [ANT_ENERGY_PER_STEP]
      · rw [e, hn]
        simp only [ANT_ENERGY_PER_STEP]
        linarith
    · refine ⟨⟨n - 1 + 500, ?_⟩, fun _ => ?_, fun h0 => absurd hd h0⟩
      · rw [e, hn]
        norm_num [ANT_ENERGY_PER_STEP, ANT_ENERGY_FROM_FOOD]
      · rw [e, hn]
        simp only [ANT_ENERGY_PER_STEP, ANT_ENERGY_FROM_FOOD]
        linarith

theorem create_ant_energy_ok (id colony_id : Int) (pos : Position) :
    energy_ok (create_ant id colony_id pos) := by
  have hs : (create_ant id colony_id pos).state = ANT_STATE_SEARCHING := rfl
  have he : (create_ant id colony_id pos).energy = ANT_INITIAL_ENERGY := rfl
  unfold energy_ok
  rw [hs, he]
  refine ⟨⟨1000, by norm_num [ANT_INITIAL_ENERGY]⟩, fun _ => by norm_num [ANT_INITIAL_ENERGY],
    fun h => absurd (by decide) h⟩

theorem updated_living_ant_energy_ok (a : Ant) (h : energy_ok a) :
    ∀ steps : List (World × Rng), energy_ok (updated_living_ant a steps) := by
  intro steps
  induction steps using List.reverseRecOn with
  | nil => exact h
  | append_singleton l s ih =>
    unfold updated_living_ant at ih ⊢
    rw [List.foldl_append]
    simp only [List.foldl_cons, List.foldl_nil]
    split
    · exact ih
    · rename_i hd
      exact update_ant_energy_ok _ _ _ (not_not.mp hd) ih

theorem energy_ok_dead_iff (a : Ant) (h : energy_ok a) :
    0 ≤ a.energy ∧ (a.state &&& ANT_STATE_DEAD ≠ 0 ↔ a.energy = 0) := by
  obtain ⟨_, h1, h2⟩ := h
  by_cases hd : a.state &&& ANT_STATE_DEAD = 0
  · have := h1 hd
    refine ⟨by linarith, fun h0 => absurd hd h0, fun h0 => ?_⟩
    rw [h0] at this
    norm_num at this
  · exact ⟨le_of_eq (h2 hd).symm, fun _ => h2 hd, fun _ => hd⟩

theorem update_ants_loop_ants_preserved (P : Ant → Prop)
    (hP : ∀ (w : World) (a : Ant) (r : Rng), a.state &&& ANT_STATE_DEAD = 0 → P a →
      P (update_ant w a r).2.1) :
    ∀ (ants : List Ant) (w : World) (r : Rng), (∀ a ∈ ants, P a) →
      ∀ a ∈ (update_ants_loop w r ants).2.1, P a
  | [], w, r, _ => by intro a ha; simp [update_ants_loop] at ha
  | a :: rest, w, r, hp => by
    have hpa := hp a (List.mem_cons_self a rest)
    have hprest : ∀ b ∈ rest, P b := fun b hb => hp b (List.mem_cons_of_mem a hb)
    by_cases hd : a.state &&& ANT_STATE_DEAD ≠ 0
    · rw [update_ants_loop_dead_cons a rest w r hd]
      intro b hb
      rcases List.mem_cons.mp hb with rfl | hb
      · exact hpa
      · exact update_ants_loop_ants_preserved P hP rest w r hprest b hb
    · rw [update_ants_loop_alive_cons a rest w r hd]
      intro b hb
      rcases List.mem_cons.mp hb with rfl | hb
      · exact hP w a r (not_not.mp hd) hpa
      · exact update_ants_loop_ants_preserved P hP rest _ _ hprest b hb

theorem update_colony_ants_ants_preserved (P : Ant → Prop)
    (hP : ∀ (w : World) (a : Ant) (r : Rng), a.state &&& ANT_STATE_DEAD = 0 → P a →
      P (update_ant w a r).2.1)
    (s : World × Rng) (i : Nat) (h : ∀ c ∈ s.1.colonies, ∀ a ∈ c.ants, P a) :
    ∀ c ∈ (update_colony_ants s i).1.colonies, ∀ a ∈ c.ants,
      P a ∧ a.state &&& ANT_STATE_DEAD = 0 ∨ ∃ c0 ∈ s.1.colonies, c0.ants = c.ants := by
  cases hc : s.1.colonies[i]? with
  | none =>
    have : update_colony_ants s i = s := by
      unfold update_colony_ants
      rw [List.get?_eq_getElem?, hc]
    rw [this]
    intro c hcm a _
    exact Or.inr ⟨c, hcm, rfl⟩
  | some c =>
    have hants := update_colony_ants_ants s i c hc
    have hpost := update_ants_loop_ants_preserved P hP c.ants s.1 s.2
      (h c (List.getElem?_mem hc))
    intro c2 hc2 a ha
    obtain ⟨j, hj, hget⟩ := List.getElem_of_mem hc2
    have hj2 : (update_colony_ants s i).1.colonies[j]? = some c2 := by
      rw [List.getElem?_eq_getElem hj, hget]
    by_cases hji : j = i
    · subst hji
      have h2 := hants.2.1
      rw [hj2] at h2
      simp only [Option.map_some', Option.some.injEq] at h2
      rw [h2] at ha
      have hm := List.mem_filter.mp ha
      exact Or.inl ⟨hpost a hm.1, by simpa using hm.2⟩
    · have h3 := hants.2.2 j hji
      rw [hj2] at h3
      simp only [Option.map_some'] at h3
      cases hold : s.1.colonies[j]? with
      | none => rw [hold] at h3; simp at h3
      | some c0 =>
        rw [hold] at h3
        simp only [Option.map_some', Option.some.injEq] at h3
        exact Or.inr ⟨c0, List.getElem?_mem hold, h3.symm⟩

theorem update_all_ants_ants_preserved (P : Ant → Prop)
    (hP : ∀ (w : World) (a : Ant) (r : Rng), a.state &&& ANT_STATE_DEAD = 0 → P a →
      P (update_ant w a r).2.1)
    (w : World) (r : Rng) (h : ∀ c ∈ w.colonies, ∀ a ∈ c.ants, P a) :
    ∀ c ∈ (update_all_ants w r).1.colonies, ∀ a ∈ c.ants, P a :=
  update_all_ants_induction w r
    (fun _ s => ∀ c ∈ s.1.colonies, ∀ a ∈ c.ants, P a) h
    (fun i s _ hs c hc a ha => by
      rcases update_colony_ants_ants_preserved P hP s i hs c hc a ha with h1 | ⟨c0, hc0, he⟩
      · exact h1.1
      · exact hs c0 hc0 a (he ▸ ha))

theorem gradient_step_scanned (ant : Ant) (w : World) (pheromone_type : Int) (n : Nat)
    (acc : ℚ × Int) (h : gradient_scanned ant w pheromone_type n acc) :
    gradient_scanned ant w pheromone_type (n + 1) (gradient_step ant w pheromone_type acc n) := by
  by_cases hc : gradient_candidate ant w n
  · by_cases hgt : gradient_value ant w pheromone_type n > acc.1
    · have hstep : gradient_step ant w pheromone_type acc n =
          (gradient_value ant w pheromone_type n, (n : Int)) := by
        unfold gradient_candidate at hc
        unfold gradient_value at hgt
        simp only [gradient_step, hc, if_true, hgt, gradient_value]
      rw [hstep]
      right
      rcases h with ⟨_, hm, hall⟩ | ⟨d, _, _, _, _, hpos, hall, _⟩
      · rw [hm] at hgt
        refine ⟨n, rfl, Nat.lt_succ_self n, hc, rfl, hgt, ?_, ?_⟩
        · intro e he hce
          rcases Nat.lt_succ_iff_lt_or_eq.mp he with he | rfl
          · exact le_trans (hall e he hce) (le_of_lt hgt)
          · exact le_refl _
        · intro e he hce
          exact lt_of_le_of_lt (hall e he hce) hgt
      · refine ⟨n, rfl, Nat.lt_succ_self n, hc, rfl, lt_trans hpos hgt, ?_, ?_⟩
        · intro e he hce
          rcases Nat.lt_succ_iff_lt_or_eq.mp he with he | rfl
          · exact le_trans (hall e he hce) (le_of_lt hgt)
          · exact le_refl _
        · intro e he hce
          exact lt_of_le_of_lt (hall e he hce) hgt
    · have hstep : gradient_step ant w pheromone_type acc n = acc := by
        unfold gradient_candidate at hc
        unfold gradient_value at hgt
        simp only [gradient_step, hc, if_true, hgt, if_false]
      rw [hstep]
      have hle := not_lt.mp hgt
      rcases h with ⟨hb, hm, hall⟩ | ⟨d, hb, hd, hcd, hval, hpos, hall, hfirst⟩
      · left
        refine ⟨hb, hm, ?_⟩
        intro e he hce
        rcases Nat.lt_succ_iff_lt_or_eq.mp he with he | rfl
        · exact hall e he hce
        · rw [← hm]
          exact hle
      · right
        refine ⟨d, hb, Nat.lt_succ_of_lt hd, hcd, hval, hpos, ?_, hfirst⟩
        intro e he hce
        rcases Nat.lt_succ_iff_lt_or_eq.mp he with he | rfl
        · exact hall e he hce
        · exact hle
  · have hstep : gradient_step ant w pheromone_type acc n = acc := by
      unfold gradient_candidate at hc
      simp only [gradient_step, hc, Bool.false_eq_true, if_false]
    rw [hstep]
    rcases h with ⟨hb, hm, hall⟩ | ⟨d, hb, hd, hcd, hval, hpos, hall, hfirst⟩
    · left
      refine ⟨hb, hm, ?_⟩
      intro e he hce
      rcases Nat.lt_succ_iff_lt_or_eq.mp he with he | rfl
      · exact hall e he hce
      · exact absurd hce hc
    · right
      refine ⟨d, hb, Nat.lt_succ_of_lt hd, hcd, hval, hpos, ?_, hfirst⟩
      intro e he hce
      rcases Nat.lt_succ_iff_lt_or_eq.mp he with he | rfl
      · exact hall e he hce
      · exact absurd hce hc

theorem gradient_scan (ant : Ant) (w : World) (pheromone_type : Int) :
    ∀ n : Nat, gradient_scanned ant w pheromone_type n
      ((List.range n).foldl (gradient_step ant w pheromone_type) (0, -1))
  | 0 => Or.inl ⟨rfl, rfl, fun e he _ => absurd he (Nat.not_lt_zero e)⟩
  | n + 1 => by
    rw [List.range_succ, List.foldl_append]
    exact gradient_step_scanned ant w pheromone_type n _ (gradient_scan ant w pheromone_type n)

theorem reset_pheromones_eq (w : World) :
    reset_pheromones w =
      { w with grid := fun y x =>
          if is_valid_position w x y = true then
            { w.grid y x with
              pheromone_food := PHEROMONE_INITIAL, pheromone_home := PHEROMONE_INITIAL }
          else w.grid y x } := by
  unfold reset_pheromones
  rw [foldl_set_cell
    (fun _ _ c => { c with
      pheromone_food := PHEROMONE_INITIAL, pheromone_home := PHEROMONE_INITIAL })
    (fun _ _ _ _ => rfl) _ (scan_cells_nodup w)]
  simp only [mem_scan_cells]

theorem spawn_ant_eq_modify (w : World) (i : Nat) (hi : i < w.colonies.length) :
    spawn_ant w (i : Int) =
      { w with colonies := w.colonies.modify (spawn_in_colony (i : Int)) i } := by
  have hcount : ¬ ((i : Int) < 0 ∨ (i : Int) ≥ w.colony_count) := by
    simp only [World.colony_count]
    omega
  unfold spawn_ant
  rw [if_neg hcount]
  unfold modify_colony
  rw [if_neg (by omega)]
  rfl

theorem spawn_ant_iterate (i : Nat) :
    ∀ (n : Nat) (w : World), i < w.colonies.length →
      (List.range n).foldl (fun acc2 _ => spawn_ant acc2 (i : Int)) w =
        { w with colonies := w.colonies.modify (spawn_in_colony (i : Int))^[n] i }
  | 0, w, _ => by
    simp only [List.range_zero, List.foldl_nil, Function.iterate_zero]
    rw [modify_eq_self_of_fixed id _ _ (fun _ _ => rfl)]
  | n + 1, w, hi => by
    rw [List.range_succ, List.foldl_append, spawn_ant_iterate i n w hi]
    simp only [List.foldl_cons, List.foldl_nil]
    rw [spawn_ant_eq_modify _ i (by simpa using hi)]
    simp only [List.modify_modify_eq, Function.iterate_succ']

theorem spawn_in_colony_iterate (colony_id : Int) (c : Colony) (hants : c.ants = [])
    (htotal : c.total_ants = 0) :
    ∀ n : Nat, (n : Int) ≤ MAX_ANTS_PER_COLONY →
      (spawn_in_colony colony_id)^[n] c =
        { c with
          ants := fresh_ants n colony_id c.nest_pos
          total_ants := (n : Int)
          active_ants := c.active_ants + (n : Int) }
  | 0, _ => by
    simp only [Function.iterate_zero, id_eq, fresh_ants, List.range_zero, List.map_nil,
      List.reverse_nil, Nat.cast_zero, add_zero]
    rw [← hants, ← htotal]
  | n + 1, hn => by
    have hn2 : (n : Int) ≤ MAX_ANTS_PER_COLONY := by
      push_cast at hn
      omega
    rw [Function.iterate_succ', Function.comp, spawn_in_colony_iterate colony_id c hants htotal n hn2]
    have hcap : ¬ ((n : Int) ≥ MAX_ANTS_PER_COLONY) := by
      push_cast at hn
      omega
    simp only [spawn_in_colony, if_neg hcap, add_ant_to_colony, fresh_ants, List.range_succ,
      List.map_append, List.map_cons, List.map_nil, List.reverse_append, List.reverse_cons,
      List.reverse_nil, List.nil_append, List.singleton_append, Nat.cast_add, Nat.cast_one,
      add_assoc]

theorem spawn_initial_ants_loop (w : World) :
    ∀ m : Nat, m ≤ w.colonies.length →
      (List.range m).foldl
          (fun acc (i : Nat) =>
            (List.range INITIAL_ANTS_PER_COLONY).foldl
              (fun acc2 _ => spawn_ant acc2 (i : Int)) acc) w =
        { w with
          colonies := w.colonies.mapIdx fun i c =>
            if i < m then (spawn_in_colony (i : Int))^[INITIAL_ANTS_PER_COLONY] c else c }
  | 0, _ => by
    simp only [List.range_zero, List.foldl_nil, Nat.not_lt_zero, if_false]
    have : (w.colonies.mapIdx fun _ c => c) = w.colonies := by
      apply List.ext_getElem?
      intro j
      rw [List.getElem?_mapIdx]
      cases w.colonies[j]? <;> rfl
    rw [this]
  | m + 1, hm => by
    rw [List.range_succ, List.foldl_append, spawn_initial_ants_loop w m (by omega)]
    simp only [List.foldl_cons, List.foldl_nil]
    rw [spawn_ant_iterate m _ _ (by simpa using hm)]
    simp only []
    congr 1
    apply List.ext_getElem?
    intro j
    simp only [List.getElem?_modify, List.getElem?_mapIdx]
    cases hj : w.colonies[j]? with
    | none => rfl
    | some c =>
      simp only [Option.map_some', Option.some.injEq]
      by_cases hjm : m = j
      · subst hjm
        simp
      · have h1 : (j < m + 1) = (j < m) := by
          apply propext
          omega
        simp only [hjm, if_false, h1]
        rfl

theorem reset_simulation_eq (w : World) :
    reset_simulation w =
      { w with
        current_step := 0
        grid := (reset_pheromones w).grid
        colonies := w.colonies.mapIdx reset_colony } := by
  unfold reset_simulation spawn_initial_ants
  simp only []
  rw [spawn_initial_ants_loop _ _ (le_refl _)]
  simp only [reset_pheromones_eq, List.length_map]
  congr 1
  apply List.ext_getElem?
  intro j
  simp only [List.getElem?_mapIdx, List.getElem?_map]
  cases hj : w.colonies[j]? with
  | none => rfl
  | some c =>
    have hlt := getElem?_lt_length hj
    simp only [Option.map_some', Option.some.injEq, hlt, if_true]
    rw [spawn_in_colony_iterate _ _ rfl rfl INITIAL_ANTS_PER_COLONY (by decide)]
    simp only [reset_colony, zero_add]

theorem mem_fresh_ants (n : Nat) (colony_id : Int) (nest_pos : Position) (a : Ant)
    (ha : a ∈ fresh_ants n colony_id nest_pos) :
    ∃ k : Nat, k < n ∧ a = create_ant ((k : Int) + 1) colony_id nest_pos := by
  simp only [fresh_ants, List.mem_reverse, List.mem_map, List.mem_range] at ha
  obtain ⟨k, hk, rfl⟩ := ha
  exact ⟨k, hk, rfl⟩

theorem reference_update_ants_fold :
    ∀ (ants : List Ant) (w : World) (acc : List Ant) (r : Rng),
      ants.foldl
          (fun (s : World × List Ant × Rng) (a : Ant) =>
            if a.state &&& ANT_STATE_DEAD ≠ 0 then (s.1, s.2.1 ++ [a], s.2.2)
            else
              ((update_ant s.1 a s.2.2).1, s.2.1 ++ [(update_ant s.1 a s.2.2).2.1],
                (update_ant s.1 a s.2.2).2.2))
          (w, acc, r) =
        ((update_ants_loop w r ants).1, acc ++ (update_ants_loop w r ants).2.1,
          (update_ants_loop w r ants).2.2)
  | [], w, acc, r => by simp [update_ants_loop]
  | a :: rest, w, acc, r => by
    rw [List.foldl_cons]
    by_cases hd : a.state &&& ANT_STATE_DEAD ≠ 0
    · rw [if_pos hd, reference_update_ants_fold rest, update_ants_loop_dead_cons a rest w r hd]
      simp only [List.append_assoc, List.singleton_append]
    · rw [if_neg hd, reference_update_ants_fold rest, update_ants_loop_alive_cons a rest w r hd]
      simp only [List.append_assoc, List.singleton_append]

theorem update_ants_loop_eq_reference (w : World) (r : Rng) (ants : List Ant) :
    update_ants_loop w r ants = reference_update_ants w r ants := by
  unfold reference_update_ants
  rw [reference_update_ants_fold ants w [] r]
  rfl

theorem dead_count_cons_dead (a : Ant) (rest : List Ant)
    (hd : a.state &&& ANT_STATE_DEAD ≠ 0) : dead_count (a :: rest) = dead_count rest + 1 := by
  have h : decide (a.state &&& ANT_STATE_DEAD ≠ 0) = true := decide_eq_true hd
  simp only [dead_count, List.filter_cons, h, if_true, List.length_cons, Nat.cast_add,
    Nat.cast_one]

theorem dead_count_cons_alive (a : Ant) (rest : List Ant)
    (hd : ¬ a.state &&& ANT_STATE_DEAD ≠ 0) : dead_count (a :: rest) = dead_count rest := by
  have h : decide (a.state &&& ANT_STATE_DEAD ≠ 0) = false := decide_eq_false hd
  simp only [dead_count, List.filter_cons, h, Bool.false_eq_true, if_false]

theorem cleanup_dead_ants_loop_counts :
    ∀ (ants : List Ant) (total active : Int),
      (cleanup_dead_ants_loop ants total active).2 =
        (total - dead_count ants, active - dead_count ants)
  | [], _, _ => by simp [cleanup_dead_ants_loop, dead_count]
  | a :: rest, total, active => by
    unfold cleanup_dead_ants_loop
    by_cases hd : a.state &&& ANT_STATE_DEAD ≠ 0
    · rw [if_pos hd, cleanup_dead_ants_loop_counts rest, dead_count_cons_dead a rest hd]
      ext <;> simp only [] <;> ring
    · rw [if_neg hd, dead_count_cons_alive a rest hd]
      simp only [cleanup_dead_ants_loop_counts rest]

theorem cleanup_dead_ants_eq_reference (d : Colony) (ants : List Ant) :
    cleanup_dead_ants { d with ants := ants } = reference_reap_counting d ants := by
  have h1 := cleanup_dead_ants_loop_fst ants d.total_ants d.active_ants
  have h2 := cleanup_dead_ants_loop_counts ants d.total_ants d.active_ants
  simp only [cleanup_dead_ants, reference_reap_counting, reference_reap, h1, h2]

theorem update_colony_ants_eq_reference (s : World × Rng) (i : Nat) :
    update_colony_ants s i =
      match s.1.colonies[i]? with
      | none => s
      | some colony =>
        ({ (reference_update_ants s.1 s.2 colony.ants).1 with
            colonies := (reference_update_ants s.1 s.2 colony.ants).1.colonies.modify
              (fun c => reference_reap_counting c
                (reference_update_ants s.1 s.2 colony.ants).2.1) i },
          (reference_update_ants s.1 s.2 colony.ants).2.2) := by
  unfold update_colony_ants
  rw [List.get?_eq_getElem?]
  cases s.1.colonies[i]? with
  | none => rfl
  | some colony =>
    simp only [update_ants_loop_eq_reference, cleanup_dead_ants_eq_reference]

theorem starving_world_reference (r : Rng) :
    (reference_update_all_ants reference_reap starving_world r).1.colonies.map
      Colony.active_ants = [1] := by
  have h0 : reference_update_all_ants reference_reap starving_world r =
      ({ (reference_update_ants starving_world r [starving_ant]).1 with
          colonies := (reference_update_ants starving_world r [starving_ant]).1.colonies.modify
            (fun c => reference_reap c
              (reference_update_ants starving_world r [starving_ant]).2.1) 0 },
        (reference_update_ants starving_world r [starving_ant]).2.2) := rfl
  rw [h0, ← update_ants_loop_eq_reference,
    update_ants_loop_alive_cons starving_ant [] starving_world r (by decide),
    starving_ant_dies r]
  rfl

theorem load_ants_end (colony : Colony) (file : List Record) :
    load_ants colony (.int (-1) :: file) = some (colony, file) := by
  unfold load_ants
  split <;> simp_all

theorem load_ants_ant (colony : Colony) (a : Ant) (file : List Record) (hid : a.id ≠ -1) :
    load_ants colony (save_ant a ++ file) =
      load_ants (add_ant_to_colony colony (reloaded_ant a)) file := by
  simp only [save_ant, List.cons_append, List.nil_append]
  rw [load_ants]
  simp only [if_neg hid]
  rfl

theorem load_ants_saved :
    ∀ (ants : List Ant) (colony : Colony) (file : List Record),
      (∀ a ∈ ants, a.id ≠ -1) →
      load_ants colony (ants.flatMap save_ant ++ (.int (-1) :: file)) =
        some (ants.foldl (fun k a => add_ant_to_colony k (reloaded_ant a)) colony, file)
  | [], colony, file, _ => by
    simp only [List.flatMap_nil, List.nil_append, List.foldl_nil]
    exact load_ants_end colony file
  | a :: rest, colony, file, h => by
    simp only [List.flatMap_cons, List.append_assoc, List.foldl_cons]
    rw [load_ants_ant colony a _ (h a (List.mem_cons_self a rest))]
    exact load_ants_saved rest _ file fun b hb => h b (List.mem_cons_of_mem a hb)

theorem add_ants_fold :
    ∀ (ants : List Ant) (c0 : Colony),
      ants.foldl (fun k a => add_ant_to_colony k (reloaded_ant a)) c0 =
        { c0 with
          ants := (ants.map reloaded_ant).reverse ++ c0.ants
          total_ants := c0.total_ants + (ants.length : Int)
          active_ants := c0.active_ants + (ants.length : Int) }
  | [], c0 => by simp
  | a :: rest, c0 => by
    rw [List.foldl_cons, add_ants_fold rest]
    simp only [add_ant_to_colony, List.map_cons, List.reverse_cons, List.append_assoc,
      List.singleton_append, List.length_cons, Nat.cast_add, Nat.cast_one]
    congr 1 <;> ring

theorem load_cell_saved (v : World) (p : Int × Int) (c : Cell) (file : List Record) :
    load_cell v p (save_cell c ++ file) = some (set_cell v p.1 p.2 c, file) := by
  simp only [save_cell, List.cons_append, List.nil_append, load_cell]

theorem load_grid_saved (w : World) :
    ∀ (l : List (Int × Int)) (v : World) (file : List Record),
      l.foldlM (fun (s : World × List Record) (p : Int × Int) => load_cell s.1 p s.2)
          (v, l.flatMap (fun p => save_cell (w.grid p.2 p.1)) ++ file) =
        some (l.foldl (fun acc p => set_cell acc p.1 p.2 (w.grid p.2 p.1)) v, file)
  | [], v, file => by simp
  | p :: l, v, file => by
    simp only [List.flatMap_cons, List.append_assoc, List.foldlM_cons, List.foldl_cons]
    rw [load_cell_saved]
    simp only [Option.bind_eq_bind, Option.some_bind]
    exact load_grid_saved w l _ file

theorem merge_colony_none (upd : Colony → Colony → Colony) (o : Option Colony) :
    merge_colony upd none o = o := by
  cases o <;> rfl

theorem load_indexed_fold (step : World → Nat → List Record → Option (World × List Record))
    (enc : Colony → List Record) (upd : Colony → Colony → Colony) (ok : Colony → Prop)
    (R : World → World → Prop) (hrefl : ∀ a, R a a)
    (htrans : ∀ a b c, R a b → R b c → R a c)
    (hstep : ∀ (world : World) (i : Nat) (c c0 : Colony) (file : List Record), ok c →
      world.colonies[i]? = some c0 →
      ∃ world2 : World, step world i (enc c ++ file) = some (world2, file) ∧ R world world2 ∧
        world2.colonies = world.colonies.set i (upd c c0)) :
    ∀ (cs : List Colony) (world : World) (file : List Record), (∀ c ∈ cs, ok c) →
      cs.length ≤ world.colonies.length →
      ∃ world2 : World,
        (List.range cs.length).foldlM (fun (s : World × List Record) (i : Nat) => step s.1 i s.2)
            (world, cs.flatMap enc ++ file) = some (world2, file) ∧
          R world world2 ∧ world2.colonies.length = world.colonies.length ∧
          ∀ j : Nat, world2.colonies[j]? = merge_colony upd cs[j]? world.colonies[j]? := by
  intro cs
  induction cs using List.reverseRecOn with
  | nil =>
    intro world file _ _
    refine ⟨world, rfl, hrefl world, rfl, ?_⟩
    intro j
    simp only [List.getElem?_nil, merge_colony_none]
  | append_singleton cs c ih =>
    intro world file hok hlen
    simp only [List.length_append, List.length_singleton] at hlen
    obtain ⟨world1, e1, hR1, hlen1, hcol1⟩ := ih world (enc c ++ file)
      (fun d hd => hok d (List.mem_append_left _ hd)) (by omega)
    have hn : world.colonies[cs.length]? = some (world.colonies[cs.length]) :=
      List.getElem?_eq_getElem (by omega)
    have hn1 : world1.colonies[cs.length]? = some (world.colonies[cs.length]) := by
      rw [hcol1, List.getElem?_eq_none (le_refl _), merge_colony_none, hn]
    obtain ⟨world2, e2, hR2, hcol2⟩ := hstep world1 cs.length c _ file
      (hok c (List.mem_append_right _ (List.mem_singleton_self c))) hn1
    refine ⟨world2, ?_, htrans _ _ _ hR1 hR2, ?_, ?_⟩
    · simp only [List.length_append, List.length_singleton, List.range_succ,
        List.foldlM_append, List.flatMap_append, List.flatMap_cons, List.flatMap_nil,
        List.append_nil, List.append_assoc]
      rw [e1]
      simp only [Option.bind_eq_bind, Option.some_bind, List.foldlM_cons, List.foldlM_nil, e2]
      rfl
    · rw [hcol2, List.length_set, hlen1]
    · intro j
      rw [hcol2]
      by_cases hj : cs.length = j
      · subst hj
        rw [List.getElem?_set_self (by omega), List.getElem?_append_right (le_refl _), hn]
        simp only [Nat.sub_self, List.getElem?_cons_zero]
        rfl
      · rw [List.getElem?_set_ne hj, hcol1]
        rcases Nat.lt_or_ge j cs.length with hlt | hge
        · rw [List.getElem?_append_left hlt]
        · have hgt : cs.length < j := by omega
          have h2 : (cs ++ [c])[j]? = none := by
            apply List.getElem?_eq_none
            simp only [List.length_append, List.length_singleton]
            omega
          rw [List.getElem?_eq_none hge, h2]

theorem load_colony_saved (world : World) (i : Nat) (c c0 : Colony) (file : List Record)
    (h0 : world.colonies[i]? = some c0) :
    ∃ world2 : World, load_colony world i (save_colony c ++ file) = some (world2, file) ∧
      (world2.width = world.width ∧ world2.height = world.height) ∧
      world2.colonies = world.colonies.set i (colony_with_saved c c0) := by
  simp only [save_colony, List.cons_append, List.nil_append, load_colony]
  refine ⟨_, rfl, ?_, ?_⟩
  · split <;> exact ⟨rfl, rfl⟩
  · have hm : (modify_colony world (i : Int) fun colony =>
        { colony with
          nest_pos := c.nest_pos
          food_collected := c.food_collected
          total_ants := c.total_ants
          active_ants := c.active_ants
          efficiency_score := c.efficiency_score }).colonies =
        world.colonies.set i (colony_with_saved c c0) := by
      unfold modify_colony
      rw [if_neg (by omega)]
      simp only [Int.toNat_ofNat]
      rw [modify_eq_set _ _ _ c0 h0]
      rfl
    split
    · exact hm
    · exact hm

theorem load_colony_ants_saved (world : World) (i : Nat) (c c0 : Colony) (file : List Record)
    (hid : ∀ a ∈ c.ants, a.id ≠ -1) (h0 : world.colonies[i]? = some c0) :
    ∃ world2 : World,
      load_colony_ants world i ((c.ants.flatMap save_ant ++ [.int (-1)]) ++ file) =
          some (world2, file) ∧
        (world2.width = world.width ∧ world2.height = world.height ∧
          world2.grid = world.grid) ∧
        world2.colonies = world.colonies.set i (colony_with_ants c c0) := by
  unfold load_colony_ants
  rw [h0]
  simp only [List.append_assoc, List.singleton_append]
  rw [load_ants_saved c.ants c0 file hid]
  exact ⟨_, rfl, ⟨rfl, rfl, rfl⟩, rfl⟩

theorem reloaded_colony_eq (j : Nat) (c : Colony) :
    colony_with_ants c (colony_with_saved c (initial_colony j)) = reloaded_colony j c := by
  unfold colony_with_ants
  rw [add_ants_fold]
  simp only [colony_with_saved, initial_colony, reloaded_colony, List.append_nil]

theorem load_save_simulation_eq (w : World)
    (hw : 0 < w.width ∧ w.width ≤ MAX_WORLD_SIZE)
    (hh : 0 < w.height ∧ w.height ≤ MAX_WORLD_SIZE) (hc : 0 < w.colonies.length)
    (hid : ∀ c ∈ w.colonies, ∀ a ∈ c.ants, a.id ≠ -1) :
    ∃ v : World, load_simulation (save_simulation w) = some v ∧
      v.width = w.width ∧ v.height = w.height ∧
      (∀ x y : Int, is_valid_position w x y = true → v.grid y x = w.grid y x) ∧
      v.colonies = w.colonies.mapIdx reloaded_colony := by
  have h1 : ¬ (w.width ≤ 0 ∨ w.height ≤ 0 ∨ w.colony_count ≤ 0) := by
    simp only [World.colony_count]
    omega
  have h2 : ¬ (w.width > MAX_WORLD_SIZE ∨ w.height > MAX_WORLD_SIZE) := by omega
  have hcw := create_world_eq w.width w.height w.colony_count h1 h2
  have hn : w.colony_count.toNat = w.colonies.length := by
    simp only [World.colony_count, Int.toNat_ofNat]
  rw [hn] at hcw
  obtain ⟨world0, hcw, hw0c, hw0d⟩ : ∃ world0 : World,
      create_world w.width w.height w.colony_count = some world0 ∧
      world0.colonies = (List.range w.colonies.length).map initial_colony ∧
      (world0.width = w.width ∧ world0.height = w.height) := ⟨_, hcw, rfl, rfl, rfl⟩
  obtain ⟨world1, e1, hR1, hlen1, hcol1⟩ :=
    load_indexed_fold load_colony save_colony colony_with_saved (fun _ => True)
      (fun a b => b.width = a.width ∧ b.height = a.height) (fun _ => ⟨rfl, rfl⟩)
      (fun _ _ _ h1 h2 => ⟨h2.1.trans h1.1, h2.2.trans h1.2⟩)
      (fun world i c c0 file _ h0 => load_colony_saved world i c c0 file h0)
      w.colonies world0
      ((scan_cells w).flatMap (fun p => save_cell (w.grid p.2 p.1)) ++
        w.colonies.flatMap fun colony => colony.ants.flatMap save_ant ++ [.int (-1)])
      (fun _ _ => trivial) (by rw [hw0c]; simp)
  have hscan : scan_cells world1 = scan_cells w := by
    simp only [scan_cells, hR1.1, hR1.2, hw0d.1, hw0d.2]
  have e2 := load_grid_saved w (scan_cells w) world1
    (w.colonies.flatMap fun colony => colony.ants.flatMap save_ant ++ [.int (-1)])
  rw [foldl_set_cell (fun _ p _ => w.grid p.2 p.1) (fun _ _ _ _ => rfl) _
    (scan_cells_nodup w)] at e2
  obtain ⟨world2, e2, hw2c, hw2gr, hw2d⟩ : ∃ world2 : World,
      (scan_cells w).foldlM
          (fun (s : World × List Record) (p : Int × Int) => load_cell s.1 p s.2)
          (world1, (scan_cells w).flatMap (fun p => save_cell (w.grid p.2 p.1)) ++
            w.colonies.flatMap fun colony => colony.ants.flatMap save_ant ++ [.int (-1)]) =
        some (world2,
          w.colonies.flatMap fun colony => colony.ants.flatMap save_ant ++ [.int (-1)]) ∧
      world2.colonies = world1.colonies ∧
      (world2.grid = fun y x => if (x, y) ∈ scan_cells w then w.grid y x else world1.grid y x) ∧
      (world2.width = w.width ∧ world2.height = w.height) := by
    refine ⟨_, e2, ?_, ?_, ?_⟩
    · rfl
    · rfl
    · exact ⟨hR1.1.trans hw0d.1, hR1.2.trans hw0d.2⟩
  have hw2g : ∀ x y : Int, is_valid_position w x y = true → world2.grid y x = w.grid y x := by
    intro x y hv
    rw [hw2gr]
    simp only [(mem_scan_cells w x y).mpr hv, if_true]
  obtain ⟨world3, e3, hR3, hlen3, hcol3⟩ :=
    load_indexed_fold load_colony_ants
      (fun colony => colony.ants.flatMap save_ant ++ [.int (-1)]) colony_with_ants
      (fun c => ∀ a ∈ c.ants, a.id ≠ -1)
      (fun a b => b.width = a.width ∧ b.height = a.height ∧ b.grid = a.grid)
      (fun _ => ⟨rfl, rfl, rfl⟩)
      (fun _ _ _ h1 h2 => ⟨h2.1.trans h1.1, h2.2.1.trans h1.2.1, h2.2.2.trans h1.2.2⟩)
      (fun world i c c0 file hok h0 => load_colony_ants_saved world i c c0 file hok h0)
      w.colonies world2 [] hid (by rw [hw2c, hlen1, hw0c]; simp)
  rw [List.append_nil] at e3
  refine ⟨world3, ?_, hR3.1.trans hw2d.1, hR3.2.1.trans hw2d.2, ?_, ?_⟩
  · simp only [save_simulation, List.cons_append, List.nil_append, List.append_assoc,
      load_simulation, ne_eq, not_true_eq_false, if_false, hcw, hn, e1, Option.bind_eq_bind,
      Option.some_bind, hscan, e2, e3, Option.map_some']
  · intro x y hv
    rw [hR3.2.2]
    exact hw2g x y hv
  · apply List.ext_getElem?
    intro j
    rw [hcol3, hw2c, hcol1, hw0c, List.getElem?_mapIdx, List.getElem?_map]
    cases hj : w.colonies[j]? with
    | none =>
      have hge : w.colonies.length ≤ j := by
        by_contra hlt
        rw [List.getElem?_eq_getElem (not_le.mp hlt)] at hj
        exact absurd hj (by simp)
      rw [List.getElem?_eq_none (by simpa using hge)]
      rfl
    | some c =>
      rw [List.getElem?_range (getElem?_lt_length hj)]
      simp only [Option.map_some', merge_colony, reloaded_colony_eq]

theorem reloaded_ant_fields (a : Ant) :
    (reloaded_ant a).id = a.id ∧ (reloaded_ant a).pos = a.pos ∧
      (reloaded_ant a).last_pos = a.last_pos ∧ (reloaded_ant a).state = a.state ∧
      (reloaded_ant a).colony_id = a.colony_id ∧ (reloaded_ant a).energy = a.energy ∧
      (reloaded_ant a).food_carrying = a.food_carrying ∧
      (reloaded_ant a).steps_taken = a.steps_taken ∧
      (reloaded_ant a).food_delivered = a.food_delivered :=
  ⟨rfl, rfl, rfl, rfl, rfl, rfl, rfl, rfl, rfl⟩

theorem move_ant_committed (a : Ant) (w : World) (d : Int) (h0 : 0 ≤ d) (h8 : d < 8)
    (hwalk : (is_valid_position w (a.pos.x + dx d) (a.pos.y + dy d) &&
      is_walkable w (a.pos.x + dx d) (a.pos.y + dy d)) = true) :
    move_ant a w d =
      { a with
        last_pos := a.pos
        pos := ⟨a.pos.x + dx d, a.pos.y + dy d⟩
        steps_taken := a.steps_taken + 1
        path_history := ⟨⟨a.pos.x + dx d, a.pos.y + dy d⟩, 0⟩ :: a.path_history } := by
  have hd : ¬ (d < 0 ∨ d ≥ 8) := by omega
  simp only [move_ant, if_neg hd, hwalk, if_true, add_path_node]

theorem move_ant_blocked (a : Ant) (w : World) (d : Int) (h0 : 0 ≤ d) (h8 : d < 8)
    (hwalk : (is_valid_position w (a.pos.x + dx d) (a.pos.y + dy d) &&
      is_walkable w (a.pos.x + dx d) (a.pos.y + dy d)) = false) :
    move_ant a w d = { a with last_pos := a.pos } := by
  have hd : ¬ (d < 0 ∨ d ≥ 8) := by omega
  simp only [move_ant, if_neg hd, hwalk, Bool.false_eq_true, if_false]

theorem opposite_offset (d : Int) (h0 : 0 ≤ d) (h8 : d < 8) :
    dx ((d + 4) % 8) = -dx d ∧ dy ((d + 4) % 8) = -dy d := by
  have hd : d = 0 ∨ d = 1 ∨ d = 2 ∨ d = 3 ∨ d = 4 ∨ d = 5 ∨ d = 6 ∨ d = 7 := by omega
  rcases hd with rfl | rfl | rfl | rfl | rfl | rfl | rfl | rfl <;> decide

theorem drawn_direction_range (r : Rng) (k : Nat) :
    0 ≤ drawn_direction r k ∧ drawn_direction r k ≤ 7 := by
  simp only [drawn_direction, random_int, rand]
  norm_num
  omega

theorem random_int_snd (r : Rng) (lo hi : Int) : (random_int r lo hi).2 = draws_consumed r 1 :=
  rfl

theorem move_randomly_loop_spec (ant : Ant) (w : World) :
    ∀ (n : Nat) (r : Rng),
      (∀ k : Nat, k < n → (∀ i : Nat, i < k → ¬ target_walkable ant w (drawn_direction r i)) →
        target_walkable ant w (drawn_direction r k) →
        move_randomly_loop ant w n r =
          (move_ant ant w (drawn_direction r k), draws_consumed r (k + 1))) ∧
      ((∀ i : Nat, i < n → ¬ target_walkable ant w (drawn_direction r i)) →
        move_randomly_loop ant w n r = (ant, draws_consumed r n))
  | 0, r => ⟨fun k hk => absurd hk (Nat.not_lt_zero k), fun _ => rfl⟩
  | n + 1, r => by
    obtain ⟨ih1, ih2⟩ := move_randomly_loop_spec ant w n (draws_consumed r 1)
    have hdraw : ∀ i : Nat, drawn_direction (draws_consumed r 1) i = drawn_direction r (i + 1) :=
      fun _ => rfl
    by_cases h0 : target_walkable ant w (drawn_direction r 0)
    · have hloop : move_randomly_loop ant w (n + 1) r =
          (move_ant ant w (drawn_direction r 0), draws_consumed r 1) := by
        have h0b : (is_valid_position w (ant.pos.x + dx (random_int r 0 7).1)
              (ant.pos.y + dy (random_int r 0 7).1) &&
            is_walkable w (ant.pos.x + dx (random_int r 0 7).1)
              (ant.pos.y + dy (random_int r 0 7).1)) = true := h0
        rw [move_randomly_loop, if_pos h0b]
        rfl
      constructor
      · intro k _ hbefore hk
        cases k with
        | zero => exact hloop
        | succ k => exact absurd h0 (hbefore 0 (Nat.succ_pos k))
      · intro hnone
        exact absurd h0 (hnone 0 (Nat.succ_pos n))
    · have hloop : move_randomly_loop ant w (n + 1) r =
          move_randomly_loop ant w n (draws_consumed r 1) := by
        have h0b : ¬ (is_valid_position w (ant.pos.x + dx (random_int r 0 7).1)
              (ant.pos.y + dy (random_int r 0 7).1) &&
            is_walkable w (ant.pos.x + dx (random_int r 0 7).1)
              (ant.pos.y + dy (random_int r 0 7).1)) = true := h0
        rw [move_randomly_loop, if_neg h0b]
        rfl
      rw [hloop]
      constructor
      · intro k hk hbefore hkw
        cases k with
        | zero => exact absurd hkw h0
        | succ k =>
          exact ih1 k (Nat.lt_of_succ_lt_succ hk)
            (fun i hi => by rw [hdraw]; exact hbefore (i + 1) (Nat.succ_lt_succ hi))
            (by rw [hdraw]; exact hkw)
      · intro hnone
        exact ih2 fun i hi => by rw [hdraw]; exact hnone (i + 1) (Nat.succ_lt_succ hi)

theorem update_ant_rosters (w : World) (a : Ant) (r : Rng) :
    (update_ant w a r).1.colonies.map roster = w.colonies.map roster := by
  rcases update_ant_cases w a r with ⟨_, e⟩ | ⟨_, _, hf, e⟩ | ⟨_, _, _, e⟩ | ⟨_, _, _, _, e⟩ |
    ⟨_, _, _, _, e⟩ | ⟨_, _, _, e⟩
  · rw [e]
  · rw [e]
    obtain ⟨hv, ht, hamt, _⟩ := food_here_spec w a hf
    rw [(pick_up_food_spec w { a with energy := a.energy - ANT_ENERGY_PER_STEP } r hv ht
      hamt).2.2.1]
  · rw [e, (search_step_spec w _ r).1.2.2.1]
  · rw [e, (deliver_food_world w _ r).1]
    unfold modify_colony
    split
    · rfl
    · show List.map roster (List.modify _ _ w.colonies) = _
      refine map_modify_of_eq roster _ ?_ _ _
      intro d
      rfl
  · rw [e, (return_step_spec w _ r).1.2.2.1]
  · rw [e]

theorem update_ants_loop_rosters :
    ∀ (ants : List Ant) (w : World) (r : Rng),
      (update_ants_loop w r ants).1.colonies.map roster = w.colonies.map roster
  | [], w, r => rfl
  | a :: rest, w, r => by
    by_cases hd : a.state &&& ANT_STATE_DEAD ≠ 0
    · rw [update_ants_loop_dead_cons a rest w r hd]
      exact update_ants_loop_rosters rest w r
    · rw [update_ants_loop_alive_cons a rest w r hd]
      exact (update_ants_loop_rosters rest _ _).trans (update_ant_rosters w a r)

theorem roster_getElem_of_map_eq {l1 l2 : List Colony} (h : l1.map roster = l2.map roster)
    (j : Nat) (c : Colony) (hc : l2[j]? = some c) :
    ∃ d : Colony, l1[j]? = some d ∧ roster d = roster c := by
  have h2 := congrArg (fun l => l[j]?) h
  simp only [List.getElem?_map, hc, Option.map_some'] at h2
  cases h1 : l1[j]? with
  | none => rw [h1] at h2; simp at h2
  | some d =>
    rw [h1] at h2
    simp only [Option.map_some', Option.some.injEq] at h2
    exact ⟨d, rfl, h2⟩

theorem living_dead_count (ants : List Ant) :
    living_count ants + dead_count ants = (ants.length : Int) := by
  induction ants with
  | nil => rfl
  | cons a rest ih =>
    by_cases hd : a.state &&& ANT_STATE_DEAD ≠ 0
    · rw [dead_count_cons_dead a rest hd]
      have h : decide (a.state &&& ANT_STATE_DEAD = 0) = false := decide_eq_false hd
      simp only [living_count, List.filter_cons, h, Bool.false_eq_true, if_false,
        List.length_cons, Nat.cast_add, Nat.cast_one] at ih ⊢
      omega
    · rw [dead_count_cons_alive a rest hd]
      have h : decide (a.state &&& ANT_STATE_DEAD = 0) = true := decide_eq_true (not_not.mp hd)
      simp only [living_count, List.filter_cons, h, if_true, List.length_cons, Nat.cast_add,
        Nat.cast_one] at ih ⊢
      omega

theorem update_colony_ants_rosters (s : World × Rng) (i : Nat) (c : Colony)
    (hc : s.1.colonies[i]? = some c) :
    (∃ d : Colony, (update_colony_ants s i).1.colonies[i]? = some d ∧
      d.ants = (update_ants_loop s.1 s.2 c.ants).2.1.filter
        (fun a => decide (a.state &&& ANT_STATE_DEAD = 0)) ∧
      d.total_ants = c.total_ants - dead_count (update_ants_loop s.1 s.2 c.ants).2.1 ∧
      d.active_ants = c.active_ants - dead_count (update_ants_loop s.1 s.2 c.ants).2.1) ∧
    ∀ (j : Nat) (c0 : Colony), j ≠ i → s.1.colonies[j]? = some c0 →
      ∃ d0 : Colony, (update_colony_ants s i).1.colonies[j]? = some d0 ∧
        roster d0 = roster c0 := by
  have hros := update_ants_loop_rosters c.ants s.1 s.2
  rw [update_colony_ants_eq s i c hc]
  simp only []
  constructor
  · obtain ⟨d, hd, hrd⟩ := roster_getElem_of_map_eq hros i c hc
    refine ⟨cleanup_dead_ants { d with ants := (update_ants_loop s.1 s.2 c.ants).2.1 },
      ?_, ?_, ?_, ?_⟩
    · rw [List.getElem?_modify_eq, hd]
      rfl
    · rw [cleanup_dead_ants_eq_reference]
      rfl
    · rw [cleanup_dead_ants_eq_reference]
      have : d.total_ants = c.total_ants := congrArg (fun p => p.2.1) hrd
      simp only [reference_reap_counting, reference_reap, this]
    · rw [cleanup_dead_ants_eq_reference]
      have : d.active_ants = c.active_ants := congrArg (fun p => p.2.2) hrd
      simp only [reference_reap_counting, reference_reap, this]
  · intro j c0 hj hc0
    obtain ⟨d0, hd0, hrd0⟩ := roster_getElem_of_map_eq hros j c0 hc0
    refine ⟨d0, ?_, hrd0⟩
    rw [List.getElem?_modify_ne _ _ (Ne.symm hj), hd0]

theorem update_all_ants_counts (w : World) (r : Rng) (h : counts_match w) :
    (update_all_ants w r).1.colonies.length = w.colonies.length ∧
      ∀ (j : Nat) (c : Colony), (update_all_ants w r).1.colonies[j]? = some c →
        c.total_ants = (c.ants.length : Int) ∧ ∀ a ∈ c.ants, a.state &&& ANT_STATE_DEAD = 0 := by
  have key := update_all_ants_induction w r
    (fun i s => s.1.colonies.length = w.colonies.length ∧
      ∀ (j : Nat) (c : Colony), s.1.colonies[j]? = some c →
        c.total_ants = (c.ants.length : Int) ∧
        (j < i → ∀ a ∈ c.ants, a.state &&& ANT_STATE_DEAD = 0))
    ⟨rfl, fun j c hc => ⟨h c (List.getElem?_mem hc), fun hj => absurd hj (Nat.not_lt_zero j)⟩⟩
    (by
      intro i s hi ⟨hlen, hinv⟩
      have hlen2 := update_colony_ants_length s i
      refine ⟨hlen2.trans hlen, ?_⟩
      have hget : s.1.colonies[i]? = some (s.1.colonies[i]) :=
        List.getElem?_eq_getElem (by omega)
      obtain ⟨⟨d, hd, hdants, hdtotal, _⟩, hother⟩ := update_colony_ants_rosters s i _ hget
      intro j c hc
      by_cases hji : j = i
      · subst hji
        rw [hd] at hc
        have hcd := Option.some.inj hc
        subst hcd
        have hold := (hinv j _ hget).1
        have hl := (update_ants_loop_frame (s.1.colonies[j]).ants s.1 s.2).2
        have hsum := living_dead_count (update_ants_loop s.1 s.2 (s.1.colonies[j]).ants).2.1
        constructor
        · rw [hdtotal, hdants, hold]
          simp only [living_count] at hsum
          omega
        · intro _ a ha
          rw [hdants] at ha
          simpa using (List.mem_filter.mp ha).2
      · have hjlt : j < s.1.colonies.length := by
          have := getElem?_lt_length hc
          omega
        have hget0 : s.1.colonies[j]? = some (s.1.colonies[j]) := List.getElem?_eq_getElem hjlt
        obtain ⟨d0, hd0, hrd0⟩ := hother j _ hji hget0
        rw [hd0] at hc
        have hcd := Option.some.inj hc
        subst hcd
        have hants : d0.ants = (s.1.colonies[j]).ants := congrArg (fun p => p.1) hrd0
        have htotal : d0.total_ants = (s.1.colonies[j]).total_ants :=
          congrArg (fun p => p.2.1) hrd0
        obtain ⟨h1, h2⟩ := hinv j _ hget0
        constructor
        · rw [htotal, hants]
          exact h1
        · intro hlt
          rw [hants]
          exact h2 (by omega))
  refine ⟨key.1, fun j c hc => ?_⟩
  obtain ⟨h1, h2⟩ := key.2 j c hc
  exact ⟨h1, h2 (by rw [← key.1]; exact getElem?_lt_length hc)⟩

theorem spawn_ant_counts (w : World) (colony_id : Int) (h : counts_match w) :
    counts_match (spawn_ant w colony_id) := by
  by_cases hbad : colony_id < 0 ∨ colony_id ≥ w.colony_count
  · rw [spawn_ant_bad_id w colony_id hbad]
    exact h
  · have hid : 0 ≤ colony_id := by omega
    have hlt : colony_id.toNat < w.colonies.length := by
      simp only [World.colony_count] at hbad
      omega
    have hget : w.colonies[colony_id.toNat]? = some (w.colonies[colony_id.toNat]) :=
      List.getElem?_eq_getElem hlt
    rw [spawn_ant_eq w colony_id _ hid hget]
    intro c hc
    rcases List.mem_or_eq_of_mem_set hc with hc | hc
    · exact h c hc
    · have hold := h _ (List.getElem_mem hlt)
      rw [hc]
      split
      · exact hold
      · simp only [add_ant_to_colony, List.length_cons, Nat.cast_add, Nat.cast_one, hold]

theorem update_ants_loop_preserved_in (Q : World → Prop) (P : Ant → Prop)
    (hQ : ∀ (v : World) (a : Ant) (r : Rng), Q v → Q (update_ant v a r).1)
    (hP : ∀ (v : World) (a : Ant) (r : Rng), Q v → a.state &&& ANT_STATE_DEAD = 0 → P a →
      P (update_ant v a r).2.1) :
    ∀ (ants : List Ant) (v : World) (r : Rng), Q v → (∀ a ∈ ants, P a) →
      Q (update_ants_loop v r ants).1 ∧ ∀ a ∈ (update_ants_loop v r ants).2.1, P a
  | [], v, r, hq, _ => ⟨hq, by intro a ha; simp [update_ants_loop] at ha⟩
  | a :: rest, v, r, hq, hp => by
    have hpa := hp a (List.mem_cons_self a rest)
    have hprest : ∀ b ∈ rest, P b := fun b hb => hp b (List.mem_cons_of_mem a hb)
    by_cases hd : a.state &&& ANT_STATE_DEAD ≠ 0
    · rw [update_ants_loop_dead_cons a rest v r hd]
      have ih := update_ants_loop_preserved_in Q P hQ hP rest v r hq hprest
      refine ⟨ih.1, ?_⟩
      intro b hb
      rcases List.mem_cons.mp hb with rfl | hb
      · exact hpa
      · exact ih.2 b hb
    · rw [update_ants_loop_alive_cons a rest v r hd]
      have ih := update_ants_loop_preserved_in Q P hQ hP rest _ (update_ant v a r).2.2
        (hQ v a r hq) hprest
      refine ⟨ih.1, ?_⟩
      intro b hb
      rcases List.mem_cons.mp hb with rfl | hb
      · exact hP v a r hq (not_not.mp hd) hpa
      · exact ih.2 b hb

theorem update_colony_ants_preserved_in (Q : World → Prop) (P : Ant → Prop)
    (hQ : ∀ (v : World) (a : Ant) (r : Rng), Q v → Q (update_ant v a r).1)
    (hQc : ∀ (v : World) (cs : List Colony), Q v → Q { v with colonies := cs })
    (hP : ∀ (v : World) (a : Ant) (r : Rng), Q v → a.state &&& ANT_STATE_DEAD = 0 → P a →
      P (update_ant v a r).2.1)
    (s : World × Rng) (i : Nat) (hq : Q s.1) (h : ∀ c ∈ s.1.colonies, ∀ a ∈ c.ants, P a) :
    Q (update_colony_ants s i).1 ∧
      ∀ c ∈ (update_colony_ants s i).1.colonies, ∀ a ∈ c.ants, P a := by
  cases hc : s.1.colonies[i]? with
  | none =>
    have : update_colony_ants s i = s := by
      unfold update_colony_ants
      rw [List.get?_eq_getElem?, hc]
    rw [this]
    exact ⟨hq, h⟩
  | some c =>
    have hants := update_colony_ants_ants s i c hc
    obtain ⟨hq2, hpost⟩ := update_ants_loop_preserved_in Q P hQ hP c.ants s.1 s.2 hq
      (h c (List.getElem?_mem hc))
    constructor
    · rw [update_colony_ants_eq s i c hc]
      exact hQc _ _ hq2
    · intro c2 hc2 a ha
      obtain ⟨j, hj, hget⟩ := List.getElem_of_mem hc2
      have hj2 : (update_colony_ants s i).1.colonies[j]? = some c2 := by
        rw [List.getElem?_eq_getElem hj, hget]
      by_cases hji : j = i
      · subst hji
        have h2 := hants.2.1
        rw [hj2] at h2
        simp only [Option.map_some', Option.some.injEq] at h2
        rw [h2] at ha
        exact hpost a (List.mem_filter.mp ha).1
      · have h3 := hants.2.2 j hji
        rw [hj2] at h3
        simp only [Option.map_some'] at h3
        cases hold : s.1.colonies[j]? with
        | none => rw [hold] at h3; simp at h3
        | some c0 =>
          rw [hold] at h3
          simp only [Option.map_some', Option.some.injEq] at h3
          exact h c0 (List.getElem?_mem hold) a (h3 ▸ ha)

theorem update_all_ants_preserved_in (Q : World → Prop) (P : Ant → Prop)
    (hQ : ∀ (v : World) (a : Ant) (r : Rng), Q v → Q (update_ant v a r).1)
    (hQc : ∀ (v : World) (cs : List Colony), Q v → Q { v with colonies := cs })
    (hP : ∀ (v : World) (a : Ant) (r : Rng), Q v → a.state &&& ANT_STATE_DEAD = 0 → P a →
      P (update_ant v a r).2.1)
    (w : World) (r : Rng) (hq : Q w) (h : ∀ c ∈ w.colonies, ∀ a ∈ c.ants, P a) :
    Q (update_all_ants w r).1 ∧ ∀ c ∈ (update_all_ants w r).1.colonies, ∀ a ∈ c.ants, P a :=
  update_all_ants_induction w r
    (fun _ s => Q s.1 ∧ ∀ c ∈ s.1.colonies, ∀ a ∈ c.ants, P a) ⟨hq, h⟩
    (fun i s _ hs => update_colony_ants_preserved_in Q P hQ hQc hP s i hs.1 hs.2)

theorem tick_frame_walkable {w v : World} (h : tick_frame w v) (x y : Int) :
    is_walkable v x y = is_walkable w x y := by
  unfold is_walkable
  rw [tick_frame_valid h]
  cases hv : is_valid_position w x y with
  | false => rfl
  | true =>
    simp only [Bool.not_true, Bool.false_eq_true, if_false]
    rcases (h.2.2.2 x y).2 with e | ⟨e1, e2⟩
    · rw [e]
    · rw [e1, e2]
      decide

theorem move_ant_walkable (a : Ant) (w : World) (d : Int)
    (h : is_walkable w a.pos.x a.pos.y = true) :
    is_walkable w (move_ant a w d).pos.x (move_ant a w d).pos.y = true := by
  unfold move_ant
  split
  · exact h
  · simp only []
    split
    · rename_i hw
      simp only [Bool.and_eq_true] at hw
      exact hw.2
    · exact h

theorem move_randomly_loop_walkable (a : Ant) (w : World)
    (h : is_walkable w a.pos.x a.pos.y = true) :
    ∀ (n : Nat) (r : Rng),
      is_walkable w (move_randomly_loop a w n r).1.pos.x (move_randomly_loop a w n r).1.pos.y =
        true
  | 0, _ => h
  | n + 1, r => by
    rw [move_randomly_loop]
    split
    · exact move_ant_walkable a w _ h
    · exact move_randomly_loop_walkable a w h n _

theorem follow_pheromone_gradient_walkable (a : Ant) (w : World) (t : Int) (r : Rng)
    (h : is_walkable w a.pos.x a.pos.y = true) :
    is_walkable w (follow_pheromone_gradient a w t r).1.pos.x
      (follow_pheromone_gradient a w t r).1.pos.y = true := by
  unfold follow_pheromone_gradient
  simp only []
  split
  · exact move_ant_walkable a w _ h
  · exact move_randomly_loop_walkable a w h 10 r

theorem move_randomly_walkable (a : Ant) (w : World) (r : Rng)
    (h : is_walkable w a.pos.x a.pos.y = true) :
    is_walkable w (move_randomly a w r).1.pos.x (move_randomly a w r).1.pos.y = true :=
  move_randomly_loop_walkable a w h 10 r

theorem search_step_walkable (w : World) (a : Ant) (r : Rng)
    (h : is_walkable w a.pos.x a.pos.y = true) :
    is_walkable w (search_step w a r).2.1.pos.x (search_step w a r).2.1.pos.y = true := by
  simp only [search_step]
  rw [(tired_check_fields _).2.2.1]
  split
  · exact follow_pheromone_gradient_walkable a w _ _ h
  · exact move_randomly_walkable a w _ h

theorem return_step_walkable (w : World) (a : Ant) (r : Rng)
    (h : is_walkable w a.pos.x a.pos.y = true) :
    is_walkable w (return_step w a r).2.1.pos.x (return_step w a r).2.1.pos.y = true := by
  simp only [return_step]
  rw [(tired_check_fields _).2.2.1]
  exact follow_pheromone_gradient_walkable a w _ _ h

theorem update_ant_walkable (w : World) (a : Ant) (r : Rng)
    (h : is_walkable w a.pos.x a.pos.y = true) :
    is_walkable w (update_ant w a r).2.1.pos.x (update_ant w a r).2.1.pos.y = true := by
  have h2 : is_walkable w
      ({ a with energy := a.energy - ANT_ENERGY_PER_STEP } : Ant).pos.x
      ({ a with energy := a.energy - ANT_ENERGY_PER_STEP } : Ant).pos.y = true := h
  rcases update_ant_cases w a r with ⟨_, e⟩ | ⟨_, _, hf, e⟩ | ⟨_, _, _, e⟩ | ⟨_, _, _, _, e⟩ |
    ⟨_, _, _, _, e⟩ | ⟨_, _, _, e⟩
  · rw [e]
    exact h
  · rw [e]
    obtain ⟨hv, ht, hamt, _⟩ := food_here_spec w a hf
    rw [(pick_up_food_spec w { a with energy := a.energy - ANT_ENERGY_PER_STEP } r hv ht
      hamt).2.2.2.2.2]
    exact h
  · rw [e]
    exact search_step_walkable w _ r h2
  · rw [e, deliver_food_ant]
    exact h
  · rw [e]
    exact return_step_walkable w _ r h2
  · rw [e, (tired_check_fields _).2.2.1]
    exact h

theorem walkable_iff (w : World) (x y : Int) :
    (is_valid_position w x y && is_walkable w x y) = is_walkable w x y := by
  unfold is_walkable
  cases is_valid_position w x y <;> rfl

theorem update_ant_id (w : World) (a : Ant) (r : Rng) : (update_ant w a r).2.1.id = a.id := by
  rcases update_ant_cases w a r with ⟨_, e⟩ | ⟨_, _, _, e⟩ | ⟨_, _, _, e⟩ | ⟨_, _, _, _, e⟩ |
    ⟨_, _, _, _, e⟩ | ⟨_, _, _, e⟩
  · rw [e]
    rfl
  · rw [e, pick_up_food_ant]
  · rw [e]
    simp only [search_step]
    rw [(tired_check_same _).1]
    split
    · exact (follow_pheromone_gradient_same _ w _ _).1
    · exact (move_randomly_same _ w _).1
  · rw [e, deliver_food_ant]
  · rw [e]
    simp only [return_step]
    rw [(tired_check_same _).1]
    exact (follow_pheromone_gradient_same _ w _ _).1
  · rw [e]
    exact (tired_check_same _).1

theorem update_ant_no_food_energy (w : World) (a : Ant) (r : Rng) (hnf : no_food_cells w)
    (hp : searching_empty_handed a) (halive : a.state &&& ANT_STATE_DEAD = 0) :
    (update_ant w a r).2.1.energy = a.energy - 1 ∧
      ((update_ant w a r).2.1.state &&& ANT_STATE_DEAD = 0 ↔ 0 < a.energy - 1) := by
  rcases update_ant_cases w a r with ⟨he, e⟩ | ⟨_, _, hfh, _⟩ | ⟨he, _, _, e⟩ | ⟨_, h, _⟩ |
    ⟨_, h, _⟩ | ⟨_, h, _⟩
  · rw [e]
    refine ⟨rfl, ?_⟩
    have hd := set_ant_state_dead { a with energy := a.energy - ANT_ENERGY_PER_STEP }
    constructor
    · intro h0
      exact absurd h0 hd
    · intro hpos
      exact absurd he (not_le.mpr hpos)
  · obtain ⟨hv, ht, _, _⟩ := food_here_spec w a hfh
    exact absurd ht (hnf _ _ hv)
  · have hen : (update_ant w a r).2.1.energy = a.energy - 1 := by
      rw [e]
      simp only [search_step]
      rw [(tired_check_fields _).2.1]
      split
      · exact (follow_pheromone_gradient_same _ w _ _).2.2.2.1
      · exact (move_randomly_same _ w _).2.2.2.1
    refine ⟨hen, ?_⟩
    rw [update_ant_dead_flag w a r he]
    exact ⟨fun _ => he, fun _ => halive⟩
  · exact absurd h hp.1
  · exact absurd h hp.1
  · exact absurd h hp.1

theorem update_ants_loop_aged :
    ∀ (ants : List Ant) (w : World) (r : Rng), no_food_cells w →
      (∀ a ∈ ants, searching_empty_handed a ∧ a.state &&& ANT_STATE_DEAD = 0) →
      ((update_ants_loop w r ants).2.1.filter
          fun a => decide (a.state &&& ANT_STATE_DEAD = 0)).map ant_key =
        aged (ants.map ant_key)
  | [], _, _, _, _ => rfl
  | a :: rest, w, r, hnf, h => by
    obtain ⟨hpa, halive⟩ := h a (List.mem_cons_self a rest)
    have hd : ¬ a.state &&& ANT_STATE_DEAD ≠ 0 := not_not.mpr halive
    rw [update_ants_loop_alive_cons a rest w r hd]
    have ih := update_ants_loop_aged rest (update_ant w a r).1 (update_ant w a r).2.2
      (only_pheromones_changed_no_food (update_ant_no_food w a r hnf hpa).1 hnf)
      (fun b hb => h b (List.mem_cons_of_mem a hb))
    obtain ⟨hen, hdead⟩ := update_ant_no_food_energy w a r hnf hpa halive
    have hid := update_ant_id w a r
    simp only [aged, List.map_cons, List.filter_cons] at ih ⊢
    by_cases hpos : 0 < a.energy - 1
    · have h1 : decide ((update_ant w a r).2.1.state &&& ANT_STATE_DEAD = 0) = true :=
        decide_eq_true (hdead.mpr hpos)
      have h2 : decide (0 < (ant_key a).2 - 1) = true := decide_eq_true hpos
      rw [h1, h2]
      simp only [if_true, List.map_cons]
      rw [ih]
      congr 1
      simp only [ant_key, hid, hen]
    · have h1 : decide ((update_ant w a r).2.1.state &&& ANT_STATE_DEAD = 0) = false :=
        decide_eq_false fun h0 => hpos (hdead.mp h0)
      have h2 : decide (0 < (ant_key a).2 - 1) = false := decide_eq_false hpos
      rw [h1, h2]
      simp only [Bool.false_eq_true, if_false]
      exact ih

theorem update_all_ants_lone (w : World) (c : Colony) (r : Rng) (h : lone_colony w c) :
    ∃ d : Colony, lone_colony (update_all_ants w r).1 d ∧
      d.ants.map ant_key = aged (c.ants.map ant_key) := by
  obtain ⟨hcol, hnf, hants, htotal⟩ := h
  have hc0 : w.colonies[0]? = some c := by rw [hcol]; rfl
  have hnfs : no_food_state w := by
    refine ⟨hnf, ?_⟩
    intro c2 hc2 a ha
    rw [hcol, List.mem_singleton] at hc2
    subst hc2
    exact (hants a ha).1
  have hcm : counts_match w := by
    intro c2 hc2
    rw [hcol, List.mem_singleton] at hc2
    subst hc2
    exact htotal
  have hstep : update_all_ants w r = update_colony_ants (w, r) 0 := by
    unfold update_all_ants
    rw [hcol]
    rfl
  obtain ⟨hlen, hinv⟩ := update_all_ants_counts w r hcm
  obtain ⟨⟨d, hd, hdants, _, _⟩, _⟩ := update_colony_ants_rosters (w, r) 0 c hc0
  rw [← hstep] at hd
  have hcol2 : (update_all_ants w r).1.colonies = [d] := by
    rw [hcol] at hlen
    match hl : (update_all_ants w r).1.colonies, hlen, hd with
    | [x], _, hd0 =>
      rw [hl] at hd
      simp only [List.getElem?_cons_zero, Option.some.injEq] at hd
      rw [hd]
  have hnf2 := (update_all_ants_no_food w r hnfs).1
  refine ⟨d, ⟨hcol2, hnf2.1, ?_, (hinv 0 d hd).1⟩, ?_⟩
  · intro a ha
    exact ⟨hnf2.2 d (by rw [hcol2]; exact List.mem_singleton_self d) a ha, (hinv 0 d hd).2 a ha⟩
  · rw [hdants]
    exact update_ants_loop_aged c.ants w r hnf hants

theorem spawn_ant_lone (w : World) (c : Colony) (h : lone_colony w c)
    (hcap : c.total_ants < MAX_ANTS_PER_COLONY) :
    ∃ d : Colony, lone_colony (spawn_ant w 0) d ∧
      d.ants.map ant_key =
        ((c.ants.length : Int) + 1, ANT_INITIAL_ENERGY) :: c.ants.map ant_key := by
  obtain ⟨hcol, hnf, hants, htotal⟩ := h
  have hc0 : w.colonies[(0 : Int).toNat]? = some c := by rw [hcol]; rfl
  have heq := spawn_ant_eq w 0 c (le_refl 0) hc0
  rw [if_neg (not_le.mpr hcap), hcol] at heq
  refine ⟨add_ant_to_colony c (create_ant (c.total_ants + 1) 0 c.nest_pos), ⟨?_, ?_, ?_, ?_⟩, ?_⟩
  · rw [heq]
    rfl
  · rw [heq]
    exact hnf
  · intro a ha
    simp only [add_ant_to_colony, List.mem_cons] at ha
    rcases ha with rfl | ha
    · have hs : (create_ant (c.total_ants + 1) 0 c.nest_pos).state = ANT_STATE_SEARCHING := rfl
      unfold searching_empty_handed
      rw [hs]
      exact ⟨⟨by decide, by decide, by decide, rfl⟩, by decide⟩
    · exact hants a ha
  · simp only [add_ant_to_colony, List.length_cons, Nat.cast_add, Nat.cast_one, htotal]
  · simp only [add_ant_to_colony, List.map_cons, ant_key, create_ant, htotal]

theorem tick_ants_lone (w : World) (c : Colony) (h : lone_colony w c) :
    ∀ n : Nat, ∃ d : Colony, lone_colony (tick_ants n w) d ∧
      d.ants.map ant_key = aged^[n] (c.ants.map ant_key)
  | 0 => ⟨c, h, rfl⟩
  | n + 1 => by
    obtain ⟨d, hd, hk⟩ := tick_ants_lone w c h n
    obtain ⟨d2, hd2, hk2⟩ := update_all_ants_lone (tick_ants n w) d (fun _ => 0) hd
    refine ⟨d2, ?_, ?_⟩
    · unfold tick_ants
      rw [Function.iterate_succ_apply']
      exact hd2
    · rw [hk2, hk, Function.iterate_succ_apply']

theorem aged_iterate (l : List (Int × ℚ)) (hpos : ∀ p ∈ l, 0 < p.2) :
    ∀ n : Nat, aged^[n] l =
      (l.map fun p => (p.1, p.2 - (n : ℚ))).filter fun p => decide (0 < p.2)
  | 0 => by
    simp only [Function.iterate_zero, id_eq, Nat.cast_zero, sub_zero, Prod.mk.eta, List.map_id']
    rw [List.filter_eq_self.mpr]
    intro p hp
    exact decide_eq_true (hpos p hp)
  | n + 1 => by
    rw [Function.iterate_succ_apply', aged_iterate l hpos n]
    clear hpos
    induction l with
    | nil => rfl
    | cons p l ih =>
      simp only [aged, List.map_cons, List.filter_cons] at ih ⊢
      by_cases h1 : 0 < p.2 - ((n + 1 : Nat) : ℚ)
      · have h0 : 0 < p.2 - (n : ℚ) := by
          push_cast at h1
          linarith
        have h2 : 0 < p.2 - (n : ℚ) - 1 := by
          push_cast at h1
          linarith
        simp only [h0, h1, h2, decide_True, if_true, List.map_cons, List.filter_cons]
        rw [ih]
        congr 2
        push_cast
        ring
      · by_cases h0 : 0 < p.2 - (n : ℚ)
        · have h2 : ¬ 0 < p.2 - (n : ℚ) - 1 := by
            push_cast at h1
            intro h
            apply h1
            linarith
          simp only [h0, h1, h2, decide_True, decide_False, if_true, Bool.false_eq_true,
            if_false, List.map_cons, List.filter_cons]
          exact ih
        · simp only [h0, h1, decide_False, Bool.false_eq_true, if_false]
          exact ih

theorem fresh_world_lone : lone_colony fresh_world (initial_colony 0) := by
  refine ⟨rfl, ?_, ?_, rfl⟩
  · intro x y hv
    have hv2 : decide (x ≥ 0 ∧ x < 3 ∧ y ≥ 0 ∧ y < 3) = true := hv
    simp only [fresh_world, hv2, if_true, initial_cell]
    decide
  · intro a ha
    simp [initial_colony] at ha

theorem length_of_keys {c : Colony} {k : List (Int × ℚ)} (h : c.ants.map ant_key = k) :
    (c.ants.length : Int) = (k.length : Int) := by
  rw [← h, List.length_map]

theorem path_step_eq (w : World) (goal p : Position) :
    path_step w goal p =
      if (is_valid_position w (p.x + toward goal.x p.x) (p.y + toward goal.y p.y) &&
          is_walkable w (p.x + toward goal.x p.x) (p.y + toward goal.y p.y)) = true then
        some ⟨p.x + toward goal.x p.x, p.y + toward goal.y p.y⟩
      else if (is_valid_position w (p.x + (if toward goal.x p.x = 0 then 1 else 0))
            (p.y + (if toward goal.y p.y = 0 then 1 else 0)) &&
          is_walkable w (p.x + (if toward goal.x p.x = 0 then 1 else 0))
            (p.y + (if toward goal.y p.y = 0 then 1 else 0))) = true then
        some ⟨p.x + (if toward goal.x p.x = 0 then 1 else 0),
          p.y + (if toward goal.y p.y = 0 then 1 else 0)⟩
      else if (is_valid_position w (p.x - (if toward goal.x p.x = 0 then 1 else 0))
            (p.y - (if toward goal.y p.y = 0 then 1 else 0)) &&
          is_walkable w (p.x - (if toward goal.x p.x = 0 then 1 else 0))
            (p.y - (if toward goal.y p.y = 0 then 1 else 0))) = true then
        some ⟨p.x - (if toward goal.x p.x = 0 then 1 else 0),
          p.y - (if toward goal.y p.y = 0 then 1 else 0)⟩
      else none :=
  rfl

theorem toward_cases (g p : Int) :
    (g > p ∧ toward g p = 1) ∨ (g < p ∧ toward g p = -1) ∨ (g = p ∧ toward g p = 0) := by
  unfold toward
  rcases lt_trichotomy g p with h | h | h
  · right; left
    exact ⟨h, by rw [if_neg (by omega), if_pos h]⟩
  · right; right
    exact ⟨h, by rw [if_neg (by omega), if_neg (by omega)]⟩
  · left
    exact ⟨h, by rw [if_pos h]⟩

theorem path_stuck_of_blocked (w : World) (goal p q : Position)
    (hx : q.x ≠ goal.x) (hy : q.y ≠ goal.y)
    (hqx : q.x + (if goal.x > q.x then 1 else -1) = p.x + toward goal.x p.x)
    (hqy : q.y + (if goal.y > q.y then 1 else -1) = p.y + toward goal.y p.y)
    (hblocked : ¬ (is_valid_position w (p.x + toward goal.x p.x) (p.y + toward goal.y p.y) &&
      is_walkable w (p.x + toward goal.x p.x) (p.y + toward goal.y p.y)) = true) :
    path_stuck w goal q := by
  refine ⟨hx, hy, ?_⟩
  rw [hqx, hqy]
  exact Bool.eq_false_iff.mpr hblocked

theorem path_step_invariant (w : World) (start goal p c : Position) (k : Int)
    (hne : p.x ≠ goal.x ∨ p.y ≠ goal.y)
    (hinv : chebyshev_distance p goal + k = chebyshev_distance start goal ∨ path_stuck w goal p)
    (hstep : path_step w goal p = some c) :
    chebyshev_distance c goal + (k + 1) = chebyshev_distance start goal ∨
      path_stuck w goal c := by
  rw [path_step_eq] at hstep
  by_cases hdirect : (is_valid_position w (p.x + toward goal.x p.x) (p.y + toward goal.y p.y) &&
      is_walkable w (p.x + toward goal.x p.x) (p.y + toward goal.y p.y)) = true
  · rw [if_pos hdirect] at hstep
    have hc := (Option.some.inj hstep).symm
    subst hc
    rcases hinv with hon | hstuck
    · left
      simp only [chebyshev_distance] at hon ⊢
      rcases toward_cases goal.x p.x with ⟨h1, e1⟩ | ⟨h1, e1⟩ | ⟨h1, e1⟩ <;>
        rcases toward_cases goal.y p.y with ⟨h2, e2⟩ | ⟨h2, e2⟩ | ⟨h2, e2⟩ <;>
        rw [e1, e2] <;> omega
    · exfalso
      obtain ⟨sx, sy, hb⟩ := hstuck
      have ex : toward goal.x p.x = if goal.x > p.x then 1 else -1 := by
        unfold toward
        split
        · rfl
        · rw [if_pos (by omega)]
      have ey : toward goal.y p.y = if goal.y > p.y then 1 else -1 := by
        unfold toward
        split
        · rfl
        · rw [if_pos (by omega)]
      rw [ex, ey, hb] at hdirect
      exact absurd hdirect (by decide)
  · rw [if_neg hdirect] at hstep
    right
    rcases toward_cases goal.x p.x with ⟨h1, e1⟩ | ⟨h1, e1⟩ | ⟨h1, e1⟩ <;>
      rcases toward_cases goal.y p.y with ⟨h2, e2⟩ | ⟨h2, e2⟩ | ⟨h2, e2⟩ <;>
      simp only [e1, e2, one_ne_zero, neg_eq_zero, if_true, if_false, add_zero, sub_zero]
        at hstep <;>
      (try (exfalso; omega)) <;>
      (split at hstep) <;>
      (try (split at hstep)) <;>
      (cases hstep) <;>
      (apply path_stuck_of_blocked w goal p _ _ _ _ _ hdirect <;>
        simp only [e1, e2] <;> (try split) <;> omega)

theorem path_invariant_goal (w : World) (start goal : Position) (cap : Int) (s : PathState)
    (hcap : chebyshev_distance start goal < cap) (hinv : path_invariant w start goal cap s)
    (hgoal : s.current.x = goal.x ∧ s.current.y = goal.y) : s.path_length < cap := by
  obtain ⟨_, h0, _, hon | hstuck⟩ := hinv
  · simp only [chebyshev_distance] at hon hcap
    rw [hgoal.1, hgoal.2] at hon
    omega
  · exact absurd hgoal.1 hstuck.1

theorem path_invariant_exit (w : World) (start goal : Position) (cap : Int) (s : PathState)
    (hcap : chebyshev_distance start goal < cap) (hinv : path_invariant w start goal cap s) :
    path_exit goal cap s :=
  ⟨hinv.1, hinv.2.1, hinv.2.2.1, path_invariant_goal w start goal cap s hcap hinv⟩

theorem path_loop_exit (w : World) (start goal : Position) (cap : Int)
    (hcap : chebyshev_distance start goal < cap) :
    ∀ (fuel : Nat) (s : PathState), path_invariant w start goal cap s →
      cap ≤ s.path_length + (fuel : Int) →
      ∃ s2 : PathState, path_loop w goal cap fuel s = some s2 ∧ path_exit goal cap s2
  | 0, s, hinv, hfuel => by
    have hcond : ¬ (s.path_length < cap ∧ (s.current.x ≠ goal.x ∨ s.current.y ≠ goal.y)) := by
      rintro ⟨h, _⟩
      simp only [Nat.cast_zero, add_zero] at hfuel
      omega
    refine ⟨s, ?_, path_invariant_exit w start goal cap s hcap hinv⟩
    rw [path_loop, if_neg hcond]
  | fuel + 1, s, hinv, hfuel => by
    by_cases hcond : s.path_length < cap ∧ (s.current.x ≠ goal.x ∨ s.current.y ≠ goal.y)
    · have hwrites : ∀ q ∈ s.writes ++ [(s.path_length, s.current)], 0 ≤ q.1 ∧ q.1 < cap := by
        intro q hq
        rcases List.mem_append.mp hq with hq | hq
        · exact hinv.1 q hq
        · rw [List.mem_singleton] at hq
          subst hq
          exact ⟨hinv.2.1, hcond.1⟩
      cases hstep : path_step w goal s.current with
      | none =>
        refine ⟨{ s with
          writes := s.writes ++ [(s.path_length, s.current)]
          path_length := s.path_length + 1 }, ?_, hwrites, ?_, ?_, ?_⟩
        · rw [path_loop, if_pos hcond]
          simp only [hstep]
        · show 0 ≤ s.path_length + 1
          have := hinv.2.1
          omega
        · show s.path_length + 1 ≤ cap
          omega
        · intro hgoal
          rcases hcond.2 with h | h
          · exact absurd hgoal.1 h
          · exact absurd hgoal.2 h
      | some c =>
        have hnext : path_invariant w start goal cap
            { writes := s.writes ++ [(s.path_length, s.current)]
              path_length := s.path_length + 1
              current := c } := by
          refine ⟨hwrites, ?_, ?_, ?_⟩
          · show 0 ≤ s.path_length + 1
            have := hinv.2.1
            omega
          · show s.path_length + 1 ≤ cap
            omega
          · exact path_step_invariant w start goal s.current c s.path_length hcond.2
              hinv.2.2.2 hstep
        obtain ⟨s2, hs2, hexit⟩ := path_loop_exit w start goal cap hcap fuel _ hnext (by
          show cap ≤ s.path_length + 1 + (fuel : Int)
          push_cast at hfuel
          omega)
        refine ⟨s2, ?_, hexit⟩
        rw [path_loop, if_pos hcond]
        simp only [hstep]
        exact hs2
    · refine ⟨s, ?_, path_invariant_exit w start goal cap s hcap hinv⟩
      rw [path_loop, if_neg hcond]

theorem get_pheromone_intensity_stored (w : World) (x y : Int)
    (hv : is_valid_position w x y = true) :
    get_pheromone_intensity w x y PHEROMONE_TYPE_FOOD = (w.grid y x).pheromone_food ∧
      get_pheromone_intensity w x y PHEROMONE_TYPE_HOME = (w.grid y x).pheromone_home := by
  constructor <;> simp [get_pheromone_intensity, hv, PHEROMONE_TYPE_FOOD, PHEROMONE_TYPE_HOME]

theorem get_max_pheromone_neighbor_sup (w : World) (x y : Int) (type : Int)
    (hnn : pheromones_nonneg w) (hv : is_valid_position w x y = true) :
    (∀ hne : (in_bounds_neighbours w x y).Nonempty,
      get_max_pheromone_neighbor w x y type =
        (in_bounds_neighbours w x y).sup' hne
          fun q => get_pheromone_intensity w q.1 q.2 type) ∧
    (in_bounds_neighbours w x y = ∅ → get_max_pheromone_neighbor w x y type = 0) := by
  rw [get_max_pheromone_neighbor_valid w x y type hv]
  obtain ⟨_, hub, hatt⟩ := max_neighbor_fold w x y type neighbor_offsets 0
  apply finset_max_of_bounds
  · intro q hq
    exact get_pheromone_intensity_nonneg w hnn q.1 q.2 type
  · intro q hq
    obtain ⟨d, hd, rfl, hvd⟩ := in_bounds_neighbours_offset w x y q hq
    exact hub d hd hvd
  · rcases hatt with h0 | ⟨d, hd, hvd, hval⟩
    · exact Or.inl h0
    · exact Or.inr ⟨(x + d.1, y + d.2), offset_in_bounds_neighbours w x y d hd hvd, hval⟩

theorem gradient_value_stored (ant : Ant) (w : World) (pheromone_type : Int) (d : Nat)
    (htype : pheromone_type = PHEROMONE_TYPE_FOOD ∨ pheromone_type = PHEROMONE_TYPE_HOME)
    (hc : gradient_candidate ant w d) :
    gradient_value ant w pheromone_type d = neighbour_stored ant w pheromone_type d := by
  unfold gradient_candidate at hc
  have hv : is_valid_position w (ant.pos.x + dx d) (ant.pos.y + dy d) = true := by
    simp only [Bool.and_eq_true] at hc
    exact hc.1
  have hs := get_pheromone_intensity_stored w _ _ hv
  unfold gradient_value neighbour_stored
  rcases htype with h | h
  · rw [h, hs.1, if_pos rfl]
  · rw [h, hs.2, if_neg (by decide)]

theorem gradient_value_unknown (ant : Ant) (w : World) (pheromone_type : Int) (d : Nat)
    (h1 : pheromone_type ≠ PHEROMONE_TYPE_FOOD) (h2 : pheromone_type ≠ PHEROMONE_TYPE_HOME) :
    gradient_value ant w pheromone_type d = 0 := by
  unfold gradient_value get_pheromone_intensity
  split
  · rfl
  · simp only [if_neg h1, if_neg h2]

theorem follow_pheromone_gradient_scan (ant : Ant) (w : World) (pheromone_type : Int)
    (r : Rng) :
    ((∃ e : Nat, e < 8 ∧ gradient_candidate ant w e ∧
        0 < gradient_value ant w pheromone_type e) →
      ∃ d : Nat, d < 8 ∧ gradient_candidate ant w d ∧
        0 < gradient_value ant w pheromone_type d ∧
        (∀ e : Nat, e < 8 → gradient_candidate ant w e →
          gradient_value ant w pheromone_type e ≤ gradient_value ant w pheromone_type d) ∧
        (∀ e : Nat, e < d → gradient_candidate ant w e →
          gradient_value ant w pheromone_type e < gradient_value ant w pheromone_type d) ∧
        follow_pheromone_gradient ant w pheromone_type r = (move_ant ant w d, r)) ∧
    ((∀ e : Nat, e < 8 → gradient_candidate ant w e →
        gradient_value ant w pheromone_type e ≤ 0) →
      follow_pheromone_gradient ant w pheromone_type r = move_randomly ant w r) := by
  refine ⟨?_, ?_⟩
  · rintro ⟨e, he, hce, hpos⟩
    rcases gradient_scan ant w pheromone_type 8 with ⟨_, _, hall⟩ |
      ⟨d, hb, hd, hcd, hval, hm, hall, hfirst⟩
    · exact absurd hpos (not_lt.mpr (hall e he hce))
    · refine ⟨d, hd, hcd, hval ▸ hm, ?_, ?_, ?_⟩
      · rw [hval]
        exact hall
      · rw [hval]
        exact hfirst
      · unfold follow_pheromone_gradient
        simp only []
        have hge : ((List.range 8).foldl (gradient_step ant w pheromone_type) (0, -1)).2 ≥ 0 := by
          rw [hb]
          exact Int.natCast_nonneg d
        rw [if_pos ⟨hge, hm⟩, hb]
  · intro hnone
    rcases gradient_scan ant w pheromone_type 8 with ⟨hb, _, _⟩ |
      ⟨d, _, hd, hcd, hval, hm, _, _⟩
    · unfold follow_pheromone_gradient
      simp only []
      have hneg : ¬ (((List.range 8).foldl (gradient_step ant w pheromone_type) (0, -1)).2 ≥ 0 ∧
          ((List.range 8).foldl (gradient_step ant w pheromone_type) (0, -1)).1 > 0) := by
        rw [hb]
        rintro ⟨h, _⟩
        exact absurd h (by decide)
      rw [if_neg hneg]
    · have := hnone d hd hcd
      rw [hval] at this
      exact absurd hm (not_lt.mpr this)

theorem update_ant_delivery_core (w : World) (a : Ant) (r : Rng) :
    (a.state &&& ANT_STATE_SEARCHING = 0 → a.state &&& ANT_STATE_RETURNING ≠ 0 →
      a.food_carrying > 0 → ANT_ENERGY_PER_STEP < a.energy →
      is_valid_position w a.pos.x a.pos.y = true →
      (w.grid a.pos.y a.pos.x).terrain = TERRAIN_NEST →
      (w.grid a.pos.y a.pos.x).colony_id = a.colony_id →
      0 ≤ a.colony_id ∧ a.colony_id < w.colony_count →
      (∃ c : Colony, w.colonies[a.colony_id.toNat]? = some c ∧
        (update_ant w a r).1.colonies[a.colony_id.toNat]? =
          some { c with food_collected := c.food_collected + 1 }) ∧
      (∀ j : Nat, j ≠ a.colony_id.toNat →
        (update_ant w a r).1.colonies[j]? = w.colonies[j]?) ∧
      (update_ant w a r).2.1.food_delivered = a.food_delivered + 1 ∧
      (update_ant w a r).2.1.food_carrying = 0 ∧
      ((update_ant w a r).2.1.state &&& ANT_STATE_SEARCHING ≠ 0 ∧
        (update_ant w a r).2.1.state &&& ANT_STATE_RETURNING = 0 ∧
        (update_ant w a r).2.1.state &&& ANT_STATE_CARRYING = 0) ∧
      (∀ d : Int, 0 ≤ d ∧ d < 8 →
        a.pos.x + dx d = a.last_pos.x ∧ a.pos.y + dy d = a.last_pos.y →
        (update_ant w a r).2.1.preferred_direction = d) ∧
      ((update_ant w a r).2.1.pos = a.pos ∧ (update_ant w a r).2.1.last_pos = a.last_pos ∧
        (update_ant w a r).2.1.steps_taken = a.steps_taken) ∧
      (update_ant w a r).1.grid = w.grid ∧ (update_ant w a r).2.2 = r) ∧
    (a.state &&& ANT_STATE_SEARCHING = 0 → a.state &&& ANT_STATE_RETURNING ≠ 0 →
      (update_ant w a r).2.1.state &&& ANT_STATE_SEARCHING ≠ 0 →
      (update_ant w a r).2.1.food_carrying = 0 ∧
      (0 ≤ a.colony_id ∧ a.colony_id < w.colony_count →
        ∃ c : Colony, w.colonies[a.colony_id.toNat]? = some c ∧
          (update_ant w a r).1.colonies[a.colony_id.toNat]? =
            some { c with food_collected := c.food_collected + 1 })) := by
  have hdel : update_ant w a r =
      deliver_food w { a with energy := a.energy - ANT_ENERGY_PER_STEP } r →
      (update_ant w a r).2.1.food_carrying = 0 ∧
      (0 ≤ a.colony_id ∧ a.colony_id < w.colony_count →
        ∃ c : Colony, w.colonies[a.colony_id.toNat]? = some c ∧
          (update_ant w a r).1.colonies[a.colony_id.toNat]? =
            some { c with food_collected := c.food_collected + 1 }) := by
    intro hu
    rw [hu]
    refine ⟨by rw [deliver_food_ant], fun hidx => ?_⟩
    rw [(deliver_food_world _ _ _).1]
    exact modify_colony_getElem w a.colony_id _ hidx
  constructor
  · intro hs hr hfc he hv ht hid hidx
    have he2 : 0 < a.energy - ANT_ENERGY_PER_STEP := by linarith
    have hu := update_ant_eq_deliver w a r he2 hs hr hv ht hid hfc
    have hflags := deliver_state_flags a.state
    refine ⟨(hdel hu).2 hidx, ?_, ?_, (hdel hu).1, ?_, ?_, ?_, ?_, ?_⟩
    · intro j hj
      rw [hu, (deliver_food_world _ _ _).1]
      exact modify_colony_other w a.colony_id _ j hj
    · rw [hu, deliver_food_ant]
    · rw [hu, deliver_food_ant]
      exact hflags
    · intro d hd hxy
      have hrd : reverse_direction { a with energy := a.energy - ANT_ENERGY_PER_STEP } = d :=
        reverse_direction_eq _ d hd hxy.1.symm hxy.2.symm
      rw [hu, deliver_food_ant]
      simp only [hrd]
      rw [if_pos]
      omega
    · rw [hu, deliver_food_ant]
      exact ⟨rfl, rfl, rfl⟩
    · rw [hu, (deliver_food_world _ _ _).1]
      exact (modify_colony_grid w a.colony_id _).1
    · rw [hu]
      rfl
  · intro hs hr hafter
    exact hdel (update_ant_became_searching w a r hs hr hafter)


/-! ## The properties -/

/-- C3: diffusion is computed from a snapshot. For every in-bounds cell `(x, y)` and each
channel, the value after `diffuse_pheromones` is
`old(x, y) * (1 - PHEROMONE_DIFFUSION_RATE) + (sum of the old values of the in-bounds cells among
its 8 neighbours) * PHEROMONE_DIFFUSION_RATE / (number of in-bounds neighbours)`, and the old
value when no neighbour is in bounds (`diffusion_value`), `old` being the field before the call;
and running the diffusion loop over the cells in any other order `scan` gives the same world. -/
theorem diffuse_pheromones_snapshot (w : World) (x y : Int)
    (h : is_valid_position w x y = true) :
    ((diffuse_pheromones w).grid y x).pheromone_food =
        diffusion_value w (fun yy xx => (w.grid yy xx).pheromone_food) x y ∧
      ((diffuse_pheromones w).grid y x).pheromone_home =
        diffusion_value w (fun yy xx => (w.grid yy xx).pheromone_home) x y ∧
      ∀ scan : List (Int × Int), scan.Perm (scan_cells w) →
        diffuse_apply (temp_copy w) scan w = diffuse_pheromones w := by
  refine ⟨diffuse_pheromones_food w x y h, diffuse_pheromones_home w x y h, ?_⟩
  intro scan hp
  rw [diffuse_pheromones_eq, diffuse_apply_eq _ _ (hp.nodup_iff.mpr (scan_cells_nodup w))]
  simp only [hp.mem_iff, mem_scan_cells]

/-- C4 counterexample: in the 3 x 3 grid whose centre holds 800 on the food channel and
whose other cells hold 0, all 8 neighbours of the centre are in bounds, yet after one diffusion
pass the corner `(0, 0)` holds `800 * rate / 3`, not `800 * rate / 8`. -/
theorem diffusion_locality_corner_counterexample :
    (1 ≤ (1 : Int) ∧ (1 : Int) + 1 < locality_world.width) ∧
      (1 ≤ (1 : Int) ∧ (1 : Int) + 1 < locality_world.height) ∧
      (locality_world.grid 1 1).pheromone_food = 800 ∧
      (∀ x y : Int, (x, y) ≠ (1, 1) → (locality_world.grid y x).pheromone_food = 0) ∧
      (0, 0) ∈ in_bounds_neighbours locality_world 1 1 ∧
      ((diffuse_pheromones locality_world).grid 0 0).pheromone_food = 8 / 3 ∧
      ((diffuse_pheromones locality_world).grid 0 0).pheromone_food ≠
        800 * PHEROMONE_DIFFUSION_RATE / 8 := by
  have hval : ((diffuse_pheromones locality_world).grid 0 0).pheromone_food = 8 / 3 := by
    rw [diffuse_pheromones_food locality_world 0 0 (by decide)]
    unfold diffusion_value
    have hN : in_bounds_neighbours locality_world 0 0 = {(1, 0), (0, 1), (1, 1)} := by decide
    rw [hN]
    norm_num [locality_world, PHEROMONE_DIFFUSION_RATE]
  refine ⟨by decide, by decide, by simp [locality_world], ?_, by decide, hval, ?_⟩
  · intro x y hne
    have h2 : ¬ (y = 1 ∧ x = 1) := by
      rintro ⟨rfl, rfl⟩
      exact hne rfl
    simp [locality_world, h2]
  · rw [hval]
    norm_num [PHEROMONE_DIFFUSION_RATE]

/-- C4 (amended): diffusion locality. Let all 8 neighbours of the cell `c = (x, y)` be in
bounds, and let a channel hold `V` at `c` and 0 at every other in-bounds cell. After one
`diffuse_pheromones` pass `c` holds `V * (1 - PHEROMONE_DIFFUSION_RATE)` and each neighbour `q`
of `c` holds `V * PHEROMONE_DIFFUSION_RATE / (number of in-bounds neighbours of q)`, which is
`V * PHEROMONE_DIFFUSION_RATE / 8` when the 8 neighbours of `q` are in bounds as well. Stated
for the food channel and for the home channel. -/
theorem diffusion_locality (w : World) (x y : Int) (V : ℚ)
    (hx : 1 ≤ x ∧ x + 1 < w.width) (hy : 1 ≤ y ∧ y + 1 < w.height) :
    ((w.grid y x).pheromone_food = V →
      (∀ q : Int × Int, is_valid_position w q.1 q.2 = true → q ≠ (x, y) →
        (w.grid q.2 q.1).pheromone_food = 0) →
      ((diffuse_pheromones w).grid y x).pheromone_food = V * (1 - PHEROMONE_DIFFUSION_RATE) ∧
      ∀ q ∈ in_bounds_neighbours w x y,
        ((diffuse_pheromones w).grid q.2 q.1).pheromone_food =
            V * PHEROMONE_DIFFUSION_RATE / ((in_bounds_neighbours w q.1 q.2).card : ℚ) ∧
          ((1 ≤ q.1 ∧ q.1 + 1 < w.width) ∧ (1 ≤ q.2 ∧ q.2 + 1 < w.height) →
            ((diffuse_pheromones w).grid q.2 q.1).pheromone_food =
              V * PHEROMONE_DIFFUSION_RATE / 8)) ∧
    ((w.grid y x).pheromone_home = V →
      (∀ q : Int × Int, is_valid_position w q.1 q.2 = true → q ≠ (x, y) →
        (w.grid q.2 q.1).pheromone_home = 0) →
      ((diffuse_pheromones w).grid y x).pheromone_home = V * (1 - PHEROMONE_DIFFUSION_RATE) ∧
      ∀ q ∈ in_bounds_neighbours w x y,
        ((diffuse_pheromones w).grid q.2 q.1).pheromone_home =
            V * PHEROMONE_DIFFUSION_RATE / ((in_bounds_neighbours w q.1 q.2).card : ℚ) ∧
          ((1 ≤ q.1 ∧ q.1 + 1 < w.width) ∧ (1 ≤ q.2 ∧ q.2 + 1 < w.height) →
            ((diffuse_pheromones w).grid q.2 q.1).pheromone_home =
              V * PHEROMONE_DIFFUSION_RATE / 8)) := by
  have hv : is_valid_position w x y = true := by
    simp only [is_valid_position, decide_eq_true_eq]
    omega
  constructor
  · intro hc h0
    have h := diffusion_value_single w (fun yy xx => (w.grid yy xx).pheromone_food) x y V hx hy hc h0
    refine ⟨by rw [diffuse_pheromones_food w x y hv]; exact h.1, ?_⟩
    intro q hq
    have hqv := mem_in_bounds_neighbours_valid w x y q hq
    have e := h.2 q hq
    rw [diffuse_pheromones_food w q.1 q.2 hqv]
    refine ⟨e, ?_⟩
    rintro ⟨hqx, hqy⟩
    rw [e, in_bounds_neighbours_card_interior w q.1 q.2 hqx hqy]
    norm_num
  · intro hc h0
    have h := diffusion_value_single w (fun yy xx => (w.grid yy xx).pheromone_home) x y V hx hy hc h0
    refine ⟨by rw [diffuse_pheromones_home w x y hv]; exact h.1, ?_⟩
    intro q hq
    have hqv := mem_in_bounds_neighbours_valid w x y q hq
    have e := h.2 q hq
    rw [diffuse_pheromones_home w q.1 q.2 hqv]
    refine ⟨e, ?_⟩
    rintro ⟨hqx, hqy⟩
    rw [e, in_bounds_neighbours_card_interior w q.1 q.2 hqx hqy]
    norm_num

/-- C6 counterexample: the cell of `snap_world` holds `v = 13695686 / 2 ^ 27` on the food
channel. The product `v * (1 - PHEROMONE_EVAPORATION_RATE)` is below
`PHEROMONE_MIN_THRESHOLD`, and so is the exact product of `v` with the binary32 factor
compared with the binary32 threshold; the specification says that the cell then holds 0.
But the product is stored into a `float`, which rounds it up to the binary32 value of `0.1f`,
`13421773 / 2 ^ 27`, and that is not below the threshold: the cell keeps this value. -/
theorem evaporation_snap_counterexample :
    is_valid_position snap_world 0 0 = true ∧
      (snap_world.grid 0 0).pheromone_food = 13695686 / 2 ^ 27 ∧
      (snap_world.grid 0 0).pheromone_food * (1 - PHEROMONE_EVAPORATION_RATE) <
        PHEROMONE_MIN_THRESHOLD ∧
      (snap_world.grid 0 0).pheromone_food * f32_round (1 - f32_round PHEROMONE_EVAPORATION_RATE) <
        f32_round PHEROMONE_MIN_THRESHOLD ∧
      ((evaporate_pheromones snap_world).grid 0 0).pheromone_food = 13421773 / 2 ^ 27 ∧
      ((evaporate_pheromones snap_world).grid 0 0).pheromone_food ≠ 0 := by
  have hv : is_valid_position snap_world 0 0 = true := by decide
  have hold : (snap_world.grid 0 0).pheromone_food = 13695686 / 2 ^ 27 := rfl
  have hnew : ((evaporate_pheromones snap_world).grid 0 0).pheromone_food =
      13421773 / 2 ^ 27 := by
    rw [evaporate_pheromones_grid snap_world 0 0 hv]
    show evaporate_value (snap_world.grid 0 0).pheromone_food = _
    rw [hold, evaporate_value_snap_edge]
  refine ⟨hv, hold, ?_, ?_, hnew, ?_⟩
  · rw [hold]
    norm_num [PHEROMONE_EVAPORATION_RATE, PHEROMONE_MIN_THRESHOLD]
  · rw [hold, f32_evaporation_factor, f32_min_threshold]
    norm_num
  · rw [hnew]
    norm_num

/-- C6 (amended): evaporation step. After `evaporate_pheromones`, each channel of every
in-bounds cell with old value `v` holds 0 when `p` is below the binary32 value of
`PHEROMONE_MIN_THRESHOLD`, and `p` otherwise, where `p` is the product of `v` with the
binary32 factor `1.0f - PHEROMONE_EVAPORATION_RATE` rounded to binary32 (`f32_round`). The
factor is `16441672 / 2 ^ 24` and the threshold `13421773 / 2 ^ 27`; for `v >= 0` the rounded
product lies within `v / 2 ^ 23 + 1 / 2 ^ 150` of `98/100 * v`. Hence the cell holds 0
whenever `98/100 * v <= 1/10 - 1/10^8`, and holds the rounded product, which is at least
`PHEROMONE_MIN_THRESHOLD`, whenever `98/100 * v >= 1/10 + 1/10^8`; in between the rounding
decides. Terrain, food amount and colony id of every cell are unchanged. -/
theorem evaporate_pheromones_step (w : World) (x y : Int) :
    (is_valid_position w x y = true →
      ((evaporate_pheromones w).grid y x).pheromone_food =
          (if f32_round ((w.grid y x).pheromone_food *
                f32_round (1 - f32_round PHEROMONE_EVAPORATION_RATE)) <
              f32_round PHEROMONE_MIN_THRESHOLD then 0
            else f32_round ((w.grid y x).pheromone_food *
                f32_round (1 - f32_round PHEROMONE_EVAPORATION_RATE))) ∧
        ((evaporate_pheromones w).grid y x).pheromone_home =
          (if f32_round ((w.grid y x).pheromone_home *
                f32_round (1 - f32_round PHEROMONE_EVAPORATION_RATE)) <
              f32_round PHEROMONE_MIN_THRESHOLD then 0
            else f32_round ((w.grid y x).pheromone_home *
                f32_round (1 - f32_round PHEROMONE_EVAPORATION_RATE)))) ∧
      f32_round (1 - f32_round PHEROMONE_EVAPORATION_RATE) = 16441672 / 2 ^ 24 ∧
      f32_round PHEROMONE_MIN_THRESHOLD = 13421773 / 2 ^ 27 ∧
      PHEROMONE_MIN_THRESHOLD = 1 / 10 ∧
      (∀ v : ℚ, 0 ≤ v →
        |f32_round (v * f32_round (1 - f32_round PHEROMONE_EVAPORATION_RATE)) - 98 / 100 * v| ≤
          v / 2 ^ 23 + 1 / 2 ^ 150) ∧
      (is_valid_position w x y = true →
        (98 / 100 * (w.grid y x).pheromone_food ≤ 1 / 10 - 1 / 10 ^ 8 →
          ((evaporate_pheromones w).grid y x).pheromone_food = 0) ∧
        (1 / 10 + 1 / 10 ^ 8 ≤ 98 / 100 * (w.grid y x).pheromone_food →
          ((evaporate_pheromones w).grid y x).pheromone_food =
              f32_round ((w.grid y x).pheromone_food *
                f32_round (1 - f32_round PHEROMONE_EVAPORATION_RATE)) ∧
            PHEROMONE_MIN_THRESHOLD ≤ ((evaporate_pheromones w).grid y x).pheromone_food) ∧
        (98 / 100 * (w.grid y x).pheromone_home ≤ 1 / 10 - 1 / 10 ^ 8 →
          ((evaporate_pheromones w).grid y x).pheromone_home = 0) ∧
        (1 / 10 + 1 / 10 ^ 8 ≤ 98 / 100 * (w.grid y x).pheromone_home →
          ((evaporate_pheromones w).grid y x).pheromone_home =
              f32_round ((w.grid y x).pheromone_home *
                f32_round (1 - f32_round PHEROMONE_EVAPORATION_RATE)) ∧
            PHEROMONE_MIN_THRESHOLD ≤ ((evaporate_pheromones w).grid y x).pheromone_home)) ∧
      ((evaporate_pheromones w).grid y x).terrain = (w.grid y x).terrain ∧
      ((evaporate_pheromones w).grid y x).food_amount = (w.grid y x).food_amount ∧
      ((evaporate_pheromones w).grid y x).colony_id = (w.grid y x).colony_id := by
  refine ⟨?_, f32_evaporation_factor, f32_min_threshold, rfl, ?_, ?_, ?_⟩
  · intro hv
    rw [evaporate_pheromones_grid w x y hv]
    exact ⟨rfl, rfl⟩
  · intro v hv
    rw [f32_evaporation_factor]
    exact f32_product_close v hv
  · intro hv
    rw [evaporate_pheromones_grid w x y hv, f32_evaporation_factor]
    exact ⟨evaporate_value_clear_below _, evaporate_value_clear_above _,
      evaporate_value_clear_below _, evaporate_value_clear_above _⟩
  · rw [evaporate_pheromones_eq]
    refine ⟨?_, ?_, ?_⟩
    · by_cases hv : is_valid_position w x y = true <;> simp [hv, evaporate_cell]
    · by_cases hv : is_valid_position w x y = true <;> simp [hv, evaporate_cell]
    · by_cases hv : is_valid_position w x y = true <;> simp [hv, evaporate_cell]

/-- C6 witness: the cell `(0, 0)` of `spread_world` holds 1000 on the food channel, so
`98/100 * 1000` is far above the threshold; after the pass it holds the rounded product,
which is 980. -/
theorem evaporate_pheromones_step_witness :
    is_valid_position spread_world 0 0 = true ∧
      1 / 10 + 1 / 10 ^ 8 ≤ 98 / 100 * (spread_world.grid 0 0).pheromone_food ∧
      ((evaporate_pheromones spread_world).grid 0 0).pheromone_food =
        f32_round ((spread_world.grid 0 0).pheromone_food *
          f32_round (1 - f32_round PHEROMONE_EVAPORATION_RATE)) ∧
      f32_round ((spread_world.grid 0 0).pheromone_food *
          f32_round (1 - f32_round PHEROMONE_EVAPORATION_RATE)) = 980 := by
  have hv : is_valid_position spread_world 0 0 = true := by decide
  have hold : (spread_world.grid 0 0).pheromone_food = 1000 := rfl
  have hbig : (1 : ℚ) / 10 + 1 / 10 ^ 8 ≤ 98 / 100 * (spread_world.grid 0 0).pheromone_food := by
    rw [hold]
    norm_num
  refine ⟨hv, hbig,
    (((evaporate_pheromones_step spread_world 0 0).2.2.2.2.2.1 hv).2.1 hbig).1, ?_⟩
  rw [hold, f32_evaporation_factor, f32_product_thousand]

/-- C7: evaporation monotonicity. For an in-bounds cell whose channel value is non-negative,
the values `s n` of the channel after `n` passes of `evaporate_pheromones` (no deposit in
between) are non-increasing, each value after the first pass is exactly 0 or at least
`PHEROMONE_MIN_THRESHOLD`, some finite number of passes yields exactly 0, and once 0 the value
stays 0. Stated for the food channel and for the home channel. -/
theorem evaporate_pheromones_monotone (w : World) (x y : Int)
    (hv : is_valid_position w x y = true) :
    (0 ≤ (w.grid y x).pheromone_food →
      (∀ n : Nat, ((evaporate_pheromones^[n + 1] w).grid y x).pheromone_food ≤
          ((evaporate_pheromones^[n] w).grid y x).pheromone_food) ∧
      (∀ n : Nat, 1 ≤ n →
          ((evaporate_pheromones^[n] w).grid y x).pheromone_food = 0 ∨
            PHEROMONE_MIN_THRESHOLD ≤ ((evaporate_pheromones^[n] w).grid y x).pheromone_food) ∧
      (∃ n : Nat, ((evaporate_pheromones^[n] w).grid y x).pheromone_food = 0) ∧
      (∀ n m : Nat, ((evaporate_pheromones^[n] w).grid y x).pheromone_food = 0 → n ≤ m →
          ((evaporate_pheromones^[m] w).grid y x).pheromone_food = 0)) ∧
    (0 ≤ (w.grid y x).pheromone_home →
      (∀ n : Nat, ((evaporate_pheromones^[n + 1] w).grid y x).pheromone_home ≤
          ((evaporate_pheromones^[n] w).grid y x).pheromone_home) ∧
      (∀ n : Nat, 1 ≤ n →
          ((evaporate_pheromones^[n] w).grid y x).pheromone_home = 0 ∨
            PHEROMONE_MIN_THRESHOLD ≤ ((evaporate_pheromones^[n] w).grid y x).pheromone_home) ∧
      (∃ n : Nat, ((evaporate_pheromones^[n] w).grid y x).pheromone_home = 0) ∧
      (∀ n m : Nat, ((evaporate_pheromones^[n] w).grid y x).pheromone_home = 0 → n ≤ m →
          ((evaporate_pheromones^[m] w).grid y x).pheromone_home = 0)) := by
  have hf : ∀ n : Nat, ((evaporate_pheromones^[n] w).grid y x).pheromone_food =
      evaporate_value^[n] (w.grid y x).pheromone_food := by
    intro n
    rw [evaporate_iterate_world]
    simp [hv, evaporate_cell_iterate]
  have hh : ∀ n : Nat, ((evaporate_pheromones^[n] w).grid y x).pheromone_home =
      evaporate_value^[n] (w.grid y x).pheromone_home := by
    intro n
    rw [evaporate_iterate_world]
    simp [hv, evaporate_cell_iterate]
  constructor
  · intro h0
    simp only [hf]
    refine ⟨evaporate_iterate_antitone _ h0, ?_, evaporate_iterate_reaches_zero _ h0,
      fun n m => evaporate_iterate_stays_zero _ n m⟩
    intro n hn
    obtain ⟨k, rfl⟩ := Nat.exists_eq_add_of_le hn
    rw [Nat.add_comm, Function.iterate_succ_apply']
    exact evaporate_value_zero_or_ge _
  · intro h0
    simp only [hh]
    refine ⟨evaporate_iterate_antitone _ h0, ?_, evaporate_iterate_reaches_zero _ h0,
      fun n m => evaporate_iterate_stays_zero _ n m⟩
    intro n hn
    obtain ⟨k, rfl⟩ := Nat.exists_eq_add_of_le hn
    rw [Nat.add_comm, Function.iterate_succ_apply']
    exact evaporate_value_zero_or_ge _

/-- C7 witness: the food channel of cell `(0, 0)` of `spread_world`, which holds 1000. -/
theorem evaporate_pheromones_monotone_witness :
    is_valid_position spread_world 0 0 = true ∧
      0 ≤ (spread_world.grid 0 0).pheromone_food ∧
      ∃ n : Nat, ((evaporate_pheromones^[n] spread_world).grid 0 0).pheromone_food = 0 :=
  ⟨by decide, by norm_num [spread_world],
    ((evaporate_pheromones_monotone spread_world 0 0 (by decide)).1
      (by norm_num [spread_world])).2.2.1⟩

/-- C9: deposit is additive and clamped. For an in-bounds position,
`deposit_pheromone_at_position` with the food (resp. home) channel stores
`min (old + amount) PHEROMONE_MAX` into that channel of that cell and leaves everything else
(the other channel, terrain, food amount and colony id of the cell, every other cell, every
other field of the world) as it was; for an out-of-bounds position or an unknown channel the
world is unchanged. -/
theorem deposit_pheromone_at_position_spec (w : World) (x y : Int) (type : Int) (amount : ℚ) :
    (is_valid_position w x y = true → type = PHEROMONE_TYPE_FOOD →
      deposit_pheromone_at_position w x y type amount =
        { w with grid := fun yy xx =>
            if yy = y ∧ xx = x then
              { w.grid y x with
                pheromone_food := min ((w.grid y x).pheromone_food + amount) PHEROMONE_MAX }
            else w.grid yy xx }) ∧
    (is_valid_position w x y = true → type = PHEROMONE_TYPE_HOME →
      deposit_pheromone_at_position w x y type amount =
        { w with grid := fun yy xx =>
            if yy = y ∧ xx = x then
              { w.grid y x with
                pheromone_home := min ((w.grid y x).pheromone_home + amount) PHEROMONE_MAX }
            else w.grid yy xx }) ∧
    (is_valid_position w x y = false ∨ (type ≠ PHEROMONE_TYPE_FOOD ∧ type ≠ PHEROMONE_TYPE_HOME) →
      deposit_pheromone_at_position w x y type amount = w) := by
  refine ⟨?_, ?_, ?_⟩
  · intro hv ht
    rw [ht]
    exact deposit_pheromone_at_position_food w x y amount hv
  · intro hv ht
    rw [ht]
    exact deposit_pheromone_at_position_home w x y amount hv
  · rintro (hv | ⟨h1, h2⟩)
    · simp [deposit_pheromone_at_position, hv]
    · unfold deposit_pheromone_at_position
      split
      · rfl
      · split
        · rfl
        · simp [h1, h2]

/-- C9 witness: a deposit of 250 on the food channel of cell `(0, 0)` of `spread_world`, which
holds 1000, leaves 1000 there. -/
theorem deposit_pheromone_at_position_spec_witness :
    is_valid_position spread_world 0 0 = true ∧
      ((deposit_pheromone_at_position spread_world 0 0 PHEROMONE_TYPE_FOOD 250).grid 0 0).pheromone_food =
        1000 := by
  refine ⟨by decide, ?_⟩
  rw [(deposit_pheromone_at_position_spec spread_world 0 0 PHEROMONE_TYPE_FOOD 250).1
    (by decide) rfl]
  norm_num [spread_world, PHEROMONE_MAX]

/-- C2 counterexample: every channel of `spread_world` lies in `[0, PHEROMONE_MAX]`, yet after
`deposit_pheromone_at_position` with the amount `-1` on the food channel of cell `(1, 0)`, which
holds 0, that channel holds `-1`. -/
theorem pheromone_bounds_negative_amount_counterexample :
    pheromones_bounded spread_world ∧
      ((deposit_pheromone_at_position spread_world 1 0 PHEROMONE_TYPE_FOOD (-1)).grid 0 1).pheromone_food
        = -1 ∧
      ¬ pheromones_bounded (deposit_pheromone_at_position spread_world 1 0 PHEROMONE_TYPE_FOOD (-1)) := by
  have hval :
      ((deposit_pheromone_at_position spread_world 1 0 PHEROMONE_TYPE_FOOD (-1)).grid 0 1).pheromone_food
        = -1 := by
    rw [deposit_pheromone_at_position_food spread_world 1 0 (-1) (by decide)]
    norm_num [spread_world, PHEROMONE_MAX]
  refine ⟨spread_world_bounded, hval, ?_⟩
  · intro hb
    have := (hb 1 0 (by decide)).1.1
    rw [hval] at this
    norm_num at this

/-- C2 (amended): pheromone bounds. In a world whose channels all lie in `[0, PHEROMONE_MAX]`,
they still do after `deposit_pheromone` (for every ant), after `deposit_pheromone_at_position`
(for every position, every channel and every amount that is not negative), after
`evaporate_pheromones` and after `diffuse_pheromones`; and `PHEROMONE_MAX` is 1000. -/
theorem pheromone_bounds (w : World) (h : pheromones_bounded w) :
    (∀ ant : Ant, pheromones_bounded (deposit_pheromone w ant)) ∧
      (∀ (x y type : Int) (amount : ℚ), 0 ≤ amount →
        pheromones_bounded (deposit_pheromone_at_position w x y type amount)) ∧
      pheromones_bounded (evaporate_pheromones w) ∧
      pheromones_bounded (diffuse_pheromones w) ∧
      PHEROMONE_MAX = 1000 :=
  ⟨fun ant => deposit_pheromone_bounded w ant h,
    fun x y type amount ha => deposit_pheromone_at_position_bounded w x y type amount ha h,
    evaporate_pheromones_bounded w h, diffuse_pheromones_bounded w h, rfl⟩

/-- C2 witness: `spread_world` is bounded, and so is it after a deposit of 250 at `(0, 0)`. -/
theorem pheromone_bounds_witness :
    pheromones_bounded spread_world ∧
      pheromones_bounded (deposit_pheromone_at_position spread_world 0 0 PHEROMONE_TYPE_FOOD 250) :=
  ⟨spread_world_bounded,
    (pheromone_bounds spread_world spread_world_bounded).2.1 0 0 PHEROMONE_TYPE_FOOD 250
      (by norm_num)⟩

/-- C3 witness: the corner `(0, 0)` of `locality_world`. -/
theorem diffuse_pheromones_snapshot_witness :
    is_valid_position locality_world 0 0 = true ∧
      ((diffuse_pheromones locality_world).grid 0 0).pheromone_food =
        diffusion_value locality_world
          (fun yy xx => (locality_world.grid yy xx).pheromone_food) 0 0 :=
  ⟨by decide, (diffuse_pheromones_snapshot locality_world 0 0 (by decide)).1⟩

/-- C4 witness: in `interior_world` the centre `(2, 2)` holds 800 and its neighbour `(1, 1)`
has its 8 neighbours in bounds. -/
theorem diffusion_locality_witness :
    ((1 : Int) ≤ 2 ∧ (2 : Int) + 1 < interior_world.width) ∧
      ((1 : Int) ≤ 2 ∧ (2 : Int) + 1 < interior_world.height) ∧
      (interior_world.grid 2 2).pheromone_food = 800 ∧
      ((diffuse_pheromones interior_world).grid 2 2).pheromone_food =
        800 * (1 - PHEROMONE_DIFFUSION_RATE) ∧
      ((diffuse_pheromones interior_world).grid 1 1).pheromone_food =
        800 * PHEROMONE_DIFFUSION_RATE / 8 := by
  have h := (diffusion_locality interior_world 2 2 800 (by decide) (by decide)).1
    (by simp [interior_world]) interior_world_single
  exact ⟨by decide, by decide, by simp [interior_world], h.1,
    (h.2 (1, 1) (by decide)).2 (by decide)⟩

/-- C10 (code bug): the ant `retreat_ant` is alive, has energy 1000 and
`preferred_direction = 2`. The specification says `update_ant` moves it one step in direction
2, to `(2, 1)`, clears the preference and does nothing else. `update_ant` never reads
`preferred_direction`: for every random stream the ant stays on `(1, 1)`, picks up food (the
cell goes from 5 to 4 units), deposits pheromone and keeps `preferred_direction = 2`. The
function `decide_direction`, which no function calls, does what the specification says. -/
theorem update_ant_ignores_preferred_direction (r : Rng) :
    retreat_ant.state &&& ANT_STATE_DEAD = 0 ∧
      retreat_ant.preferred_direction = 2 ∧
      0 < retreat_ant.energy - ANT_ENERGY_PER_STEP ∧
      (update_ant retreat_world retreat_ant r).2.1.pos = ⟨1, 1⟩ ∧
      (update_ant retreat_world retreat_ant r).2.1.preferred_direction = 2 ∧
      (update_ant retreat_world retreat_ant r).2.1.food_carrying = 1 ∧
      ((update_ant retreat_world retreat_ant r).1.grid 1 1).food_amount = 4 ∧
      ((update_ant retreat_world retreat_ant r).1.grid 1 1).pheromone_food = 100 ∧
      (decide_direction retreat_ant retreat_world r).1.pos = ⟨2, 1⟩ ∧
      (decide_direction retreat_ant retreat_world r).1.preferred_direction = -1 := by
  have hu : update_ant retreat_world retreat_ant r =
      pick_up_food retreat_world { retreat_ant with energy := 999 } r := by
    unfold update_ant
    norm_num [retreat_ant, create_ant, ANT_INITIAL_ENERGY, ANT_ENERGY_PER_STEP,
      ANT_STATE_SEARCHING, get_cell, is_valid_position, retreat_world, food_here]
  refine ⟨by decide, rfl, by norm_num [retreat_ant, create_ant, ANT_INITIAL_ENERGY,
    ANT_ENERGY_PER_STEP], ?_, ?_, ?_, ?_, ?_, ?_, ?_⟩
  · rw [hu]; rfl
  · rw [hu]; rfl
  · rw [hu]; rfl
  · rw [hu]; rfl
  · rw [hu]
    have h1 : (pick_up_food retreat_world { retreat_ant with energy := 999 } r).1 =
        deposit_pheromone
          (set_cell retreat_world 1 1 ⟨TERRAIN_FOOD, 0, 0, 4, -1⟩)
          (store_reverse_direction
            { set_ant_state (clear_ant_state { retreat_ant with energy := 999, food_carrying := 1 }
                ANT_STATE_SEARCHING) (ANT_STATE_RETURNING ||| ANT_STATE_CARRYING) with
              energy := 999 + ANT_ENERGY_FROM_FOOD }) := rfl
    rw [h1, deposit_pheromone_returning _ _ (by decide) (by decide) (by decide)]
    have h2 : (store_reverse_direction
            { set_ant_state (clear_ant_state { retreat_ant with energy := 999, food_carrying := 1 }
                ANT_STATE_SEARCHING) (ANT_STATE_RETURNING ||| ANT_STATE_CARRYING) with
              energy := 999 + ANT_ENERGY_FROM_FOOD }).pos = ⟨1, 1⟩ := rfl
    rw [h2]
    norm_num [set_cell, PHEROMONE_DEPOSIT_AMOUNT, PHEROMONE_MAX]
  · rfl
  · rfl

/-- C5: agent terminal property. (1) The update loop of `update_all_ants` skips an ant that
carries the Dead flag: on a list `pre ++ a :: post` with `a` dead, the loop does to the world,
to the other ants and to the random stream what it does on `pre` followed by `post`, and `a` is
left in place with all its fields as they were, so `update_ant` is not applied to it. (2) The
list scanned for colony `i` is the list that colony had when `update_all_ants` started. (3) When
`update_all_ants` returns, no ant in any colony list carries the Dead flag. -/
theorem agent_terminal (w : World) (r : Rng) :
    (∀ (v : World) (q : Rng) (pre post : List Ant) (a : Ant), a.state &&& ANT_STATE_DEAD ≠ 0 →
      update_ants_loop v q (pre ++ a :: post) =
        ((update_ants_loop (update_ants_loop v q pre).1 (update_ants_loop v q pre).2.2 post).1,
          (update_ants_loop v q pre).2.1 ++
            a :: (update_ants_loop (update_ants_loop v q pre).1
              (update_ants_loop v q pre).2.2 post).2.1,
          (update_ants_loop (update_ants_loop v q pre).1
            (update_ants_loop v q pre).2.2 post).2.2)) ∧
      (∀ (i : Nat) (c : Colony), w.colonies[i]? = some c →
        (((List.range i).foldl update_colony_ants (w, r)).1.colonies[i]?).map Colony.ants =
          some c.ants) ∧
      (∀ c ∈ (update_all_ants w r).1.colonies, ∀ a ∈ c.ants, a.state &&& ANT_STATE_DEAD = 0) := by
  refine ⟨?_, ?_, update_all_ants_no_dead w r⟩
  · intro v q pre post a hd
    rw [update_ants_loop_append, update_ants_loop_dead_cons a post _ _ hd]
  · intro i c hc
    rw [update_colonies_before w r i i (le_refl i), hc]
    rfl

/-- C5 witness: the loop over the single dead ant `dead_ant` in `retreat_world` returns the
world, the ant and the random stream as they were. -/
theorem agent_terminal_witness :
    dead_ant.state &&& ANT_STATE_DEAD ≠ 0 ∧
      update_ants_loop retreat_world (fun _ => 0) ([] ++ dead_ant :: []) =
        (retreat_world, [dead_ant], fun _ => 0) :=
  ⟨by decide,
    (agent_terminal retreat_world (fun _ => 0)).1 retreat_world (fun _ => 0) [] [] dead_ant
      (by decide)⟩

/-- C1 counterexample: in `starving_world` one ant carries one unit of food and has energy 1.
Before the tick the total (food on cells + food carried + food delivered) is 1. In the tick the
ant dies of exhaustion and is reaped together with the food it carries: after the tick the
total is 0. -/
theorem food_conservation_starving_counterexample :
    food_total starving_world = 1 ∧
      food_total (simulation_tick starving_world (fun _ => 0)).1 = 0 := by
  refine ⟨by decide, ?_⟩
  rw [simulation_tick_food_total, starving_world_after_update]
  decide

/-- C1 (amended): total food conservation. Let every Nest cell be owned by an existing colony
and let every ant carry 0 or 1 unit of food and, when it carries food, be alive with energy
above the cost of one step, so that no ant is reaped with food in this tick
(`tick_keeps_food`). Then the sum of the food on Food cells, the food carried by all ants in
all colony lists and the food collected by all colonies (`food_total`) is the same after one
tick (`update_all_ants` with its reaping, `evaporate_pheromones`, `diffuse_pheromones`, the
statistics and the step counter) as before it; and after `n` ticks it equals the initial total
when the condition holds at the start of each of these ticks. -/
theorem food_conservation (w : World) (r : Rng) :
    (tick_keeps_food w → food_total (simulation_tick w r).1 = food_total w) ∧
      ∀ n : Nat, (∀ k : Nat, k < n → tick_keeps_food (run_ticks k w r).1) →
        food_total (run_ticks n w r).1 = food_total w := by
  have one : ∀ (v : World) (q : Rng), tick_keeps_food v →
      food_total (simulation_tick v q).1 = food_total v := by
    intro v q h
    rw [simulation_tick_food_total]
    exact update_all_ants_food_total v q h.1 h.2
  refine ⟨one w r, ?_⟩
  intro n
  induction n with
  | zero => intro _; rfl
  | succ n ih =>
    intro h
    have h1 := ih fun k hk => h k (by omega)
    have h2 := one (run_ticks n w r).1 (run_ticks n w r).2 (h n (by omega))
    simp only [run_ticks]
    rw [h2, h1]

/-- C1 witness: `foraging_world` has a nest owned by colony 0 and one searching ant, which
stands on a food cell and carries nothing. -/
theorem food_conservation_witness :
    tick_keeps_food foraging_world ∧
      food_total (simulation_tick foraging_world (fun _ => 0)).1 = food_total foraging_world :=
  ⟨foraging_world_keeps_food,
    (food_conservation foraging_world (fun _ => 0)).1 foraging_world_keeps_food⟩

/-- C8 counterexample: `spread_world` has no ants; its cell `(1, 0)` holds 0 on the food
channel, a non-negative value under `PHEROMONE_MIN_THRESHOLD`, next to a cell holding 1000.
After one tick the cell holds 49/5: the value has risen, and it is not 0. -/
theorem tick_monotonicity_spread_counterexample :
    (∀ c ∈ spread_world.colonies, c.ants = []) ∧
      is_valid_position spread_world 1 0 = true ∧
      (spread_world.grid 0 1).pheromone_food = 0 ∧
      (spread_world.grid 0 1).pheromone_food < PHEROMONE_MIN_THRESHOLD ∧
      ((simulation_tick spread_world (fun _ => 0)).1.grid 0 1).pheromone_food = 49 / 5 ∧
      ¬ ((simulation_tick spread_world (fun _ => 0)).1.grid 0 1).pheromone_food ≤
          (spread_world.grid 0 1).pheromone_food ∧
      ((simulation_tick spread_world (fun _ => 0)).1.grid 0 1).pheromone_food ≠ 0 := by
  have hno := spread_world_no_ants
  have hval : ((simulation_tick spread_world (fun _ => 0)).1.grid 0 1).pheromone_food = 49 / 5 := by
    rw [simulation_tick_grid_no_ants spread_world (fun _ => 0) hno, field_update_food spread_world 1 0 (by decide)]
    unfold diffusion_value
    have hN : in_bounds_neighbours spread_world 1 0 = {(0, 0)} := by decide
    rw [hN]
    norm_num [spread_world, evaporate_value_thousand, evaporate_value_zero,
      PHEROMONE_DIFFUSION_RATE]
  have hold : (spread_world.grid 0 1).pheromone_food = 0 := by
    norm_num [spread_world]
  refine ⟨hno, by decide, hold, ?_, hval, ?_, ?_⟩
  · rw [hold]
    norm_num [PHEROMONE_MIN_THRESHOLD]
  · rw [hval, hold]
    norm_num
  · rw [hval]
    norm_num

/-- C8 (amended): the field over a whole tick without ants. In a world whose colony lists hold
no ant, for every in-bounds cell and each channel: if the values of the cell and of its
in-bounds neighbours before the tick are non-negative and at most `M`, then the value of the
cell after the tick (`evaporate_pheromones` followed by `diffuse_pheromones`, as
`run_simulation` performs it) is non-negative and at most `M` (a single cell may rise through
diffusion from a neighbour, but not above the largest value around it); and the cell holds
exactly 0 at the end of the tick if the evaporation pass snaps the cell and all its in-bounds
neighbours to 0, that is, if for each of their values `v` the product of `v` with the
binary32 factor `1.0f - PHEROMONE_EVAPORATION_RATE`, rounded to binary32, is below the
binary32 value of `PHEROMONE_MIN_THRESHOLD`; this is the case in particular when the cell and
all its in-bounds neighbours hold values under `PHEROMONE_MIN_THRESHOLD`. -/
theorem tick_field_no_ants (w : World) (r : Rng) (x y : Int)
    (hno : ∀ c ∈ w.colonies, c.ants = []) (hv : is_valid_position w x y = true) :
    (∀ M : ℚ,
      (0 ≤ (w.grid y x).pheromone_food ∧ (w.grid y x).pheromone_food ≤ M) →
      (∀ q ∈ in_bounds_neighbours w x y,
        0 ≤ (w.grid q.2 q.1).pheromone_food ∧ (w.grid q.2 q.1).pheromone_food ≤ M) →
      0 ≤ ((simulation_tick w r).1.grid y x).pheromone_food ∧
        ((simulation_tick w r).1.grid y x).pheromone_food ≤ M) ∧
    (∀ M : ℚ,
      (0 ≤ (w.grid y x).pheromone_home ∧ (w.grid y x).pheromone_home ≤ M) →
      (∀ q ∈ in_bounds_neighbours w x y,
        0 ≤ (w.grid q.2 q.1).pheromone_home ∧ (w.grid q.2 q.1).pheromone_home ≤ M) →
      0 ≤ ((simulation_tick w r).1.grid y x).pheromone_home ∧
        ((simulation_tick w r).1.grid y x).pheromone_home ≤ M) ∧
    (f32_round ((w.grid y x).pheromone_food *
          f32_round (1 - f32_round PHEROMONE_EVAPORATION_RATE)) <
        f32_round PHEROMONE_MIN_THRESHOLD →
      (∀ q ∈ in_bounds_neighbours w x y,
        f32_round ((w.grid q.2 q.1).pheromone_food *
            f32_round (1 - f32_round PHEROMONE_EVAPORATION_RATE)) <
          f32_round PHEROMONE_MIN_THRESHOLD) →
      ((simulation_tick w r).1.grid y x).pheromone_food = 0) ∧
    (f32_round ((w.grid y x).pheromone_home *
          f32_round (1 - f32_round PHEROMONE_EVAPORATION_RATE)) <
        f32_round PHEROMONE_MIN_THRESHOLD →
      (∀ q ∈ in_bounds_neighbours w x y,
        f32_round ((w.grid q.2 q.1).pheromone_home *
            f32_round (1 - f32_round PHEROMONE_EVAPORATION_RATE)) <
          f32_round PHEROMONE_MIN_THRESHOLD) →
      ((simulation_tick w r).1.grid y x).pheromone_home = 0) ∧
    ((w.grid y x).pheromone_food < PHEROMONE_MIN_THRESHOLD →
      (∀ q ∈ in_bounds_neighbours w x y,
        (w.grid q.2 q.1).pheromone_food < PHEROMONE_MIN_THRESHOLD) →
      ((simulation_tick w r).1.grid y x).pheromone_food = 0) ∧
    ((w.grid y x).pheromone_home < PHEROMONE_MIN_THRESHOLD →
      (∀ q ∈ in_bounds_neighbours w x y,
        (w.grid q.2 q.1).pheromone_home < PHEROMONE_MIN_THRESHOLD) →
      ((simulation_tick w r).1.grid y x).pheromone_home = 0) := by
  rw [simulation_tick_grid_no_ants w r hno, field_update_food w x y hv, field_update_home w x y hv]
  exact ⟨fun M hs hn =>
      diffusion_value_evaporated_bounds w (fun yy xx => (w.grid yy xx).pheromone_food) x y M hs hn,
    fun M hs hn =>
      diffusion_value_evaporated_bounds w (fun yy xx => (w.grid yy xx).pheromone_home) x y M hs hn,
    fun hs hn =>
      diffusion_value_evaporated_zero w (fun yy xx => (w.grid yy xx).pheromone_food) x y
        (evaporate_value_snap _ hs) (fun q hq => evaporate_value_snap _ (hn q hq)),
    fun hs hn =>
      diffusion_value_evaporated_zero w (fun yy xx => (w.grid yy xx).pheromone_home) x y
        (evaporate_value_snap _ hs) (fun q hq => evaporate_value_snap _ (hn q hq)),
    fun hs hn =>
      diffusion_value_evaporated_zero w (fun yy xx => (w.grid yy xx).pheromone_food) x y
        (evaporate_value_under _ hs) (fun q hq => evaporate_value_under _ (hn q hq)),
    fun hs hn =>
      diffusion_value_evaporated_zero w (fun yy xx => (w.grid yy xx).pheromone_home) x y
        (evaporate_value_under _ hs) (fun q hq => evaporate_value_under _ (hn q hq))⟩

/-- C8 witness: the cell `(0, 0)` of `spread_world`, with the bound `PHEROMONE_MAX`; and the
corner `(0, 0)` of `interior_world`, which like its three neighbours holds 0, a value under
the threshold, and holds 0 after the tick. -/
theorem tick_field_no_ants_witness :
    (∀ c ∈ spread_world.colonies, c.ants = []) ∧
      is_valid_position spread_world 0 0 = true ∧
      0 ≤ ((simulation_tick spread_world (fun _ => 0)).1.grid 0 0).pheromone_food ∧
      ((simulation_tick spread_world (fun _ => 0)).1.grid 0 0).pheromone_food ≤ PHEROMONE_MAX ∧
      (∀ c ∈ interior_world.colonies, c.ants = []) ∧
      is_valid_position interior_world 0 0 = true ∧
      (interior_world.grid 0 0).pheromone_food < PHEROMONE_MIN_THRESHOLD ∧
      (∀ q ∈ in_bounds_neighbours interior_world 0 0,
        (interior_world.grid q.2 q.1).pheromone_food < PHEROMONE_MIN_THRESHOLD) ∧
      ((simulation_tick interior_world (fun _ => 0)).1.grid 0 0).pheromone_food = 0 := by
  have hno : ∀ c ∈ interior_world.colonies, c.ants = [] := by
    intro c hc
    simp [interior_world] at hc
  have hs : (interior_world.grid 0 0).pheromone_food < PHEROMONE_MIN_THRESHOLD := by
    norm_num [interior_world, PHEROMONE_MIN_THRESHOLD]
  have hN : in_bounds_neighbours interior_world 0 0 = {(1, 0), (1, 1), (0, 1)} := by decide
  have hn : ∀ q ∈ in_bounds_neighbours interior_world 0 0,
      (interior_world.grid q.2 q.1).pheromone_food < PHEROMONE_MIN_THRESHOLD := by
    intro q hq
    rw [hN] at hq
    simp only [Finset.mem_insert, Finset.mem_singleton] at hq
    rcases hq with rfl | rfl | rfl <;> norm_num [interior_world, PHEROMONE_MIN_THRESHOLD]
  have h1 := (tick_field_no_ants spread_world (fun _ => 0) 0 0 spread_world_no_ants
    (by decide)).1 PHEROMONE_MAX (spread_world_bounded 0 0 (by decide)).1
      (fun q hq =>
        (spread_world_bounded q.1 q.2 (mem_in_bounds_neighbours_valid spread_world 0 0 q hq)).1)
  exact ⟨spread_world_no_ants, by decide, h1.1, h1.2, hno, by decide, hs, hn,
    (tick_field_no_ants interior_world (fun _ => 0) 0 0 hno (by decide)).2.2.2.2.1 hs hn⟩

/-- C20: walkability. `is_walkable` returns true exactly when `(x, y)` is in bounds
(`0 <= x < width` and `0 <= y < height`) and the terrain of the cell is Empty, Food or Nest; in
particular a Wall or Water cell is not walkable and no out-of-bounds position is. -/
theorem is_walkable_spec (w : World) (x y : Int) :
    (is_walkable w x y = true ↔
      (0 ≤ x ∧ x < w.width ∧ 0 ≤ y ∧ y < w.height) ∧
        ((w.grid y x).terrain = TERRAIN_EMPTY ∨ (w.grid y x).terrain = TERRAIN_FOOD ∨
          (w.grid y x).terrain = TERRAIN_NEST)) ∧
      ((w.grid y x).terrain = TERRAIN_WALL ∨ (w.grid y x).terrain = TERRAIN_WATER →
        is_walkable w x y = false) ∧
      (x < 0 ∨ w.width ≤ x ∨ y < 0 ∨ w.height ≤ y → is_walkable w x y = false) := by
  have hiff := is_walkable_eq w x y
  simp only [is_valid_position, decide_eq_true_eq, ge_iff_le] at hiff
  refine ⟨hiff, ?_, ?_⟩
  · intro ht
    rw [← Bool.not_eq_true, hiff]
    rintro ⟨_, h | h | h⟩ <;> rcases ht with h2 | h2 <;> rw [h] at h2 <;> exact absurd h2 (by decide)
  · intro hb
    rw [← Bool.not_eq_true, hiff]
    rintro ⟨⟨h1, h2, h3, h4⟩, _⟩
    omega

/-- C20 witness: in `terrain_world` the wall at `(1, 0)` and the position `(3, 0)` outside the
grid are not walkable. -/
theorem is_walkable_spec_witness :
    (terrain_world.grid 0 1).terrain = TERRAIN_WALL ∧ is_walkable terrain_world 1 0 = false ∧
      terrain_world.width ≤ 3 ∧ is_walkable terrain_world 3 0 = false :=
  ⟨by decide, (is_walkable_spec terrain_world 1 0).2.1 (Or.inl (by decide)), by decide,
    (is_walkable_spec terrain_world 3 0).2.2 (Or.inr (Or.inl (by decide)))⟩

/-- C15: movement primitive. For a direction `d` in `0..7`, `move_ant` commits the move (the
position becomes the target `pos + (dx[d], dy[d])` and `steps_taken` grows by exactly 1) if and
only if the target is in bounds and walkable; on a committed move `last_pos` is the old
position; when the target is out of bounds or not walkable, `pos` and `steps_taken` are
unchanged. For `d` outside `0..7` the ant is entirely unchanged. `move_ant` returns the ant
only: it has no access to store into the cells of the world. -/
theorem move_ant_spec (a : Ant) (w : World) (d : Int) :
    (0 ≤ d ∧ d < 8 →
      (((move_ant a w d).pos = ⟨a.pos.x + dx d, a.pos.y + dy d⟩ ∧
          (move_ant a w d).steps_taken = a.steps_taken + 1) ↔
        (is_valid_position w (a.pos.x + dx d) (a.pos.y + dy d) = true ∧
          is_walkable w (a.pos.x + dx d) (a.pos.y + dy d) = true)) ∧
      ((is_valid_position w (a.pos.x + dx d) (a.pos.y + dy d) = true ∧
          is_walkable w (a.pos.x + dx d) (a.pos.y + dy d) = true) →
        (move_ant a w d).last_pos = a.pos) ∧
      (¬ (is_valid_position w (a.pos.x + dx d) (a.pos.y + dy d) = true ∧
          is_walkable w (a.pos.x + dx d) (a.pos.y + dy d) = true) →
        (move_ant a w d).pos = a.pos ∧ (move_ant a w d).steps_taken = a.steps_taken)) ∧
    (d < 0 ∨ 8 ≤ d → move_ant a w d = a) := by
  constructor
  · rintro ⟨h0, h8⟩
    have hd : ¬ (d < 0 ∨ d ≥ 8) := by omega
    by_cases hc : is_valid_position w (a.pos.x + dx d) (a.pos.y + dy d) = true ∧
        is_walkable w (a.pos.x + dx d) (a.pos.y + dy d) = true
    · have hm : move_ant a w d =
          add_path_node
            { a with last_pos := a.pos, pos := ⟨a.pos.x + dx d, a.pos.y + dy d⟩,
                     steps_taken := a.steps_taken + 1 }
            ⟨a.pos.x + dx d, a.pos.y + dy d⟩ 0 := by
        simp [move_ant, hd, hc.1, hc.2]
      rw [hm]
      exact ⟨⟨fun _ => hc, fun _ => ⟨rfl, rfl⟩⟩, fun _ => rfl, fun h => absurd hc h⟩
    · have hm : move_ant a w d = { a with last_pos := a.pos } := by
        have hc2 : (is_valid_position w (a.pos.x + dx d) (a.pos.y + dy d) &&
            is_walkable w (a.pos.x + dx d) (a.pos.y + dy d)) = false := by
          rw [Bool.and_eq_false_iff]
          by_cases hv : is_valid_position w (a.pos.x + dx d) (a.pos.y + dy d) = true
          · right
            have := fun h => hc ⟨hv, h⟩
            simpa using this
          · left
            simpa using hv
        simp [move_ant, hd, hc2]
      rw [hm]
      refine ⟨⟨fun h => ?_, fun h => absurd h hc⟩, fun h => absurd h hc, fun _ => ⟨rfl, rfl⟩⟩
      have := h.2
      simp only at this
      omega
  · intro hd
    have hd2 : d < 0 ∨ d ≥ 8 := hd
    simp [move_ant, hd2]

/-- C15 witness: in `retreat_world` the ant `retreat_ant` on `(1, 1)` moves in direction 2 to
`(2, 1)`. -/
theorem move_ant_spec_witness :
    ((0 : Int) ≤ 2 ∧ (2 : Int) < 8) ∧
      is_valid_position retreat_world (retreat_ant.pos.x + dx 2) (retreat_ant.pos.y + dy 2) = true ∧
      is_walkable retreat_world (retreat_ant.pos.x + dx 2) (retreat_ant.pos.y + dy 2) = true ∧
      (move_ant retreat_ant retreat_world 2).pos = ⟨2, 1⟩ ∧
      (move_ant retreat_ant retreat_world 2).steps_taken = 1 :=
  ⟨by decide, by decide, by decide,
    (((move_ant_spec retreat_ant retreat_world 2).1 (by decide)).1.mpr ⟨by decide, by decide⟩).1,
    (((move_ant_spec retreat_ant retreat_world 2).1 (by decide)).1.mpr ⟨by decide, by decide⟩).2⟩

/-- C11: death step. `update_ant` first subtracts `ANT_ENERGY_PER_STEP` (which is 1) from the
energy. If the result is `<= 0`, the update sets the Dead flag and does nothing else: the world
(all cells, all colonies) and the random stream are returned as they were, and the ant differs
only in its energy and in its state, which gains the Dead flag; `pos`, `last_pos`,
`food_carrying`, `steps_taken`, `food_delivered` and `preferred_direction` are unchanged. If
the result is `> 0`, the Dead flag of the ant after the update is what it was before. -/
theorem update_ant_death_step (w : World) (a : Ant) (r : Rng) :
    ANT_ENERGY_PER_STEP = 1 ∧
    (a.energy - ANT_ENERGY_PER_STEP ≤ 0 →
      update_ant w a r =
          (w, { a with energy := a.energy - ANT_ENERGY_PER_STEP,
                       state := (a.state ||| ANT_STATE_DEAD) % 256 }, r) ∧
        (update_ant w a r).2.1.state &&& ANT_STATE_DEAD ≠ 0 ∧
        (update_ant w a r).2.1.pos = a.pos ∧
        (update_ant w a r).2.1.last_pos = a.last_pos ∧
        (update_ant w a r).2.1.food_carrying = a.food_carrying ∧
        (update_ant w a r).2.1.steps_taken = a.steps_taken ∧
        (update_ant w a r).2.1.food_delivered = a.food_delivered ∧
        (update_ant w a r).2.1.preferred_direction = a.preferred_direction) ∧
    (0 < a.energy - ANT_ENERGY_PER_STEP →
      (update_ant w a r).2.1.state &&& ANT_STATE_DEAD = a.state &&& ANT_STATE_DEAD) := by
  refine ⟨rfl, ?_, update_ant_dead_flag w a r⟩
  intro he
  have hu : update_ant w a r =
      (w, set_ant_state { a with energy := a.energy - ANT_ENERGY_PER_STEP } ANT_STATE_DEAD, r) := by
    unfold update_ant
    simp only []
    rw [if_pos he]
  rw [hu]
  exact ⟨rfl, set_ant_state_dead _, rfl, rfl, rfl, rfl, rfl, rfl⟩

/-- C11 witness: `starving_ant` has energy 1 and dies in `starving_world`. -/
theorem update_ant_death_step_witness :
    starving_ant.energy - ANT_ENERGY_PER_STEP ≤ 0 ∧
      (update_ant starving_world starving_ant (fun _ => 0)).1.colonies = starving_world.colonies ∧
      (update_ant starving_world starving_ant (fun _ => 0)).2.1.state &&& ANT_STATE_DEAD ≠ 0 := by
  have he : starving_ant.energy - ANT_ENERGY_PER_STEP ≤ 0 := by
    norm_num [starving_ant, create_ant, ANT_ENERGY_PER_STEP]
  have h := (update_ant_death_step starving_world starving_ant (fun _ => 0)).2.1 he
  exact ⟨he, by rw [h.1], h.2.1⟩

/-- C18: placement on a bad target is a no-op. `place_colony` with a position outside the grid
or a colony id outside `0 .. colony_count - 1`, `place_food` with a position outside the grid
or an amount `<= 0`, and `place_obstacle` with a position outside the grid return the world
unchanged: every cell, every colony (with its `nest_pos`) and every other field is as
before. -/
theorem placement_bad_target (w : World) :
    (∀ colony_id x y : Int,
      is_valid_position w x y = false ∨ colony_id < 0 ∨ colony_id ≥ w.colony_count →
        place_colony w colony_id x y = w) ∧
    (∀ x y amount : Int, is_valid_position w x y = false ∨ amount ≤ 0 →
        place_food w x y amount = w) ∧
    (∀ x y : Int, is_valid_position w x y = false → place_obstacle w x y = w) := by
  refine ⟨?_, ?_, ?_⟩
  · intro c x y h
    apply place_colony_invalid
    rcases h with h | h
    · exact Or.inl (by simp [h])
    · exact Or.inr h
  · intro x y a h
    apply place_food_invalid
    rcases h with h | h
    · exact Or.inl (by simp [h])
    · exact Or.inr h
  · intro x y h
    exact place_obstacle_invalid w x y (by simp [h])

/-- C18 witness: in `placement_world` the position `(3, 0)` is outside the grid and 2 is not a
colony id. -/
theorem placement_bad_target_witness :
    is_valid_position placement_world 3 0 = false ∧
      (2 : Int) ≥ placement_world.colony_count ∧
      place_colony placement_world 2 1 1 = placement_world ∧
      place_food placement_world 3 0 10 = placement_world ∧
      place_obstacle placement_world 3 0 = placement_world :=
  ⟨by decide, by decide,
    (placement_bad_target placement_world).1 2 1 1 (Or.inr (Or.inr (by decide))),
    (placement_bad_target placement_world).2.1 3 0 10 (Or.inl (by decide)),
    (placement_bad_target placement_world).2.2 3 0 (by decide)⟩

/-- C19: placement clears, then sets. In a world satisfying the cell invariant and for an
in-bounds position `(x, y)`: after `place_food` with an amount `a > 0` the cell has terrain
Food, food amount `a` and no owner; after `place_obstacle` it has terrain Wall, food amount 0
and no owner; after `place_colony` with a valid colony id `c` it has terrain Nest, owner `c`,
food amount 0, and colony `c` has `nest_pos = (x, y)`. In each case, when the cell was not
Empty before, both pheromone channels of the cell are 0 afterwards (the former occupant is
cleared first), when it was Empty they are as before, and every other cell is unchanged. -/
theorem placement_sets (w : World) (x y : Int) (hinv : cell_invariant w)
    (hv : is_valid_position w x y = true) :
    (∀ a : Int, 0 < a →
      ((place_food w x y a).grid y x).terrain = TERRAIN_FOOD ∧
        ((place_food w x y a).grid y x).food_amount = a ∧
        ((place_food w x y a).grid y x).colony_id = -1 ∧
        ((w.grid y x).terrain ≠ TERRAIN_EMPTY →
          ((place_food w x y a).grid y x).pheromone_food = 0 ∧
            ((place_food w x y a).grid y x).pheromone_home = 0) ∧
        ((w.grid y x).terrain = TERRAIN_EMPTY →
          ((place_food w x y a).grid y x).pheromone_food = (w.grid y x).pheromone_food ∧
            ((place_food w x y a).grid y x).pheromone_home = (w.grid y x).pheromone_home) ∧
        ∀ p q : Int, (p, q) ≠ (x, y) → (place_food w x y a).grid q p = w.grid q p) ∧
    (((place_obstacle w x y).grid y x).terrain = TERRAIN_WALL ∧
        ((place_obstacle w x y).grid y x).food_amount = 0 ∧
        ((place_obstacle w x y).grid y x).colony_id = -1 ∧
        ((w.grid y x).terrain ≠ TERRAIN_EMPTY →
          ((place_obstacle w x y).grid y x).pheromone_food = 0 ∧
            ((place_obstacle w x y).grid y x).pheromone_home = 0) ∧
        ((w.grid y x).terrain = TERRAIN_EMPTY →
          ((place_obstacle w x y).grid y x).pheromone_food = (w.grid y x).pheromone_food ∧
            ((place_obstacle w x y).grid y x).pheromone_home = (w.grid y x).pheromone_home) ∧
        ∀ p q : Int, (p, q) ≠ (x, y) → (place_obstacle w x y).grid q p = w.grid q p) ∧
    (∀ c : Int, 0 ≤ c ∧ c < w.colony_count →
      ((place_colony w c x y).grid y x).terrain = TERRAIN_NEST ∧
        ((place_colony w c x y).grid y x).colony_id = c ∧
        ((place_colony w c x y).grid y x).food_amount = 0 ∧
        ((place_colony w c x y).colonies[c.toNat]?).map Colony.nest_pos = some ⟨x, y⟩ ∧
        ((w.grid y x).terrain ≠ TERRAIN_EMPTY →
          ((place_colony w c x y).grid y x).pheromone_food = 0 ∧
            ((place_colony w c x y).grid y x).pheromone_home = 0) ∧
        ((w.grid y x).terrain = TERRAIN_EMPTY →
          ((place_colony w c x y).grid y x).pheromone_food = (w.grid y x).pheromone_food ∧
            ((place_colony w c x y).grid y x).pheromone_home = (w.grid y x).pheromone_home) ∧
        ∀ p q : Int, (p, q) ≠ (x, y) → (place_colony w c x y).grid q p = w.grid q p) := by
  obtain ⟨he1, he2, he3⟩ := cell_after_clearing_empty w x y (hinv x y hv)
  obtain ⟨hp1, hp2⟩ := cell_after_clearing_pheromones w x y
  refine ⟨?_, ?_, ?_⟩
  · intro a ha
    rw [place_food_eq w x y a hv ha]
    refine ⟨?_, ?_, ?_, ?_, ?_, fun p q h => set_cell_grid_other w x y _ p q h⟩ <;>
      rw [set_cell_grid_self]
    · exact he3
    · exact hp1
    · exact hp2
  · rw [place_obstacle_eq w x y hv]
    refine ⟨?_, ?_, ?_, ?_, ?_, fun p q h => set_cell_grid_other w x y _ p q h⟩ <;>
      rw [set_cell_grid_self]
    · exact he2
    · exact he3
    · exact hp1
    · exact hp2
  · intro c hc
    rw [place_colony_eq w c x y hv hc]
    have hg := (modify_colony_grid
      (set_cell w x y { cell_after_clearing w x y with terrain := TERRAIN_NEST, colony_id := c })
      c fun colony => { colony with nest_pos := ⟨x, y⟩ }).1
    obtain ⟨col, _, hcol⟩ := modify_colony_getElem
      (set_cell w x y { cell_after_clearing w x y with terrain := TERRAIN_NEST, colony_id := c })
      c (fun colony => { colony with nest_pos := ⟨x, y⟩ }) hc
    rw [hg, hcol]
    refine ⟨?_, ?_, ?_, rfl, ?_, ?_, fun p q h => set_cell_grid_other w x y _ p q h⟩ <;>
      rw [set_cell_grid_self]
    · exact he2
    · exact hp1
    · exact hp2

/-- C19 witness: in `placement_world`, placing 8 units of food on the nest cell `(0, 0)`. -/
theorem placement_sets_witness :
    cell_invariant placement_world ∧ is_valid_position placement_world 0 0 = true ∧
      (placement_world.grid 0 0).terrain ≠ TERRAIN_EMPTY ∧
      ((place_food placement_world 0 0 8).grid 0 0).terrain = TERRAIN_FOOD ∧
      ((place_food placement_world 0 0 8).grid 0 0).food_amount = 8 ∧
      ((place_food placement_world 0 0 8).grid 0 0).colony_id = -1 ∧
      ((place_food placement_world 0 0 8).grid 0 0).pheromone_food = 0 := by
  have h := (placement_sets placement_world 0 0 placement_world_invariant (by decide)).1 8
    (by decide)
  exact ⟨placement_world_invariant, by decide, by decide, h.1, h.2.1, h.2.2.1,
    (h.2.2.2.1 (by decide)).1⟩

/-- C12: pick-up step. Let an ant with the Searching flag, `food_carrying = 0` and energy above
`ANT_ENERGY_PER_STEP` stand on an in-bounds cell with terrain Food and `food_amount > 0`. Then
`update_ant` decrements the food amount of that cell by exactly 1 and makes its terrain Empty
if and only if the amount reaches 0 (it stays Food otherwise); sets `food_carrying = 1`; clears
Searching and sets Returning and Carrying; sets the energy to
`old - ANT_ENERGY_PER_STEP + ANT_ENERGY_FROM_FOOD` (which is `old - 1 + 500`); sets
`preferred_direction` to the direction `d` with `pos + (dx[d], dy[d]) = last_pos` whenever such
a `d` in `0..7` exists; adds one deposit, clamped at `PHEROMONE_MAX`, to the food-trail channel
of the cell and leaves its home-trail channel and owner alone; leaves `pos` and `steps_taken`
unchanged; and changes no other cell, no colony and not the random stream. -/
theorem update_ant_pickup_step (w : World) (a : Ant) (r : Rng)
    (hs : a.state &&& ANT_STATE_SEARCHING ≠ 0) (hfc : a.food_carrying = 0)
    (he : ANT_ENERGY_PER_STEP < a.energy)
    (hv : is_valid_position w a.pos.x a.pos.y = true)
    (ht : (w.grid a.pos.y a.pos.x).terrain = TERRAIN_FOOD)
    (hamt : (w.grid a.pos.y a.pos.x).food_amount > 0) :
    ((update_ant w a r).1.grid a.pos.y a.pos.x).food_amount =
        (w.grid a.pos.y a.pos.x).food_amount - 1 ∧
      (((update_ant w a r).1.grid a.pos.y a.pos.x).terrain = TERRAIN_EMPTY ↔
        (w.grid a.pos.y a.pos.x).food_amount - 1 = 0) ∧
      ((w.grid a.pos.y a.pos.x).food_amount - 1 ≠ 0 →
        ((update_ant w a r).1.grid a.pos.y a.pos.x).terrain = TERRAIN_FOOD) ∧
      (update_ant w a r).2.1.food_carrying = 1 ∧
      ((update_ant w a r).2.1.state &&& ANT_STATE_SEARCHING = 0 ∧
        (update_ant w a r).2.1.state &&& ANT_STATE_RETURNING ≠ 0 ∧
        (update_ant w a r).2.1.state &&& ANT_STATE_CARRYING ≠ 0) ∧
      ((update_ant w a r).2.1.energy = a.energy - ANT_ENERGY_PER_STEP + ANT_ENERGY_FROM_FOOD ∧
        a.energy - ANT_ENERGY_PER_STEP + ANT_ENERGY_FROM_FOOD = a.energy - 1 + 500) ∧
      (∀ d : Int, 0 ≤ d ∧ d < 8 →
        a.pos.x + dx d = a.last_pos.x ∧ a.pos.y + dy d = a.last_pos.y →
        (update_ant w a r).2.1.preferred_direction = d) ∧
      (((update_ant w a r).1.grid a.pos.y a.pos.x).pheromone_food =
          min ((w.grid a.pos.y a.pos.x).pheromone_food + PHEROMONE_DEPOSIT_AMOUNT) PHEROMONE_MAX ∧
        ((update_ant w a r).1.grid a.pos.y a.pos.x).pheromone_home =
          (w.grid a.pos.y a.pos.x).pheromone_home ∧
        ((update_ant w a r).1.grid a.pos.y a.pos.x).colony_id =
          (w.grid a.pos.y a.pos.x).colony_id) ∧
      ((update_ant w a r).2.1.pos = a.pos ∧ (update_ant w a r).2.1.steps_taken = a.steps_taken ∧
        (update_ant w a r).2.1.last_pos = a.last_pos) ∧
      (∀ p q : Int, (p, q) ≠ (a.pos.x, a.pos.y) → (update_ant w a r).1.grid q p = w.grid q p) ∧
      (update_ant w a r).1.colonies = w.colonies ∧ (update_ant w a r).2.2 = r := by
  have he2 : 0 < a.energy - ANT_ENERGY_PER_STEP := by linarith
  have hu := update_ant_eq_pick_up w a r he2 hs hv ht hamt hfc
  have hw := pick_up_food_world w { a with energy := a.energy - ANT_ENERGY_PER_STEP } r hv
  have ha := pick_up_food_ant w { a with energy := a.energy - ANT_ENERGY_PER_STEP } r
  have hflags := pick_up_state_flags a.state
  obtain ⟨res, hres⟩ : ∃ res, res = update_ant w a r := ⟨_, rfl⟩
  rw [← hres]
  rw [← hu, ← hres] at hw ha
  simp only at hw ha
  rw [hw, ha]
  refine ⟨?_, ?_, ?_, rfl, hflags, ⟨rfl, ?_⟩, ?_, ?_, ⟨rfl, rfl, rfl⟩, ?_, rfl, ?_⟩
  · rw [set_cell_grid_self]
  · rw [set_cell_grid_self]
    simp only []
    constructor
    · intro h
      by_contra hne
      have hgt : ¬ (w.grid a.pos.y a.pos.x).food_amount - 1 ≤ 0 := by omega
      rw [if_neg hgt, ht] at h
      exact absurd h (by decide)
    · intro h
      rw [if_pos (by omega)]
  · intro hne
    rw [set_cell_grid_self]
    simp only []
    have hgt : ¬ (w.grid a.pos.y a.pos.x).food_amount - 1 ≤ 0 := by omega
    rw [if_neg hgt, ht]
  · norm_num [ANT_ENERGY_PER_STEP, ANT_ENERGY_FROM_FOOD]
  · intro d hd hxy
    have hrd : reverse_direction { a with energy := a.energy - ANT_ENERGY_PER_STEP } = d :=
      reverse_direction_eq _ d hd hxy.1.symm hxy.2.symm
    simp only [hrd]
    rw [if_pos]
    omega
  · rw [set_cell_grid_self]
    exact ⟨rfl, rfl, rfl⟩
  · intro p q h
    exact set_cell_grid_other w _ _ _ p q h
  · rw [hres, hu]
    rfl

/-- C12 witness: `retreat_ant` stands on the 5 units of food at `(1, 1)` of `retreat_world`. -/
theorem update_ant_pickup_step_witness :
    retreat_ant.state &&& ANT_STATE_SEARCHING ≠ 0 ∧ retreat_ant.food_carrying = 0 ∧
      ANT_ENERGY_PER_STEP < retreat_ant.energy ∧
      is_valid_position retreat_world retreat_ant.pos.x retreat_ant.pos.y = true ∧
      (retreat_world.grid retreat_ant.pos.y retreat_ant.pos.x).terrain = TERRAIN_FOOD ∧
      (retreat_world.grid retreat_ant.pos.y retreat_ant.pos.x).food_amount > 0 ∧
      ((update_ant retreat_world retreat_ant (fun _ => 0)).1.grid
          retreat_ant.pos.y retreat_ant.pos.x).food_amount =
        (retreat_world.grid retreat_ant.pos.y retreat_ant.pos.x).food_amount - 1 ∧
      (update_ant retreat_world retreat_ant (fun _ => 0)).2.1.food_carrying = 1 := by
  have he : ANT_ENERGY_PER_STEP < retreat_ant.energy := by
    norm_num [retreat_ant, create_ant, ANT_ENERGY_PER_STEP, ANT_INITIAL_ENERGY]
  have h := update_ant_pickup_step retreat_world retreat_ant (fun _ => 0) (by decide) rfl he
    (by decide) (by decide) (by decide)
  exact ⟨by decide, rfl, he, by decide, by decide, by decide, h.1, h.2.2.2.1⟩

/-- C13: delivery step. Every ant of the engine satisfies `ant_state_ok` (exactly one of the
Searching and Returning flags is set and at most one unit of food is carried), and the
property is about such ants. Let an ant with the Returning flag, `food_carrying > 0` and
energy above `ANT_ENERGY_PER_STEP` stand on an in-bounds Nest cell whose `colony_id` equals
the ant's `colony_id` and is the index of an existing colony. Then `update_ant` increases
that colony's `food_collected` and the ant's `food_delivered` by the carried amount
`food_carrying` (which is 1), leaves the other colonies alone, sets `food_carrying = 0`,
clears Returning and Carrying and sets Searching, stores the direction `d` with
`pos + (dx[d], dy[d]) = last_pos` in `preferred_direction` when it exists, and neither moves
the ant (`pos`, `last_pos`, `steps_taken` unchanged) nor deposits pheromone (the grid is
unchanged). Consequently, whenever an update takes an ant from Returning to Searching, its
`food_carrying` is 0 afterwards and the `food_collected` of its colony (when the colony
exists) has grown by exactly 1. -/
theorem update_ant_delivery_step (w : World) (a : Ant) (r : Rng) (hok : ant_state_ok a) :
    (a.state &&& ANT_STATE_RETURNING ≠ 0 →
      a.food_carrying > 0 → ANT_ENERGY_PER_STEP < a.energy →
      is_valid_position w a.pos.x a.pos.y = true →
      (w.grid a.pos.y a.pos.x).terrain = TERRAIN_NEST →
      (w.grid a.pos.y a.pos.x).colony_id = a.colony_id →
      0 ≤ a.colony_id ∧ a.colony_id < w.colony_count →
      (∃ c : Colony, w.colonies[a.colony_id.toNat]? = some c ∧
        (update_ant w a r).1.colonies[a.colony_id.toNat]? =
          some { c with food_collected := c.food_collected + a.food_carrying }) ∧
      (∀ j : Nat, j ≠ a.colony_id.toNat →
        (update_ant w a r).1.colonies[j]? = w.colonies[j]?) ∧
      (update_ant w a r).2.1.food_delivered = a.food_delivered + a.food_carrying ∧
      a.food_carrying = 1 ∧
      (update_ant w a r).2.1.food_carrying = 0 ∧
      ((update_ant w a r).2.1.state &&& ANT_STATE_SEARCHING ≠ 0 ∧
        (update_ant w a r).2.1.state &&& ANT_STATE_RETURNING = 0 ∧
        (update_ant w a r).2.1.state &&& ANT_STATE_CARRYING = 0) ∧
      (∀ d : Int, 0 ≤ d ∧ d < 8 →
        a.pos.x + dx d = a.last_pos.x ∧ a.pos.y + dy d = a.last_pos.y →
        (update_ant w a r).2.1.preferred_direction = d) ∧
      ((update_ant w a r).2.1.pos = a.pos ∧ (update_ant w a r).2.1.last_pos = a.last_pos ∧
        (update_ant w a r).2.1.steps_taken = a.steps_taken) ∧
      (update_ant w a r).1.grid = w.grid ∧ (update_ant w a r).2.2 = r) ∧
    (a.state &&& ANT_STATE_RETURNING ≠ 0 →
      (update_ant w a r).2.1.state &&& ANT_STATE_SEARCHING ≠ 0 →
      (update_ant w a r).2.1.food_carrying = 0 ∧
      (0 ≤ a.colony_id ∧ a.colony_id < w.colony_count →
        ∃ c : Colony, w.colonies[a.colony_id.toNat]? = some c ∧
          (update_ant w a r).1.colonies[a.colony_id.toNat]? =
            some { c with food_collected := c.food_collected + 1 })) := by
  have hcore := update_ant_delivery_core w a r
  have hsearch : a.state &&& ANT_STATE_RETURNING ≠ 0 → a.state &&& ANT_STATE_SEARCHING = 0 := by
    intro hr
    rcases hok.2.2 with ⟨_, h⟩ | ⟨h, _⟩
    · exact absurd h hr
    · exact h
  constructor
  · intro hr hfc he hv ht hid hidx
    have hone : a.food_carrying = 1 := by
      rcases hok.2.1 with h | h
      · omega
      · exact h
    obtain ⟨h1, h2, h3, h4, h5, h6, h7, h8, h9⟩ :=
      hcore.1 (hsearch hr) hr hfc he hv ht hid hidx
    rw [hone]
    exact ⟨h1, h2, h3, rfl, h4, h5, h6, h7, h8, h9⟩
  · intro hr hafter
    exact hcore.2 (hsearch hr) hr hafter

/-- C13 witness: the last step of the scenario. `homecoming_ant` is back on the nest `(5, 5)`
of its colony 0 in the 10 x 10 `scenario_world`, carrying the single unit of food; after
`update_ant` the colony has `food_collected = 1` and the ant has `food_carrying = 0`. -/
theorem update_ant_delivery_step_witness :
    ant_state_ok homecoming_ant ∧
      homecoming_ant.state &&& ANT_STATE_RETURNING ≠ 0 ∧ homecoming_ant.food_carrying > 0 ∧
      ANT_ENERGY_PER_STEP < homecoming_ant.energy ∧
      is_valid_position scenario_world homecoming_ant.pos.x homecoming_ant.pos.y = true ∧
      (scenario_world.grid homecoming_ant.pos.y homecoming_ant.pos.x).terrain = TERRAIN_NEST ∧
      (scenario_world.grid homecoming_ant.pos.y homecoming_ant.pos.x).colony_id =
        homecoming_ant.colony_id ∧
      (0 ≤ homecoming_ant.colony_id ∧ homecoming_ant.colony_id < scenario_world.colony_count) ∧
      (scenario_world.colonies[homecoming_ant.colony_id.toNat]?).map Colony.food_collected =
        some 0 ∧
      ((update_ant scenario_world homecoming_ant (fun _ => 0)).1.colonies[
          homecoming_ant.colony_id.toNat]?).map Colony.food_collected = some 1 ∧
      (update_ant scenario_world homecoming_ant (fun _ => 0)).2.1.food_carrying = 0 := by
  have hok : ant_state_ok homecoming_ant := by
    unfold ant_state_ok
    decide
  have he : ANT_ENERGY_PER_STEP < homecoming_ant.energy := by
    norm_num [homecoming_ant, ANT_ENERGY_PER_STEP]
  have h := (update_ant_delivery_step scenario_world homecoming_ant (fun _ => 0) hok).1
    (by decide) (by decide) he (by decide) (by decide) (by decide) (by decide)
  obtain ⟨c, hc, hafter⟩ := h.1
  have hc0 : (scenario_world.colonies[homecoming_ant.colony_id.toNat]?).map
      Colony.food_collected = some 0 := rfl
  refine ⟨hok, by decide, by decide, he, by decide, by decide, by decide, by decide, hc0, ?_,
    h.2.2.2.2.1⟩
  rw [hafter]
  rw [hc] at hc0
  simp only [Option.map_some', Option.some.injEq] at hc0 ⊢
  rw [hc0]
  rfl

/-- C17: agent state invariant. An ant created by `create_ant` and then updated any number of
times by `update_ant`, each time in any world and with any random stream, satisfies
`ant_state_ok`: the Carrying flag implies `food_carrying = 1` and the Returning flag;
`food_carrying` is 0 or 1; exactly one of the Searching and Returning flags is set. The ant
that `spawn_ant` links at the head of a colony list is the ant
`create_ant (total_ants + 1) colony_id nest_pos`, so the same holds for spawned ants. -/
theorem ant_state_invariant (id colony_id : Int) (pos : Position) (steps : List (World × Rng)) :
    ant_state_ok (updated_ant (create_ant id colony_id pos) steps) ∧
      ∀ (w : World) (cid : Int) (c : Colony), 0 ≤ cid → w.colonies[cid.toNat]? = some c →
        c.total_ants < MAX_ANTS_PER_COLONY →
        ((spawn_ant w cid).colonies[cid.toNat]?).map Colony.ants =
          some (create_ant (c.total_ants + 1) cid c.nest_pos :: c.ants) := by
  refine ⟨updated_ant_state_ok steps _ (create_ant_state_ok id colony_id pos), ?_⟩
  intro w cid c hid hc hcap
  rw [spawn_ant_ants w cid c hid hc hcap]
  rfl

/-- C17 witness: spawning into colony 0 of `scenario_world`, which holds 1 ant of at most
50. -/
theorem ant_state_invariant_witness :
    (0 : Int) ≤ 0 ∧
      scenario_world.colonies[(0 : Int).toNat]? = some ⟨0, ⟨5, 5⟩, 0, 1, 1, [], 0, 1⟩ ∧
      (1 : Int) < MAX_ANTS_PER_COLONY ∧
      ((spawn_ant scenario_world 0).colonies[(0 : Int).toNat]?).map Colony.ants =
        some [create_ant 2 0 ⟨5, 5⟩] :=
  ⟨by decide, rfl, by decide,
    (ant_state_invariant 1 0 ⟨5, 5⟩ []).2 scenario_world 0 ⟨0, ⟨5, 5⟩, 0, 1, 1, [], 0, 1⟩
      (by decide) rfl (by decide)⟩

/-- C16: cell invariant. The predicate "for every cell: an owner is set (`colony_id` is not
-1) if and only if the terrain is Nest, a positive food amount implies terrain Food, and the
food amount is not negative" holds for every world returned by `create_world` and is preserved
by `place_colony`, `place_food`, `place_obstacle`, `clear_cell` and `update_ant` for all
arguments. -/
theorem cell_invariant_preserved :
    (∀ (width height colony_count : Int) (w : World),
      create_world width height colony_count = some w → cell_invariant w) ∧
    ∀ w : World, cell_invariant w →
      (∀ colony_id x y : Int, cell_invariant (place_colony w colony_id x y)) ∧
      (∀ x y amount : Int, cell_invariant (place_food w x y amount)) ∧
      (∀ x y : Int, cell_invariant (place_obstacle w x y)) ∧
      (∀ x y : Int, cell_invariant (clear_cell w x y)) ∧
      (∀ (a : Ant) (r : Rng), cell_invariant (update_ant w a r).1) :=
  ⟨create_world_cell_invariant, fun w hinv =>
    ⟨fun c x y => place_colony_cell_invariant w c x y hinv,
      fun x y a => place_food_cell_invariant w x y a hinv,
      fun x y => place_obstacle_cell_invariant w x y hinv,
      fun x y => clear_cell_cell_invariant w x y hinv,
      fun a r => update_ant_cell_invariant w a r hinv⟩⟩

/-- C16 witness: the world returned by `create_world 3 3 1` satisfies the invariant;
`placement_world` satisfies it, and so does it after the ant `retreat_ant` was updated in it and
after food was placed on its nest. -/
theorem cell_invariant_preserved_witness :
    create_world 3 3 1 = some fresh_world ∧ cell_invariant fresh_world ∧
      cell_invariant placement_world ∧
      cell_invariant (update_ant placement_world retreat_ant (fun _ => 0)).1 ∧
      cell_invariant (place_food placement_world 0 0 8) :=
  ⟨create_fresh_world, cell_invariant_preserved.1 3 3 1 fresh_world create_fresh_world,
    placement_world_invariant,
    (cell_invariant_preserved.2 placement_world placement_world_invariant).2.2.2.2
      retreat_ant (fun _ => 0),
    (cell_invariant_preserved.2 placement_world placement_world_invariant).2.1 0 0 8⟩

/-- C14: scenario without food. In a world that contains no cell with terrain Food and in which
every ant of every colony list has the Searching flag set, Returning and Carrying clear and
`food_carrying = 0` (`no_food_state`), after `update_all_ants`, and after any number `n` of
whole ticks, for every random stream: the `food_collected` of every colony is unchanged, and
every ant still in a colony list has Searching set, Returning and Carrying clear and
`food_carrying = 0` (and there is still no Food cell). -/
theorem no_food_scenario (w : World) (r : Rng) (h : no_food_state w) :
    ((update_all_ants w r).1.colonies.map Colony.food_collected =
        w.colonies.map Colony.food_collected ∧
      ∀ c ∈ (update_all_ants w r).1.colonies, ∀ a ∈ c.ants, searching_empty_handed a) ∧
    ∀ n : Nat,
      (run_ticks n w r).1.colonies.map Colony.food_collected =
          w.colonies.map Colony.food_collected ∧
        (∀ c ∈ (run_ticks n w r).1.colonies, ∀ a ∈ c.ants, searching_empty_handed a) ∧
        no_food_cells (run_ticks n w r).1 :=
  ⟨⟨(update_all_ants_no_food w r h).2, (update_all_ants_no_food w r h).1.2⟩,
    fun n => ⟨(run_ticks_no_food w r h n).2, (run_ticks_no_food w r h n).1.2,
      (run_ticks_no_food w r h n).1.1⟩⟩

/-- C14 witness: `barren_world` has two colonies with one fresh ant each and no Food cell;
after 100 ticks both colonies still have `food_collected = 0`. -/
theorem no_food_scenario_witness :
    no_food_state barren_world ∧
      (run_ticks 100 barren_world (fun _ => 0)).1.colonies.map Colony.food_collected =
        barren_world.colonies.map Colony.food_collected :=
  ⟨barren_world_no_food, ((no_food_scenario barren_world (fun _ => 0) barren_world_no_food).2 100).1⟩

/-- C21: bounds-checked queries. A position is rejected by `is_valid_position` exactly when
`x < 0`, `x >= width`, `y < 0` or `y >= height`. For such a position `get_cell` returns
nothing, `get_pheromone_intensity` returns 0 for every channel and
`get_max_pheromone_neighbor` returns 0. For an in-bounds position `get_cell` returns the
cell stored at row `y`, column `x`, and `get_pheromone_intensity` returns that cell's food
or home channel value, and 0 for an unknown channel. No query reads the grid out of range:
the three queries return the same on any world `v` with the same dimensions and the same
in-bounds cells, whatever `v` stores outside the grid. -/
theorem bounds_checked_queries (w : World) (x y : Int) :
    (is_valid_position w x y = false ↔ (x < 0 ∨ x ≥ w.width ∨ y < 0 ∨ y ≥ w.height)) ∧
    (is_valid_position w x y = false →
      get_cell w x y = none ∧
      (∀ type : Int, get_pheromone_intensity w x y type = 0) ∧
      ∀ type : Int, get_max_pheromone_neighbor w x y type = 0) ∧
    (is_valid_position w x y = true →
      get_cell w x y = some (w.grid y x) ∧
      get_pheromone_intensity w x y PHEROMONE_TYPE_FOOD = (w.grid y x).pheromone_food ∧
      get_pheromone_intensity w x y PHEROMONE_TYPE_HOME = (w.grid y x).pheromone_home ∧
      ∀ type : Int, type ≠ PHEROMONE_TYPE_FOOD → type ≠ PHEROMONE_TYPE_HOME →
        get_pheromone_intensity w x y type = 0) ∧
    (∀ v : World, same_in_bounds w v →
      get_cell v x y = get_cell w x y ∧
      ∀ type : Int,
        get_pheromone_intensity v x y type = get_pheromone_intensity w x y type ∧
        get_max_pheromone_neighbor v x y type = get_max_pheromone_neighbor w x y type) := by
  refine ⟨?_, ?_, ?_, ?_⟩
  · simp only [is_valid_position, decide_eq_false_iff_not]
    constructor
    · intro h
      omega
    · intro h
      omega
  · intro hv
    refine ⟨?_, ?_, ?_⟩
    · simp [get_cell, hv]
    · intro type
      simp [get_pheromone_intensity, hv]
    · intro type
      simp [get_max_pheromone_neighbor, hv]
  · intro hv
    refine ⟨?_, ?_, ?_, ?_⟩
    · simp [get_cell, hv]
    · simp [get_pheromone_intensity, hv]
    · simp [get_pheromone_intensity, hv, PHEROMONE_TYPE_FOOD, PHEROMONE_TYPE_HOME]
    · intro type h1 h2
      simp [get_pheromone_intensity, hv, h1, h2]
  · intro v h
    refine ⟨?_, ?_⟩
    · unfold get_cell
      rw [same_in_bounds_valid h]
      cases hv : is_valid_position w x y with
      | false => rfl
      | true => simp only [h.2.2 x y hv]
    · intro type
      refine ⟨same_in_bounds_intensity h x y type, ?_⟩
      unfold get_max_pheromone_neighbor
      rw [same_in_bounds_valid h, same_in_bounds_max_step h]

/-- C21 witness: in `terrain_world` the position `(3, 0)` is outside the grid and `(1, 0)` is
inside; `terrain_world_padded` stores other cells outside the grid and answers the query at
`(2, 0)` the same. -/
theorem bounds_checked_queries_witness :
    is_valid_position terrain_world 3 0 = false ∧ get_cell terrain_world 3 0 = none ∧
      is_valid_position terrain_world 1 0 = true ∧
      get_cell terrain_world 1 0 = some (terrain_world.grid 0 1) ∧
      same_in_bounds terrain_world terrain_world_padded ∧
      get_max_pheromone_neighbor terrain_world_padded 2 0 PHEROMONE_TYPE_FOOD =
        get_max_pheromone_neighbor terrain_world 2 0 PHEROMONE_TYPE_FOOD :=
  by
  have h1 : is_valid_position terrain_world 3 0 = false := by decide
  have h2 : is_valid_position terrain_world 1 0 = true := by decide
  have q1 := bounds_checked_queries terrain_world 3 0
  have q2 := bounds_checked_queries terrain_world 1 0
  have q3 := bounds_checked_queries terrain_world 2 0
  exact ⟨h1, (q1.2.1 h1).1, h2, (q2.2.2.1 h2).1, terrain_world_padded_same,
    ((q3.2.2.2 terrain_world_padded terrain_world_padded_same).2 PHEROMONE_TYPE_FOOD).2⟩

/-- C28: maximum neighbour intensity. In a world whose pheromone values are non-negative, at
an in-bounds position, `get_max_pheromone_neighbor` returns for the food channel the maximum
of the stored `pheromone_food` values, and for the home channel the maximum of the stored
`pheromone_home` values, of the in-bounds cells among the 8 neighbours of the position (the
centre cell excluded): the value returned is at least the stored value of every such
neighbour and is the stored value of one of them. It returns 0 when no neighbour is in
bounds. -/
theorem get_max_pheromone_neighbor_spec (w : World) (x y : Int)
    (hnn : pheromones_nonneg w) (hv : is_valid_position w x y = true) :
    (∀ hne : (in_bounds_neighbours w x y).Nonempty,
      get_max_pheromone_neighbor w x y PHEROMONE_TYPE_FOOD =
          (in_bounds_neighbours w x y).sup' hne (fun q => (w.grid q.2 q.1).pheromone_food) ∧
        get_max_pheromone_neighbor w x y PHEROMONE_TYPE_HOME =
          (in_bounds_neighbours w x y).sup' hne (fun q => (w.grid q.2 q.1).pheromone_home) ∧
        (∃ q ∈ in_bounds_neighbours w x y,
          (w.grid q.2 q.1).pheromone_food =
            get_max_pheromone_neighbor w x y PHEROMONE_TYPE_FOOD) ∧
        (∃ q ∈ in_bounds_neighbours w x y,
          (w.grid q.2 q.1).pheromone_home =
            get_max_pheromone_neighbor w x y PHEROMONE_TYPE_HOME)) ∧
    (∀ q ∈ in_bounds_neighbours w x y,
      (w.grid q.2 q.1).pheromone_food ≤ get_max_pheromone_neighbor w x y PHEROMONE_TYPE_FOOD ∧
        (w.grid q.2 q.1).pheromone_home ≤
          get_max_pheromone_neighbor w x y PHEROMONE_TYPE_HOME) ∧
    (in_bounds_neighbours w x y = ∅ →
      get_max_pheromone_neighbor w x y PHEROMONE_TYPE_FOOD = 0 ∧
        get_max_pheromone_neighbor w x y PHEROMONE_TYPE_HOME = 0) := by
  have hf := get_max_pheromone_neighbor_sup w x y PHEROMONE_TYPE_FOOD hnn hv
  have hh := get_max_pheromone_neighbor_sup w x y PHEROMONE_TYPE_HOME hnn hv
  have hsf : ∀ hne : (in_bounds_neighbours w x y).Nonempty,
      get_max_pheromone_neighbor w x y PHEROMONE_TYPE_FOOD =
        (in_bounds_neighbours w x y).sup' hne (fun q => (w.grid q.2 q.1).pheromone_food) := by
    intro hne
    rw [hf.1 hne]
    exact Finset.sup'_congr hne rfl fun q hq =>
      (get_pheromone_intensity_stored w q.1 q.2 (mem_in_bounds_neighbours_valid w x y q hq)).1
  have hsh : ∀ hne : (in_bounds_neighbours w x y).Nonempty,
      get_max_pheromone_neighbor w x y PHEROMONE_TYPE_HOME =
        (in_bounds_neighbours w x y).sup' hne (fun q => (w.grid q.2 q.1).pheromone_home) := by
    intro hne
    rw [hh.1 hne]
    exact Finset.sup'_congr hne rfl fun q hq =>
      (get_pheromone_intensity_stored w q.1 q.2 (mem_in_bounds_neighbours_valid w x y q hq)).2
  refine ⟨fun hne => ⟨hsf hne, hsh hne, ?_, ?_⟩, ?_, fun he => ⟨hf.2 he, hh.2 he⟩⟩
  · obtain ⟨q, hq, he⟩ := Finset.exists_mem_eq_sup' hne
      (fun q : Int × Int => (w.grid q.2 q.1).pheromone_food)
    exact ⟨q, hq, by rw [hsf hne, he]⟩
  · obtain ⟨q, hq, he⟩ := Finset.exists_mem_eq_sup' hne
      (fun q : Int × Int => (w.grid q.2 q.1).pheromone_home)
    exact ⟨q, hq, by rw [hsh hne, he]⟩
  · intro q hq
    have hne : (in_bounds_neighbours w x y).Nonempty := ⟨q, hq⟩
    rw [hsf hne, hsh hne]
    exact ⟨Finset.le_sup' (fun q : Int × Int => (w.grid q.2 q.1).pheromone_food) hq,
      Finset.le_sup' (fun q : Int × Int => (w.grid q.2 q.1).pheromone_home) hq⟩

/-- C28 witness: in `spread_world` the cell `(1, 0)` has the one in-bounds neighbour `(0, 0)`,
whose food channel holds 1000: the value returned for the food channel is 1000. -/
theorem get_max_pheromone_neighbor_spec_witness :
    pheromones_nonneg spread_world ∧ is_valid_position spread_world 1 0 = true ∧
      in_bounds_neighbours spread_world 1 0 = {(0, 0)} ∧
      (spread_world.grid 0 0).pheromone_food = 1000 ∧
      get_max_pheromone_neighbor spread_world 1 0 PHEROMONE_TYPE_FOOD = 1000 := by
  have hnn : pheromones_nonneg spread_world :=
    fun x y hv => ⟨(spread_world_bounded x y hv).1.1, (spread_world_bounded x y hv).2.1⟩
  have hN : in_bounds_neighbours spread_world 1 0 = {(0, 0)} := by decide
  have hne : (in_bounds_neighbours spread_world 1 0).Nonempty := ⟨(0, 0), by decide⟩
  obtain ⟨q, hq, he⟩ :=
    ((get_max_pheromone_neighbor_spec spread_world 1 0 hnn (by decide)).1 hne).2.2.1
  rw [hN, Finset.mem_singleton] at hq
  subst hq
  exact ⟨hnn, by decide, hN, rfl, he.symm.trans rfl⟩

/-- C22: world construction (allocation succeeding). `create_world width height colony_count`
returns no world if and only if `width <= 0` or `height <= 0` or `colony_count <= 0` or
`width > MAX_WORLD_SIZE` or `height > MAX_WORLD_SIZE`, where `MAX_WORLD_SIZE` is 100.
A world it returns has exactly those dimensions and that number of colonies; every in-bounds
cell is Empty with both pheromone channels 0, `food_amount` 0 and `colony_id = -1`; colony
`i` has id `i`, `food_collected` 0, no ants and `total_ants = active_ants = 0`; and
`current_step = 0`, `is_running = 0`, `paused = 0`. -/
theorem create_world_spec (width height colony_count : Int) :
    MAX_WORLD_SIZE = 100 ∧
    (create_world width height colony_count = none ↔
      width ≤ 0 ∨ height ≤ 0 ∨ colony_count ≤ 0 ∨ width > MAX_WORLD_SIZE ∨
        height > MAX_WORLD_SIZE) ∧
    ∀ w : World, create_world width height colony_count = some w →
      w.width = width ∧ w.height = height ∧ w.colony_count = colony_count ∧
      (∀ x y : Int, is_valid_position w x y = true →
        w.grid y x = ⟨TERRAIN_EMPTY, 0, 0, 0, -1⟩) ∧
      (∀ i : Nat, (i : Int) < colony_count →
        ∃ c : Colony, w.colonies[i]? = some c ∧ c.id = i ∧ c.food_collected = 0 ∧
          c.ants = [] ∧ c.total_ants = 0 ∧ c.active_ants = 0) ∧
      w.current_step = 0 ∧ w.is_running = 0 ∧ w.paused = 0 := by
  refine ⟨rfl, create_world_none_iff width height colony_count, ?_⟩
  intro w hw
  have hsome : ¬ create_world width height colony_count = none := by
    rw [hw]
    exact fun h => Option.noConfusion h
  rw [create_world_none_iff] at hsome
  have h1 : ¬ (width ≤ 0 ∨ height ≤ 0 ∨ colony_count ≤ 0) := by tauto
  have h2 : ¬ (width > MAX_WORLD_SIZE ∨ height > MAX_WORLD_SIZE) := by tauto
  rw [create_world_eq width height colony_count h1 h2] at hw
  have hw2 := (Option.some.inj hw).symm
  subst hw2
  refine ⟨rfl, rfl, ?_, ?_, ?_, rfl, rfl, rfl⟩
  · simp only [World.colony_count, List.length_map, List.length_range]
    omega
  · intro x y hv
    have hv2 : decide (x ≥ 0 ∧ x < width ∧ y ≥ 0 ∧ y < height) = true := hv
    simp only [hv2, if_true]
    rfl
  · intro i hi
    have hi2 : i < colony_count.toNat := by omega
    refine ⟨initial_colony i, ?_, rfl, rfl, rfl, rfl, rfl⟩
    simp only [List.getElem?_map, List.getElem?_range hi2, Option.map_some']

/-- C22 witness: `create_world 3 3 1` returns `fresh_world`, whose 9 cells are empty and whose
one colony has no ants. -/
theorem create_world_spec_witness :
    create_world 3 3 1 = some fresh_world ∧ fresh_world.width = 3 ∧ fresh_world.height = 3 ∧
      fresh_world.colony_count = 1 ∧ fresh_world.current_step = 0 :=
  ⟨create_fresh_world,
    ((create_world_spec 3 3 1).2.2 fresh_world create_fresh_world).1,
    ((create_world_spec 3 3 1).2.2 fresh_world create_fresh_world).2.1,
    ((create_world_spec 3 3 1).2.2 fresh_world create_fresh_world).2.2.1,
    ((create_world_spec 3 3 1).2.2 fresh_world create_fresh_world).2.2.2.2.2.1⟩

/-- C23: spawn and capacity. `spawn_ant` with a colony id outside `0..colony_count-1`, or for
a colony whose `total_ants >= MAX_ANTS_PER_COLONY` (which is 50), leaves the world unchanged.
Otherwise it changes only that colony: it puts exactly one new ant in front of the colony's
list, located at the colony's `nest_pos`, with only the Searching flag set,
`energy = ANT_INITIAL_ENERGY`, `food_carrying = 0`, `steps_taken = 0` and no preferred
direction (`-1`), and increases `total_ants` and `active_ants` by 1. Hence
`total_ants <= MAX_ANTS_PER_COLONY` for every colony is preserved by `spawn_ant`. -/
theorem spawn_ant_spec (w : World) (colony_id : Int) :
    MAX_ANTS_PER_COLONY = 50 ∧
    ((colony_id < 0 ∨ colony_id ≥ w.colony_count) → spawn_ant w colony_id = w) ∧
    (∀ c : Colony, 0 ≤ colony_id → w.colonies[colony_id.toNat]? = some c →
      (c.total_ants ≥ MAX_ANTS_PER_COLONY → spawn_ant w colony_id = w) ∧
      (c.total_ants < MAX_ANTS_PER_COLONY →
        ∃ ant : Ant,
          spawn_ant w colony_id =
            { w with
              colonies := w.colonies.set colony_id.toNat
                { c with
                  ants := ant :: c.ants
                  total_ants := c.total_ants + 1
                  active_ants := c.active_ants + 1 } } ∧
          ant.pos = c.nest_pos ∧ ant.state = ANT_STATE_SEARCHING ∧
          ant.energy = ANT_INITIAL_ENERGY ∧ ant.food_carrying = 0 ∧ ant.steps_taken = 0 ∧
          ant.preferred_direction = -1 ∧ ant.colony_id = colony_id)) ∧
    ((∀ c ∈ w.colonies, c.total_ants ≤ MAX_ANTS_PER_COLONY) →
      ∀ c ∈ (spawn_ant w colony_id).colonies, c.total_ants ≤ MAX_ANTS_PER_COLONY) := by
  refine ⟨rfl, spawn_ant_bad_id w colony_id, ?_, ?_⟩
  · intro c hid hc
    constructor
    · intro hcap
      rw [spawn_ant_eq w colony_id c hid hc, if_pos hcap, set_getElem_self _ _ _ hc]
    · intro hcap
      refine ⟨create_ant (c.total_ants + 1) colony_id c.nest_pos, ?_, rfl, rfl, rfl, rfl, rfl,
        rfl, rfl⟩
      rw [spawn_ant_eq w colony_id c hid hc, if_neg (not_le.mpr hcap)]
      rfl
  · intro hall c hc
    by_cases hbad : colony_id < 0 ∨ colony_id ≥ w.colony_count
    · rw [spawn_ant_bad_id w colony_id hbad] at hc
      exact hall c hc
    · have hid : 0 ≤ colony_id := by omega
      have hlt : colony_id.toNat < w.colonies.length := by
        simp only [World.colony_count] at hbad
        omega
      have hget : w.colonies[colony_id.toNat]? = some (w.colonies[colony_id.toNat]) :=
        List.getElem?_eq_getElem hlt
      rw [spawn_ant_eq w colony_id _ hid hget] at hc
      rcases List.mem_or_eq_of_mem_set hc with hc | hc
      · exact hall c hc
      · have hold := hall _ (List.getElem_mem hlt)
        rw [hc]
        split
        · exact hold
        · rename_i hcap
          have hcap2 := not_le.mp hcap
          show (w.colonies[colony_id.toNat]).total_ants + 1 ≤ MAX_ANTS_PER_COLONY
          omega

/-- C23 witness: colony id 1 does not exist in `scenario_world`; colony 0 has
`total_ants = 1`, below the capacity, and spawning puts one searching ant at the nest
`(5, 5)` into it and raises both counters to 2. -/
theorem spawn_ant_spec_witness :
    ((1 : Int) < 0 ∨ (1 : Int) ≥ scenario_world.colony_count) ∧
      spawn_ant scenario_world 1 = scenario_world ∧
      (0 : Int) ≤ 0 ∧
      scenario_world.colonies[(0 : Int).toNat]? = some ⟨0, ⟨5, 5⟩, 0, 1, 1, [], 0, 1⟩ ∧
      (1 : Int) < MAX_ANTS_PER_COLONY ∧
      (∃ ant : Ant,
        spawn_ant scenario_world 0 =
          { scenario_world with
            colonies := scenario_world.colonies.set (0 : Int).toNat
              ⟨0, ⟨5, 5⟩, 0, 1 + 1, 1 + 1, [ant], 0, 1⟩ } ∧
        ant.pos = ⟨5, 5⟩ ∧ ant.state = ANT_STATE_SEARCHING) ∧
      (∀ c ∈ scenario_world.colonies, c.total_ants ≤ MAX_ANTS_PER_COLONY) ∧
      ∀ c ∈ (spawn_ant scenario_world 0).colonies, c.total_ants ≤ MAX_ANTS_PER_COLONY := by
  have h1 : (1 : Int) < 0 ∨ (1 : Int) ≥ scenario_world.colony_count := by decide
  have h2 : ∀ c ∈ scenario_world.colonies, c.total_ants ≤ MAX_ANTS_PER_COLONY := by decide
  have h3 : (1 : Int) < MAX_ANTS_PER_COLONY := by decide
  obtain ⟨ant, hant, hpos, hstate, _⟩ :=
    ((spawn_ant_spec scenario_world 0).2.2.1 ⟨0, ⟨5, 5⟩, 0, 1, 1, [], 0, 1⟩ (le_refl 0) rfl).2 h3
  exact ⟨h1, (spawn_ant_spec scenario_world 1).2.1 h1, le_refl 0, rfl, h3,
    ⟨ant, hant, hpos, hstate⟩, h2, (spawn_ant_spec scenario_world 0).2.2.2 h2⟩

/-- C26 counterexample: the colony of `abandoned_world` has `total_ants = 0` and no ants, and
`update_colony_statistics` leaves its `efficiency_score` at 1 instead of setting it to 0. -/
theorem efficiency_stale_counterexample :
    abandoned_world.colonies.map Colony.total_ants = [0] ∧
      abandoned_world.colonies.map Colony.ants = [[]] ∧
      (update_colony_statistics abandoned_world).colonies.map Colony.efficiency_score = [1] ∧
      (1 : ℚ) ≠ 0 :=
  ⟨rfl, rfl, rfl, one_ne_zero⟩

/-- C26 (amended): colony efficiency. `update_colony_statistics` keeps the number of
colonies, and for every colony: `efficiency_score = food_collected / total_ants` afterwards
when `total_ants > 0`; when `total_ants` is not positive the `efficiency_score` is left as it
was (so it is 0 when it was 0 before, as for a colony that never had an ant); `active_ants`
equals the number of ants in its list that do not carry the Dead flag; `food_collected`,
`total_ants` and the list of ants are unchanged. -/
theorem update_colony_statistics_spec (w : World) (i : Nat) (c : Colony)
    (hc : w.colonies[i]? = some c) :
    (update_colony_statistics w).colonies.length = w.colonies.length ∧
    ∃ d : Colony, (update_colony_statistics w).colonies[i]? = some d ∧
      (c.total_ants > 0 → d.efficiency_score = (c.food_collected : ℚ) / (c.total_ants : ℚ)) ∧
      (¬ c.total_ants > 0 → d.efficiency_score = c.efficiency_score) ∧
      (c.total_ants = 0 → c.efficiency_score = 0 → d.efficiency_score = 0) ∧
      d.active_ants = living_count d.ants ∧
      d.food_collected = c.food_collected ∧ d.total_ants = c.total_ants ∧ d.ants = c.ants := by
  refine ⟨by simp [update_colony_statistics], _, update_colony_statistics_getElem w i c hc,
    ?_, ?_, ?_, rfl, rfl, rfl, rfl⟩
  · intro h
    simp only [if_pos h]
  · intro h
    simp only [if_neg h]
  · intro h h0
    have hn : ¬ c.total_ants > 0 := by omega
    simp only [if_neg hn, h0]

/-- C26 witness: colony 0 of `barren_world` has one ant and has collected nothing; its
efficiency after the update is `0 / 1`. -/
theorem update_colony_statistics_spec_witness :
    barren_world.colonies[0]? = some ⟨0, ⟨0, 0⟩, 0, 1, 1, [create_ant 1 0 ⟨0, 0⟩], 0, 1⟩ ∧
      ∃ d : Colony, (update_colony_statistics barren_world).colonies[0]? = some d ∧
        d.efficiency_score = ((0 : Int) : ℚ) / ((1 : Int) : ℚ) ∧ d.active_ants = 1 := by
  obtain ⟨_, d, hd, h1, _, _, h4, _, _, h7⟩ :=
    update_colony_statistics_spec barren_world 0
      ⟨0, ⟨0, 0⟩, 0, 1, 1, [create_ant 1 0 ⟨0, 0⟩], 0, 1⟩ rfl
  refine ⟨rfl, d, hd, h1 (by decide), ?_⟩
  rw [h4, h7]
  decide

/-- C27: energy is never negative. `ANT_INITIAL_ENERGY` is 1000. Let an ant be created by
`create_ant` (as `spawn_ant` does) and then updated any number of times by `update_ant`, in
any worlds and with any random streams, an update being skipped once the ant carries the
Dead flag, as in `update_all_ants`. Then its energy is `>= 0`; it carries the Dead flag
exactly when its energy is 0; without the Dead flag its energy is `>= 1`; and a further
update of the ant while it is without the Dead flag gives it the Dead flag exactly when that
update brings its energy to 0. The same invariant `energy_ok` is kept for all ants of all
colony lists by `update_all_ants`. -/
theorem energy_never_negative (id colony_id : Int) (pos : Position)
    (steps : List (World × Rng)) :
    ANT_INITIAL_ENERGY = 1000 ∧
    (create_ant id colony_id pos).energy = ANT_INITIAL_ENERGY ∧
    0 ≤ (updated_living_ant (create_ant id colony_id pos) steps).energy ∧
    ((updated_living_ant (create_ant id colony_id pos) steps).state &&& ANT_STATE_DEAD ≠ 0 ↔
      (updated_living_ant (create_ant id colony_id pos) steps).energy = 0) ∧
    ((updated_living_ant (create_ant id colony_id pos) steps).state &&& ANT_STATE_DEAD = 0 →
      1 ≤ (updated_living_ant (create_ant id colony_id pos) steps).energy ∧
      ∀ (w : World) (r : Rng),
        ((update_ant w (updated_living_ant (create_ant id colony_id pos) steps) r).2.1.state
            &&& ANT_STATE_DEAD ≠ 0 ↔
          (update_ant w (updated_living_ant (create_ant id colony_id pos) steps) r).2.1.energy
            = 0)) ∧
    ∀ (w : World) (r : Rng), (∀ c ∈ w.colonies, ∀ a ∈ c.ants, energy_ok a) →
      ∀ c ∈ (update_all_ants w r).1.colonies, ∀ a ∈ c.ants, energy_ok a := by
  have hok := updated_living_ant_energy_ok _ (create_ant_energy_ok id colony_id pos) steps
  refine ⟨rfl, rfl, (energy_ok_dead_iff _ hok).1, (energy_ok_dead_iff _ hok).2, ?_, ?_⟩
  · intro halive
    refine ⟨hok.2.1 halive, fun w r => ?_⟩
    exact (energy_ok_dead_iff _ (update_ant_energy_ok w _ r halive hok)).2
  · intro w r h
    exact update_all_ants_ants_preserved energy_ok
      (fun w a r hd ha => update_ant_energy_ok w a r hd ha) w r h

/-- C27 witness: an ant created on the nest of `barren_world` and updated once there is
without the Dead flag and has energy at least 1; the ants of `barren_world` satisfy the
invariant, also after `update_all_ants`. -/
theorem energy_never_negative_witness :
    (updated_living_ant (create_ant 1 0 ⟨0, 0⟩) [(barren_world, fun _ => 0)]).state
        &&& ANT_STATE_DEAD = 0 ∧
      1 ≤ (updated_living_ant (create_ant 1 0 ⟨0, 0⟩) [(barren_world, fun _ => 0)]).energy ∧
      (∀ c ∈ barren_world.colonies, ∀ a ∈ c.ants, energy_ok a) ∧
      ∀ c ∈ (update_all_ants barren_world (fun _ => 0)).1.colonies, ∀ a ∈ c.ants,
        energy_ok a := by
  have h := energy_never_negative 1 0 ⟨0, 0⟩ [(barren_world, fun _ => 0)]
  have hb : ∀ c ∈ barren_world.colonies, ∀ a ∈ c.ants, energy_ok a := by
    intro c hc a ha
    simp only [barren_world, List.mem_cons, List.mem_singleton, List.not_mem_nil, or_false] at hc
    rcases hc with rfl | rfl
    · simp only [List.mem_singleton] at ha
      subst ha
      exact create_ant_energy_ok _ _ _
    · simp only [List.mem_singleton] at ha
      subst ha
      exact create_ant_energy_ok _ _ _
  have he : 0 < (create_ant 1 0 ⟨0, 0⟩).energy - ANT_ENERGY_PER_STEP := by
    norm_num [create_ant, ANT_INITIAL_ENERGY, ANT_ENERGY_PER_STEP]
  have halive : (updated_living_ant (create_ant 1 0 ⟨0, 0⟩) [(barren_world, fun _ => 0)]).state
      &&& ANT_STATE_DEAD = 0 := by
    have h0 : (create_ant 1 0 ⟨0, 0⟩).state &&& ANT_STATE_DEAD = 0 := by decide
    have h1 : updated_living_ant (create_ant 1 0 ⟨0, 0⟩) [(barren_world, fun _ => 0)] =
        (update_ant barren_world (create_ant 1 0 ⟨0, 0⟩) (fun _ => 0)).2.1 := by
      simp only [updated_living_ant, List.foldl_cons, List.foldl_nil, h0, ne_eq,
        not_true_eq_false, if_false]
    rw [h1, update_ant_dead_flag barren_world _ _ he]
    exact h0
  exact ⟨halive, (h.2.2.2.2.1 halive).1, hb, h.2.2.2.2.2 barren_world (fun _ => 0) hb⟩

/-- C30: gradient following with deterministic tie-break. The scan order `0..7` has the
offsets `(0,-1),(1,-1),(1,0),(1,1),(0,1),(-1,1),(-1,0),(-1,-1)`. For the food channel and
for the home channel, with the values read from the stored fields `pheromone_food` and
`pheromone_home` of the neighbour cells: when some in-bounds walkable neighbour has a channel
value `> 0`, `follow_pheromone_gradient` moves the ant in the direction `d` that has the
smallest index among the in-bounds walkable neighbours whose channel value equals the
maximum over all in-bounds walkable neighbours (every candidate is at most the value at `d`,
every candidate before `d` is strictly below it): the ant's `pos` becomes
`pos + (dx[d], dy[d])`, `last_pos` becomes the old `pos`, `steps_taken` grows by 1, the new
position is recorded in the path history, every other field is unchanged, and the random
stream is not used. When no in-bounds walkable neighbour has a value `> 0` it performs
`move_randomly` instead; so it does for a channel number other than the two channels. -/
theorem follow_pheromone_gradient_spec (ant : Ant) (w : World) (pheromone_type : Int)
    (r : Rng) :
    (List.range 8).map (fun (d : Nat) => (dx d, dy d)) =
      [(0, -1), (1, -1), (1, 0), (1, 1), (0, 1), (-1, 1), (-1, 0), (-1, -1)] ∧
    (pheromone_type = PHEROMONE_TYPE_FOOD ∨ pheromone_type = PHEROMONE_TYPE_HOME →
      ((∃ e : Nat, e < 8 ∧ gradient_candidate ant w e ∧
          0 < neighbour_stored ant w pheromone_type e) →
        ∃ d : Nat, d < 8 ∧ gradient_candidate ant w d ∧
          0 < neighbour_stored ant w pheromone_type d ∧
          (∀ e : Nat, e < 8 → gradient_candidate ant w e →
            neighbour_stored ant w pheromone_type e ≤ neighbour_stored ant w pheromone_type d) ∧
          (∀ e : Nat, e < d → gradient_candidate ant w e →
            neighbour_stored ant w pheromone_type e < neighbour_stored ant w pheromone_type d) ∧
          follow_pheromone_gradient ant w pheromone_type r =
            ({ ant with
                last_pos := ant.pos
                pos := ⟨ant.pos.x + dx d, ant.pos.y + dy d⟩
                steps_taken := ant.steps_taken + 1
                path_history :=
                  ⟨⟨ant.pos.x + dx d, ant.pos.y + dy d⟩, 0⟩ :: ant.path_history }, r) ∧
          (follow_pheromone_gradient ant w pheromone_type r).1.pos =
            ⟨ant.pos.x + dx d, ant.pos.y + dy d⟩ ∧
          (follow_pheromone_gradient ant w pheromone_type r).1.last_pos = ant.pos ∧
          (follow_pheromone_gradient ant w pheromone_type r).1.steps_taken =
            ant.steps_taken + 1 ∧
          (follow_pheromone_gradient ant w pheromone_type r).2 = r) ∧
      ((∀ e : Nat, e < 8 → gradient_candidate ant w e →
          neighbour_stored ant w pheromone_type e ≤ 0) →
        follow_pheromone_gradient ant w pheromone_type r = move_randomly ant w r)) ∧
    (pheromone_type ≠ PHEROMONE_TYPE_FOOD → pheromone_type ≠ PHEROMONE_TYPE_HOME →
      follow_pheromone_gradient ant w pheromone_type r = move_randomly ant w r) := by
  have hscan := follow_pheromone_gradient_scan ant w pheromone_type r
  refine ⟨by decide, ?_, ?_⟩
  · intro htype
    have hst := gradient_value_stored ant w pheromone_type
    constructor
    · rintro ⟨e, he, hce, hpos⟩
      obtain ⟨d, hd, hcd, hpd, hall, hfirst, hmove⟩ :=
        hscan.1 ⟨e, he, hce, by rw [hst e htype hce]; exact hpos⟩
      have hm : follow_pheromone_gradient ant w pheromone_type r =
          ({ ant with
              last_pos := ant.pos
              pos := ⟨ant.pos.x + dx d, ant.pos.y + dy d⟩
              steps_taken := ant.steps_taken + 1
              path_history :=
                ⟨⟨ant.pos.x + dx d, ant.pos.y + dy d⟩, 0⟩ :: ant.path_history }, r) := by
        rw [hmove, move_ant_committed ant w d (Int.natCast_nonneg d) (by omega) hcd]
      refine ⟨d, hd, hcd, ?_, ?_, ?_, hm, ?_, ?_, ?_, ?_⟩
      · rw [← hst d htype hcd]
        exact hpd
      · intro e2 he2 hc2
        rw [← hst e2 htype hc2, ← hst d htype hcd]
        exact hall e2 he2 hc2
      · intro e2 he2 hc2
        rw [← hst e2 htype hc2, ← hst d htype hcd]
        exact hfirst e2 he2 hc2
      · rw [hm]
      · rw [hm]
      · rw [hm]
      · rw [hm]
    · intro hnone
      apply hscan.2
      intro e he hce
      rw [hst e htype hce]
      exact hnone e he hce
  · intro h1 h2
    apply hscan.2
    intro e _ _
    rw [gradient_value_unknown ant w pheromone_type e h1 h2]

/-- C30 witness: for a fresh ant on the centre `(1, 1)` of `trail_world` the neighbours in
directions 0 and 2 both hold the largest food value 5; the ant is moved in direction 0, to
`(1, 0)`. -/
theorem follow_pheromone_gradient_spec_witness :
    (∃ e : Nat, e < 8 ∧ gradient_candidate (create_ant 1 0 ⟨1, 1⟩) trail_world e ∧
        0 < neighbour_stored (create_ant 1 0 ⟨1, 1⟩) trail_world PHEROMONE_TYPE_FOOD e) ∧
      neighbour_stored (create_ant 1 0 ⟨1, 1⟩) trail_world PHEROMONE_TYPE_FOOD 0 = 5 ∧
      neighbour_stored (create_ant 1 0 ⟨1, 1⟩) trail_world PHEROMONE_TYPE_FOOD 2 = 5 ∧
      (follow_pheromone_gradient (create_ant 1 0 ⟨1, 1⟩) trail_world PHEROMONE_TYPE_FOOD
          (fun _ => 0)).1.pos = ⟨1, 0⟩ := by
  have hc0 : gradient_candidate (create_ant 1 0 ⟨1, 1⟩) trail_world 0 := by
    unfold gradient_candidate
    decide
  have hv0 : neighbour_stored (create_ant 1 0 ⟨1, 1⟩) trail_world PHEROMONE_TYPE_FOOD 0 = 5 := by
    simp [neighbour_stored, trail_world, create_ant, dx, dy, dx_table, dy_table]
  have hv2 : neighbour_stored (create_ant 1 0 ⟨1, 1⟩) trail_world PHEROMONE_TYPE_FOOD 2 = 5 := by
    simp [neighbour_stored, trail_world, create_ant, dx, dy, dx_table, dy_table]
  have hyp : ∃ e : Nat, e < 8 ∧ gradient_candidate (create_ant 1 0 ⟨1, 1⟩) trail_world e ∧
      0 < neighbour_stored (create_ant 1 0 ⟨1, 1⟩) trail_world PHEROMONE_TYPE_FOOD e :=
    ⟨0, by decide, hc0, by rw [hv0]; norm_num⟩
  obtain ⟨d, hd8, _, _, _, hfirst, _, hpos, _⟩ :=
    ((follow_pheromone_gradient_spec (create_ant 1 0 ⟨1, 1⟩) trail_world PHEROMONE_TYPE_FOOD
      (fun _ => 0)).2.1 (Or.inl rfl)).1 hyp
  have hd0 : d = 0 := by
    by_contra hne
    have h1 := hfirst 0 (Nat.pos_of_ne_zero hne) hc0
    rw [hv0] at h1
    have h2 : neighbour_stored (create_ant 1 0 ⟨1, 1⟩) trail_world PHEROMONE_TYPE_FOOD d ≤ 5 := by
      interval_cases d <;>
        simp [neighbour_stored, trail_world, create_ant, dx, dy, dx_table, dy_table]
      norm_num
    exact absurd h1 (not_lt.mpr h2)
  rw [hd0] at hpos
  exact ⟨hyp, hv0, hv2, hpos⟩

/-- C24: reset. `INITIAL_ANTS_PER_COLONY` is 20. After `reset_simulation`: `current_step = 0`
and the dimensions are unchanged; both pheromone channels of every in-bounds cell are 0; the
terrain, `food_amount` and `colony_id` of every cell are unchanged; and the number of
colonies is unchanged. Colony `i` keeps its `nest_pos` and id, its list of ants is replaced
by the list `fresh_ants` of exactly 20 newly created ants, which does not depend on the ants
it held before, each of them at the colony's `nest_pos` with only the Searching flag set,
energy `ANT_INITIAL_ENERGY`, `food_carrying` 0 and `colony_id = i`, and
`total_ants = active_ants = 20`. -/
theorem reset_simulation_spec (w : World) :
    INITIAL_ANTS_PER_COLONY = 20 ∧
    (reset_simulation w).current_step = 0 ∧
    (reset_simulation w).width = w.width ∧ (reset_simulation w).height = w.height ∧
    (∀ x y : Int, is_valid_position w x y = true →
      ((reset_simulation w).grid y x).pheromone_food = 0 ∧
      ((reset_simulation w).grid y x).pheromone_home = 0) ∧
    (∀ x y : Int,
      ((reset_simulation w).grid y x).terrain = (w.grid y x).terrain ∧
      ((reset_simulation w).grid y x).food_amount = (w.grid y x).food_amount ∧
      ((reset_simulation w).grid y x).colony_id = (w.grid y x).colony_id) ∧
    (reset_simulation w).colonies.length = w.colonies.length ∧
    ∀ (i : Nat) (c : Colony), w.colonies[i]? = some c →
      ∃ d : Colony, (reset_simulation w).colonies[i]? = some d ∧
        d.nest_pos = c.nest_pos ∧ d.id = c.id ∧
        d.ants = fresh_ants 20 (i : Int) c.nest_pos ∧ d.ants.length = 20 ∧
        d.total_ants = 20 ∧ d.active_ants = 20 ∧
        ∀ a ∈ d.ants, a.pos = d.nest_pos ∧ a.state = ANT_STATE_SEARCHING ∧
          a.energy = ANT_INITIAL_ENERGY ∧ a.food_carrying = 0 ∧ a.colony_id = (i : Int) := by
  rw [reset_simulation_eq, reset_pheromones_eq]
  refine ⟨rfl, rfl, rfl, rfl, ?_, ?_, ?_, ?_⟩
  · intro x y hv
    simp only [hv, if_true]
    exact ⟨rfl, rfl⟩
  · intro x y
    simp only []
    split <;> exact ⟨rfl, rfl, rfl⟩
  · simp only [List.length_mapIdx]
  · intro i c hc
    refine ⟨reset_colony i c, ?_, rfl, rfl, rfl, ?_, rfl, rfl, ?_⟩
    · simp only [List.getElem?_mapIdx, hc, Option.map_some']
    · simp [reset_colony, fresh_ants, INITIAL_ANTS_PER_COLONY]
    · intro a ha
      obtain ⟨k, _, rfl⟩ := mem_fresh_ants _ _ _ a ha
      exact ⟨rfl, rfl, rfl, rfl, rfl⟩

/-- C24 witness: colony 0 of `barren_world` holds the 20 fresh ants after the reset, and the
cell `(1, 1)` holds no pheromone. -/
theorem reset_simulation_spec_witness :
    is_valid_position barren_world 1 1 = true ∧
      ((reset_simulation barren_world).grid 1 1).pheromone_food = 0 ∧
      barren_world.colonies[0]? = some ⟨0, ⟨0, 0⟩, 0, 1, 1, [create_ant 1 0 ⟨0, 0⟩], 0, 1⟩ ∧
      ∃ d : Colony, (reset_simulation barren_world).colonies[0]? = some d ∧
        d.ants = fresh_ants 20 0 ⟨0, 0⟩ ∧ d.total_ants = 20 := by
  have h := reset_simulation_spec barren_world
  obtain ⟨d, hd, _, _, hants, _, htotal, _⟩ :=
    h.2.2.2.2.2.2.2 0 ⟨0, ⟨0, 0⟩, 0, 1, 1, [create_ant 1 0 ⟨0, 0⟩], 0, 1⟩ rfl
  exact ⟨by decide, (h.2.2.2.2.1 1 1 (by decide)).1, rfl, d, hd, hants, htotal⟩

/-- C29 counterexample: in `starving_world` the only ant of the colony dies in its update and
is removed. `update_all_ants` leaves the colony with `active_ants = 0`, the reference
procedure, which decreases only `total_ants`, leaves it with `active_ants = 1`; so the two
results differ. -/
theorem reaping_active_ants_counterexample :
    (update_all_ants starving_world (fun _ => 0)).1.colonies.map Colony.active_ants = [0] ∧
      (reference_update_all_ants reference_reap starving_world (fun _ => 0)).1.colonies.map
        Colony.active_ants = [1] ∧
      update_all_ants starving_world (fun _ => 0) ≠
        reference_update_all_ants reference_reap starving_world (fun _ => 0) := by
  have h1 : (update_all_ants starving_world (fun _ => 0)).1.colonies.map Colony.active_ants =
      [0] := by
    rw [starving_world_after_update]
    rfl
  have h2 := starving_world_reference (fun _ => 0)
  refine ⟨h1, h2, ?_⟩
  intro h
  rw [h, h2] at h1
  exact absurd h1 (by decide)

/-- C29 (amended): tick orchestration and reaping. `update_all_ants` equals the reference
procedure: for each colony in index order, apply `update_ant` once, in list order, to every
ant of the colony's list that does not carry the Dead flag when it is reached (an ant dying
does not prevent the later ants from being updated); then remove exactly the ants carrying
the Dead flag, keeping the relative order of the survivors and decreasing `total_ants` and
`active_ants` by the number removed. -/
theorem update_all_ants_refines (w : World) (r : Rng) :
    update_all_ants w r = reference_update_all_ants reference_reap_counting w r := by
  unfold update_all_ants reference_update_all_ants
  congr 1
  funext s i
  rw [update_colony_ants_eq_reference s i]

/-- C25: round trip, as the code does it. The specification says that rebuilding a world
with `load_simulation` from what `save_simulation` wrote yields identical colony and ant
values. For a world with dimensions in `1..MAX_WORLD_SIZE`, at least one colony and no ant
with id `-1` (the end marker), `load_simulation` succeeds on the saved file and rebuilds the
dimensions, the number of colonies, every in-bounds cell, and `nest_pos`, `food_collected`
and `efficiency_score` of every colony as saved; every ant is rebuilt with its saved `id`,
`pos`, `last_pos`, `state`, `colony_id`, `energy`, `food_carrying`, `steps_taken` and
`food_delivered`. But the rebuilt colony has `total_ants` and `active_ants` larger than
saved by the number of its ants, because the loader first reads the saved counters and then
`add_ant_to_colony` counts every ant it reads once more; and its ants come in the reverse
of the saved order, because each ant read is put in front of the list. -/
theorem load_save_simulation (w : World)
    (hw : 0 < w.width ∧ w.width ≤ MAX_WORLD_SIZE)
    (hh : 0 < w.height ∧ w.height ≤ MAX_WORLD_SIZE) (hc : 0 < w.colonies.length)
    (hid : ∀ c ∈ w.colonies, ∀ a ∈ c.ants, a.id ≠ -1) :
    ∃ v : World, load_simulation (save_simulation w) = some v ∧
      v.width = w.width ∧ v.height = w.height ∧ v.colony_count = w.colony_count ∧
      (∀ x y : Int, is_valid_position w x y = true → v.grid y x = w.grid y x) ∧
      ∀ (i : Nat) (c : Colony), w.colonies[i]? = some c →
        ∃ d : Colony, v.colonies[i]? = some d ∧
          d.nest_pos = c.nest_pos ∧ d.food_collected = c.food_collected ∧
          d.efficiency_score = c.efficiency_score ∧
          d.total_ants = c.total_ants + (c.ants.length : Int) ∧
          d.active_ants = c.active_ants + (c.ants.length : Int) ∧
          d.ants = (c.ants.map reloaded_ant).reverse ∧
          ∀ a : Ant,
            (reloaded_ant a).id = a.id ∧ (reloaded_ant a).pos = a.pos ∧
            (reloaded_ant a).last_pos = a.last_pos ∧ (reloaded_ant a).state = a.state ∧
            (reloaded_ant a).colony_id = a.colony_id ∧ (reloaded_ant a).energy = a.energy ∧
            (reloaded_ant a).food_carrying = a.food_carrying ∧
            (reloaded_ant a).steps_taken = a.steps_taken ∧
            (reloaded_ant a).food_delivered = a.food_delivered := by
  obtain ⟨v, hv, hwidth, hheight, hgrid, hcol⟩ := load_save_simulation_eq w hw hh hc hid
  refine ⟨v, hv, hwidth, hheight, ?_, hgrid, ?_⟩
  · simp only [World.colony_count, hcol, List.length_mapIdx]
  · intro i c hi
    refine ⟨reloaded_colony i c, ?_, rfl, rfl, rfl, rfl, rfl, rfl, reloaded_ant_fields⟩
    rw [hcol, List.getElem?_mapIdx, hi]
    rfl

/-- C25 witness: the colony of `saved_world` holds 2 ants, with ids 2 and 1 in list order,
and has `total_ants = active_ants = 2`; the colony rebuilt from the saved file has
`total_ants = active_ants = 4` and its ants in the order of ids 1, 2. -/
theorem load_save_simulation_witness :
    (0 < saved_world.width ∧ saved_world.width ≤ MAX_WORLD_SIZE) ∧
    (0 < saved_world.height ∧ saved_world.height ≤ MAX_WORLD_SIZE) ∧
    0 < saved_world.colonies.length ∧
    (∀ c ∈ saved_world.colonies, ∀ a ∈ c.ants, a.id ≠ -1) ∧
    saved_world.colonies.map Colony.total_ants = [2] ∧
    saved_world.colonies.map (fun c => (c.ants.length : Int)) = [2] ∧
    saved_world.colonies.map Colony.active_ants = [2] ∧
    saved_world.colonies.map (fun c => c.ants.map Ant.id) = [[2, 1]] ∧
    (∃ v : World, load_simulation (save_simulation saved_world) = some v ∧
      v.width = 2 ∧ v.height = 2 ∧
      v.colonies.map Colony.total_ants = [4] ∧
      v.colonies.map Colony.active_ants = [4] ∧
      v.colonies.map (fun c => c.ants.map Ant.id) = [[1, 2]]) := by
  have hw : 0 < saved_world.width ∧ saved_world.width ≤ MAX_WORLD_SIZE := by decide
  have hh : 0 < saved_world.height ∧ saved_world.height ≤ MAX_WORLD_SIZE := by decide
  have hc : 0 < saved_world.colonies.length := by decide
  have hid : ∀ c ∈ saved_world.colonies, ∀ a ∈ c.ants, a.id ≠ -1 := by decide
  obtain ⟨v, hv, hwidth, hheight, _, _, _⟩ := load_save_simulation saved_world hw hh hc hid
  have h1 : (load_simulation (save_simulation saved_world)).map
      (fun v => v.colonies.map Colony.total_ants) = some [4] := rfl
  have h2 : (load_simulation (save_simulation saved_world)).map
      (fun v => v.colonies.map Colony.active_ants) = some [4] := rfl
  have h3 : (load_simulation (save_simulation saved_world)).map
      (fun v => v.colonies.map fun c => c.ants.map Ant.id) = some [[1, 2]] := rfl
  rw [hv] at h1 h2 h3
  exact ⟨hw, hh, hc, hid, rfl, rfl, rfl, rfl, v, hv, hwidth, hheight, Option.some.inj h1,
    Option.some.inj h2, Option.some.inj h3⟩

/-- C38: direction table and reversal. The 8 offsets `(dx[d], dy[d])` for `d` in `0..7` are
pairwise distinct and are exactly the 8 non-zero vectors with components in `{-1, 0, 1}`;
the offset of `(d + 4) mod 8` is the negation of the offset of `d`; hence, after `move_ant`
has made a committed move in direction `d` (the target is in bounds and walkable), the
reverse-direction scan `reverse_direction` used at pick-up and delivery yields exactly
`(d + 4) mod 8`. -/
theorem direction_table_reversal :
    ((List.range 8).map fun (d : Nat) => (dx d, dy d)).Nodup ∧
    (∀ v : Int × Int, (v ∈ (List.range 8).map fun (d : Nat) => (dx d, dy d)) ↔
      (v ≠ (0, 0) ∧ -1 ≤ v.1 ∧ v.1 ≤ 1 ∧ -1 ≤ v.2 ∧ v.2 ≤ 1)) ∧
    (∀ d : Int, 0 ≤ d → d < 8 →
      dx ((d + 4) % 8) = -dx d ∧ dy ((d + 4) % 8) = -dy d) ∧
    ∀ (a : Ant) (w : World) (d : Int), 0 ≤ d → d < 8 →
      (is_valid_position w (a.pos.x + dx d) (a.pos.y + dy d) &&
        is_walkable w (a.pos.x + dx d) (a.pos.y + dy d)) = true →
      reverse_direction (move_ant a w d) = (d + 4) % 8 := by
  refine ⟨by decide, ?_, opposite_offset, ?_⟩
  · rintro ⟨p, q⟩
    have htable : ((List.range 8).map fun (d : Nat) => (dx d, dy d)) =
        [(0, -1), (1, -1), (1, 0), (1, 1), (0, 1), (-1, 1), (-1, 0), (-1, -1)] := by decide
    rw [htable]
    simp only [List.mem_cons, Prod.mk.injEq, List.mem_singleton, List.not_mem_nil, or_false,
      ne_eq, not_and]
    constructor
    · rintro (⟨rfl, rfl⟩ | ⟨rfl, rfl⟩ | ⟨rfl, rfl⟩ | ⟨rfl, rfl⟩ | ⟨rfl, rfl⟩ | ⟨rfl, rfl⟩ |
        ⟨rfl, rfl⟩ | ⟨rfl, rfl⟩) <;> decide
    · rintro ⟨hne, h1, h2, h3, h4⟩
      have hp : p = -1 ∨ p = 0 ∨ p = 1 := by omega
      have hq : q = -1 ∨ q = 0 ∨ q = 1 := by omega
      rcases hp with rfl | rfl | rfl <;> rcases hq with rfl | rfl | rfl <;> simp at hne ⊢
  · intro a w d h0 h8 hwalk
    rw [move_ant_committed a w d h0 h8 hwalk]
    have hopp := opposite_offset d h0 h8
    apply reverse_direction_eq
    · omega
    · show a.pos.x = a.pos.x + dx d + dx ((d + 4) % 8)
      rw [hopp.1]
      ring
    · show a.pos.y = a.pos.y + dy d + dy ((d + 4) % 8)
      rw [hopp.2]
      ring

/-- C38 witness: `retreat_ant` on `(1, 1)` of `retreat_world` moves in direction 2 (east); the
reverse direction found afterwards is 6 (west). -/
theorem direction_table_reversal_witness :
    (is_valid_position retreat_world (retreat_ant.pos.x + dx 2) (retreat_ant.pos.y + dy 2) &&
        is_walkable retreat_world (retreat_ant.pos.x + dx 2) (retreat_ant.pos.y + dy 2)) = true ∧
      reverse_direction (move_ant retreat_ant retreat_world 2) = 6 :=
  ⟨by decide,
    direction_table_reversal.2.2.2 retreat_ant retreat_world 2 (by decide) (by decide)
      (by decide)⟩

/-- C32: deposit by state, with frame. `PHEROMONE_DEPOSIT_AMOUNT` is 100 and `PHEROMONE_MAX`
is 1000. For an ant standing on an in-bounds cell, `deposit_pheromone` sets that cell's
home-trail channel to `min (old + PHEROMONE_DEPOSIT_AMOUNT) PHEROMONE_MAX` and leaves its
food-trail channel unchanged when the ant has the Searching flag; otherwise, when the ant has
the Returning flag, it sets the food-trail channel to
`min (old + PHEROMONE_DEPOSIT_AMOUNT) PHEROMONE_MAX` and leaves the home-trail channel
unchanged; with neither flag the world is unchanged. Every other cell, the terrain,
`food_amount` and `colony_id` of all cells, the dimensions and the colonies with their ants
are unchanged. The function returns only the world: it does not write the ant. -/
theorem deposit_pheromone_frame (w : World) (ant : Ant)
    (hv : is_valid_position w ant.pos.x ant.pos.y = true) :
    PHEROMONE_DEPOSIT_AMOUNT = 100 ∧ PHEROMONE_MAX = 1000 ∧
    (ant.state &&& ANT_STATE_SEARCHING ≠ 0 →
      ((deposit_pheromone w ant).grid ant.pos.y ant.pos.x).pheromone_home =
        min ((w.grid ant.pos.y ant.pos.x).pheromone_home + PHEROMONE_DEPOSIT_AMOUNT)
          PHEROMONE_MAX ∧
      ((deposit_pheromone w ant).grid ant.pos.y ant.pos.x).pheromone_food =
        (w.grid ant.pos.y ant.pos.x).pheromone_food) ∧
    (ant.state &&& ANT_STATE_SEARCHING = 0 → ant.state &&& ANT_STATE_RETURNING ≠ 0 →
      ((deposit_pheromone w ant).grid ant.pos.y ant.pos.x).pheromone_food =
        min ((w.grid ant.pos.y ant.pos.x).pheromone_food + PHEROMONE_DEPOSIT_AMOUNT)
          PHEROMONE_MAX ∧
      ((deposit_pheromone w ant).grid ant.pos.y ant.pos.x).pheromone_home =
        (w.grid ant.pos.y ant.pos.x).pheromone_home) ∧
    (ant.state &&& ANT_STATE_SEARCHING = 0 → ant.state &&& ANT_STATE_RETURNING = 0 →
      deposit_pheromone w ant = w) ∧
    (∀ x y : Int, ¬ (x = ant.pos.x ∧ y = ant.pos.y) →
      (deposit_pheromone w ant).grid y x = w.grid y x) ∧
    (∀ x y : Int,
      ((deposit_pheromone w ant).grid y x).terrain = (w.grid y x).terrain ∧
      ((deposit_pheromone w ant).grid y x).food_amount = (w.grid y x).food_amount ∧
      ((deposit_pheromone w ant).grid y x).colony_id = (w.grid y x).colony_id) ∧
    (deposit_pheromone w ant).width = w.width ∧ (deposit_pheromone w ant).height = w.height ∧
    (deposit_pheromone w ant).colonies = w.colonies := by
  have hop := deposit_pheromone_only_pheromones w ant
  refine ⟨rfl, rfl, ?_, ?_, ?_, ?_, hop.2.2.2, hop.1, hop.2.1, hop.2.2.1⟩
  · intro hs
    rw [deposit_pheromone_searching w ant hv hs, set_cell_grid_self]
    exact ⟨rfl, rfl⟩
  · intro hs hr
    rw [deposit_pheromone_returning w ant hv hs hr, set_cell_grid_self]
    exact ⟨rfl, rfl⟩
  · intro hs hr
    have hs2 : ¬ (ant.state &&& ANT_STATE_SEARCHING ≠ 0) := not_not.mpr hs
    have hr2 : ¬ (ant.state &&& ANT_STATE_RETURNING ≠ 0) := not_not.mpr hr
    simp only [deposit_pheromone, get_cell_valid w _ _ hv, if_neg hs2, if_neg hr2]
  · intro x y hne0
    have hne : (x, y) ≠ (ant.pos.x, ant.pos.y) := by
      intro h
      exact hne0 ⟨(Prod.mk.inj h).1, (Prod.mk.inj h).2⟩
    by_cases hs : ant.state &&& ANT_STATE_SEARCHING ≠ 0
    · rw [deposit_pheromone_searching w ant hv hs, set_cell_grid_other _ _ _ _ _ _ hne]
    · by_cases hr : ant.state &&& ANT_STATE_RETURNING ≠ 0
      · rw [deposit_pheromone_returning w ant hv (not_not.mp hs) hr,
          set_cell_grid_other _ _ _ _ _ _ hne]
      · simp only [deposit_pheromone, get_cell_valid w _ _ hv, if_neg hs, if_neg hr]

/-- C32 witness: `retreat_ant` is searching on the in-bounds cell `(1, 1)` of `retreat_world`;
its deposit raises the home channel there from 0 to 100. -/
theorem deposit_pheromone_frame_witness :
    is_valid_position retreat_world retreat_ant.pos.x retreat_ant.pos.y = true ∧
      retreat_ant.state &&& ANT_STATE_SEARCHING ≠ 0 ∧
      ((deposit_pheromone retreat_world retreat_ant).grid retreat_ant.pos.y
          retreat_ant.pos.x).pheromone_home =
        min ((retreat_world.grid retreat_ant.pos.y retreat_ant.pos.x).pheromone_home +
          PHEROMONE_DEPOSIT_AMOUNT) PHEROMONE_MAX ∧
      min ((retreat_world.grid retreat_ant.pos.y retreat_ant.pos.x).pheromone_home +
          PHEROMONE_DEPOSIT_AMOUNT) PHEROMONE_MAX = 100 := by
  have hv : is_valid_position retreat_world retreat_ant.pos.x retreat_ant.pos.y = true := by
    decide
  have hs : retreat_ant.state &&& ANT_STATE_SEARCHING ≠ 0 := by decide
  refine ⟨hv, hs, ((deposit_pheromone_frame retreat_world retreat_ant hv).2.2.1 hs).1, ?_⟩
  norm_num [retreat_world, retreat_ant, create_ant, PHEROMONE_DEPOSIT_AMOUNT, PHEROMONE_MAX]

/-- C31: bounded random walk. Every direction drawn by `random_int 0 7` lies in `0..7`.
`move_randomly` moves the ant with `move_ant` in the first of the first 10 drawn directions
whose target cell is in bounds and walkable: `pos` becomes that target, `steps_taken` grows
by 1, and exactly the draws up to that one are consumed. If none of the first 10 draws has
an in-bounds walkable target, the ant is returned completely unchanged after exactly 10
draws. So at most 10 draws are consumed. -/
theorem move_randomly_spec (ant : Ant) (w : World) (r : Rng) :
    (∀ k : Nat, 0 ≤ drawn_direction r k ∧ drawn_direction r k ≤ 7) ∧
    (∀ k : Nat, k < 10 →
      (∀ i : Nat, i < k → ¬ target_walkable ant w (drawn_direction r i)) →
      target_walkable ant w (drawn_direction r k) →
      move_randomly ant w r =
        (move_ant ant w (drawn_direction r k), draws_consumed r (k + 1)) ∧
      (move_randomly ant w r).1.pos =
        ⟨ant.pos.x + dx (drawn_direction r k), ant.pos.y + dy (drawn_direction r k)⟩ ∧
      (move_randomly ant w r).1.steps_taken = ant.steps_taken + 1 ∧
      (move_randomly ant w r).1.last_pos = ant.pos) ∧
    ((∀ i : Nat, i < 10 → ¬ target_walkable ant w (drawn_direction r i)) →
      move_randomly ant w r = (ant, draws_consumed r 10)) := by
  obtain ⟨h1, h2⟩ := move_randomly_loop_spec ant w 10 r
  refine ⟨drawn_direction_range r, ?_, h2⟩
  intro k hk hbefore hkw
  have hm : move_randomly ant w r =
      (move_ant ant w (drawn_direction r k), draws_consumed r (k + 1)) := h1 k hk hbefore hkw
  have hrange := drawn_direction_range r k
  rw [hm, move_ant_committed ant w _ hrange.1 (by omega) hkw]
  exact ⟨rfl, rfl, rfl, rfl⟩

/-- C31 witness: for a fresh ant on the corner `(0, 0)` of `fresh_world` the stream
`westward_draws` offers only the directions 0 (north) and 6 (west), which leave the grid, so
after 10 draws the ant is as it was; with the constant stream 2 the first draw is direction 2
(east) and the ant moves to `(1, 0)`. -/
theorem move_randomly_spec_witness :
    (∀ i : Nat, i < 10 →
        ¬ target_walkable (create_ant 1 0 ⟨0, 0⟩) fresh_world (drawn_direction westward_draws i)) ∧
      move_randomly (create_ant 1 0 ⟨0, 0⟩) fresh_world westward_draws =
        (create_ant 1 0 ⟨0, 0⟩, draws_consumed westward_draws 10) ∧
      target_walkable (create_ant 1 0 ⟨0, 0⟩) fresh_world (drawn_direction (fun _ => 2) 0) ∧
      (move_randomly (create_ant 1 0 ⟨0, 0⟩) fresh_world (fun _ => 2)).1.pos = ⟨1, 0⟩ := by
  have hnone : ∀ i : Nat, i < 10 →
      ¬ target_walkable (create_ant 1 0 ⟨0, 0⟩) fresh_world
        (drawn_direction westward_draws i) := by
    intro i hi
    unfold target_walkable
    interval_cases i <;> decide
  have hgo : target_walkable (create_ant 1 0 ⟨0, 0⟩) fresh_world
      (drawn_direction (fun _ => 2) 0) := by
    unfold target_walkable
    decide
  exact ⟨hnone, (move_randomly_spec _ fresh_world westward_draws).2.2 hnone, hgo,
    ((move_randomly_spec (create_ant 1 0 ⟨0, 0⟩) fresh_world (fun _ => 2)).2.1 0 (by decide)
      (fun i hi => absurd hi (Nat.not_lt_zero i)) hgo).2.1⟩

/-- C34: colony count bookkeeping. The predicate `counts_match` ("for every colony,
`total_ants` equals the number of ants in its list") holds for the world `create_world`
returns and is preserved by `spawn_ant` and by `update_all_ants`; and when it holds before
`update_all_ants` followed by `update_colony_statistics`, then afterwards every colony has
`active_ants = total_ants =` the number of ants in its list. -/
theorem colony_count_bookkeeping :
    (∀ (width height colony_count : Int) (w : World),
      create_world width height colony_count = some w → counts_match w) ∧
    ∀ w : World, counts_match w →
      (∀ colony_id : Int, counts_match (spawn_ant w colony_id)) ∧
      (∀ r : Rng, counts_match (update_all_ants w r).1) ∧
      ∀ r : Rng, ∀ c ∈ (update_colony_statistics (update_all_ants w r).1).colonies,
        c.active_ants = c.total_ants ∧ c.total_ants = (c.ants.length : Int) := by
  constructor
  · intro width height colony_count w hw
    have hsome : ¬ create_world width height colony_count = none := by
      rw [hw]
      exact fun h => Option.noConfusion h
    rw [create_world_none_iff] at hsome
    have h1 : ¬ (width ≤ 0 ∨ height ≤ 0 ∨ colony_count ≤ 0) := by tauto
    have h2 : ¬ (width > MAX_WORLD_SIZE ∨ height > MAX_WORLD_SIZE) := by tauto
    rw [create_world_eq width height colony_count h1 h2] at hw
    have hw2 := (Option.some.inj hw).symm
    subst hw2
    intro c hc
    simp only [List.mem_map, List.mem_range] at hc
    obtain ⟨i, _, rfl⟩ := hc
    rfl
  · intro w h
    refine ⟨fun colony_id => spawn_ant_counts w colony_id h, ?_, ?_⟩
    · intro r c hc
      obtain ⟨j, hj, hget⟩ := List.getElem_of_mem hc
      exact ((update_all_ants_counts w r h).2 j c
        (by rw [List.getElem?_eq_getElem hj, hget])).1
    · intro r c hc
      obtain ⟨j, hj, hget⟩ := List.getElem_of_mem hc
      have hj2 : (update_colony_statistics (update_all_ants w r).1).colonies[j]? = some c := by
        rw [List.getElem?_eq_getElem hj, hget]
      have hjlt : j < (update_all_ants w r).1.colonies.length := by
        simpa [update_colony_statistics] using hj
      have hget0 : (update_all_ants w r).1.colonies[j]? =
          some ((update_all_ants w r).1.colonies[j]) := List.getElem?_eq_getElem hjlt
      rw [update_colony_statistics_getElem _ j _ hget0] at hj2
      have hc2 := (Option.some.inj hj2).symm
      subst hc2
      obtain ⟨htotal, halive⟩ := (update_all_ants_counts w r h).2 j _ hget0
      refine ⟨?_, htotal⟩
      show living_count _ = _
      rw [htotal]
      have hsum := living_dead_count ((update_all_ants w r).1.colonies[j]).ants
      have hdead : dead_count ((update_all_ants w r).1.colonies[j]).ants = 0 := by
        simp only [dead_count]
        rw [List.filter_eq_nil_iff.mpr]
        · rfl
        · intro a ha
          simp only [decide_eq_true_eq, ne_eq, not_not]
          exact halive a ha
      omega

/-- C34 witness: `barren_world` has two colonies with one ant each and `total_ants = 1`;
spawning into colony 0 and updating all ants keep the counters equal to the list lengths. -/
theorem colony_count_bookkeeping_witness :
    counts_match barren_world ∧ counts_match (spawn_ant barren_world 0) ∧
      counts_match (update_all_ants barren_world (fun _ => 0)).1 ∧
      create_world 3 3 1 = some fresh_world ∧ counts_match fresh_world := by
  have hb : counts_match barren_world := by
    intro c hc
    simp only [barren_world, List.mem_cons, List.mem_singleton, List.not_mem_nil, or_false] at hc
    rcases hc with rfl | rfl <;> rfl
  exact ⟨hb, (colony_count_bookkeeping.2 barren_world hb).1 0,
    (colony_count_bookkeeping.2 barren_world hb).2.1 (fun _ => 0), create_fresh_world,
    colony_count_bookkeeping.1 3 3 1 fresh_world create_fresh_world⟩

/-- C33: ant positions stay on walkable in-bounds cells. An update of one ant changes no
cell from walkable to not walkable or back (a terrain changes at most from Food to Empty),
and an ant that stands on an in-bounds walkable cell stands on an in-bounds walkable cell of
the new world after `update_ant`. Hence, in a world in which every ant of every colony list
stands on an in-bounds walkable cell, the same holds after `update_ant` on any ant for that
ant and for the listed ants, and after `update_all_ants`. -/
theorem ants_stay_on_walkable (w : World) (r : Rng) :
    (∀ (a : Ant) (x y : Int),
      is_valid_position (update_ant w a r).1 x y = is_valid_position w x y ∧
      is_walkable (update_ant w a r).1 x y = is_walkable w x y) ∧
    (∀ a : Ant,
      (is_valid_position w a.pos.x a.pos.y && is_walkable w a.pos.x a.pos.y) = true →
      (is_valid_position (update_ant w a r).1 (update_ant w a r).2.1.pos.x
          (update_ant w a r).2.1.pos.y &&
        is_walkable (update_ant w a r).1 (update_ant w a r).2.1.pos.x
          (update_ant w a r).2.1.pos.y) = true) ∧
    (ants_on_walkable w →
      (∀ a : Ant, ants_on_walkable (update_ant w a r).1) ∧
      ants_on_walkable (update_all_ants w r).1) := by
  have hframe : ∀ (v : World) (a : Ant) (q : Rng) (x y : Int),
      is_walkable (update_ant v a q).1 x y = is_walkable v x y :=
    fun v a q x y => tick_frame_walkable (update_ant_frame v a q) x y
  refine ⟨fun a x y => ⟨tick_frame_valid (update_ant_frame w a r) x y, hframe w a r x y⟩, ?_, ?_⟩
  · intro a ha
    rw [walkable_iff] at ha ⊢
    rw [hframe]
    exact update_ant_walkable w a r ha
  · intro hall
    constructor
    · intro a c hc b hb
      have hfr := update_ant_frame w a r
      have hmem : c.ants ∈ (update_ant w a r).1.colonies.map Colony.ants :=
        List.mem_map_of_mem Colony.ants hc
      rw [hfr.2.2.1] at hmem
      obtain ⟨c0, hc0, hc0a⟩ := List.mem_map.mp hmem
      have := hall c0 hc0 b (hc0a ▸ hb)
      rw [walkable_iff] at this ⊢
      rw [hframe]
      exact this
    · have key := update_all_ants_preserved_in
        (fun v => ∀ x y : Int, is_walkable v x y = is_walkable w x y)
        (fun a => is_walkable w a.pos.x a.pos.y = true)
        (fun v a q hq x y => (hframe v a q x y).trans (hq x y))
        (fun _ _ hq => hq)
        (fun v a q hq _ ha => by
          have h1 : is_walkable v a.pos.x a.pos.y = true := by rw [hq]; exact ha
          have h2 := update_ant_walkable v a q h1
          rw [hq] at h2
          exact h2)
        w r (fun _ _ => rfl)
        (fun c hc a ha => by
          have := hall c hc a ha
          rw [walkable_iff] at this
          exact this)
      intro c hc a ha
      rw [walkable_iff, key.1]
      exact key.2 c hc a ha

/-- C33 witness: the two ants of `barren_world` stand on the empty cells `(0, 0)` and
`(2, 2)`; after `update_all_ants` every listed ant still stands on a walkable cell. -/
theorem ants_stay_on_walkable_witness :
    ants_on_walkable barren_world ∧
      ants_on_walkable (update_all_ants barren_world (fun _ => 0)).1 := by
  have hb : ants_on_walkable barren_world := by
    intro c hc a ha
    simp only [barren_world, List.mem_cons, List.mem_singleton, List.not_mem_nil, or_false] at hc
    rcases hc with rfl | rfl
    · simp only [List.mem_singleton] at ha
      subst ha
      decide
    · simp only [List.mem_singleton] at ha
      subst ha
      decide
  exact ⟨hb, ((ants_stay_on_walkable barren_world (fun _ => 0)).2.2 hb).2⟩

/-- C35: ids repeat after reaping. The specification says that the ids of the ants in a
colony's list are pairwise distinct in every state reachable from a freshly created world by
calls of `spawn_ant` and `update_all_ants`. Starting from `create_world 3 3 1`: spawn an ant
(id 1), call `update_all_ants` 500 times, spawn a second ant (id 2), call `update_all_ants`
500 more times, so that ant 1 has used up its energy of 1000 and is reaped while ant 2 has
energy 500 left and `total_ants` is back to 1. The next `spawn_ant` gives the new ant the id
`total_ants + 1 = 2`: the colony's list then holds two ants with id 2. -/
theorem ant_ids_repeat :
    create_world 3 3 1 = some fresh_world ∧
    (tick_ants 500 (spawn_ant (tick_ants 500 (spawn_ant fresh_world 0)) 0)).colonies.map
      (fun c => (c.ants.map ant_key, c.total_ants)) = [([(2, 500)], 1)] ∧
    (spawn_ant (tick_ants 500 (spawn_ant (tick_ants 500 (spawn_ant fresh_world 0)) 0))
      0).colonies.map (fun c => c.ants.map Ant.id) = [[2, 2]] ∧
    ¬ ([2, 2] : List Int).Nodup := by
  obtain ⟨d1, hl1, hk1⟩ := spawn_ant_lone fresh_world (initial_colony 0) fresh_world_lone
    (by decide)
  have hk1b : d1.ants.map ant_key = [(1, 1000)] := by
    rw [hk1]
    simp [initial_colony, ANT_INITIAL_ENERGY]
  obtain ⟨d2, hl2, hk2⟩ := tick_ants_lone _ d1 hl1 500
  have hk2b : d2.ants.map ant_key = [(1, 500)] := by
    rw [hk2, hk1b, aged_iterate _ (by simp) 500]
    norm_num
  have hcap2 : d2.total_ants < MAX_ANTS_PER_COLONY := by
    rw [hl2.2.2.2, length_of_keys hk2b]
    decide
  obtain ⟨d3, hl3, hk3⟩ := spawn_ant_lone _ d2 hl2 hcap2
  have hk3b : d3.ants.map ant_key = [(2, 1000), (1, 500)] := by
    rw [hk3, hk2b, length_of_keys hk2b]
    norm_num [ANT_INITIAL_ENERGY]
  obtain ⟨d4, hl4, hk4⟩ := tick_ants_lone _ d3 hl3 500
  have hk4b : d4.ants.map ant_key = [(2, 500)] := by
    rw [hk4, hk3b, aged_iterate _ (by simp) 500]
    norm_num
  have ht4 : d4.total_ants = 1 := by
    rw [hl4.2.2.2, length_of_keys hk4b]
    rfl
  have hcap4 : d4.total_ants < MAX_ANTS_PER_COLONY := by
    rw [ht4]
    decide
  obtain ⟨d5, hl5, hk5⟩ := spawn_ant_lone _ d4 hl4 hcap4
  have hk5b : d5.ants.map ant_key = [(2, 1000), (2, 500)] := by
    rw [hk5, hk4b, length_of_keys hk4b]
    norm_num [ANT_INITIAL_ENERGY]
  refine ⟨create_fresh_world, ?_, ?_, by decide⟩
  · rw [hl4.1]
    simp only [List.map_cons, List.map_nil, hk4b, ht4]
  · rw [hl5.1]
    have hids : d5.ants.map Ant.id = (d5.ants.map ant_key).map Prod.fst := by
      rw [List.map_map]
      rfl
    simp only [List.map_cons, List.map_nil, hids, hk5b]

/-- C36: the path stepper stays inside its buffer. `find_path_astar` allocates
`manhattan_distance start goal + 10` positions. For every world, start and goal its loop is
left after at most that many iterations (the function returns a result), every index it
stores to is at least 0 and smaller than that capacity, and the returned path length is at
most `manhattan_distance start goal + 10`. (Coordinates are unbounded integers here: the
overflow of `abs` and of the sum is not modelled.) -/
theorem find_path_astar_bounded (w : World) (start goal : Position) :
    ∃ res : List (Int × Position) × Int, find_path_astar w start goal = some res ∧
      (∀ q ∈ res.1, 0 ≤ q.1 ∧ q.1 < manhattan_distance start goal + 10) ∧
      0 ≤ res.2 ∧ res.2 ≤ manhattan_distance start goal + 10 := by
  have hcap : chebyshev_distance start goal < manhattan_distance start goal + 10 := by
    simp only [chebyshev_distance, manhattan_distance]
    omega
  have hpos : 0 ≤ manhattan_distance start goal + 10 := by
    simp only [manhattan_distance]
    omega
  obtain ⟨s, hs, hw, h0, hle, hgoal⟩ := path_loop_exit w start goal _ hcap
    (manhattan_distance start goal + 10).toNat ⟨[], 0, start⟩
    ⟨fun q hq => absurd hq (List.not_mem_nil q), le_refl 0, hpos, Or.inl (add_zero _)⟩
    (by
      show manhattan_distance start goal + 10 ≤
        0 + (((manhattan_distance start goal + 10).toNat : Nat) : Int)
      rw [Int.toNat_of_nonneg hpos]
      omega)
  unfold find_path_astar
  simp only [hs]
  split
  · rename_i hg
    refine ⟨_, rfl, ?_, ?_, ?_⟩
    · intro q hq
      rcases List.mem_append.mp hq with hq | hq
      · exact hw q hq
      · rw [List.mem_singleton] at hq
        subst hq
        exact ⟨h0, hgoal hg⟩
    · show 0 ≤ s.path_length + 1
      omega
    · show s.path_length + 1 ≤ _
      have := hgoal hg
      omega
  · exact ⟨_, rfl, hw, h0, hle⟩

/-- C36 witness: in the empty 3 x 3 world the stepper goes from `(0, 0)` to `(2, 2)` in two
diagonal steps and stores 3 positions at the indices 0, 1, 2 of a buffer of 14. -/
theorem find_path_astar_bounded_witness :
    find_path_astar fresh_world ⟨0, 0⟩ ⟨2, 2⟩ =
        some ([(0, ⟨0, 0⟩), (1, ⟨1, 1⟩), (2, ⟨2, 2⟩)], 3) ∧
      manhattan_distance ⟨0, 0⟩ ⟨2, 2⟩ + 10 = 14 ∧
      ∃ res : List (Int × Position) × Int,
        find_path_astar fresh_world ⟨0, 0⟩ ⟨2, 2⟩ = some res ∧
          (∀ q ∈ res.1, 0 ≤ q.1 ∧ q.1 < manhattan_distance ⟨0, 0⟩ ⟨2, 2⟩ + 10) ∧
          0 ≤ res.2 ∧ res.2 ≤ manhattan_distance ⟨0, 0⟩ ⟨2, 2⟩ + 10 :=
  ⟨by decide, by decide, find_path_astar_bounded fresh_world ⟨0, 0⟩ ⟨2, 2⟩⟩

end AntColony
